import Mathlib

/-!
# sprgen: a shallow embedding of `sprgen.c`

The sprite compiler reads a directive script, decodes bitmaps into a
palette-indexed raster, copies frame rectangles into a growable arena and
serialises the result.  The definitions below follow `src/sprgen.c` function by
function.  Conventions:

* a C `int` is an `Int` kept in range by `wrap32` wherever the source does
  arithmetic on it;
* bytes are `Nat` values below 256, C strings are lists of bytes;
* `error(...)` (which exits) is the `Except` error carrying the message kind;
  an access outside an allocated object is the error `Err.out_of_bounds`;
* the C `float` type and its operations are a parameter (`CFloat`);
* the file system, the allocator's choice of addresses and the content of
  freshly allocated memory are a parameter (`Env`).
-/

namespace Sprgen

/-! ## Machine integers and bytes -/

/-- Value of a C `int` expression after 32-bit two's-complement wrap-around. -/
def wrap32 (n : Int) : Int := (n + 2147483648) % 4294967296 - 2147483648

/-- Value of a C `short` after 16-bit two's-complement wrap-around. -/
def wrap16 (n : Int) : Int := (n + 32768) % 65536 - 32768

/-- Value of a `size_t` expression (64-bit, unsigned wrap-around). -/
def wrap_size (n : Int) : Int := n % 18446744073709551616

/-- The C expression `n >> 1` on an `int` (arithmetic shift). -/
def shr1 (n : Int) : Int := n / 2

/-- The C expression `a / b` on `int`s (truncation toward zero). -/
def cdiv (a b : Int) : Int := Int.tdiv a b

/-- A `char` read from the script is signed: bytes from 128 up are negative. -/
def char_of_byte (b : Nat) : Int := if b < 128 then (b : Int) else (b : Int) - 256

/-- The bytes of a C string: everything before the first NUL. -/
def cstr (s : List Nat) : List Nat := s.takeWhile (fun c => c != 0)

/-- ASCII bytes of a string literal. -/
def bytes (s : String) : List Nat := s.data.map Char.toNat

/-- Little-endian `int` stored in four bytes, as `*(int *)p` reads it. -/
def le_int32 (b0 b1 b2 b3 : Nat) : Int :=
  wrap32 ((b0 : Int) + 256 * (b1 : Int) + 65536 * (b2 : Int) + 16777216 * (b3 : Int))

/-- Little-endian `short` stored in two bytes, as `*(short *)p` reads it. -/
def le_int16 (b0 b1 : Nat) : Int := wrap16 ((b0 : Int) + 256 * (b1 : Int))

/-- The four bytes an `int` occupies in memory (little-endian). -/
def int32_bytes (v : Int) : List Nat :=
  let u := (v % 4294967296).toNat
  [u % 256, u / 256 % 256, u / 65536 % 256, u / 16777216 % 256]

/-- Read an `int` at index `i` of a byte list (missing bytes read as 0). -/
def int32_at (l : List Nat) (i : Nat) : Int :=
  le_int32 (l.getD i 0) (l.getD (i + 1) 0) (l.getD (i + 2) 0) (l.getD (i + 3) 0)

/-- Read a `short` at index `i` of a byte list. -/
def int16_at (l : List Nat) (i : Nat) : Int := le_int16 (l.getD i 0) (l.getD (i + 1) 0)

/-! ## Errors -/

/-- The ways a run stops: one constructor per `error(...)` call of the source,
plus the memory faults the source does not guard against. -/
inductive Err
  | eof_in_quoted
  | could_not_open
  | could_not_create
  | file_read_failure
  | not_bmp
  | invalid_dimensions
  | alloc_failed
  | bad_frame_coordinates
  | non_positive_interval
  | no_frames
  | no_output_file
  | multiple_spritename
  | bad_type
  | bad_texture
  | group_expected
  | empty_group
  | unknown_token
  | out_of_bounds
  | out_of_fuel
  deriving DecidableEq, Repr

/-! ## The C `float` type -/

/-- The `float` type and the operations `sprgen.c` performs on it: the
constants `0.0` and `0.1f`, addition, the comparison `<=`, the conversion
`atof` of a C string and the square root of an `int`. -/
structure CFloat where
  F : Type
  zero : F
  tenth : F
  add : F → F → F
  atof : List Nat → F
  le : F → F → Bool
  sqrt : Int → F

/-! ## Tokenizer (`get_token`) -/

/-- The `skip_whitespace:` loop of `get_token`.  The argument is the text from
`scriptptr` to `scriptend`; `incomment` is true while the inner `while` of the
`//` branch is running.  Result: `(true, p)` when `p` starts with the first
character of a token, `(false, p)` when `get_token` returns false with the
cursor at `p`. -/
def skip_whitespace (crossline : Bool) : Bool → List Nat → Bool × List Nat
  | _, [] => (false, [])
  | true, c :: rest =>
    if c = 10 then
      if !crossline then (false, c :: rest) else skip_whitespace crossline false rest
    else skip_whitespace crossline true rest
  | false, c :: rest =>
    if c = 10 then
      if !crossline then (false, c :: rest) else skip_whitespace crossline false rest
    else if char_of_byte c ≤ 32 then skip_whitespace crossline false rest
    else if c = 47 ∧ rest.head? = some 47 then
      if !crossline then (false, c :: rest) else skip_whitespace crossline true rest
    else (true, c :: rest)

/-- The quoted-token loop: the text after the opening quote up to the closing
quote, and the cursor after it; `none` when the text ends first. -/
def read_quoted : List Nat → Option (List Nat × List Nat)
  | [] => none
  | c :: rest =>
    if c = 34 then some ([], rest)
    else match read_quoted rest with
      | none => none
      | some (t, p) => some (c :: t, p)

/-- The unquoted-token `do ... while` loop followed by the final
`if (scriptptr < scriptend) scriptptr--`. -/
def read_unquoted : List Nat → List Nat × List Nat
  | [] => ([], [])
  | c :: rest =>
    if char_of_byte c ≤ 32 then
      match rest with
      | [] => ([], [])
      | _ :: _ => ([], c :: rest)
    else
      match rest with
      | [] => ([c], [])
      | _ :: _ => let r := read_unquoted rest; (c :: r.1, r.2)

/-- Model of `get_token(crossline)`: result flag, new cursor, new content of the
token buffer (unchanged when the call returns false). -/
def get_token (crossline : Bool) (scriptptr token : List Nat) :
    Except Err (Bool × List Nat × List Nat) :=
  match skip_whitespace crossline false scriptptr with
  | (false, p) => .ok (false, p, token)
  | (true, []) => .ok (false, [], token)
  | (true, c :: rest) =>
    if c = 34 then
      match read_quoted rest with
      | none => .error Err.eof_in_quoted
      | some (t, p) => .ok (true, p, t)
    else
      let r := read_unquoted (c :: rest)
      .ok (true, r.2, r.1)

/-! ## `atoi` -/

/-- Decimal digits at the head of a string, accumulated onto `acc`. -/
def atoi_digits : List Nat → Int → Int
  | [], acc => acc
  | c :: rest, acc =>
    if 48 ≤ c ∧ c ≤ 57 then atoi_digits rest (acc * 10 + ((c : Int) - 48)) else acc

/-- Leading white space skipped by `atoi`. -/
def atoi_skip : List Nat → List Nat
  | [] => []
  | c :: rest => if c = 32 ∨ (9 ≤ c ∧ c ≤ 13) then atoi_skip rest else c :: rest

/-- The C library `atoi` on a C string: optional white space, optional sign,
decimal digits; anything after the digits is ignored, no digits give 0.  The
`long` result of the underlying `strtol` saturates and is then truncated to
`int`. -/
def atoi (s : List Nat) : Int :=
  let v : Int := match atoi_skip (cstr s) with
    | 45 :: rest => - atoi_digits rest 0
    | 43 :: rest => atoi_digits rest 0
    | rest => atoi_digits rest 0
  wrap32 (max (-9223372036854775808) (min 9223372036854775807 v))

/-! ## Data model -/

/-- Frame type tags of `spriteframetype_t`. -/
def SPR_SINGLE : Int := 0

/-- Frame type tag of a group. -/
def SPR_GROUP : Int := 1

/-- Sync type `ST_SYNC`. -/
def ST_SYNC : Int := 0

/-- Sync type `ST_RAND`. -/
def ST_RAND : Int := 1

/-- The constant `PALETTE_SIZE`. -/
def PALETTE_SIZE : Int := 256

/-- The constant `INITIAL_MAX_FRAMES`. -/
def INITIAL_MAX_FRAMES : Int := 1000

/-- The constant `INITIAL_BUFFER_SIZE`. -/
def INITIAL_BUFFER_SIZE : Int := 1048576

/-- The constant `IDSPRITEHEADER`. -/
def IDSPRITEHEADER : Int := 80 * 16777216 + 83 * 65536 + 68 * 256 + 73

/-- The constant `SPRITE_VERSION`. -/
def SPRITE_VERSION : Int := 2

/-- The file header `dsprite_t`. -/
structure dsprite_t (fl : CFloat) where
  ident : Int
  version : Int
  type : Int
  texFormat : Int
  boundingradius : fl.F
  width : Int
  height : Int
  numframes : Int
  beamlength : fl.F
  synctype : Int

/-- The frame header `dspriteframe_t`. -/
structure dspriteframe_t where
  origin0 : Int
  origin1 : Int
  width : Int
  height : Int
  deriving DecidableEq, Repr

/-- A frame descriptor `spritepackage_t`; `pdata` is an address. -/
structure spritepackage_t (fl : CFloat) where
  type : Int
  pdata : Int
  interval : fl.F
  numgroupframes : Int

/-- One `safe_write` call of `finish_sprite`: what is written to the output
file, field by field. -/
inductive Chunk (fl : CFloat)
  | header (h : dsprite_t fl)
  | palcount (cnt : Int)
  | palette (data : List Nat)
  | frametype (t : Int)
  | frame (f : dspriteframe_t)
  | pixels (data : List Nat)
  | group (numframes : Int)
  | interval (t : fl.F)

/-- An output file: its name, what `finish_sprite` wrote to it, and (history
variable) the frame headers that `grab_frame` emitted for this sprite. -/
structure OutFile (fl : CFloat) where
  name : List Nat
  chunks : List (Chunk fl)
  emitted : List dspriteframe_t

/-- What the program does not control: the files it can read, whether an
output file can be created, the addresses the allocator hands out for the
arena and the content of freshly allocated memory. -/
structure Env (fl : CFloat) where
  fs : List Nat → Option (List Nat)
  creatable : List Nat → Bool
  lump_base : Int
  realloc : Int → Int → Option Int
  junk : Int → Nat
  junk_frame : Nat → spritepackage_t fl

/-- The global variables of `sprgen.c`.  `lump` is the content of the arena
indexed by offset from `lumpbuffer`; `files` collects the output files written
so far; `emitted` is a history variable listing the frame headers emitted by
`grab_frame` since the last `$spritename`. -/
structure State (fl : CFloat) where
  sprite : dsprite_t fl
  byteimage : List Nat
  lbmpalette : List Nat
  byteimagewidth : Int
  byteimageheight : Int
  lumpbuffer : Int
  plump : Int
  lump : Int → Nat
  spritedir : List Nat
  spriteoutname : Option (List Nat)
  cli_output_name : Option (List Nat)
  cli_output_consumed : Bool
  framesmaxs0 : Int
  framesmaxs1 : Int
  framecount : Int
  frames : List (spritepackage_t fl)
  max_frames : Int
  buffer_size : Int
  do16bit : Bool
  token : List Nat
  scriptptr : List Nat
  original_palette : List Nat
  palette_established : Bool
  files : List (OutFile fl)
  emitted : List dspriteframe_t

/-! ## Files and arrays -/

/-- An input stream: the file content and the read position. -/
structure FILE where
  data : List Nat
  pos : Nat

/-- The call `fread(buf, 1, count, f)`: the bytes obtained (fewer than `count`
at end of file) and the stream afterwards. -/
def fread (f : FILE) (count : Nat) : List Nat × FILE :=
  let got := (f.data.drop f.pos).take count
  (got, { f with pos := f.pos + got.length })

/-- The call `fseek(f, offset, SEEK_SET)`; a negative offset fails and leaves
the position unchanged. -/
def fseek_set (f : FILE) (offset : Int) : FILE :=
  if offset < 0 then f else { f with pos := offset.toNat }

/-- A buffer of `count` bytes filled by `fread`, cleared by `memset` when the
read came up short. -/
def fread_or_zero (f : FILE) (count : Nat) : List Nat × FILE :=
  let r := fread f count
  (if r.1.length = count then r.1 else List.replicate count 0, r.2)

/-- Array read `a[i]` with the index checked against the allocation. -/
def peek (a : List Nat) (i : Int) : Except Err Nat :=
  if 0 ≤ i ∧ i < a.length then .ok (a.getD i.toNat 0) else .error Err.out_of_bounds

/-- Array write `a[i] = v` with the index checked against the allocation. -/
def put (a : List Nat) (i : Int) (v : Nat) : Except Err (List Nat) :=
  if 0 ≤ i ∧ i < a.length then .ok (a.set i.toNat v) else .error Err.out_of_bounds

/-- A freshly allocated block of `n` bytes. -/
def fresh {fl : CFloat} (env : Env fl) (n : Nat) : List Nat :=
  (List.range n).map (fun k => env.junk k)

/-- The function `is_absolute_path`. -/
def is_absolute_path (path : List Nat) : Bool :=
  match cstr path with
  | [] => false
  | c0 :: rest =>
    if c0 = 47 ∨ c0 = 92 then true
    else match rest with
      | c1 :: _ => c1 = 58 ∧ ((65 ≤ c0 ∧ c0 ≤ 90) ∨ (97 ≤ c0 ∧ c0 ≤ 122))
      | [] => false

/-! ## Bitmap decoding (`load_bmp`) -/

/-- An RGB colour `(r, g, b)`. -/
abbrev Color := Nat × Nat × Nat

/-- The colour-table loop of the 8-bit branch: `n` more iterations starting at
index `i`.  Each reads four bytes `B, G, R, x` from the file and stores
`R, G, B` at `lbmpalette[i * 3 .. i * 3 + 2]`; the loop starts at index 0, so
the bytes stored are listed in index order.  A store outside the
`PALETTE_SIZE * 3` bytes of the allocation is a fault. -/
def load_color_table : Nat → Int → FILE → Except Err (List Nat × FILE)
  | 0, _, f => .ok ([], f)
  | n + 1, i, f =>
    if 0 ≤ wrap32 (i * 3) ∧ wrap32 (i * 3) + 2 < 768 then do
      let bgra := fread_or_zero f 4
      let r ← load_color_table n (i + 1) bgra.2
      pure (bgra.1.getD 2 0 :: bgra.1.getD 1 0 :: bgra.1.getD 0 0 :: r.1, r.2)
    else .error Err.out_of_bounds

/-- The zero-fill loop `for (i = ...; i < PALETTE_SIZE; i++)`: `n` more
iterations starting at index `i`, each storing three zero bytes at
`lbmpalette[i * 3 .. i * 3 + 2]`; the bytes stored, in index order. -/
def zero_fill : Nat → Int → Except Err (List Nat)
  | 0, _ => .ok []
  | n + 1, i =>
    if 0 ≤ wrap32 (i * 3) ∧ wrap32 (i * 3) + 2 < 768 then do
      let r ← zero_fill n (i + 1)
      pure (0 :: 0 :: 0 :: r)
    else .error Err.out_of_bounds

/-- The colour of pixel `x` of a row buffer, as both passes of the true-colour
branch read it (`bpp` other than 24 and 32 gives black in the first pass). -/
def pixel_rgb (bpp : Int) (row_buffer : List Nat) (x : Int) : Except Err Color :=
  if bpp = 24 then do
    let b ← peek row_buffer (wrap32 (x * 3))
    let g ← peek row_buffer (wrap32 (wrap32 (x * 3) + 1))
    let r ← peek row_buffer (wrap32 (wrap32 (x * 3) + 2))
    pure (r, g, b)
  else if bpp = 32 then do
    let b ← peek row_buffer (wrap32 (x * 4))
    let g ← peek row_buffer (wrap32 (wrap32 (x * 4) + 1))
    let r ← peek row_buffer (wrap32 (wrap32 (x * 4) + 2))
    pure (r, g, b)
  else pure (0, 0, 0)

/-- The inner loop of the colour collection: `n` more pixels starting at `x`;
`u` is `unique_colors[0 .. palette_index)`. -/
def collect_row (bpp : Int) (row_buffer : List Nat) : Nat → Int → List Color →
    Except Err (List Color)
  | 0, _, u => .ok u
  | n + 1, x, u =>
    if u.length < 256 then do
      let c ← pixel_rgb bpp row_buffer x
      collect_row bpp row_buffer n (x + 1) (if c ∈ u then u else u ++ [c])
    else .ok u

/-- The outer loop of the colour collection: `n` more rows, read in file
order. -/
def collect_rows (bpp width : Int) (row_size : Nat) : Nat → FILE → List Color →
    Except Err (List Color × FILE)
  | 0, f, u => .ok (u, f)
  | n + 1, f, u =>
    if u.length < 256 then do
      let row := fread_or_zero f row_size
      let u1 ← collect_row bpp row.1 width.toNat 0 u
      collect_rows bpp width row_size n row.2 u1
    else .ok (u, f)

/-- The palette bytes `r, g, b` of a list of colours. -/
def palette_bytes : List Color → List Nat
  | [] => []
  | c :: rest => c.1 :: c.2.1 :: c.2.2 :: palette_bytes rest

/-- The nearest-match scan: `n` more palette entries starting at index `i`,
with the current `best_match` and `best_distance`. -/
def nearest_loop (pal : List Nat) (r g b : Int) : Nat → Int → Int → Int → Int
  | 0, _, best_match, _ => best_match
  | n + 1, i, best_match, best_distance =>
    let dr := r - (pal.getD (i * 3).toNat 0 : Int)
    let dg := g - (pal.getD (i * 3 + 1).toNat 0 : Int)
    let db := b - (pal.getD (i * 3 + 2).toNat 0 : Int)
    let distance := wrap32 (wrap32 (wrap32 (dr * dr) + wrap32 (dg * dg)) + wrap32 (db * db))
    if distance < best_distance then nearest_loop pal r g b n (i + 1) i distance
    else nearest_loop pal r g b n (i + 1) best_match best_distance

/-- The index stored for a true-colour pixel: the scan over all `PALETTE_SIZE`
entries starting from `best_match = 0`, `best_distance = 999999`. -/
def nearest (pal : List Nat) (r g b : Nat) : Int :=
  nearest_loop pal r g b 256 0 0 999999

/-- The inner loop of the pixel pass for row `y`: `n` more pixels starting at
`x`, storing into `byteimage[y * width + x]`. -/
def decode_row (bpp : Int) (pal row_buffer : List Nat) (width y : Int) :
    Nat → Int → List Nat → Except Err (List Nat)
  | 0, _, img => .ok img
  | n + 1, x, img =>
    if bpp = 8 then do
      let v ← peek row_buffer x
      let img1 ← put img (wrap32 (wrap32 (y * width) + x)) v
      decode_row bpp pal row_buffer width y n (x + 1) img1
    else if bpp = 24 ∨ bpp = 32 then do
      let c ← pixel_rgb bpp row_buffer x
      let img1 ← put img (wrap32 (wrap32 (y * width) + x))
        ((nearest pal c.1 c.2.1 c.2.2) % 256).toNat
      decode_row bpp pal row_buffer width y n (x + 1) img1
    else decode_row bpp pal row_buffer width y n (x + 1) img

/-- The outer loop of the pixel pass: `n` more rows read in file order, the
first stored as row `y`, the next as row `y - 1`, and so on. -/
def decode_rows (bpp : Int) (pal : List Nat) (width : Int) (row_size : Nat) :
    Nat → Int → FILE → List Nat → Except Err (List Nat)
  | 0, _, _, img => .ok img
  | n + 1, y, f, img => do
    let row := fread_or_zero f row_size
    let img1 ← decode_row bpp pal row.1 width y width.toNat 0 img
    decode_rows bpp pal width row_size n (y - 1) row.2 img1

/-- The row stride `((width * bpp + 31) / 32) * 4` in `int` arithmetic. -/
def row_size_of (width bpp : Int) : Int :=
  wrap32 (cdiv (wrap32 (wrap32 (width * bpp) + 31)) 32 * 4)

/-- The number of colour-table entries read: `colors_used ? colors_used : PALETTE_SIZE`. -/
def palette_colors_of (colors_used : Int) : Int :=
  if colors_used ≠ 0 then colors_used else PALETTE_SIZE

/-- The palette part of `load_bmp` (from the allocation of `lbmpalette` to the
end of the `if (bpp == 8) ... else ...` statement).  Result: the new
`lbmpalette`, the new `original_palette` and the stream. -/
def bmp_palette (established : Bool) (original_palette : List Nat)
    (f : FILE) (width height bpp data_offset colors_used : Int) :
    Except Err (List Nat × List Nat × FILE) :=
  if bpp = 8 then do
    let r ← load_color_table (palette_colors_of colors_used).toNat 0 (fseek_set f 54)
    let z ← zero_fill (PALETTE_SIZE - palette_colors_of colors_used).toNat
      (palette_colors_of colors_used)
    if !established then pure (r.1 ++ z, r.1 ++ z, r.2)
    else pure (original_palette, original_palette, r.2)
  else
    if !established then
      if row_size_of width bpp < 0 then .error Err.alloc_failed
      else do
        let c ← collect_rows bpp width (row_size_of width bpp).toNat height.toNat
          (fseek_set f data_offset) []
        let z ← zero_fill (PALETTE_SIZE - c.1.length).toNat c.1.length
        pure (palette_bytes c.1 ++ z, palette_bytes c.1 ++ z, c.2)
    else pure (original_palette, original_palette, f)

/-- The fields of the 54-byte header that `load_bmp` uses. -/
structure BmpInfo where
  width : Int
  height : Int
  bpp : Int
  data_offset : Int
  colors_used : Int

/-- The header fields, read at their byte offsets. -/
def bmp_info (header : List Nat) : BmpInfo :=
  { width := int32_at header 18
    height := int32_at header 22
    bpp := int16_at header 28
    data_offset := int32_at header 10
    colors_used := int32_at header 46 }

/-- The path `load_bmp` opens: the name itself when absolute, else `spritedir`
followed by the name. -/
def bmp_path (spritedir filename : List Nat) : List Nat :=
  if is_absolute_path (cstr filename) then cstr filename else cstr spritedir ++ cstr filename

/-- The part of `load_bmp` after the header checks: palette, then pixels. -/
def load_bmp_body {fl : CFloat} (env : Env fl) (s : State fl) (f : FILE) (b : BmpInfo) :
    Except Err (State fl) := do
  let p ← bmp_palette s.palette_established s.original_palette f
    b.width b.height b.bpp b.data_offset b.colors_used
  if row_size_of b.width b.bpp < 0 then .error Err.alloc_failed
  else if wrap32 (b.width * b.height) < 0 then .error Err.alloc_failed
  else do
    let img ← decode_rows b.bpp p.1 b.width (row_size_of b.width b.bpp).toNat b.height.toNat
      (b.height - 1) (fseek_set p.2.2 b.data_offset) (fresh env (wrap32 (b.width * b.height)).toNat)
    pure { s with
      byteimagewidth := b.width
      byteimageheight := b.height
      lbmpalette := p.1
      original_palette := p.2.1
      palette_established := true
      byteimage := img }

/-- The 54 header bytes that `safe_read` obtains from a freshly opened file. -/
def read_header (data : List Nat) : List Nat := (fread ⟨data, 0⟩ 54).1

/-- The stream once the header has been read. -/
def bmp_stream (data : List Nat) : FILE := (fread ⟨data, 0⟩ 54).2

/-- The function `load_bmp`. -/
def load_bmp {fl : CFloat} (env : Env fl) (s : State fl) (filename : List Nat) :
    Except Err (State fl) :=
  match env.fs (bmp_path s.spritedir filename) with
  | none => .error Err.could_not_open
  | some data =>
    if (read_header data).length ≠ 54 then .error Err.file_read_failure
    else if (read_header data).getD 0 0 ≠ 66 ∨ (read_header data).getD 1 0 ≠ 77 then
      .error Err.not_bmp
    else if (bmp_info (read_header data)).width ≤ 0 ∨ (bmp_info (read_header data)).height ≤ 0 then
      .error Err.invalid_dimensions
    else load_bmp_body env s (bmp_stream data) (bmp_info (read_header data))

/-! ## String constants of the source (ASCII codes) -/

/-- The string `$spritename`. -/
def tok_spritename : List Nat := [36, 115, 112, 114, 105, 116, 101, 110, 97, 109, 101]

/-- The string `$type`. -/
def tok_type : List Nat := [36, 116, 121, 112, 101]

/-- The string `$texture`. -/
def tok_texture : List Nat := [36, 116, 101, 120, 116, 117, 114, 101]

/-- The string `$beamlength`. -/
def tok_beamlength : List Nat := [36, 98, 101, 97, 109, 108, 101, 110, 103, 116, 104]

/-- The string `$sync`. -/
def tok_sync : List Nat := [36, 115, 121, 110, 99]

/-- The string `$load`. -/
def tok_load : List Nat := [36, 108, 111, 97, 100]

/-- The string `$frame`. -/
def tok_frame : List Nat := [36, 102, 114, 97, 109, 101]

/-- The string `$groupstart`. -/
def tok_groupstart : List Nat := [36, 103, 114, 111, 117, 112, 115, 116, 97, 114, 116]

/-- The string `$groupend`. -/
def tok_groupend : List Nat := [36, 103, 114, 111, 117, 112, 101, 110, 100]

/-- The string `vp_parallel_upright`. -/
def str_vp_parallel_upright : List Nat := [118, 112, 95, 112, 97, 114, 97, 108, 108, 101, 108, 95, 117, 112, 114, 105, 103, 104, 116]

/-- The string `facing_upright`. -/
def str_facing_upright : List Nat := [102, 97, 99, 105, 110, 103, 95, 117, 112, 114, 105, 103, 104, 116]

/-- The string `vp_parallel`. -/
def str_vp_parallel : List Nat := [118, 112, 95, 112, 97, 114, 97, 108, 108, 101, 108]

/-- The string `oriented`. -/
def str_oriented : List Nat := [111, 114, 105, 101, 110, 116, 101, 100]

/-- The string `vp_parallel_oriented`. -/
def str_vp_parallel_oriented : List Nat := [118, 112, 95, 112, 97, 114, 97, 108, 108, 101, 108, 95, 111, 114, 105, 101, 110, 116, 101, 100]

/-- The string `normal`. -/
def str_normal : List Nat := [110, 111, 114, 109, 97, 108]

/-- The string `additive`. -/
def str_additive : List Nat := [97, 100, 100, 105, 116, 105, 118, 101]

/-- The string `indexalpha`. -/
def str_indexalpha : List Nat := [105, 110, 100, 101, 120, 97, 108, 112, 104, 97]

/-- The string `alphatest`. -/
def str_alphatest : List Nat := [97, 108, 112, 104, 97, 116, 101, 115, 116]

/-- The string `.spr`. -/
def str_dot_spr : List Nat := [46, 115, 112, 114]

/-- The string `./`. -/
def str_dot_slash : List Nat := [46, 47]

/-! ## Frame arena -/

/-- The relocation loop of `ensure_buffer_capacity`: the first `n` descriptors
get `pdata = new + (pdata - old)`. -/
def relocate {fl : CFloat} (old new : Int) :
    Nat → List (spritepackage_t fl) → List (spritepackage_t fl)
  | 0, l => l
  | _ + 1, [] => []
  | n + 1, f :: rest => { f with pdata := new + (f.pdata - old) } :: relocate old new n rest

/-- The function `ensure_buffer_capacity`. -/
def ensure_buffer_capacity {fl : CFloat} (env : Env fl) (s : State fl) (needed : Int) :
    Except Err (State fl) :=
  if needed > s.buffer_size then
    let current_offset := s.plump - s.lumpbuffer
    let buffer_size := wrap_size (needed * 2)
    match env.realloc s.lumpbuffer buffer_size with
    | none => .error Err.alloc_failed
    | some base =>
      .ok { s with
        buffer_size := buffer_size
        lumpbuffer := base
        plump := base + current_offset
        frames := if s.framecount > 0 then relocate s.lumpbuffer base s.framecount.toNat s.frames
                  else s.frames }
  else .ok s

/-- The descriptor array after `realloc` to `n` entries: old entries kept, new
ones with indeterminate content. -/
def resize_frames {fl : CFloat} (env : Env fl) (l : List (spritepackage_t fl)) (n : Nat) :
    List (spritepackage_t fl) :=
  (l ++ (List.range (n - l.length)).map (fun k => env.junk_frame (l.length + k))).take n

/-- The function `ensure_frame_capacity`. -/
def ensure_frame_capacity {fl : CFloat} (env : Env fl) (s : State fl) : Except Err (State fl) :=
  if s.framecount ≥ s.max_frames then
    let m := wrap32 (s.max_frames * 2)
    if m < 0 then .error Err.alloc_failed
    else .ok { s with max_frames := m, frames := resize_frames env s.frames m.toNat }
  else .ok s

/-- Assignment to fields of `frames[idx]`, the index checked against the
allocation. -/
def set_frame {fl : CFloat} (s : State fl) (idx : Int)
    (g : spritepackage_t fl → spritepackage_t fl) : Except Err (State fl) :=
  if idx < 0 then .error Err.out_of_bounds
  else match s.frames.get? idx.toNat with
    | none => .error Err.out_of_bounds
    | some f => .ok { s with frames := s.frames.set idx.toNat (g f) }

/-- Read of `frames[idx]`, the index checked against the allocation. -/
def frame_desc {fl : CFloat} (s : State fl) (idx : Int) : Except Err (spritepackage_t fl) :=
  if idx < 0 then .error Err.out_of_bounds
  else match s.frames.get? idx.toNat with
    | none => .error Err.out_of_bounds
    | some f => .ok f

/-- Store of the bytes `bs` at address `addr` of the arena. -/
def poke {fl : CFloat} (s : State fl) (addr : Int) (bs : List Nat) : Except Err (State fl) :=
  let off := addr - s.lumpbuffer
  if 0 ≤ off ∧ off + bs.length ≤ s.buffer_size then
    .ok { s with lump := fun o =>
      if off ≤ o ∧ o < off + bs.length then bs.getD (o - off).toNat 0 else s.lump o }
  else .error Err.out_of_bounds

/-- Load of `n` bytes at address `addr` of the arena. -/
def peek_bytes {fl : CFloat} (s : State fl) (addr : Int) (n : Nat) : Except Err (List Nat) :=
  let off := addr - s.lumpbuffer
  if 0 ≤ off ∧ off + n ≤ s.buffer_size then
    .ok ((List.range n).map (fun k => s.lump (off + k)))
  else .error Err.out_of_bounds

/-- Load of an `int` at address `addr` of the arena. -/
def peek_int {fl : CFloat} (s : State fl) (addr : Int) : Except Err Int := do
  let b ← peek_bytes s addr 4
  pure (int32_at b 0)

/-- One `get_token` call on the global cursor and token buffer. -/
def next_token {fl : CFloat} (crossline : Bool) (s : State fl) :
    Except Err (Bool × State fl) := do
  let r ← get_token crossline s.scriptptr s.token
  pure (r.1, { s with scriptptr := r.2.1, token := r.2.2 })

/-! ## Frame extraction (`grab_frame`) -/

/-- The inner pixel loop `for (x = 0; x < w; x++) *plump++ = source[x]`:
`n` more pixels starting at `x`. -/
def copy_row {fl : CFloat} (source : Int) : Nat → Int → State fl → Except Err (State fl)
  | 0, _, s => .ok s
  | n + 1, x, s => do
    let v ← peek s.byteimage (source + x)
    let s1 ← poke s s.plump [v]
    copy_row source n (x + 1) { s1 with plump := s1.plump + 1 }

/-- The outer pixel loop: `n` more rows of `w` pixels, `source` advancing by
`byteimagewidth` after each. -/
def copy_rows {fl : CFloat} (w : Nat) : Nat → Int → State fl → Except Err (State fl)
  | 0, _, s => .ok s
  | n + 1, source, s => do
    let s1 ← copy_row source w 0 s
    copy_rows w n (source + s1.byteimagewidth) s1

/-- The rectangle test of `grab_frame`, in 32-bit `int` arithmetic. -/
def bad_coordinates (xl yl w h width height : Int) : Bool :=
  xl < 0 ∨ yl < 0 ∨ w ≤ 0 ∨ h ≤ 0 ∨ wrap32 (xl + w) > width ∨ wrap32 (yl + h) > height

/-- The four required numbers of a `$frame` directive. -/
structure Rect where
  xl : Int
  yl : Int
  w : Int
  h : Int

/-- First part of `grab_frame`: four `get_token(false)` calls, each followed
by `atoi(token)` whatever the call returned. -/
def frame_rect {fl : CFloat} (s0 : State fl) : Except Err (Rect × State fl) := do
  let t1 ← next_token false s0
  let t2 ← next_token false t1.2
  let t3 ← next_token false t2.2
  let t4 ← next_token false t3.2
  pure (⟨atoi t1.2.token, atoi t2.2.token, atoi t3.2.token, atoi t4.2.token⟩, t4.2)

/-- Second part of `grab_frame`: room for one more descriptor, its type, and
room in the arena for `sizeof(dspriteframe_t) + w * h` bytes. -/
def frame_alloc {fl : CFloat} (env : Env fl) (s : State fl) (r : Rect) :
    Except Err (State fl) := do
  let s1 ← ensure_frame_capacity env s
  let s2 ← set_frame s1 s1.framecount (fun f => { f with type := SPR_SINGLE })
  ensure_buffer_capacity env s2
    (wrap_size ((s2.plump - s2.lumpbuffer) + wrap_size (16 + wrap32 (r.w * r.h))))

/-- Third part of `grab_frame`: the optional interval. -/
def frame_interval {fl : CFloat} (s3 : State fl) : Except Err (State fl) := do
  let t5 ← next_token false s3
  let s4 ← set_frame t5.2 t5.2.framecount
    (fun f => { f with interval := if t5.1 then fl.atof t5.2.token else fl.tenth })
  if t5.1 ∧ fl.le (fl.atof t5.2.token) fl.zero then .error Err.non_positive_interval
  else pure s4

/-- Fourth part of `grab_frame`: the optional origin; the frame header that
results and the state after the tokens are read. -/
def frame_origin {fl : CFloat} (s4 : State fl) (r : Rect) :
    Except Err (dspriteframe_t × State fl) := do
  let t6 ← next_token false s4
  let t7 ← (if t6.1 then next_token false t6.2 else pure t6)
  pure (⟨if t6.1 then wrap32 (- atoi t6.2.token) else wrap32 (- shr1 r.w),
         if t6.1 then atoi t7.2.token else shr1 r.h, r.w, r.h⟩, t7.2)

/-- Fifth part of `grab_frame`: the header stored at `pframe`, the cursor
moved past it, the running maxima, the pixel copy, the descriptor's `pdata`,
and the frame counted. -/
def frame_store {fl : CFloat} (s : State fl) (r : Rect) (pframe : Int) (hd : dspriteframe_t) :
    Except Err (State fl) := do
  let s5 ← poke s pframe (int32_bytes hd.origin0)
  let s6 ← poke s5 (pframe + 4) (int32_bytes hd.origin1)
  let s7 ← poke s6 (pframe + 8) (int32_bytes hd.width)
  let s8 ← poke s7 (pframe + 12) (int32_bytes hd.height)
  let s10 ← copy_rows r.w.toNat r.h.toNat (wrap32 (r.yl * s8.byteimagewidth) + r.xl)
    { s8 with
      plump := s8.plump + 16
      framesmaxs0 := if r.w > s8.framesmaxs0 then r.w else s8.framesmaxs0
      framesmaxs1 := if r.h > s8.framesmaxs1 then r.h else s8.framesmaxs1 }
  let s11 ← set_frame s10 s10.framecount (fun f => { f with pdata := pframe })
  pure { s11 with
    framecount := wrap32 (s11.framecount + 1)
    emitted := s11.emitted ++ [hd] }

/-- The function `grab_frame`. -/
def grab_frame {fl : CFloat} (env : Env fl) (s0 : State fl) : Except Err (State fl) := do
  let a ← frame_rect s0
  if bad_coordinates a.1.xl a.1.yl a.1.w a.1.h a.2.byteimagewidth a.2.byteimageheight then
    .error Err.bad_frame_coordinates
  else do
    let s3 ← frame_alloc env a.2 a.1
    let s4 ← frame_interval s3
    let o ← frame_origin s4 a.1
    frame_store o.2 a.1 s3.plump o.1

/-! ## Serialisation (`finish_sprite`) -/

/-- The function `little_long`: the four bytes of `l` reassembled. -/
def little_long (l : Int) : Int := int32_at (int32_bytes l) 0

/-- What `finish_sprite` has written to the output file so far, the indices
of the frame descriptors it has read, and the fault that stopped it, if any. -/
structure Written (fl : CFloat) where
  chunks : List (Chunk fl)
  reads : List Int
  status : Option Err

/-- The two `safe_write` calls for one Single payload at `pdata`: the frame
header, then `width * height` bytes following it. -/
def write_single {fl : CFloat} (s : State fl) (pdata : Int) : Except Err (List (Chunk fl)) := do
  let origin0 ← peek_int s pdata
  let origin1 ← peek_int s (pdata + 4)
  let width ← peek_int s (pdata + 8)
  let height ← peek_int s (pdata + 12)
  if wrap32 (width * height) < 0 then .error Err.out_of_bounds
  else do
    let px ← peek_bytes s (pdata + 16) (wrap32 (width * height)).toNat
    pure [Chunk.frame ⟨little_long origin0, little_long origin1, little_long width,
        little_long height⟩, Chunk.pixels px]

/-- The interval loop of a group: `n` more children starting at `j`, with the
running `totinterval`. -/
def write_intervals {fl : CFloat} (s : State fl) (groupframe : Int) :
    Nat → Int → fl.F → Written fl → Written fl
  | 0, _, _, w => w
  | n + 1, j, totinterval, w =>
    match frame_desc s (groupframe + 1 + j) with
    | .error e => { w with reads := w.reads ++ [groupframe + 1 + j], status := some e }
    | .ok d =>
      let tot := fl.add totinterval d.interval
      write_intervals s groupframe n (j + 1) tot
        { w with reads := w.reads ++ [groupframe + 1 + j],
                 chunks := w.chunks ++ [Chunk.interval tot] }

/-- The payload loop of a group: `n` more children starting at descriptor
`curframe`. -/
def write_group_frames {fl : CFloat} (s : State fl) :
    Nat → Int → Written fl → Written fl
  | 0, _, w => w
  | n + 1, curframe, w =>
    match frame_desc s curframe with
    | .error e => { w with reads := w.reads ++ [curframe], status := some e }
    | .ok d =>
      match write_single s d.pdata with
      | .error e => { w with reads := w.reads ++ [curframe], status := some e }
      | .ok cs =>
        write_group_frames s n (curframe + 1)
          { w with reads := w.reads ++ [curframe], chunks := w.chunks ++ cs }

/-- The `else` branch of the frame loop: the group whose header descriptor is
`frames[groupframe]`. -/
def write_group {fl : CFloat} (s : State fl) (groupframe : Int) (d : spritepackage_t fl)
    (w : Written fl) : Written fl :=
  let numframes := d.numgroupframes
  let w1 := { w with chunks := w.chunks ++ [Chunk.group (little_long numframes)] }
  let w2 := write_intervals s groupframe numframes.toNat 0 fl.zero w1
  if w2.status.isSome then w2
  else write_group_frames s numframes.toNat (groupframe + 1) w2

/-- The frame loop `for (i = 0; i < sprite.numframes; i++)`: `n` more
iterations with the current `curframe`. -/
def write_frames {fl : CFloat} (s : State fl) : Nat → Int → Written fl → Written fl
  | 0, _, w => w
  | n + 1, curframe, w =>
    match frame_desc s curframe with
    | .error e => { w with reads := w.reads ++ [curframe], status := some e }
    | .ok d =>
      let w1 := { w with reads := w.reads ++ [curframe],
                         chunks := w.chunks ++ [Chunk.frametype (little_long d.type)] }
      if d.type = SPR_SINGLE then
        match write_single s d.pdata with
        | .error e => { w1 with status := some e }
        | .ok cs => write_frames s n (curframe + 1) { w1 with chunks := w1.chunks ++ cs }
      else
        let w2 := write_group s curframe d w1
        if w2.status.isSome then w2
        else write_frames s n (curframe + 1 + (d.numgroupframes.toNat : Int)) w2

/-- The assignments to `sprite` at the top of `finish_sprite`. -/
def finish_fields {fl : CFloat} (s : State fl) : State fl :=
  { s with sprite := { s.sprite with
      numframes := s.framecount
      boundingradius := fl.sqrt (wrap32 (wrap32 (shr1 s.framesmaxs0 * shr1 s.framesmaxs0) +
        wrap32 (shr1 s.framesmaxs1 * shr1 s.framesmaxs1)))
      width := s.framesmaxs0
      height := s.framesmaxs1 } }

/-- The header `spritetemp` written first. -/
def sprite_header {fl : CFloat} (s : State fl) : dsprite_t fl :=
  { ident := little_long IDSPRITEHEADER
    version := little_long SPRITE_VERSION
    type := little_long s.sprite.type
    texFormat := little_long s.sprite.texFormat
    boundingradius := s.sprite.boundingradius
    width := little_long s.framesmaxs0
    height := little_long s.framesmaxs1
    numframes := little_long s.sprite.numframes
    beamlength := s.sprite.beamlength
    synctype := little_long s.sprite.synctype }

/-- The optional palette block. -/
def write_palette {fl : CFloat} (s : State fl) (w : Written fl) : Written fl :=
  if s.do16bit then
    if s.lbmpalette.length < 768 then
      { w with chunks := w.chunks ++ [Chunk.palcount 256], status := some Err.out_of_bounds }
    else { w with chunks := w.chunks ++ [Chunk.palcount 256, Chunk.palette (s.lbmpalette.take 768)] }
  else w

/-- Everything `finish_sprite` writes once the output file is open; `s` is the
state after `finish_fields`. -/
def serialize {fl : CFloat} (s : State fl) : Written fl :=
  write_frames s s.sprite.numframes.toNat 0
    (write_palette s ⟨[Chunk.header (sprite_header s)], [], none⟩)

/-- The function `finish_sprite`. -/
def finish_sprite {fl : CFloat} (env : Env fl) (s0 : State fl) : Except Err (State fl) :=
  if s0.framecount = 0 then .error Err.no_frames
  else
    let s := finish_fields s0
    match s.spriteoutname with
    | none => .error Err.no_output_file
    | some name =>
      if !env.creatable name then .error Err.could_not_create
      else
        let w := serialize s
        match w.status with
        | some e => .error e
        | none => .ok { s with files := s.files ++ [⟨name, w.chunks, s.emitted⟩] }

/-! ## Script interpreter (`parse_script`, `main`) -/

/-- One `$frame` inside a group: the frame, then the group's child count. -/
def group_frame {fl : CFloat} (env : Env fl) (groupframe : Int) (s : State fl) :
    Except Err (State fl) := do
  let s1 ← grab_frame env s
  set_frame s1 groupframe (fun f => { f with numgroupframes := wrap32 (f.numgroupframes + 1) })

/-- The `$load` branch (at top level and inside a group). -/
def do_load {fl : CFloat} (env : Env fl) (s : State fl) : Except Err (State fl) := do
  let r ← next_token false s
  load_bmp env r.2 r.2.token

/-- The inner `while (get_token(true))` loop of the `$groupstart` branch. -/
def parse_group {fl : CFloat} (env : Env fl) (groupframe : Int) :
    Nat → State fl → Except Err (State fl)
  | 0, _ => .error Err.out_of_fuel
  | n + 1, s => do
    let t ← next_token true s
    if !t.1 then pure t.2
    else if cstr t.2.token = tok_frame then do
      let s2 ← group_frame env groupframe t.2
      parse_group env groupframe n s2
    else if cstr t.2.token = tok_load then do
      let s1 ← do_load env t.2
      parse_group env groupframe n s1
    else if cstr t.2.token = tok_groupend then pure t.2
    else .error Err.group_expected

/-- The state a `$spritename` directive leaves once the output name is
chosen: `sprite` cleared and set to its defaults, counters reset. -/
def sprite_reset {fl : CFloat} (s : State fl) (name : List Nat) (consumed : Bool) : State fl :=
  { s with
    spriteoutname := some name
    cli_output_consumed := consumed
    sprite := { ident := 0, version := 0, type := 0, texFormat := 0, boundingradius := fl.zero,
                width := 0, height := 0, numframes := 0, beamlength := fl.zero,
                synctype := ST_RAND }
    framecount := 0
    palette_established := false
    framesmaxs0 := -9999999
    framesmaxs1 := -9999999
    emitted := [] }

/-- The `$spritename` branch after the pending sprite has been finished. -/
def spritename {fl : CFloat} (s : State fl) : Except Err (State fl) := do
  let t ← next_token false s
  match t.2.cli_output_name with
  | some name =>
    if t.2.cli_output_consumed then .error Err.multiple_spritename
    else pure (sprite_reset t.2 (cstr name) true)
  | none =>
    pure (sprite_reset t.2 (cstr t.2.spritedir ++ cstr t.2.token ++ str_dot_spr)
      t.2.cli_output_consumed)

/-- The `$type` branch. -/
def set_type {fl : CFloat} (s : State fl) : Except Err (State fl) := do
  let r ← next_token false s
  if cstr r.2.token = str_vp_parallel_upright then
    pure { r.2 with sprite := { r.2.sprite with type := 0 } }
  else if cstr r.2.token = str_facing_upright then
    pure { r.2 with sprite := { r.2.sprite with type := 1 } }
  else if cstr r.2.token = str_vp_parallel then
    pure { r.2 with sprite := { r.2.sprite with type := 2 } }
  else if cstr r.2.token = str_oriented then
    pure { r.2 with sprite := { r.2.sprite with type := 3 } }
  else if cstr r.2.token = str_vp_parallel_oriented then
    pure { r.2 with sprite := { r.2.sprite with type := 4 } }
  else .error Err.bad_type

/-- The `$texture` branch. -/
def set_texture {fl : CFloat} (s : State fl) : Except Err (State fl) := do
  let r ← next_token false s
  if cstr r.2.token = str_normal then
    pure { r.2 with sprite := { r.2.sprite with texFormat := 0 } }
  else if cstr r.2.token = str_additive then
    pure { r.2 with sprite := { r.2.sprite with texFormat := 1 } }
  else if cstr r.2.token = str_indexalpha then
    pure { r.2 with sprite := { r.2.sprite with texFormat := 2 } }
  else if cstr r.2.token = str_alphatest then
    pure { r.2 with sprite := { r.2.sprite with texFormat := 3 } }
  else .error Err.bad_texture

/-- The `$beamlength` branch. -/
def set_beamlength {fl : CFloat} (s : State fl) : Except Err (State fl) := do
  let r ← next_token false s
  pure { r.2 with sprite := { r.2.sprite with beamlength := fl.atof r.2.token } }

/-- The top-level `$frame` branch. -/
def do_frame {fl : CFloat} (env : Env fl) (s : State fl) : Except Err (State fl) := do
  let s1 ← grab_frame env s
  pure { s1 with sprite := { s1.sprite with numframes := wrap32 (s1.sprite.numframes + 1) } }

/-- The `$groupstart` branch. -/
def do_group {fl : CFloat} (env : Env fl) (fuel : Nat) (s : State fl) :
    Except Err (State fl) := do
  let s2 ← set_frame { s with framecount := wrap32 (s.framecount + 1) } s.framecount
    (fun f => { f with type := SPR_GROUP, numgroupframes := 0 })
  let s3 ← parse_group env s.framecount fuel s2
  let g ← frame_desc s3 s.framecount
  if g.numgroupframes = 0 then .error Err.empty_group
  else pure { s3 with sprite := { s3.sprite with numframes := wrap32 (s3.sprite.numframes + 1) } }

/-- The `$spritename` branch. -/
def do_spritename {fl : CFloat} (env : Env fl) (s : State fl) : Except Err (State fl) := do
  let s1 ← (if s.framecount > 0 then finish_sprite env s else pure s)
  spritename s1

/-- The body of the `while (get_token(true))` loop of `parse_script` for the
token just read; `fuel` bounds the inner group loop. -/
def directive {fl : CFloat} (env : Env fl) (fuel : Nat) (s : State fl) :
    Except Err (State fl) :=
  if cstr s.token = tok_spritename then do_spritename env s
  else if cstr s.token = tok_type then set_type s
  else if cstr s.token = tok_texture then set_texture s
  else if cstr s.token = tok_beamlength then set_beamlength s
  else if cstr s.token = tok_sync then
    pure { s with sprite := { s.sprite with synctype := ST_SYNC } }
  else if cstr s.token = tok_load then do_load env s
  else if cstr s.token = tok_frame then do_frame env s
  else if cstr s.token = tok_groupstart then do_group env fuel s
  else .error Err.unknown_token

/-- The function `parse_script`: the outer `while (get_token(true))` loop. -/
def parse_script {fl : CFloat} (env : Env fl) : Nat → State fl → Except Err (State fl)
  | 0, _ => .error Err.out_of_fuel
  | n + 1, s => do
    let t ← next_token true s
    if !t.1 then pure t.2
    else do
      let s1 ← directive env (n + 1) t.2
      parse_script env n s1

/-- The directory part of the script path computed in `main`: the path up to
and including its last slash or backslash, or `./` when it has none. -/
def spritedir_of (filename : List Nat) : List Nat :=
  match ((cstr filename).reverse.dropWhile (fun c => c != 47 && c != 92)).reverse with
  | [] => str_dot_slash
  | d => d

/-- The globals as `main` sets them up before `parse_script`; the arena
starts with `buffer_size` bytes. -/
def init_state {fl : CFloat} (env : Env fl) (buffer_size : Int)
    (cli_output_name : Option (List Nat)) (do16bit : Bool) (filename script : List Nat) :
    State fl :=
  { sprite := { ident := 0, version := 0, type := 0, texFormat := 0, boundingradius := fl.zero,
                width := 0, height := 0, numframes := 0, beamlength := fl.zero,
                synctype := ST_RAND }
    byteimage := []
    lbmpalette := []
    byteimagewidth := 0
    byteimageheight := 0
    lumpbuffer := env.lump_base
    plump := env.lump_base
    lump := fun o => env.junk o
    spritedir := spritedir_of filename
    spriteoutname := none
    cli_output_name := cli_output_name
    cli_output_consumed := false
    framesmaxs0 := 0
    framesmaxs1 := 0
    framecount := 0
    frames := (List.range 1000).map env.junk_frame
    max_frames := INITIAL_MAX_FRAMES
    buffer_size := buffer_size
    do16bit := do16bit
    token := []
    scriptptr := script
    original_palette := []
    palette_established := false
    files := []
    emitted := [] }

/-- The function `main` after option parsing, with the initial arena size as
a parameter: set up the globals, read the script, run `parse_script`, finish
the pending sprite. -/
def main_with {fl : CFloat} (env : Env fl) (buffer_size : Int)
    (cli_output_name : Option (List Nat)) (do16bit : Bool) (filename : List Nat) :
    Except Err (State fl) :=
  match env.fs (cstr filename) with
  | none => .error Err.could_not_open
  | some script => do
    let s ← parse_script env (script.length + 1)
      (init_state env buffer_size cli_output_name do16bit filename script)
    if s.framecount > 0 then finish_sprite env s else pure s

/-- The function `main` after option parsing. -/
def main {fl : CFloat} (env : Env fl) (cli_output_name : Option (List Nat)) (do16bit : Bool)
    (filename : List Nat) : Except Err (State fl) :=
  main_with env INITIAL_BUFFER_SIZE cli_output_name do16bit filename

/-! ## Worked inputs

Concrete inputs on which the definitions above are evaluated: an exact decimal
stand-in for `float`, small bitmaps, and an environment made of a list of
files. -/

/-- Fraction digits of a decimal numeral: each digit adds `digit * scale`. -/
def atof_fraction : List Nat → ℚ → ℚ → ℚ
  | [], acc, _ => acc
  | c :: rest, acc, scale =>
    if 48 ≤ c ∧ c ≤ 57 then atof_fraction rest (acc + ((c : ℚ) - 48) * scale) (scale / 10)
    else acc

/-- Integer digits of a decimal numeral, then the fraction after a point. -/
def atof_digits : List Nat → ℚ → ℚ
  | [], acc => acc
  | c :: rest, acc =>
    if 48 ≤ c ∧ c ≤ 57 then atof_digits rest (acc * 10 + ((c : ℚ) - 48))
    else if c = 46 then atof_fraction rest acc (1 / 10)
    else acc

/-- Exact value of a decimal numeral without exponent. -/
def atof_decimal (s : List Nat) : ℚ :=
  match atoi_skip (cstr s) with
  | 45 :: rest => - atof_digits rest 0
  | 43 :: rest => atof_digits rest 0
  | rest => atof_digits rest 0

/-- Exact rational arithmetic standing in for `float` in worked examples. -/
@[reducible] def decimal : CFloat :=
  { F := ℚ
    zero := 0
    tenth := 1 / 10
    add := fun a b => a + b
    atof := atof_decimal
    le := fun a b => decide (a ≤ b)
    sqrt := fun n => (Nat.sqrt n.toNat : ℚ) }

/-- The 54-byte header of a bitmap file. -/
def bmp_header (data_offset width height bpp colors_used : Int) : List Nat :=
  [66, 77, 0, 0, 0, 0, 0, 0, 0, 0] ++ int32_bytes data_offset ++ [40, 0, 0, 0] ++
  int32_bytes width ++ int32_bytes height ++ [1, 0] ++ (int32_bytes bpp).take 2 ++
  List.replicate 16 0 ++ int32_bytes colors_used ++ [0, 0, 0, 0]

/-- A 2 by 2 8-bit bitmap with a two-entry colour table; stored rows `0 1`
(bottom) and `1 1` (top). -/
def bmp8 : List Nat :=
  bmp_header 62 2 2 8 2 ++ [1, 2, 3, 0, 4, 5, 6, 0] ++ [0, 1, 0, 0, 1, 1, 0, 0]

/-- Lookup of a path in a list of files. -/
def lookup_file : List (List Nat × List Nat) → List Nat → Option (List Nat)
  | [], _ => none
  | (n, d) :: rest, p => if n = p then some d else lookup_file rest p

/-- An environment holding the given files; the arena starts at address 4096
and every `realloc` moves it up by 65536; fresh memory reads as zero bytes. -/
def demo_env (files : List (List Nat × List Nat)) : Env decimal :=
  { fs := lookup_file files
    creatable := fun _ => true
    lump_base := 4096
    realloc := fun old _ => some (old + 65536)
    junk := fun _ => 0
    junk_frame := fun _ => ⟨0, 0, (0 : ℚ), 0⟩ }

/-- The error of a run, if any. -/
def error_of {α : Type} (r : Except Err α) : Option Err :=
  match r with
  | .ok _ => none
  | .error e => some e

/-! ## Specification-side definitions -/

/-- Squared RGB distance between the pixel `(r, g, b)` and palette entry `i`,
as a mathematical integer. -/
def sqdist (pal : List Nat) (r g b i : Nat) : Int :=
  ((r : Int) - (pal.getD (3 * i) 0 : Int)) ^ 2 + ((g : Int) - (pal.getD (3 * i + 1) 0 : Int)) ^ 2 +
    ((b : Int) - (pal.getD (3 * i + 2) 0 : Int)) ^ 2

/-- The palette `p` is established: the flag is set and both `original_palette` and
`lbmpalette` hold `p`. -/
def PaletteIs {fl : CFloat} (s : State fl) (p : List Nat) : Prop :=
  s.palette_established = true ∧ s.original_palette = p ∧ s.lbmpalette = p

/-- The running maxima agree with the frames emitted so far for this sprite: they bound
every emitted width and height, are attained when a frame was emitted, are not positive
when none was, and lie in the `int` range. -/
def MaxInv {fl : CFloat} (s : State fl) : Prop :=
  (∀ e ∈ s.emitted, e.width ≤ s.framesmaxs0 ∧ e.height ≤ s.framesmaxs1) ∧
  (s.emitted ≠ [] → (∃ e ∈ s.emitted, e.width = s.framesmaxs0) ∧
    (∃ e ∈ s.emitted, e.height = s.framesmaxs1)) ∧
  (s.emitted = [] → s.framesmaxs0 ≤ 0 ∧ s.framesmaxs1 ≤ 0) ∧
  (-2147483648 ≤ s.framesmaxs0 ∧ s.framesmaxs0 < 2147483648) ∧
  (-2147483648 ≤ s.framesmaxs1 ∧ s.framesmaxs1 < 2147483648)

/-- An output file starts with a header whose width and height are the maximum width and
the maximum height over the (non-empty list of) frames emitted for its sprite. -/
def HeaderIsMax {fl : CFloat} (o : OutFile fl) : Prop :=
  ∃ hdr rest, o.chunks = Chunk.header hdr :: rest ∧ o.emitted ≠ [] ∧
    (∀ e ∈ o.emitted, e.width ≤ hdr.width ∧ e.height ≤ hdr.height) ∧
    (∃ e ∈ o.emitted, e.width = hdr.width) ∧ (∃ e ∈ o.emitted, e.height = hdr.height)

/-- Invariant of the interpreter inside and outside groups. -/
def SizeInv {fl : CFloat} (s : State fl) : Prop :=
  MaxInv s ∧ ∀ o ∈ s.files, HeaderIsMax o

/-- Invariant of the interpreter between top-level directives. -/
def TopInv {fl : CFloat} (s : State fl) : Prop :=
  SizeInv s ∧ (s.framecount ≠ 0 → s.emitted ≠ [])

/-- Invariant of the group loop for the group header at index `g`: a frame was emitted
or the group's child count is still zero. -/
def GroupInv {fl : CFloat} (g : Int) (s : State fl) : Prop :=
  s.emitted ≠ [] ∨ ∃ d, frame_desc s g = .ok d ∧ d.numgroupframes = 0

/-- The distinct colours of a list in order of first occurrence: the head, then the
distinct colours of the tail without the head. -/
def first_distinct : List Color → List Color
  | [] => []
  | c :: l => c :: (first_distinct l).filter (fun d => decide (d ≠ c))

/-- The colour of pixel `x` of a stored row: bytes `B, G, R` at `3 * x` for 24 bits per
pixel, at `4 * x` for 32. -/
def pixel_at (bpp : Int) (row : List Nat) (x : Nat) : Color :=
  if bpp = 24 then (row.getD (3 * x + 2) 0, row.getD (3 * x + 1) 0, row.getD (3 * x) 0)
  else (row.getD (4 * x + 2) 0, row.getD (4 * x + 1) 0, row.getD (4 * x) 0)

/-- The colours of the first `width` pixels of a stored row, left to right. -/
def row_colors (bpp : Int) (width : Nat) (row : List Nat) : List Color :=
  (List.range width).map (pixel_at bpp row)

/-- The next `n` rows of `row_size` bytes of a stream, in file order; a row that cannot
be read in full counts as zero bytes. -/
def read_rows (row_size : Nat) : Nat → FILE → List (List Nat)
  | 0, _ => []
  | n + 1, f => (fread_or_zero f row_size).1 :: read_rows row_size n (fread_or_zero f row_size).2

/-- All pixel colours of an image in scan order: rows in file order, pixels left to
right. -/
def scanned_colors (bpp : Int) (width row_size height : Nat) (f : FILE) : List Color :=
  ((read_rows row_size height f).map (row_colors bpp width)).flatten

/-- One step of the colour collection: append the colour unless already present. -/
def add_color (u : List Color) (c : Color) : List Color := if c ∈ u then u else u ++ [c]

/-- The colour collection over a list of pixel colours, stopping at 256 entries. -/
def collect_list : List Color → List Color → List Color
  | [], u => u
  | c :: l, u => if u.length < 256 then collect_list l (add_color u c) else u

/-- The colours kept by the collection pass according to the specification: the first
256 distinct colours in scan order. -/
def first_colors (bpp width height data_offset : Int) (f : FILE) : List Color :=
  (first_distinct (scanned_colors bpp width.toNat (row_size_of width bpp).toNat height.toNat
    (fseek_set f data_offset))).take 256

/-- The palette the specification prescribes for a true-colour image: the kept colours,
then zero bytes up to 256 entries. -/
def collected_palette (bpp width height data_offset : Int) (f : FILE) : List Nat :=
  palette_bytes (first_colors bpp width height data_offset f) ++
    List.replicate (3 * (256 - (first_colors bpp width height data_offset f).length)) 0

/-- Running sums of a list of intervals, starting from `tot`: the `k`-th entry is `tot`
plus the first `k + 1` intervals, added left to right. -/
def running_sums (fl : CFloat) : fl.F → List fl.F → List fl.F
  | _, [] => []
  | tot, t :: ts => fl.add tot t :: running_sums fl (fl.add tot t) ts

/-- A chunk of a Single payload: a frame header or a pixel block. -/
def is_payload {fl : CFloat} : Chunk fl → Bool
  | Chunk.frame _ => true
  | Chunk.pixels _ => true
  | _ => false

/-- The value of a run that completed (`d` otherwise). -/
def result_or {α : Type} (d : α) : Except Err α → α
  | .ok a => a
  | .error _ => d

/-- A result other than the fuel of the model running out. -/
def NoFuelErr {α : Type} (x : Except Err α) : Prop := x ≠ .error Err.out_of_fuel

/-- The cursor of `t` is not further from the end of the script than that of `s`. -/
def Shrinks {fl : CFloat} (s t : State fl) : Prop := t.scriptptr.length ≤ s.scriptptr.length

/-! ## Worked scripts -/

/-- Name of the script file in the worked examples. -/
def qc : List Nat := bytes "a.qc"

/-- One sprite holding a single group of two frames. -/
def group_script : List Nat :=
  bytes "$spritename a\n$load x.bmp\n$groupstart\n$frame 0 0 1 1\n$frame 1 1 1 1\n$groupend\n"

/-- Environment of `group_script`. -/
def group_env : Env decimal := demo_env [(qc, group_script), (bytes "./x.bmp", bmp8)]

/-- The state in which `main` calls `finish_sprite` for the last sprite: the result of
`parse_script` on the initial state. -/
def parsed {fl : CFloat} (env : Env fl) (buffer_size : Int) (script : List Nat) :
    Option (State fl) :=
  (parse_script env (script.length + 1) (init_state env buffer_size none true qc script)).toOption

/-- The header chunk at the start of an output, if any. -/
def header_of {fl : CFloat} : List (Chunk fl) → Option (dsprite_t fl)
  | Chunk.header h :: _ => some h
  | _ => none

/-- The number of frame-type tags in an output. -/
def count_tags {fl : CFloat} : List (Chunk fl) → Nat
  | [] => 0
  | Chunk.frametype _ :: rest => count_tags rest + 1
  | _ :: rest => count_tags rest

/-- A sprite of three frames followed by a sprite holding one group; the group's
frame needs 20 bytes of arena after the 51 bytes of the first sprite. -/
def two_sprite_script : List Nat :=
  bytes ("$spritename a\n$load x.bmp\n$frame 0 0 1 1\n$frame 0 0 1 1\n$frame 0 0 1 1\n" ++
    "$spritename b\n$groupstart\n$frame 0 0 2 2\n$groupend\n")

/-- Environment of `two_sprite_script`. -/
def two_sprite_env : Env decimal := demo_env [(qc, two_sprite_script), (bytes "./x.bmp", bmp8)]

/-- A frame whose `xl + w` exceeds the `int` range. -/
def overflow_script : List Nat :=
  bytes "$spritename a\n$load x.bmp\n$frame 2147483647 0 1 1\n"

/-- Environment of `overflow_script`. -/
def overflow_env : Env decimal := demo_env [(qc, overflow_script), (bytes "./x.bmp", bmp8)]

/-- A frame issued before any image was loaded. -/
def noimage_script : List Nat :=
  bytes "$spritename a\n$frame 2147483647 2147483647 1 1\n"

/-- Environment of `noimage_script`. -/
def noimage_env : Env decimal := demo_env [(qc, noimage_script)]

/-- A 2 by 2 8-bit bitmap whose header declares 257 colours used. -/
def bmp8_257 : List Nat :=
  bmp_header 1082 2 2 8 257 ++ List.replicate 1028 7 ++ [0, 1, 0, 0, 1, 1, 0, 0]

/-- A script loading `bmp8_257`. -/
def table_script : List Nat := bytes "$spritename a\n$load y.bmp\n"

/-- Environment of `table_script`. -/
def table_env : Env decimal := demo_env [(qc, table_script), (bytes "./y.bmp", bmp8_257)]

/-- The result of running `two_sprite_script` with a 128-byte arena. -/
def two_sprite_run : State decimal :=
  result_or (init_state two_sprite_env 128 none true qc [])
    (main_with two_sprite_env 128 none true qc)

/-- A script that opens a sprite and loads one image. -/
def load_script : List Nat := bytes "$spritename a\n$load x.bmp\n"

/-- Environment of `load_script`. -/
def load_env : Env decimal := demo_env [(qc, load_script), (bytes "./x.bmp", bmp8)]

/-- The state after `load_script`: a palette is established. -/
def loaded_state : State decimal :=
  result_or (init_state load_env INITIAL_BUFFER_SIZE none true qc [])
    (parse_script load_env (load_script.length + 1)
      (init_state load_env INITIAL_BUFFER_SIZE none true qc load_script))

/-- The state `loaded_state` when the interpreter has just read a further `$load` token,
the file name still to come. -/
def reload_state : State decimal :=
  { loaded_state with token := tok_load, scriptptr := bytes " x.bmp\n" }

/-- The state after the second load. -/
def reloaded_state : State decimal := result_or reload_state (directive load_env 1 reload_state)

/-- A 2 by 2 24-bit bitmap: stored rows `(3,2,1) (6,5,4)` and `(3,2,1) (9,8,7)` as RGB,
each padded to 8 bytes. -/
def bmp24 : List Nat :=
  bmp_header 54 2 2 24 0 ++ [1, 2, 3, 4, 5, 6, 0, 0] ++ [1, 2, 3, 7, 8, 9, 0, 0]

/-- Environment holding `bmp24` as `c.bmp`. -/
def bmp24_env : Env decimal := demo_env [(bytes "./c.bmp", bmp24)]

/-- The initial state of a run in `bmp24_env`: no palette established. -/
def bmp24_start : State decimal := init_state bmp24_env INITIAL_BUFFER_SIZE none true qc []

/-- The state after `load_bmp("c.bmp")` from `bmp24_start`. -/
def bmp24_loaded : State decimal :=
  result_or bmp24_start (load_bmp bmp24_env bmp24_start (bytes "c.bmp"))

/-- One sprite holding a group of three frames with intervals 0.1, 0.2 and 0.3. -/
def interval_script : List Nat :=
  bytes ("$spritename a\n$load x.bmp\n$groupstart\n$frame 0 0 1 1 0.1\n" ++
    "$frame 1 1 1 1 0.2\n$frame 0 0 2 2 0.3\n$groupend\n")

/-- Environment of `interval_script`. -/
def interval_env : Env decimal := demo_env [(qc, interval_script), (bytes "./x.bmp", bmp8)]

/-- The state in which `finish_sprite` serialises the sprite of `interval_script`. -/
def interval_state : State decimal :=
  finish_fields (result_or (init_state interval_env INITIAL_BUFFER_SIZE none true qc [])
    (parse_script interval_env (interval_script.length + 1)
      (init_state interval_env INITIAL_BUFFER_SIZE none true qc interval_script)))

/-- The descriptor at index `i` of `interval_state`. -/
def interval_desc (i : Int) : spritepackage_t decimal :=
  result_or (interval_env.junk_frame 0) (frame_desc interval_state i)

/-- The three children of the group of `interval_state`. -/
def interval_children : List (spritepackage_t decimal) :=
  [interval_desc 1, interval_desc 2, interval_desc 3]

/-- The intervals written for a list of chunks. -/
def intervals_of {fl : CFloat} : List (Chunk fl) → List fl.F
  | [] => []
  | Chunk.interval t :: rest => t :: intervals_of rest
  | _ :: rest => intervals_of rest

/-! ## The token buffer

`get_token` above keeps the token as a list.  The source stores it in the
buffer `token` of `token_size` bytes, enlarged by `ensure_token_capacity`; the
definitions below follow that code, so that the two can be compared. -/

/-- The constant `INITIAL_TOKEN_SIZE`. -/
def INITIAL_TOKEN_SIZE : Nat := 1024

/-- A `size_t` value converted to `ptrdiff_t`. -/
def to_ptrdiff (n : Int) : Int :=
  if n < 9223372036854775808 then n else n - 18446744073709551616

/-- The function `ensure_token_capacity`, on the buffer itself (`token_size` is
its length): `alloc n` tells whether the allocator grants `n` bytes, and the
bytes added by `realloc` have the content `junk`. -/
def ensure_token_capacity (alloc : Int → Bool) (junk : Nat → Nat) (token : List Nat)
    (needed : Int) : Except Err (List Nat) :=
  if needed > (token.length : Int) then
    if alloc (wrap_size (needed * 2)) then
      .ok ((token ++ (List.range ((wrap_size (needed * 2)).toNat - token.length)).map
        (fun k => junk (token.length + k))).take (wrap_size (needed * 2)).toNat)
    else .error Err.alloc_failed
  else .ok token

/-- The store `*token_p++ = c` of the token loops with the capacity test that
precedes it; `pos` is `token_p - token`. -/
def token_store (alloc : Int → Bool) (junk : Nat → Nat) (token : List Nat) (pos : Nat)
    (c : Nat) : Except Err (List Nat) :=
  (if (pos : Int) ≥ to_ptrdiff (wrap_size ((token.length : Int) - 1)) then
      ensure_token_capacity alloc junk token (wrap_size ((token.length : Int) * 2))
    else .ok token) >>= fun t => put t pos c

/-- The unquoted-token loop on the buffer: the text from the cursor, the
buffer and `token_p - token`; result: the buffer with the terminating NUL
stored, and the cursor.  (With no text left the loop would read the NUL that
`start_script_parse` puts after the script; `get_token` never enters the loop
in that situation.) -/
def read_unquoted_buf (alloc : Int → Bool) (junk : Nat → Nat) :
    List Nat → List Nat → Nat → Except Err (List Nat × List Nat)
  | [], token, pos => (put token pos 0) >>= fun t => .ok (t, [])
  | c :: rest, token, pos =>
    if char_of_byte c ≤ 32 then
      (put token pos 0) >>= fun t =>
        .ok (t, match rest with
          | [] => []
          | _ :: _ => c :: rest)
    else
      (token_store alloc junk token pos c) >>= fun t1 =>
        match rest with
        | [] => (put t1 (pos + 1) 0) >>= fun t => .ok (t, [])
        | _ :: _ => read_unquoted_buf alloc junk rest t1 (pos + 1)

/-- Spec-side reading of an unquoted token: a character ends the token when
it is white space or a control character, that is when its byte is at most 32. -/
def is_blank (c : Nat) : Bool := decide (c ≤ 32)

/-- The terminators of the source: characters whose value as a `char` is at
most 32. -/
def ends_token (c : Nat) : Bool := decide (char_of_byte c ≤ 32)

/-! ## Arena contents (specification side) -/

/-- The arena content after the bytes `bs` are stored at offset `off`. -/
def lump_write (lump : Int → Nat) (off : Int) (bs : List Nat) : Int → Nat :=
  fun o => if off ≤ o ∧ o < off + bs.length then bs.getD (o - off).toNat 0 else lump o

/-- The `n` bytes of `img` starting at index `source`. -/
def copied_row (img : List Nat) (source : Int) (n : Nat) : List Nat :=
  (List.range n).map (fun (k : Nat) => img.getD (source + (k : Int)).toNat 0)

/-- The bytes the pixel loops of `grab_frame` read: `n` rows of `w` bytes, the first at index
`source`, each next one `width` bytes further. -/
def copied_rect (img : List Nat) (width : Int) (w : Nat) : Nat → Int → List Nat
  | 0, _ => []
  | n + 1, source => copied_row img source w ++ copied_rect img width w n (source + width)

/-- Spec-side pixel block of a frame: row-major, top row first,
`image[(yl + y) * W + (xl + x)]` for `y` in `0 .. h - 1` and `x` in `0 .. w - 1`. -/
def frame_pixels (img : List Nat) (width : Int) (r : Rect) : List Nat :=
  (List.range r.h.toNat).flatMap (fun (y : Nat) =>
    (List.range r.w.toNat).map (fun (x : Nat) =>
      img.getD ((r.yl + (y : Int)) * width + (r.xl + (x : Int))).toNat 0))

/-- The sixteen bytes of a frame header in memory. -/
def frame_bytes (hd : dspriteframe_t) : List Nat :=
  int32_bytes hd.origin0 ++ int32_bytes hd.origin1 ++ int32_bytes hd.width ++
    int32_bytes hd.height

/-- Two states hold the same arena as far as recorded frames go: same content, same cursor
offset, same image, and every descriptor below `framecount` points at the same offset and
has its other fields unchanged. -/
def SameArena {fl : CFloat} (s t : State fl) : Prop :=
  t.lump = s.lump ∧ t.plump - t.lumpbuffer = s.plump - s.lumpbuffer ∧
  t.framecount = s.framecount ∧ t.byteimage = s.byteimage ∧
  t.byteimagewidth = s.byteimagewidth ∧ t.byteimageheight = s.byteimageheight ∧
  t.emitted = s.emitted ∧
  (s.frames.length < 2147483648 → t.frames.length < 2147483648) ∧
  ∀ (i : Nat) (f : spritepackage_t fl), (i : Int) < s.framecount → s.frames[i]? = some f →
    ∃ f', t.frames[i]? = some f' ∧ f'.pdata - t.lumpbuffer = f.pdata - s.lumpbuffer ∧
      f'.type = f.type ∧ f'.interval = f.interval ∧ f'.numgroupframes = f.numgroupframes

/-- Descriptor `i` is a recorded frame whose payload, the header `hd` followed by the
pixel bytes `px`, lies in the arena below the write cursor. -/
def Stored {fl : CFloat} (s : State fl) (i : Nat) (hd : dspriteframe_t) (px : List Nat) : Prop :=
  s.frames.length < 2147483648 ∧ (i : Int) < s.framecount ∧
  ∃ f, s.frames[i]? = some f ∧ 0 ≤ f.pdata - s.lumpbuffer ∧
    f.pdata - s.lumpbuffer + 16 + (px.length : Int) ≤ s.plump - s.lumpbuffer ∧
    f.pdata - s.lumpbuffer + 16 + (px.length : Int) ≤ s.buffer_size ∧
    ∀ k : Nat, k < 16 + px.length →
      s.lump (f.pdata - s.lumpbuffer + (k : Int)) = (frame_bytes hd ++ px).getD k 0

/-- What one successful `grab_frame` call has done, in terms of the state `s` before it:
`a` is the rectangle read (with the state after its four tokens), `hd` the frame header
and `f` the descriptor recorded at index `s.framecount`. -/
structure Grabbed {fl : CFloat} (s s' : State fl) (a : Rect × State fl) (hd : dspriteframe_t)
    (f : spritepackage_t fl) : Prop where
  accepted : bad_coordinates a.1.xl a.1.yl a.1.w a.1.h s.byteimagewidth s.byteimageheight = false
  content : s'.lump = lump_write s.lump (s.plump - s.lumpbuffer)
    (frame_bytes hd ++ copied_rect s.byteimage s.byteimagewidth a.1.w.toNat a.1.h.toNat
      (wrap32 (a.1.yl * s.byteimagewidth) + a.1.xl))
  cursor : s'.plump - s'.lumpbuffer =
    s.plump - s.lumpbuffer + 16 + ((a.1.h.toNat * a.1.w.toNat : Nat) : Int)
  start_nonneg : 0 ≤ s.plump - s.lumpbuffer
  fits : s.plump - s.lumpbuffer + 16 + ((a.1.h.toNat * a.1.w.toNat : Nat) : Int) ≤ s'.buffer_size
  count_nonneg : 0 ≤ s.framecount
  count : s'.framecount = wrap32 (s.framecount + 1)
  slot : s.framecount.toNat < s'.frames.length
  history : s'.emitted = s.emitted ++ [hd]
  desc : s'.frames[s.framecount.toNat]? = some f
  desc_at : f.pdata - s'.lumpbuffer = s.plump - s.lumpbuffer
  desc_type : f.type = SPR_SINGLE
  capacity : s.frames.length < 2147483648 → s'.frames.length < 2147483648
  older : ∀ (i : Nat) (g : spritepackage_t fl), (i : Int) < s.framecount →
    s.frames[i]? = some g →
    ∃ g', s'.frames[i]? = some g' ∧ g'.pdata - s'.lumpbuffer = g.pdata - s.lumpbuffer ∧
      g'.type = g.type ∧ g'.interval = g.interval ∧ g'.numgroupframes = g.numgroupframes
  reads : ∀ y x : Nat, y < a.1.h.toNat → x < a.1.w.toNat →
    0 ≤ wrap32 (a.1.yl * s.byteimagewidth) + a.1.xl + y * s.byteimagewidth + x ∧
    wrap32 (a.1.yl * s.byteimagewidth) + a.1.xl + y * s.byteimagewidth + x < s.byteimage.length
  image : s'.byteimage = s.byteimage ∧ s'.byteimagewidth = s.byteimagewidth ∧
    s'.byteimageheight = s.byteimageheight
  size : hd.width = a.1.w ∧ hd.height = a.1.h
  header : ∃ (x y z : Bool × List Nat × List Nat),
    get_token false a.2.scriptptr a.2.token = .ok x ∧
    f.interval = (if x.1 then fl.atof x.2.2 else fl.tenth) ∧
    get_token false x.2.1 x.2.2 = .ok y ∧
    (if y.1 then get_token false y.2.1 y.2.2 else .ok y) = .ok z ∧
    hd = ⟨if y.1 then wrap32 (- atoi y.2.2) else wrap32 (- shr1 a.1.w),
          if y.1 then atoi z.2.2 else shr1 a.1.h, a.1.w, a.1.h⟩ ∧
    s'.scriptptr = z.2.1 ∧ s'.token = z.2.2

/-- A frame header and pixel block that fit the file format: the four header fields are
`int` values and the block has `width * height` bytes. -/
def Payload (hd : dspriteframe_t) (px : List Nat) : Prop :=
  (-2147483648 ≤ hd.origin0 ∧ hd.origin0 < 2147483648) ∧
  (-2147483648 ≤ hd.origin1 ∧ hd.origin1 < 2147483648) ∧
  (-2147483648 ≤ hd.width ∧ hd.width < 2147483648) ∧
  (-2147483648 ≤ hd.height ∧ hd.height < 2147483648) ∧
  0 ≤ wrap32 (hd.width * hd.height) ∧ px.length = (wrap32 (hd.width * hd.height)).toNat

/-! ## Worked inputs for frames -/

/-- A 4 by 4 8-bit bitmap with a two-entry colour table; stored rows, bottom first,
`0 1 0 1`, `1 0 1 0`, `0 0 1 1`, `1 1 0 0`. -/
def bmp8x4 : List Nat :=
  bmp_header 62 4 4 8 2 ++ [1, 2, 3, 0, 4, 5, 6, 0] ++
    [0, 1, 0, 1, 1, 0, 1, 0, 0, 0, 1, 1, 1, 1, 0, 0]

/-- One sprite, one 8-bit image, one 4 by 4 frame at the origin with no optional
arguments. -/
def square_script : List Nat := bytes "$spritename a\n$load z.bmp\n$frame 0 0 4 4\n"

/-- Environment of `square_script`. -/
def square_env : Env decimal := demo_env [(qc, square_script), (bytes "./z.bmp", bmp8x4)]

/-- The state in which `parse_script` calls `grab_frame` for the frame of `square_script`:
the token `$frame` has just been read. -/
def square_state : State decimal :=
  { result_or (init_state square_env INITIAL_BUFFER_SIZE none true qc [])
      (parse_script square_env 27
        (init_state square_env INITIAL_BUFFER_SIZE none true qc
          (bytes "$spritename a\n$load z.bmp\n"))) with
    token := tok_frame, scriptptr := bytes " 0 0 4 4\n" }

/-- The rectangle read for the frame of `square_script`, with the state after its tokens. -/
def square_rect : Rect × State decimal :=
  result_or (⟨0, 0, 0, 0⟩, square_state) (frame_rect square_state)

/-- The state after `grab_frame` for the frame of `square_script`. -/
def square_frame : State decimal :=
  result_or square_state (grab_frame square_env square_state)

/-- The output file of `square_script`. -/
def square_file : OutFile decimal :=
  (result_or square_state (main square_env none true qc)).files.getD 0 ⟨[], [], []⟩

/-- The frame headers in an output. -/
def frames_of {fl : CFloat} : List (Chunk fl) → List dspriteframe_t
  | [] => []
  | Chunk.frame f :: rest => f :: frames_of rest
  | _ :: rest => frames_of rest

/-- The pixel blocks in an output. -/
def pixels_of {fl : CFloat} : List (Chunk fl) → List (List Nat)
  | [] => []
  | Chunk.pixels p :: rest => p :: pixels_of rest
  | _ :: rest => pixels_of rest

/-- The frame-type tags in an output. -/
def tags_of {fl : CFloat} : List (Chunk fl) → List Int
  | [] => []
  | Chunk.frametype t :: rest => t :: tags_of rest
  | _ :: rest => tags_of rest

/-- The state `loaded_state` (a 2 by 2 image is decoded) when `$frame` has just been read
and the rectangle `2147483647 0 1 1` follows. -/
def wide_state : State decimal :=
  { loaded_state with token := tok_frame, scriptptr := bytes " 2147483647 0 1 1\n" }

/-! ## Worked inputs for numeric arguments -/

/-- A frame whose arguments are not well-formed numbers: `abc` for `xl`, `2x` for `w`,
`1y` and `2z` for the origin. -/
def malformed_script : List Nat :=
  bytes "$spritename a\n$load x.bmp\n$frame abc 0 2x 2 1 1y 2z\n"

/-- Environment of `malformed_script`. -/
def malformed_env : Env decimal := demo_env [(qc, malformed_script), (bytes "./x.bmp", bmp8)]

/-- The output file of `malformed_script`. -/
def malformed_file : OutFile decimal :=
  (result_or (init_state malformed_env INITIAL_BUFFER_SIZE none true qc [])
    (main malformed_env none true qc)).files.getD 0 ⟨[], [], []⟩

/-- The state `loaded_state` when `$frame` has just been read and the arguments
`abc 0 2x 2` follow. -/
def malformed_state : State decimal :=
  { loaded_state with token := tok_frame, scriptptr := bytes " abc 0 2x 2\n" }

/-- The rectangle read in `malformed_state`. -/
def malformed_rect : Rect × State decimal :=
  result_or (⟨0, 0, 0, 0⟩, malformed_state) (frame_rect malformed_state)

/-! ## The output path -/

/-- What stays fixed during a run: the output override `out` given on the command line
and the script directory `dir`; and, when `c` is true, the override has been used. -/
def SessionIs {fl : CFloat} (out : Option (List Nat)) (dir : List Nat) (c : Bool)
    (s : State fl) : Prop :=
  s.cli_output_name = out ∧ s.spritedir = dir ∧ (c = true → s.cli_output_consumed = true)

/-- The conditional flush at the start of the `$spritename` branch. -/
def flush_pending {fl : CFloat} (env : Env fl) (s : State fl) : Except Err (State fl) :=
  if s.framecount > 0 then finish_sprite env s else pure s

/-- The names of the files written by a run. -/
def names_of {fl : CFloat} (r : Except Err (State fl)) : Option (List (List Nat)) :=
  r.toOption.map (fun s => s.files.map (fun o => o.name))

/-- The initial state of a run of `two_sprite_script` when `$spritename` has just been
read for the first time; `out` is the override given on the command line, if any. -/
def name_state (out : Option (List Nat)) : State decimal :=
  { init_state two_sprite_env INITIAL_BUFFER_SIZE out true qc [] with
    token := tok_spritename, scriptptr := bytes " a\n" }

/-- The state after that first `$spritename`. -/
def named_state (out : Option (List Nat)) : State decimal :=
  result_or (name_state out) (do_spritename two_sprite_env (name_state out))

/-! ## Group blocks (specification side) -/

/-- The loop of a `$groupstart` block, told from the spec's side: `BlockRun env g t n w`
says that from the loop head `t` the block accepts some `$frame` and `$load` directives,
`n` of them `$frame`, all of which complete, and is then at the loop head `w`.  `g` is the
index of the group's header descriptor. -/
inductive BlockRun {fl : CFloat} (env : Env fl) (g : Int) : State fl → Nat → State fl → Prop
  | here (t : State fl) : BlockRun env g t 0 t
  | frame {t u v w : State fl} {n : Nat} :
      next_token true t = .ok (true, u) → cstr u.token = tok_frame →
      group_frame env g u = .ok v → BlockRun env g v n w → BlockRun env g t (n + 1) w
  | load {t u v w : State fl} {n : Nat} :
      next_token true t = .ok (true, u) → cstr u.token ≠ tok_frame →
      cstr u.token = tok_load → do_load env u = .ok v → BlockRun env g v n w →
      BlockRun env g t n w

/-- The block closes at the loop head `t`, leaving the state `v`: `$groupend` is read, or
the script ends. -/
def BlockCloses {fl : CFloat} (t v : State fl) : Prop :=
  next_token true t = .ok (false, v) ∨
  (next_token true t = .ok (true, v) ∧ cstr v.token ≠ tok_frame ∧ cstr v.token ≠ tok_load ∧
    cstr v.token = tok_groupend)

/-- The block fails at the loop head `t` with the error `e`: the next token cannot be read
(a quoted token without its closing quote), or it is `$frame` or `$load` and that
directive fails, or it is a token other than `$frame`, `$load` and `$groupend`. -/
def BlockFails {fl : CFloat} (env : Env fl) (g : Int) (t : State fl) (e : Err) : Prop :=
  next_token true t = .error e ∨
  ∃ u, next_token true t = .ok (true, u) ∧
    ((cstr u.token = tok_frame ∧ group_frame env g u = .error e) ∨
     (cstr u.token ≠ tok_frame ∧ cstr u.token = tok_load ∧ do_load env u = .error e) ∨
     (cstr u.token ≠ tok_frame ∧ cstr u.token ≠ tok_load ∧ cstr u.token ≠ tok_groupend ∧
       e = Err.group_expected))

/-- The group header at index `g` is recorded with the child count `k`. -/
def GroupHeader {fl : CFloat} (g : Int) (k : Int) (s : State fl) : Prop :=
  0 ≤ g ∧ g < s.framecount ∧ s.frames.length < 2147483648 ∧
  ∃ d, s.frames[g.toNat]? = some d ∧ d.type = SPR_GROUP ∧ d.numgroupframes = k

/-- The state in which the `$groupstart` branch enters its loop: one more descriptor, the
header at the old `framecount` typed Group with no children. -/
def group_open {fl : CFloat} (s : State fl) (f : spritepackage_t fl) : State fl :=
  { s with
    framecount := wrap32 (s.framecount + 1)
    frames := s.frames.set s.framecount.toNat { f with type := SPR_GROUP, numgroupframes := 0 } }

/-- The state `loaded_state` when `$groupstart` has just been read and the text `rest`
follows. -/
def group_state (rest : List Nat) : State decimal :=
  { loaded_state with token := tok_groupstart, scriptptr := rest }

/-- A block of two frames, closed by `$groupend`. -/
def block_two : List Nat := bytes "\n$frame 0 0 1 1\n$frame 1 1 1 1\n$groupend\n"

/-- The child count of the header at index 0 after a `$groupstart` block, if the block
completes. -/
def block_count (rest : List Nat) : Option Int :=
  (do_group load_env 100 (group_state rest)).toOption.bind (fun s =>
    (frame_desc s 0).toOption.map (fun d => d.numgroupframes))

/-! ## Stored rows of a bitmap (specification side) -/

/-- The `k`-th row of `row_size` bytes counted from the read position of a stream, as the
pixel pass gets it: the bytes of the file when all of them are there, else zero bytes. -/
def nth_row (f : FILE) (row_size k : Nat) : List Nat :=
  (fread_or_zero { f with pos := f.pos + k * row_size } row_size).1

/-- The byte the pixel pass stores for pixel `x` of a row: the byte itself for 8 bits per
pixel, the index of the nearest palette entry for 24 and 32. -/
def pixel_value (bpp : Int) (pal row : List Nat) (x : Nat) : Nat :=
  if bpp = 8 then row.getD x 0
  else ((nearest pal (pixel_at bpp row x).1 (pixel_at bpp row x).2.1
    (pixel_at bpp row x).2.2) % 256).toNat

/-- A row buffer holds `m` pixels of `bpp` bits. -/
def RowFits (bpp : Int) (len m : Nat) : Prop :=
  (bpp = 8 → m ≤ len) ∧ (bpp = 24 → 3 * m ≤ len) ∧ (bpp = 32 → 4 * m ≤ len)

/-! ## Worked inputs for the pixel pass -/

/-- The initial state of a run in `load_env`. -/
def load_start : State decimal := init_state load_env INITIAL_BUFFER_SIZE none true qc []

/-- The bitmap `bmp8` cut short: the second stored row has one byte of its four. -/
def bmp8_short : List Nat :=
  bmp_header 62 2 2 8 2 ++ [1, 2, 3, 0, 4, 5, 6, 0] ++ [0, 1, 0, 0, 1]

/-- Environment holding the bitmap cut short as `s.bmp`. -/
def short_env : Env decimal := demo_env [(bytes "./s.bmp", bmp8_short)]

/-- The initial state of a run in `short_env`. -/
def short_start : State decimal := init_state short_env INITIAL_BUFFER_SIZE none true qc []

/-- The decoded image of a completed `load_bmp`. -/
def image_of (r : Except Err (State decimal)) : Option (List Nat) :=
  r.toOption.map (fun s => s.byteimage)

/-! ## Worked inputs for a supplied origin -/

/-- Two frames of the same 2 by 2 rectangle.  The first supplies the interval and the
origin `-1 1`, the values `-(w div 2)` and `h div 2` that the code uses when no origin is
given; the second omits both. -/
def origin_script : List Nat :=
  bytes "$spritename a\n$load x.bmp\n$frame 0 0 2 2 0.1 -1 1\n$frame 0 0 2 2\n"

/-- Environment of `origin_script`. -/
def origin_env : Env decimal := demo_env [(qc, origin_script), (bytes "./x.bmp", bmp8)]

/-- The output file of `origin_script`. -/
def origin_file : OutFile decimal :=
  (result_or (init_state origin_env INITIAL_BUFFER_SIZE none true qc [])
    (main origin_env none true qc)).files.getD 0 ⟨[], [], []⟩

/-- The state `loaded_state` when `$frame` has just been read and the rectangle `0 0 2 2`,
the interval `0.1` and the origin `1 1` follow. -/
def origin_state : State decimal :=
  { loaded_state with token := tok_frame, scriptptr := bytes " 0 0 2 2 0.1 1 1\n" }

/-- The rectangle read in `origin_state`, with the state after its tokens. -/
def origin_rect : Rect × State decimal :=
  result_or (⟨0, 0, 0, 0⟩, origin_state) (frame_rect origin_state)

/-- The state after `grab_frame` in `origin_state`. -/
def origin_frame : State decimal :=
  result_or origin_state (grab_frame load_env origin_state)

/-! ## Worked inputs for missing frame arguments -/

/-- A frame with one number where four are required, then a frame whose supplied origin
has one value where two are required. -/
def short_frame_script : List Nat :=
  bytes "$spritename a\n$load x.bmp\n$frame 1\n$frame 0 0 1 1 0.1 5\n"

/-- Environment of `short_frame_script`. -/
def short_frame_env : Env decimal :=
  demo_env [(qc, short_frame_script), (bytes "./x.bmp", bmp8)]

/-- The output file of `short_frame_script`. -/
def short_frame_file : OutFile decimal :=
  (result_or (init_state short_frame_env INITIAL_BUFFER_SIZE none true qc [])
    (main short_frame_env none true qc)).files.getD 0 ⟨[], [], []⟩

/-- The state `loaded_state` when `$frame` has just been read and the line holds the one
number `1`; a directive follows on the next line. -/
def short_frame_state : State decimal :=
  { loaded_state with token := tok_frame, scriptptr := bytes " 1\n$type oriented\n" }

/-- The rectangle read in `short_frame_state`, with the state after the four calls. -/
def short_frame_rect : Rect × State decimal :=
  result_or (⟨0, 0, 0, 0⟩, short_frame_state) (frame_rect short_frame_state)

/-! ## Worked inputs for the descriptor array -/

/-- The descriptor array has the length `max_frames`, a positive `int`, and the frame
count is within it. -/
def CapInv {fl : CFloat} (s : State fl) : Prop :=
  s.frames.length = s.max_frames.toNat ∧ 0 ≤ s.framecount ∧ s.framecount ≤ s.max_frames ∧
    0 < s.max_frames ∧ s.max_frames < 2147483648

/-- The state `loaded_state` with 998 descriptors counted, two short of the initial
capacity of 1000, and the text `rest` still to read. -/
def near_full (rest : List Nat) : State decimal :=
  { loaded_state with framecount := 998, scriptptr := rest }

/-- The frame count, `max_frames` and the length of the descriptor array after a run. -/
def capacity_of (r : Except Err (State decimal)) : Option (Int × Int × Nat) :=
  r.toOption.map (fun s => (s.framecount, s.max_frames, s.frames.length))

/-! ## The error `No frames` -/

/-- The result is not the error `No frames` of `finish_sprite`. -/
def NoFramesErr {α : Type} (x : Except Err α) : Prop := x ≠ .error Err.no_frames

/-- Three `$spritename` blocks, the first and the last without a frame. -/
def empty_block_script : List Nat :=
  bytes "$spritename a\n$type oriented\n$spritename b\n$load x.bmp\n$frame 0 0 1 1\n$spritename c\n$sync\n"

/-- Environment of `empty_block_script`. -/
def empty_block_env : Env decimal :=
  demo_env [(qc, empty_block_script), (bytes "./x.bmp", bmp8)]

/-! ## Conditions under which a frame is stored -/

/-- The state `t` reached inside `grab_frame` from `s` still has the arena cursor, the
arena, the image and the frame count of `s`, and the descriptor array of `t` has an entry
at index `framecount`. -/
structure Ready {fl : CFloat} (s t : State fl) : Prop where
  plump : t.plump = s.plump
  lumpbuffer : t.lumpbuffer = s.lumpbuffer
  buffer_size : t.buffer_size = s.buffer_size
  image : t.byteimage = s.byteimage
  width : t.byteimagewidth = s.byteimagewidth
  count : t.framecount = s.framecount
  count_nonneg : 0 ≤ t.framecount
  slot : t.framecount.toNat < t.frames.length
  history : t.emitted = s.emitted

/-- The converted rectangle lies inside the decoded image, whose pixel count fits an
`int`. -/
def InsideImage {fl : CFloat} (s : State fl) (r : Rect) : Prop :=
  0 ≤ r.xl ∧ 0 ≤ r.yl ∧ 0 < r.w ∧ 0 < r.h ∧ r.xl + r.w ≤ s.byteimagewidth ∧
    r.yl + r.h ≤ s.byteimageheight ∧ s.byteimagewidth * s.byteimageheight < 2147483648 ∧
    (s.byteimage.length : Int) = s.byteimagewidth * s.byteimageheight

/-- The arena has room for a frame of `r.w * r.h` pixels after its 16-byte header. -/
def ArenaRoom {fl : CFloat} (s : State fl) (r : Rect) : Prop :=
  0 ≤ s.plump - s.lumpbuffer ∧ s.plump - s.lumpbuffer + 16 + r.w * r.h ≤ s.buffer_size ∧
    s.buffer_size < 18446744073709551616

/-- The result is not the error `Bad frame coordinates` of `grab_frame`. -/
def NoCoordErr {α : Type} (x : Except Err α) : Prop := x ≠ .error Err.bad_frame_coordinates

/-- The state `loaded_state` when `$frame` has just been read and the arguments
`abc 0 2x 2 1 1y 2z` follow: rectangle, interval and origin. -/
def malformed_frame_state : State decimal :=
  { loaded_state with token := tok_frame, scriptptr := bytes " abc 0 2x 2 1 1y 2z\n" }

/-- The colour of pixel `x` in row `y` of the image, as stored in a true-colour file:
the rows are stored from `data_offset` with the last row of the image first, and a row
that cannot be read in full counts as zero bytes. -/
def file_pixel (data : List Nat) (b : BmpInfo) (y x : Nat) : Color :=
  pixel_at b.bpp (nth_row ⟨data, b.data_offset.toNat⟩ (row_size_of b.width b.bpp).toNat
    (b.height.toNat - 1 - y)) x

/-! ## A float with a not-a-number value -/

/-- The text starts with the letters `nan`, in either case. -/
def starts_nan : List Nat → Bool
  | a :: b :: c :: _ => (a = 110 ∨ a = 78) ∧ (b = 97 ∨ b = 65) ∧ (c = 110 ∨ c = 78)
  | _ => false

/-- The C library's `atof` with the not-a-number input of `strtod`: after white space and
an optional sign the letters `nan` give NaN, written `none`; any other text is read as a
decimal numeral. -/
def atof_nan (s : List Nat) : Option ℚ :=
  match atoi_skip (cstr s) with
  | 45 :: rest => if starts_nan rest then none else some (atof_decimal s)
  | 43 :: rest => if starts_nan rest then none else some (atof_decimal s)
  | rest => if starts_nan rest then none else some (atof_decimal s)

/-- The float `decimal` with one more value, NaN (`none`): a sum with a NaN operand is
NaN and every comparison with a NaN operand is false, as for the `float` of C. -/
@[reducible] def nan_decimal : CFloat :=
  { F := Option ℚ
    zero := some 0
    tenth := some (1 / 10)
    add := fun a b =>
      match a, b with
      | some x, some y => some (x + y)
      | _, _ => none
    atof := atof_nan
    le := fun a b =>
      match a, b with
      | some x, some y => decide (x ≤ y)
      | _, _ => false
    sqrt := fun n => some (Nat.sqrt n.toNat : ℚ) }

/-- The environment `demo_env` for the float `nan_decimal`. -/
def nan_env (files : List (List Nat × List Nat)) : Env nan_decimal :=
  { fs := lookup_file files
    creatable := fun _ => true
    lump_base := 4096
    realloc := fun old _ => some (old + 65536)
    junk := fun _ => 0
    junk_frame := fun _ => ⟨0, 0, (some 0 : Option ℚ), 0⟩ }

/-- One sprite holding a group of three frames with intervals 0.1, `nan` and 0.3. -/
def nan_interval_script : List Nat :=
  bytes ("$spritename a\n$load x.bmp\n$groupstart\n$frame 0 0 1 1 0.1\n" ++
    "$frame 1 1 1 1 nan\n$frame 0 0 2 2 0.3\n$groupend\n")

/-- Environment of `nan_interval_script`. -/
def nan_interval_env : Env nan_decimal :=
  nan_env [(qc, nan_interval_script), (bytes "./x.bmp", bmp8)]

/-- The state in which `finish_sprite` serialises the sprite of `nan_interval_script`. -/
def nan_interval_state : State nan_decimal :=
  finish_fields (result_or (init_state nan_interval_env INITIAL_BUFFER_SIZE none true qc [])
    (parse_script nan_interval_env (nan_interval_script.length + 1)
      (init_state nan_interval_env INITIAL_BUFFER_SIZE none true qc nan_interval_script)))

/-- The descriptor at index `i` of `nan_interval_state`. -/
def nan_interval_desc (i : Int) : spritepackage_t nan_decimal :=
  result_or (nan_interval_env.junk_frame 0) (frame_desc nan_interval_state i)

/-- The child counts written for a list of chunks. -/
def group_counts_of {fl : CFloat} : List (Chunk fl) → List Int
  | [] => []
  | Chunk.group n :: rest => n :: group_counts_of rest
  | _ :: rest => group_counts_of rest
/-! ## Machine arithmetic -/

theorem wrap32_of_range (n : Int) (h1 : -2147483648 ≤ n) (h2 : n < 2147483648) :
    wrap32 n = n := by
  unfold wrap32; omega

theorem wrap32_range (n : Int) : -2147483648 ≤ wrap32 n ∧ wrap32 n < 2147483648 := by
  unfold wrap32; omega

theorem little_long_of_range (v : Int) (h1 : -2147483648 ≤ v) (h2 : v < 2147483648) :
    little_long v = v := by
  unfold little_long int32_at le_int32 int32_bytes wrap32
  simp only [List.getD_cons_zero, List.getD_cons_succ]
  omega

/-! ## Nearest-colour scan -/

theorem getD_lt_of_forall (pal : List Nat) (h : ∀ x ∈ pal, x < 256) (i : Nat) :
    pal.getD i 0 < 256 := by
  rw [List.getD_eq_getElem?_getD]
  cases hi : pal[i]? with
  | none => simp
  | some v =>
    simp only [Option.getD_some]
    exact h v (List.getElem?_mem hi)

theorem sq_byte_diff_bound (a b : Int) (ha0 : 0 ≤ a) (ha : a < 256) (hb0 : 0 ≤ b) (hb : b < 256) :
    0 ≤ (a - b) * (a - b) ∧ (a - b) * (a - b) ≤ 65025 := by
  constructor
  · exact mul_self_nonneg _
  · nlinarith

theorem nearest_distance_eq (pal : List Nat) (hpal : ∀ x ∈ pal, x < 256) (r g b : Nat)
    (hr : r < 256) (hg : g < 256) (hb : b < 256) (k : Nat) :
    wrap32 (wrap32 (wrap32 (((r : Int) - (pal.getD ((k : Int) * 3).toNat 0 : Int)) *
        ((r : Int) - (pal.getD ((k : Int) * 3).toNat 0 : Int))) +
      wrap32 (((g : Int) - (pal.getD ((k : Int) * 3 + 1).toNat 0 : Int)) *
        ((g : Int) - (pal.getD ((k : Int) * 3 + 1).toNat 0 : Int)))) +
      wrap32 (((b : Int) - (pal.getD ((k : Int) * 3 + 2).toNat 0 : Int)) *
        ((b : Int) - (pal.getD ((k : Int) * 3 + 2).toNat 0 : Int)))) = sqdist pal r g b k ∧
    sqdist pal r g b k ≤ 195075 := by
  have e0 : ((k : Int) * 3).toNat = 3 * k := by omega
  have e1 : ((k : Int) * 3 + 1).toNat = 3 * k + 1 := by omega
  have e2 : ((k : Int) * 3 + 2).toNat = 3 * k + 2 := by omega
  rw [e0, e1, e2]
  have p0 := getD_lt_of_forall pal hpal (3 * k)
  have p1 := getD_lt_of_forall pal hpal (3 * k + 1)
  have p2 := getD_lt_of_forall pal hpal (3 * k + 2)
  have b0 := sq_byte_diff_bound (r : Int) (pal.getD (3 * k) 0 : Int)
    (by omega) (by omega) (by omega) (by omega)
  have b1 := sq_byte_diff_bound (g : Int) (pal.getD (3 * k + 1) 0 : Int)
    (by omega) (by omega) (by omega) (by omega)
  have b2 := sq_byte_diff_bound (b : Int) (pal.getD (3 * k + 2) 0 : Int)
    (by omega) (by omega) (by omega) (by omega)
  unfold sqdist
  simp only [pow_two]
  generalize ((r : Int) - (pal.getD (3 * k) 0 : Int)) * ((r : Int) - (pal.getD (3 * k) 0 : Int)) = A at *
  generalize ((g : Int) - (pal.getD (3 * k + 1) 0 : Int)) *
    ((g : Int) - (pal.getD (3 * k + 1) 0 : Int)) = B at *
  generalize ((b : Int) - (pal.getD (3 * k + 2) 0 : Int)) *
    ((b : Int) - (pal.getD (3 * k + 2) 0 : Int)) = C at *
  unfold wrap32
  omega

theorem nearest_loop_spec (pal : List Nat) (hpal : ∀ x ∈ pal, x < 256) (r g b : Nat)
    (hr : r < 256) (hg : g < 256) (hb : b < 256) :
    ∀ (n k bm : Nat) (bd : Int),
      ((k = 0 ∧ bm = 0 ∧ bd = 999999) ∨
        (bm < k ∧ bd = sqdist pal r g b bm ∧ (∀ j, j < k → bd ≤ sqdist pal r g b j) ∧
          ∀ j, j < bm → bd < sqdist pal r g b j)) →
      ∃ m : Nat, nearest_loop pal r g b n k bm bd = m ∧
        ((n = 0 ∧ k = 0 ∧ m = 0) ∨
          (m < k + n ∧ (∀ j, j < k + n → sqdist pal r g b m ≤ sqdist pal r g b j) ∧
            ∀ j, j < m → sqdist pal r g b m < sqdist pal r g b j)) := by
  intro n
  induction n with
  | zero =>
    intro k bm bd h
    refine ⟨bm, rfl, ?_⟩
    rcases h with ⟨hk, hbm, _⟩ | ⟨h1, h2, h3, h4⟩
    · exact Or.inl ⟨rfl, hk, hbm⟩
    · right
      subst h2
      exact ⟨by omega, fun j hj => h3 j (by omega), h4⟩
  | succ n ih =>
    intro k bm bd h
    obtain ⟨hd, hle⟩ := nearest_distance_eq pal hpal r g b hr hg hb k
    simp only [nearest_loop]
    rw [hd]
    have hk1 : ((k : Int) + 1) = ((k + 1 : Nat) : Int) := by push_cast; rfl
    rw [hk1]
    by_cases hlt : sqdist pal r g b k < bd
    · rw [if_pos hlt]
      obtain ⟨m, hm, hspec⟩ := ih (k + 1) k (sqdist pal r g b k) (Or.inr ⟨by omega, rfl, by
        intro j hj
        rcases h with ⟨hk, _, _⟩ | ⟨_, _, h3, _⟩
        · have : j = k := by omega
          subst this; exact le_refl _
        · by_cases hjk : j < k
          · exact le_of_lt (lt_of_lt_of_le hlt (h3 j hjk))
          · have : j = k := by omega
            subst this; exact le_refl _, by
        intro j hj
        rcases h with ⟨hk, _, _⟩ | ⟨_, _, h3, _⟩
        · omega
        · exact lt_of_lt_of_le hlt (h3 j hj)⟩)
      refine ⟨m, hm, ?_⟩
      rcases hspec with ⟨h0, _, _⟩ | ⟨h1, h2, h3⟩
      · omega
      · right
        exact ⟨by omega, fun j hj => h2 j (by omega), h3⟩
    · rw [if_neg hlt]
      rcases h with ⟨_, _, hbd⟩ | ⟨h1, h2, h3, h4⟩
      · omega
      · obtain ⟨m, hm, hspec⟩ := ih (k + 1) bm bd (Or.inr ⟨by omega, h2, by
          intro j hj
          by_cases hjk : j < k
          · exact h3 j hjk
          · have : j = k := by omega
            subst this; omega, h4⟩)
        refine ⟨m, hm, ?_⟩
        rcases hspec with ⟨h0, _, _⟩ | ⟨h1, h2, h3⟩
        · omega
        · right
          exact ⟨by omega, fun j hj => h2 j (by omega), h3⟩

/-- C4: for a palette of bytes and a pixel `(r, g, b)` of bytes, the index chosen by the
nearest-match scan of `load_bmp` is below 256, no entry among the 256 has a strictly
smaller squared distance, every lower-indexed entry has a strictly larger one, and the
byte stored in the image is that index. -/
theorem C4_nearest_is_first_minimum (pal : List Nat) (r g b : Nat)
    (hpal : ∀ x ∈ pal, x < 256) (hr : r < 256) (hg : g < 256) (hb : b < 256) :
    ∃ i : Nat, nearest pal r g b = (i : Int) ∧ i < 256 ∧
      ((nearest pal r g b) % 256).toNat = i ∧
      (∀ j, j < 256 → sqdist pal r g b i ≤ sqdist pal r g b j) ∧
      (∀ j, j < i → sqdist pal r g b i < sqdist pal r g b j) := by
  obtain ⟨m, hm, hspec⟩ := nearest_loop_spec pal hpal r g b hr hg hb 256 0 0 999999
    (Or.inl ⟨rfl, rfl, rfl⟩)
  have hm2 : nearest pal r g b = (m : Int) := by
    unfold nearest
    exact hm
  rcases hspec with ⟨h0, _, _⟩ | ⟨h1, h2, h3⟩
  · omega
  · refine ⟨m, hm2, by omega, ?_, fun j hj => h2 j (by omega), h3⟩
    rw [hm2]
    omega

/-- Witness for C4: a two-entry palette and a pixel nearest to the second entry. -/
theorem C4_nearest_is_first_minimum_witness :
    ∃ i : Nat, nearest [10, 20, 30, 40, 50, 60] 40 50 61 = (i : Int) ∧ i < 256 ∧
      ((nearest [10, 20, 30, 40, 50, 60] 40 50 61) % 256).toNat = i ∧
      (∀ j, j < 256 → sqdist [10, 20, 30, 40, 50, 60] 40 50 61 i ≤
        sqdist [10, 20, 30, 40, 50, 60] 40 50 61 j) ∧
      (∀ j, j < i → sqdist [10, 20, 30, 40, 50, 60] 40 50 61 i <
        sqdist [10, 20, 30, 40, 50, 60] 40 50 61 j) :=
  C4_nearest_is_first_minimum [10, 20, 30, 40, 50, 60] 40 50 61 (by decide) (by decide)
    (by decide) (by decide)


/-! ## Effects of the operations on the state -/

theorem bind_ok {α β : Type} {x : Except Err α} {f : α → Except Err β} {b : β}
    (h : (x >>= f) = .ok b) : ∃ a, x = .ok a ∧ f a = .ok b := by
  cases x with
  | error e => simp [bind, Except.bind] at h
  | ok a => exact ⟨a, rfl, h⟩

theorem next_token_ok {fl : CFloat} {crossline : Bool} {s : State fl} {r : Bool × State fl}
    (h : next_token crossline s = .ok r) :
    ∃ p t, r.2 = { s with scriptptr := p, token := t } := by
  unfold next_token at h
  obtain ⟨a, _, h2⟩ := bind_ok h
  simp only [pure, Except.pure, Except.ok.injEq] at h2
  exact ⟨a.2.1, a.2.2, by rw [← h2]⟩

theorem set_frame_ok {fl : CFloat} {s s' : State fl} {idx : Int}
    {g : spritepackage_t fl → spritepackage_t fl} (h : set_frame s idx g = .ok s') :
    ∃ l, s' = { s with frames := l } := by
  unfold set_frame at h
  split at h
  · simp at h
  · split at h
    · simp at h
    · simp only [Except.ok.injEq] at h
      exact ⟨_, h.symm⟩

theorem poke_ok {fl : CFloat} {s s' : State fl} {addr : Int} {bs : List Nat}
    (h : poke s addr bs = .ok s') : ∃ m, s' = { s with lump := m } := by
  unfold poke at h
  simp only at h
  split at h
  · simp only [Except.ok.injEq] at h
    exact ⟨_, h.symm⟩
  · simp at h

theorem ensure_frame_capacity_ok {fl : CFloat} {env : Env fl} {s s' : State fl}
    (h : ensure_frame_capacity env s = .ok s') :
    ∃ m l, s' = { s with max_frames := m, frames := l } := by
  unfold ensure_frame_capacity at h
  split at h
  · simp only at h
    split at h
    · simp at h
    · simp only [Except.ok.injEq] at h
      exact ⟨_, _, h.symm⟩
  · simp only [Except.ok.injEq] at h
    exact ⟨s.max_frames, s.frames, by rw [← h]⟩

theorem ensure_buffer_capacity_ok {fl : CFloat} {env : Env fl} {s s' : State fl} {needed : Int}
    (h : ensure_buffer_capacity env s needed = .ok s') :
    ∃ n b p l, s' = { s with buffer_size := n, lumpbuffer := b, plump := p, frames := l } := by
  unfold ensure_buffer_capacity at h
  split at h
  · simp only at h
    split at h
    · simp at h
    · simp only [Except.ok.injEq] at h
      exact ⟨_, _, _, _, h.symm⟩
  · simp only [Except.ok.injEq] at h
    exact ⟨s.buffer_size, s.lumpbuffer, s.plump, s.frames, by rw [← h]⟩

theorem copy_row_ok {fl : CFloat} (source : Int) :
    ∀ (n : Nat) (x : Int) (s s' : State fl), copy_row source n x s = .ok s' →
      ∃ m p, s' = { s with lump := m, plump := p } := by
  intro n
  induction n with
  | zero =>
    intro x s s' h
    simp only [copy_row, Except.ok.injEq] at h
    exact ⟨s.lump, s.plump, by rw [← h]⟩
  | succ n ih =>
    intro x s s' h
    simp only [copy_row] at h
    obtain ⟨v, _, h⟩ := bind_ok h
    obtain ⟨s1, h1, h⟩ := bind_ok h
    obtain ⟨m1, rfl⟩ := poke_ok h1
    obtain ⟨m, p, rfl⟩ := ih _ _ _ h
    exact ⟨m, p, rfl⟩

theorem copy_rows_ok {fl : CFloat} (w : Nat) :
    ∀ (n : Nat) (source : Int) (s s' : State fl), copy_rows w n source s = .ok s' →
      ∃ m p, s' = { s with lump := m, plump := p } := by
  intro n
  induction n with
  | zero =>
    intro x s s' h
    simp only [copy_rows, Except.ok.injEq] at h
    exact ⟨s.lump, s.plump, by rw [← h]⟩
  | succ n ih =>
    intro x s s' h
    simp only [copy_rows] at h
    obtain ⟨s1, h1, h⟩ := bind_ok h
    obtain ⟨m1, p1, rfl⟩ := copy_row_ok _ _ _ _ _ h1
    obtain ⟨m, p, rfl⟩ := ih _ _ _ h
    exact ⟨m, p, rfl⟩


theorem atoi_range (t : List Nat) : -2147483648 ≤ atoi t ∧ atoi t < 2147483648 := by
  unfold atoi
  exact wrap32_range _

theorem frame_rect_ok {fl : CFloat} {s : State fl} {a : Rect × State fl}
    (h : frame_rect s = .ok a) :
    (∃ p t, a.2 = { s with scriptptr := p, token := t }) ∧
      -2147483648 ≤ a.1.w ∧ a.1.w < 2147483648 ∧ -2147483648 ≤ a.1.h ∧ a.1.h < 2147483648 := by
  unfold frame_rect at h
  obtain ⟨t1, h1, h⟩ := bind_ok h
  obtain ⟨t2, h2, h⟩ := bind_ok h
  obtain ⟨t3, h3, h⟩ := bind_ok h
  obtain ⟨t4, h4, h⟩ := bind_ok h
  simp only [pure, Except.pure, Except.ok.injEq] at h
  obtain ⟨p1, q1, e1⟩ := next_token_ok h1
  obtain ⟨p2, q2, e2⟩ := next_token_ok h2
  obtain ⟨p3, q3, e3⟩ := next_token_ok h3
  obtain ⟨p4, q4, e4⟩ := next_token_ok h4
  subst h
  refine ⟨⟨p4, q4, ?_⟩, (atoi_range _).1, (atoi_range _).2, (atoi_range _).1, (atoi_range _).2⟩
  simp only [e4, e3, e2, e1]

theorem frame_alloc_ok {fl : CFloat} {env : Env fl} {s s3 : State fl} {r : Rect}
    (h : frame_alloc env s r = .ok s3) :
    ∃ mf l n b p, s3 =
      { s with max_frames := mf, frames := l, buffer_size := n, lumpbuffer := b, plump := p } := by
  unfold frame_alloc at h
  obtain ⟨s1, h1, h⟩ := bind_ok h
  obtain ⟨s2, h2, h⟩ := bind_ok h
  obtain ⟨mf, l1, rfl⟩ := ensure_frame_capacity_ok h1
  obtain ⟨l2, rfl⟩ := set_frame_ok h2
  obtain ⟨n, b, p, l3, rfl⟩ := ensure_buffer_capacity_ok h
  exact ⟨mf, l3, n, b, p, rfl⟩

theorem frame_interval_ok {fl : CFloat} {s3 s4 : State fl}
    (h : frame_interval s3 = .ok s4) :
    ∃ p t l, s4 = { s3 with scriptptr := p, token := t, frames := l } := by
  unfold frame_interval at h
  obtain ⟨t5, h5, h⟩ := bind_ok h
  obtain ⟨s, hs, h⟩ := bind_ok h
  obtain ⟨p, t, e⟩ := next_token_ok h5
  obtain ⟨l, rfl⟩ := set_frame_ok hs
  split at h
  · simp at h
  · simp only [pure, Except.pure, Except.ok.injEq] at h
    subst h
    exact ⟨p, t, l, by rw [e]⟩

theorem frame_origin_ok {fl : CFloat} {s4 : State fl} {r : Rect} {o : dspriteframe_t × State fl}
    (h : frame_origin s4 r = .ok o) :
    (∃ p t, o.2 = { s4 with scriptptr := p, token := t }) ∧ o.1.width = r.w ∧
      o.1.height = r.h := by
  unfold frame_origin at h
  obtain ⟨t6, h6, h⟩ := bind_ok h
  obtain ⟨t7, h7, h⟩ := bind_ok h
  simp only [pure, Except.pure, Except.ok.injEq] at h
  obtain ⟨p6, q6, e6⟩ := next_token_ok h6
  subst h
  refine ⟨?_, rfl, rfl⟩
  split at h7
  · obtain ⟨p7, q7, e7⟩ := next_token_ok h7
    exact ⟨p7, q7, by simp only [e7, e6]⟩
  · simp only [pure, Except.pure, Except.ok.injEq] at h7
    subst h7
    exact ⟨p6, q6, e6⟩

theorem frame_store_ok {fl : CFloat} {s s' : State fl} {r : Rect} {pframe : Int}
    {hd : dspriteframe_t} (h : frame_store s r pframe hd = .ok s') :
    ∃ m p l, s' = { s with
      lump := m, plump := p, frames := l
      framesmaxs0 := if r.w > s.framesmaxs0 then r.w else s.framesmaxs0
      framesmaxs1 := if r.h > s.framesmaxs1 then r.h else s.framesmaxs1
      framecount := wrap32 (s.framecount + 1)
      emitted := s.emitted ++ [hd] } := by
  unfold frame_store at h
  obtain ⟨s5, h5, h⟩ := bind_ok h
  obtain ⟨s6, h6, h⟩ := bind_ok h
  obtain ⟨s7, h7, h⟩ := bind_ok h
  obtain ⟨s8, h8, h⟩ := bind_ok h
  obtain ⟨s10, h10, h⟩ := bind_ok h
  obtain ⟨s11, h11, h⟩ := bind_ok h
  simp only [pure, Except.pure, Except.ok.injEq] at h
  obtain ⟨m5, rfl⟩ := poke_ok h5
  obtain ⟨m6, rfl⟩ := poke_ok h6
  obtain ⟨m7, rfl⟩ := poke_ok h7
  obtain ⟨m8, rfl⟩ := poke_ok h8
  obtain ⟨m, p, rfl⟩ := copy_rows_ok _ _ _ _ _ h10
  obtain ⟨l, rfl⟩ := set_frame_ok h11
  subst h
  exact ⟨m, p, l, rfl⟩

/-- What a successful `grab_frame` does to the state: cursor, token, arena and descriptor
array change; the running maxima take the frame's size into account; one descriptor and one
emitted header are added; every other global is untouched. -/
theorem grab_frame_ok {fl : CFloat} {env : Env fl} {s s' : State fl}
    (h : grab_frame env s = .ok s') :
    ∃ (r : Rect) (hd : dspriteframe_t) (sp tk : List Nat) (mf n b p : Int)
      (l : List (spritepackage_t fl)) (m : Int → Nat),
      bad_coordinates r.xl r.yl r.w r.h s.byteimagewidth s.byteimageheight = false ∧
      hd.width = r.w ∧ hd.height = r.h ∧
      -2147483648 ≤ r.w ∧ r.w < 2147483648 ∧ -2147483648 ≤ r.h ∧ r.h < 2147483648 ∧
      s' = { s with
        scriptptr := sp, token := tk, max_frames := mf, frames := l, buffer_size := n,
        lumpbuffer := b, plump := p, lump := m
        framesmaxs0 := if r.w > s.framesmaxs0 then r.w else s.framesmaxs0
        framesmaxs1 := if r.h > s.framesmaxs1 then r.h else s.framesmaxs1
        framecount := wrap32 (s.framecount + 1)
        emitted := s.emitted ++ [hd] } := by
  unfold grab_frame at h
  obtain ⟨a, ha, hrest⟩ := bind_ok h
  obtain ⟨⟨p1, t1, e1⟩, r1, r2, r3, r4⟩ := frame_rect_ok ha
  split at hrest
  · simp at hrest
  · rename_i hbad
    obtain ⟨s3, h3, hr3⟩ := bind_ok hrest
    obtain ⟨s4, h4, hr4⟩ := bind_ok hr3
    obtain ⟨o, ho, hst⟩ := bind_ok hr4
    obtain ⟨mf, l3, n, b, p3, e3⟩ := frame_alloc_ok h3
    obtain ⟨p4, t4, l4, e4⟩ := frame_interval_ok h4
    obtain ⟨⟨po, tko, eo⟩, hw, hh⟩ := frame_origin_ok ho
    obtain ⟨m, p, l, e5⟩ := frame_store_ok hst
    refine ⟨a.1, o.1, po, tko, mf, n, b, p, l, m, ?_, hw, hh, r1, r2, r3, r4, ?_⟩
    · rw [e1] at hbad
      simpa using hbad
    · rw [e5, eo, e4, e3, e1]


/-! ## Palette construction -/

theorem load_color_table_length : ∀ (n : Nat) (i : Int) (f : FILE) (r : List Nat × FILE),
    load_color_table n i f = .ok r → r.1.length = 3 * n := by
  intro n
  induction n with
  | zero =>
    intro i f r h
    simp only [load_color_table, Except.ok.injEq] at h
    subst h; rfl
  | succ n ih =>
    intro i f r h
    simp only [load_color_table] at h
    split at h
    · obtain ⟨r1, h1, h2⟩ := bind_ok h
      simp only [pure, Except.pure, Except.ok.injEq] at h2
      subst h2
      have := ih _ _ _ h1
      simp only [List.length_cons]
      omega
    · simp at h

theorem load_color_table_bound : ∀ (n : Nat) (i : Int) (f : FILE) (r : List Nat × FILE),
    0 ≤ i → i ≤ 256 → load_color_table n i f = .ok r → i + n ≤ 256 := by
  intro n
  induction n with
  | zero => intro i f r h0 h1 _; simpa using h1
  | succ n ih =>
    intro i f r h0 h1 h
    simp only [load_color_table] at h
    split at h
    · rename_i hc
      obtain ⟨r1, hr1, _⟩ := bind_ok h
      have hw : wrap32 (i * 3) = i * 3 := wrap32_of_range _ (by omega) (by omega)
      rw [hw] at hc
      have := ih (i + 1) _ _ (by omega) (by omega) hr1
      push_cast
      omega
    · simp at h

theorem zero_fill_length : ∀ (n : Nat) (i : Int) (z : List Nat),
    zero_fill n i = .ok z → z = List.replicate (3 * n) 0 := by
  intro n
  induction n with
  | zero =>
    intro i z h
    simp only [zero_fill, Except.ok.injEq] at h
    subst h; rfl
  | succ n ih =>
    intro i z h
    simp only [zero_fill] at h
    split at h
    · obtain ⟨r1, h1, h2⟩ := bind_ok h
      simp only [pure, Except.pure, Except.ok.injEq] at h2
      subst h2
      rw [ih _ _ h1]
      have : 3 * (n + 1) = 3 * n + 1 + 1 + 1 := by omega
      rw [this]
      rfl
    · simp at h

theorem zero_fill_in_bounds : ∀ (n : Nat) (i : Int) (z : List Nat),
    zero_fill n i = .ok z → ∀ j : Int, i ≤ j → j < i + n →
      0 ≤ wrap32 (j * 3) ∧ wrap32 (j * 3) + 2 < 768 := by
  intro n
  induction n with
  | zero => intro i z _ j h1 h2; simp at h2; omega
  | succ n ih =>
    intro i z h j h1 h2
    simp only [zero_fill] at h
    split at h
    · rename_i hc
      obtain ⟨r1, hr1, _⟩ := bind_ok h
      by_cases hj : j = i
      · subst hj; exact hc
      · exact ih (i + 1) _ hr1 j (by omega) (by push_cast at h2; omega)
    · simp at h

theorem zero_fill_start_nonneg (n : Nat) (i : Int) (z : List Nat)
    (h : zero_fill n i = .ok z) (hn : i + n = 256) : 0 ≤ i := by
  by_contra hneg
  have := zero_fill_in_bounds n i z h (-1) (by omega) (by omega)
  unfold wrap32 at this
  omega

theorem collect_row_length (bpp : Int) (row : List Nat) :
    ∀ (n : Nat) (x : Int) (u v : List Color), u.length ≤ 256 →
      collect_row bpp row n x u = .ok v → v.length ≤ 256 := by
  intro n
  induction n with
  | zero =>
    intro x u v hu h
    simp only [collect_row, Except.ok.injEq] at h
    subst h; exact hu
  | succ n ih =>
    intro x u v hu h
    simp only [collect_row] at h
    split at h
    · rename_i hlt
      obtain ⟨c, _, h2⟩ := bind_ok h
      refine ih _ _ _ ?_ h2
      split
      · exact hu
      · simp only [List.length_append, List.length_singleton]; omega
    · simp only [Except.ok.injEq] at h
      subst h; exact hu

theorem collect_rows_length (bpp width : Int) (row_size : Nat) :
    ∀ (n : Nat) (f : FILE) (u : List Color) (r : List Color × FILE), u.length ≤ 256 →
      collect_rows bpp width row_size n f u = .ok r → r.1.length ≤ 256 := by
  intro n
  induction n with
  | zero =>
    intro f u r hu h
    simp only [collect_rows, Except.ok.injEq] at h
    subst h; exact hu
  | succ n ih =>
    intro f u r hu h
    simp only [collect_rows] at h
    split at h
    · obtain ⟨u1, h1, h2⟩ := bind_ok h
      exact ih _ _ _ (collect_row_length _ _ _ _ _ _ hu h1) h2
    · simp only [Except.ok.injEq] at h
      subst h; exact hu

theorem palette_bytes_length : ∀ u : List Color, (palette_bytes u).length = 3 * u.length := by
  intro u
  induction u with
  | nil => rfl
  | cons c rest ih => simp only [palette_bytes, List.length_cons, ih]; omega

/-- What a successful `bmp_palette` returns: `lbmpalette` and `original_palette` coincide;
they are the old `original_palette` when a palette was established, a fresh table of 768
bytes otherwise. -/
theorem bmp_palette_ok {established : Bool} {original_palette : List Nat} {f : FILE}
    {width height bpp data_offset colors_used : Int} {p : List Nat × List Nat × FILE}
    (h : bmp_palette established original_palette f width height bpp data_offset colors_used
      = .ok p) :
    p.1 = p.2.1 ∧ (established = true → p.1 = original_palette) ∧
      (established = false → p.1.length = 768) := by
  unfold bmp_palette at h
  split at h
  · obtain ⟨r, hr, h2⟩ := bind_ok h
    obtain ⟨z, hz, h3⟩ := bind_ok h2
    have hlen := load_color_table_length _ _ _ _ hr
    have hzl := zero_fill_length _ _ _ hz
    cases established with
    | true =>
      simp only [Bool.not_true, pure, Except.pure, Bool.false_eq_true, if_false,
        Except.ok.injEq] at h3
      subst h3
      simp
    | false =>
      simp only [Bool.not_false, pure, Except.pure, Except.ok.injEq, if_true] at h3
      subst h3
      refine ⟨rfl, by simp, fun _ => ?_⟩
      simp only [List.length_append, hlen, hzl, List.length_replicate]
      by_cases hpc : 0 ≤ palette_colors_of colors_used
      · have hb := load_color_table_bound _ 0 _ _ (le_refl _) (by omega) hr
        have e1 : ((palette_colors_of colors_used).toNat : Int) = palette_colors_of colors_used :=
          Int.toNat_of_nonneg hpc
        unfold PALETTE_SIZE
        omega
      · exfalso
        have := zero_fill_start_nonneg _ _ _ hz (by unfold PALETTE_SIZE; omega)
        omega
  · cases established with
    | true =>
      simp only [Bool.not_true, pure, Except.pure, Bool.false_eq_true, if_false,
        Except.ok.injEq] at h
      subst h
      simp
    | false =>
      simp only [Bool.not_false, if_true] at h
      split at h
      · simp at h
      · obtain ⟨c, hc, h2⟩ := bind_ok h
        obtain ⟨z, hz, h3⟩ := bind_ok h2
        simp only [pure, Except.pure, Except.ok.injEq] at h3
        subst h3
        refine ⟨rfl, by simp, fun _ => ?_⟩
        have hcl := collect_rows_length _ _ _ _ _ _ _ (by simp) hc
        have hzl := zero_fill_length _ _ _ hz
        simp only [List.length_append, palette_bytes_length, hzl, List.length_replicate]
        unfold PALETTE_SIZE
        omega

theorem load_bmp_body_ok {fl : CFloat} {env : Env fl} {s s' : State fl} {f : FILE}
    {b : BmpInfo} (h : load_bmp_body env s f b = .ok s') :
    ∃ (pal img : List Nat),
      (s.palette_established = true → pal = s.original_palette) ∧
      (s.palette_established = false → pal.length = 768) ∧
      s' = { s with
        byteimagewidth := b.width, byteimageheight := b.height, lbmpalette := pal
        original_palette := pal, palette_established := true, byteimage := img } := by
  unfold load_bmp_body at h
  obtain ⟨p, hp, h2⟩ := bind_ok h
  obtain ⟨e1, e2, e3⟩ := bmp_palette_ok hp
  split at h2
  · simp at h2
  · split at h2
    · simp at h2
    · obtain ⟨img, _, h3⟩ := bind_ok h2
      simp only [pure, Except.pure, Except.ok.injEq] at h3
      refine ⟨p.1, img, e2, fun hf => e3 hf, ?_⟩
      rw [← h3, ← e1]

/-- What a successful `load_bmp` does to the state: the image and its dimensions are
replaced, a palette is established; the palette is the one already established if there
was one, and `lbmpalette` equals `original_palette` afterwards. -/
theorem load_bmp_ok {fl : CFloat} {env : Env fl} {s s' : State fl} {filename : List Nat}
    (h : load_bmp env s filename = .ok s') :
    ∃ (w ht : Int) (pal img : List Nat),
      (s.palette_established = true → pal = s.original_palette) ∧
      (s.palette_established = false → pal.length = 768) ∧
      s' = { s with
        byteimagewidth := w, byteimageheight := ht, lbmpalette := pal
        original_palette := pal, palette_established := true, byteimage := img } := by
  unfold load_bmp at h
  split at h
  · simp at h
  · split at h
    · simp at h
    · split at h
      · simp at h
      · split at h
        · simp at h
        · obtain ⟨pal, img, e2, e3, e4⟩ := load_bmp_body_ok h
          exact ⟨_, _, pal, img, e2, e3, e4⟩


/-! ## Effects of the directives -/

theorem finish_sprite_ok {fl : CFloat} {env : Env fl} {s s' : State fl}
    (h : finish_sprite env s = .ok s') :
    ∃ name, s.framecount ≠ 0 ∧ s.spriteoutname = some name ∧
      (serialize (finish_fields s)).status = none ∧
      s' = { finish_fields s with
        files := s.files ++ [⟨name, (serialize (finish_fields s)).chunks, s.emitted⟩] } := by
  unfold finish_sprite at h
  split at h
  · simp at h
  · rename_i hfc
    simp only at h
    split at h
    · simp at h
    · rename_i name hname
      split at h
      · simp at h
      · split at h
        · simp at h
        · rename_i hst
          simp only [Except.ok.injEq] at h
          exact ⟨name, hfc, hname, hst, h.symm⟩

theorem spritename_ok {fl : CFloat} {s s' : State fl} (h : spritename s = .ok s') :
    ∃ p t name c, s' = sprite_reset { s with scriptptr := p, token := t } name c := by
  unfold spritename at h
  obtain ⟨r, hr, h2⟩ := bind_ok h
  obtain ⟨p, t, e⟩ := next_token_ok hr
  split at h2
  · split at h2
    · simp at h2
    · simp only [pure, Except.pure, Except.ok.injEq] at h2
      exact ⟨p, t, _, _, by rw [← h2, e]⟩
  · simp only [pure, Except.pure, Except.ok.injEq] at h2
    exact ⟨p, t, _, _, by rw [← h2, e]⟩

theorem set_type_ok {fl : CFloat} {s s' : State fl} (h : set_type s = .ok s') :
    ∃ p t sp, s' = { s with scriptptr := p, token := t, sprite := sp } := by
  unfold set_type at h
  obtain ⟨r, hr, h2⟩ := bind_ok h
  obtain ⟨p, t, e⟩ := next_token_ok hr
  repeat' split at h2
  all_goals first
    | (simp only [pure, Except.pure, Except.ok.injEq] at h2
       exact ⟨p, t, _, by rw [← h2, e]⟩)
    | simp at h2

theorem set_texture_ok {fl : CFloat} {s s' : State fl} (h : set_texture s = .ok s') :
    ∃ p t sp, s' = { s with scriptptr := p, token := t, sprite := sp } := by
  unfold set_texture at h
  obtain ⟨r, hr, h2⟩ := bind_ok h
  obtain ⟨p, t, e⟩ := next_token_ok hr
  repeat' split at h2
  all_goals first
    | (simp only [pure, Except.pure, Except.ok.injEq] at h2
       exact ⟨p, t, _, by rw [← h2, e]⟩)
    | simp at h2

theorem set_beamlength_ok {fl : CFloat} {s s' : State fl} (h : set_beamlength s = .ok s') :
    ∃ p t sp, s' = { s with scriptptr := p, token := t, sprite := sp } := by
  unfold set_beamlength at h
  obtain ⟨r, hr, h2⟩ := bind_ok h
  obtain ⟨p, t, e⟩ := next_token_ok hr
  simp only [pure, Except.pure, Except.ok.injEq] at h2
  exact ⟨p, t, _, by rw [← h2, e]⟩

theorem do_load_ok {fl : CFloat} {env : Env fl} {s s' : State fl} (h : do_load env s = .ok s') :
    ∃ (p t : List Nat) (w ht : Int) (pal img : List Nat),
      (s.palette_established = true → pal = s.original_palette) ∧
      (s.palette_established = false → pal.length = 768) ∧
      s' = { s with
        scriptptr := p, token := t
        byteimagewidth := w, byteimageheight := ht, lbmpalette := pal
        original_palette := pal, palette_established := true, byteimage := img } := by
  unfold do_load at h
  obtain ⟨r, hr, h2⟩ := bind_ok h
  obtain ⟨p, t, e⟩ := next_token_ok hr
  obtain ⟨w, ht, pal, img, e1, e2, e3⟩ := load_bmp_ok h2
  rw [e] at e1 e2 e3
  exact ⟨p, t, w, ht, pal, img, e1, e2, e3⟩


/-! ## The serializer only appends -/

theorem prefix_trans {α : Type} {l a b r0 rest : List α} (h1 : a = l ++ r0)
    (h2 : b = a ++ rest) : ∃ r, b = l ++ r :=
  ⟨r0 ++ rest, by rw [h2, h1, List.append_assoc]⟩

theorem write_intervals_prefix {fl : CFloat} (s : State fl) (g : Int) :
    ∀ (n : Nat) (j : Int) (tot : fl.F) (w : Written fl),
      ∃ rest, (write_intervals s g n j tot w).chunks = w.chunks ++ rest := by
  intro n
  induction n with
  | zero => intro j tot w; exact ⟨[], by simp [write_intervals]⟩
  | succ n ih =>
    intro j tot w
    simp only [write_intervals]
    split
    · exact ⟨[], by simp⟩
    · obtain ⟨rest, hrest⟩ := ih (j + 1) _ _
      exact prefix_trans rfl hrest

theorem write_group_frames_prefix {fl : CFloat} (s : State fl) :
    ∀ (n : Nat) (c : Int) (w : Written fl),
      ∃ rest, (write_group_frames s n c w).chunks = w.chunks ++ rest := by
  intro n
  induction n with
  | zero => intro c w; exact ⟨[], by simp [write_group_frames]⟩
  | succ n ih =>
    intro c w
    simp only [write_group_frames]
    split
    · exact ⟨[], by simp⟩
    · split
      · exact ⟨[], by simp⟩
      · obtain ⟨rest, hrest⟩ := ih (c + 1) _
        exact prefix_trans rfl hrest

theorem write_group_prefix {fl : CFloat} (s : State fl) (g : Int) (d : spritepackage_t fl)
    (w : Written fl) : ∃ rest, (write_group s g d w).chunks = w.chunks ++ rest := by
  unfold write_group
  simp only
  obtain ⟨r1, h1⟩ := write_intervals_prefix s g d.numgroupframes.toNat 0 fl.zero
    { w with chunks := w.chunks ++ [Chunk.group (little_long d.numgroupframes)] }
  split
  · exact prefix_trans rfl h1
  · obtain ⟨r2, h2⟩ := write_group_frames_prefix s d.numgroupframes.toNat (g + 1)
      (write_intervals s g d.numgroupframes.toNat 0 fl.zero
        { w with chunks := w.chunks ++ [Chunk.group (little_long d.numgroupframes)] })
    obtain ⟨r3, h3⟩ := prefix_trans rfl h1
    exact prefix_trans h3 h2

theorem write_frames_prefix {fl : CFloat} (s : State fl) :
    ∀ (n : Nat) (c : Int) (w : Written fl),
      ∃ rest, (write_frames s n c w).chunks = w.chunks ++ rest := by
  intro n
  induction n with
  | zero => intro c w; exact ⟨[], by simp [write_frames]⟩
  | succ n ih =>
    intro c w
    simp only [write_frames]
    split
    · exact ⟨[], by simp⟩
    · rename_i d _
      split
      · split
        · exact ⟨_, rfl⟩
        · rename_i cs _
          obtain ⟨rest, hrest⟩ := ih (c + 1)
            { chunks := (w.chunks ++ [Chunk.frametype (little_long d.type)]) ++ cs,
              reads := w.reads ++ [c], status := w.status }
          have h3 : (w.chunks ++ [Chunk.frametype (little_long d.type)]) ++ cs =
              w.chunks ++ ([Chunk.frametype (little_long d.type)] ++ cs) :=
            List.append_assoc _ _ _
          exact prefix_trans h3 hrest
      · obtain ⟨r1, h1⟩ := write_group_prefix s c d
          { w with reads := w.reads ++ [c],
                   chunks := w.chunks ++ [Chunk.frametype (little_long d.type)] }
        obtain ⟨r3, h3⟩ := prefix_trans (l := w.chunks) rfl h1
        split
        · exact ⟨_, h3⟩
        · obtain ⟨rest, hrest⟩ := ih (c + 1 + (d.numgroupframes.toNat : Int)) _
          exact prefix_trans h3 hrest

/-- The output of `serialize` starts with the header; with the palette block enabled and a
palette of 768 bytes loaded, the palette count and the palette follow. -/
theorem serialize_starts {fl : CFloat} (s : State fl) :
    (∃ rest, (serialize s).chunks = Chunk.header (sprite_header s) :: rest) ∧
    (s.do16bit = true → s.lbmpalette.length = 768 →
      ∃ rest, (serialize s).chunks =
        Chunk.header (sprite_header s) :: Chunk.palcount 256 :: Chunk.palette s.lbmpalette
          :: rest) := by
  unfold serialize
  constructor
  · obtain ⟨r, hr⟩ := write_frames_prefix s s.sprite.numframes.toNat 0
      (write_palette s ⟨[Chunk.header (sprite_header s)], [], none⟩)
    rw [hr]
    unfold write_palette
    split
    · split <;> exact ⟨_, rfl⟩
    · exact ⟨_, rfl⟩
  · intro h16 hlen
    obtain ⟨r, hr⟩ := write_frames_prefix s s.sprite.numframes.toNat 0
      (write_palette s ⟨[Chunk.header (sprite_header s)], [], none⟩)
    rw [hr]
    unfold write_palette
    rw [if_pos h16, if_neg (by omega)]
    have : s.lbmpalette.take 768 = s.lbmpalette := by
      rw [← hlen]; exact List.take_length _
    rw [this]
    exact ⟨_, rfl⟩


/-! ## Invariant rules for the interpreter loops -/

theorem parse_group_inv {fl : CFloat} {env : Env fl} (g : Int) (I : State fl → Prop)
    (htok : ∀ (c : Bool) (s : State fl) (r : Bool × State fl),
      I s → next_token c s = .ok r → I r.2)
    (hframe : ∀ s s' : State fl, I s → group_frame env g s = .ok s' → I s')
    (hload : ∀ s s' : State fl, I s → do_load env s = .ok s' → I s') :
    ∀ (n : Nat) (s s' : State fl), I s → parse_group env g n s = .ok s' → I s' := by
  intro n
  induction n with
  | zero => intro s s' _ h; simp [parse_group] at h
  | succ n ih =>
    intro s s' hI h
    simp only [parse_group] at h
    obtain ⟨t, ht, h2⟩ := bind_ok h
    have hIt := htok _ _ _ hI ht
    split at h2
    · simp only [pure, Except.pure, Except.ok.injEq] at h2
      subst h2; exact hIt
    · split at h2
      · obtain ⟨s2, hs2, h3⟩ := bind_ok h2
        exact ih _ _ (hframe _ _ hIt hs2) h3
      · split at h2
        · obtain ⟨s2, hs2, h3⟩ := bind_ok h2
          exact ih _ _ (hload _ _ hIt hs2) h3
        · split at h2
          · simp only [pure, Except.pure, Except.ok.injEq] at h2
            subst h2; exact hIt
          · simp at h2

theorem parse_script_inv {fl : CFloat} {env : Env fl} (I : State fl → Prop)
    (htok : ∀ (c : Bool) (s : State fl) (r : Bool × State fl),
      I s → next_token c s = .ok r → I r.2)
    (hdir : ∀ (fuel : Nat) (s s' : State fl), I s → directive env fuel s = .ok s' → I s') :
    ∀ (n : Nat) (s s' : State fl), I s → parse_script env n s = .ok s' → I s' := by
  intro n
  induction n with
  | zero => intro s s' _ h; simp [parse_script] at h
  | succ n ih =>
    intro s s' hI h
    simp only [parse_script] at h
    obtain ⟨t, ht, h2⟩ := bind_ok h
    have hIt := htok _ _ _ hI ht
    split at h2
    · simp only [pure, Except.pure, Except.ok.injEq] at h2
      subst h2; exact hIt
    · obtain ⟨s1, hs1, h3⟩ := bind_ok h2
      exact ih _ _ (hdir _ _ _ hIt hs1) h3

/-- The branches of `directive`. -/
theorem directive_cases {fl : CFloat} {env : Env fl} {fuel : Nat} {s s' : State fl}
    (h : directive env fuel s = .ok s') :
    (cstr s.token = tok_spritename ∧ do_spritename env s = .ok s') ∨
    (cstr s.token ≠ tok_spritename ∧
      (set_type s = .ok s' ∨ set_texture s = .ok s' ∨ set_beamlength s = .ok s' ∨
        s' = { s with sprite := { s.sprite with synctype := ST_SYNC } } ∨
        do_load env s = .ok s' ∨ do_frame env s = .ok s' ∨ do_group env fuel s = .ok s')) := by
  unfold directive at h
  split at h
  · rename_i h0; exact Or.inl ⟨h0, h⟩
  · rename_i h0
    refine Or.inr ⟨h0, ?_⟩
    split at h
    · exact Or.inl h
    · split at h
      · exact Or.inr (Or.inl h)
      · split at h
        · exact Or.inr (Or.inr (Or.inl h))
        · split at h
          · simp only [pure, Except.pure, Except.ok.injEq] at h
            exact Or.inr (Or.inr (Or.inr (Or.inl h.symm)))
          · split at h
            · exact Or.inr (Or.inr (Or.inr (Or.inr (Or.inl h))))
            · split at h
              · exact Or.inr (Or.inr (Or.inr (Or.inr (Or.inr (Or.inl h)))))
              · split at h
                · exact Or.inr (Or.inr (Or.inr (Or.inr (Or.inr (Or.inr h)))))
                · simp at h

theorem set_frame_desc {fl : CFloat} {s s' : State fl} {idx : Int}
    {g : spritepackage_t fl → spritepackage_t fl} (h : set_frame s idx g = .ok s') :
    ∃ f, frame_desc s' idx = .ok (g f) := by
  unfold set_frame at h
  split at h
  · simp at h
  · rename_i hidx
    split at h
    · simp at h
    · rename_i f hf
      simp only [Except.ok.injEq] at h
      refine ⟨f, ?_⟩
      unfold frame_desc
      rw [if_neg hidx, ← h]
      have hlt : idx.toNat < s.frames.length := by
        rw [List.get?_eq_getElem?] at hf
        exact (List.getElem?_eq_some.mp hf).1
      simp only [List.get?_eq_getElem?, List.getElem?_set_self hlt]


/-! ## The palette within one sprite -/

theorem next_token_palette {fl : CFloat} {p : List Nat} (c : Bool) (s : State fl)
    (r : Bool × State fl) (hI : PaletteIs s p) (h : next_token c s = .ok r) :
    PaletteIs r.2 p := by
  obtain ⟨q, t, e⟩ := next_token_ok h
  rw [e]; exact hI

theorem grab_frame_palette {fl : CFloat} {env : Env fl} {p : List Nat} (s s' : State fl)
    (hI : PaletteIs s p) (h : grab_frame env s = .ok s') : PaletteIs s' p := by
  obtain ⟨r, hd, sp, tk, mf, n, b, q, l, m, _, _, _, _, _, _, _, e⟩ := grab_frame_ok h
  rw [e]; exact hI

theorem do_load_palette {fl : CFloat} {env : Env fl} {p : List Nat} (s s' : State fl)
    (hI : PaletteIs s p) (h : do_load env s = .ok s') : PaletteIs s' p := by
  obtain ⟨q, t, w, ht, pal, img, e1, _, e3⟩ := do_load_ok h
  have hp : pal = p := by rw [e1 hI.1]; exact hI.2.1
  rw [e3, hp]
  exact ⟨rfl, rfl, rfl⟩

theorem group_frame_palette {fl : CFloat} {env : Env fl} {p : List Nat} (g : Int)
    (s s' : State fl) (hI : PaletteIs s p) (h : group_frame env g s = .ok s') :
    PaletteIs s' p := by
  unfold group_frame at h
  obtain ⟨s1, h1, h2⟩ := bind_ok h
  obtain ⟨l, e⟩ := set_frame_ok h2
  rw [e]
  exact grab_frame_palette s s1 hI h1

theorem do_group_palette {fl : CFloat} {env : Env fl} {p : List Nat} (fuel : Nat)
    (s s' : State fl) (hI : PaletteIs s p) (h : do_group env fuel s = .ok s') :
    PaletteIs s' p := by
  unfold do_group at h
  obtain ⟨s2, h2, hr⟩ := bind_ok h
  obtain ⟨s3, h3, hr2⟩ := bind_ok hr
  obtain ⟨g, _, hr3⟩ := bind_ok hr2
  obtain ⟨l, e2⟩ := set_frame_ok h2
  have hI2 : PaletteIs s2 p := by rw [e2]; exact hI
  have hI3 : PaletteIs s3 p :=
    parse_group_inv s.framecount (fun t => PaletteIs t p)
      (fun c t r => next_token_palette c t r) (fun t t' => group_frame_palette _ t t')
      (fun t t' => do_load_palette t t') fuel s2 s3 hI2 h3
  split at hr3
  · simp at hr3
  · simp only [pure, Except.pure, Except.ok.injEq] at hr3
    rw [← hr3]; exact hI3

theorem directive_palette {fl : CFloat} {env : Env fl} {p : List Nat} (fuel : Nat)
    (s s' : State fl) (hI : PaletteIs s p) (htok : cstr s.token ≠ tok_spritename)
    (h : directive env fuel s = .ok s') : PaletteIs s' p := by
  rcases directive_cases h with ⟨h0, _⟩ | ⟨_, h1 | h1 | h1 | h1 | h1 | h1 | h1⟩
  · exact absurd h0 htok
  · obtain ⟨q, t, sp, e⟩ := set_type_ok h1
    rw [e]; exact hI
  · obtain ⟨q, t, sp, e⟩ := set_texture_ok h1
    rw [e]; exact hI
  · obtain ⟨q, t, sp, e⟩ := set_beamlength_ok h1
    rw [e]; exact hI
  · rw [h1]; exact hI
  · exact do_load_palette s s' hI h1
  · unfold do_frame at h1
    obtain ⟨s1, hs1, h2⟩ := bind_ok h1
    simp only [pure, Except.pure, Except.ok.injEq] at h2
    rw [← h2]
    exact grab_frame_palette s s1 hI hs1
  · exact do_group_palette fuel s s' hI h1

/-- C5: within one sprite, once a palette `p` (768 bytes) is established, every later
`load_bmp` leaves `original_palette` and `lbmpalette` equal to `p`, every directive other
than `$spritename` (a `$load`, a `$frame`, a whole group with its own loads) does so too,
and the palette block that `finish_sprite` would then write is `p`. -/
theorem C5_palette_fixed_within_sprite {fl : CFloat} (env : Env fl) (fuel : Nat)
    (s s' : State fl) (p : List Nat) (hp : PaletteIs s p) (hlen : p.length = 768)
    (htok : cstr s.token ≠ tok_spritename) (h : directive env fuel s = .ok s') :
    (∀ (name : List Nat) (t : State fl), load_bmp env s name = .ok t → PaletteIs t p) ∧
    PaletteIs s' p ∧
    (s'.do16bit = true → ∃ rest, (serialize (finish_fields s')).chunks =
      Chunk.header (sprite_header (finish_fields s')) :: Chunk.palcount 256 ::
        Chunk.palette p :: rest) := by
  have hs' := directive_palette fuel s s' hp htok h
  refine ⟨?_, hs', ?_⟩
  · intro name t ht
    obtain ⟨w, hgt, pal, img, e1, _, e3⟩ := load_bmp_ok ht
    have hpal : pal = p := by rw [e1 hp.1]; exact hp.2.1
    rw [e3, hpal]
    exact ⟨rfl, rfl, rfl⟩
  · intro h16
    have hl : (finish_fields s').lbmpalette = p := hs'.2.2
    have := (serialize_starts (finish_fields s')).2 h16 (by rw [hl]; exact hlen)
    rw [hl] at this
    exact this

/-- The first `load_bmp` of a sprite establishes a palette of 768 bytes. -/
theorem load_bmp_establishes {fl : CFloat} (env : Env fl) (s t : State fl) (name : List Nat)
    (hs : s.palette_established = false) (h : load_bmp env s name = .ok t) :
    PaletteIs t t.lbmpalette ∧ t.lbmpalette.length = 768 := by
  obtain ⟨w, hgt, pal, img, _, e2, e3⟩ := load_bmp_ok h
  rw [e3]
  exact ⟨⟨rfl, rfl, rfl⟩, e2 hs⟩


/-! ## Header size is the maximum over the emitted frames -/

theorem grab_frame_size {fl : CFloat} {env : Env fl} (s s' : State fl)
    (hI : SizeInv s) (h : grab_frame env s = .ok s') : SizeInv s' ∧ s'.emitted ≠ [] := by
  obtain ⟨r, hd, sp, tk, mf, n, b, q, l, m, hbad, hw, hh, r1, r2, r3, r4, e⟩ := grab_frame_ok h
  obtain ⟨⟨hle, hatt, hemp, hr0, hr1⟩, hfiles⟩ := hI
  have hpos : 0 < r.w ∧ 0 < r.h := by
    unfold bad_coordinates at hbad
    simp only [decide_eq_false_iff_not, not_or, not_lt, not_le] at hbad
    exact ⟨hbad.2.2.1, hbad.2.2.2.1⟩
  rw [e]
  refine ⟨⟨⟨?_, ?_, ?_, ?_, ?_⟩, hfiles⟩, by simp⟩
  · intro x hx
    simp only [List.mem_append, List.mem_singleton] at hx
    rcases hx with hx | hx
    · have := hle x hx
      constructor
      · show x.width ≤ if r.w > s.framesmaxs0 then r.w else s.framesmaxs0
        split <;> omega
      · show x.height ≤ if r.h > s.framesmaxs1 then r.h else s.framesmaxs1
        split <;> omega
    · subst hx
      constructor
      · show x.width ≤ if r.w > s.framesmaxs0 then r.w else s.framesmaxs0
        split <;> omega
      · show x.height ≤ if r.h > s.framesmaxs1 then r.h else s.framesmaxs1
        split <;> omega
  · intro _
    constructor
    · show ∃ x ∈ s.emitted ++ [hd], x.width = if r.w > s.framesmaxs0 then r.w else s.framesmaxs0
      by_cases hc : r.w > s.framesmaxs0
      · rw [if_pos hc]
        exact ⟨hd, by simp, hw⟩
      · rw [if_neg hc]
        have hne : s.emitted ≠ [] := by
          intro he
          have := (hemp he).1
          omega
        obtain ⟨x, hx, hxw⟩ := (hatt hne).1
        exact ⟨x, by simp [hx], hxw⟩
    · show ∃ x ∈ s.emitted ++ [hd], x.height = if r.h > s.framesmaxs1 then r.h else s.framesmaxs1
      by_cases hc : r.h > s.framesmaxs1
      · rw [if_pos hc]
        exact ⟨hd, by simp, hh⟩
      · rw [if_neg hc]
        have hne : s.emitted ≠ [] := by
          intro he
          have := (hemp he).2
          omega
        obtain ⟨x, hx, hxw⟩ := (hatt hne).2
        exact ⟨x, by simp [hx], hxw⟩
  · intro he
    simp at he
  · show -2147483648 ≤ (if r.w > s.framesmaxs0 then r.w else s.framesmaxs0) ∧
      (if r.w > s.framesmaxs0 then r.w else s.framesmaxs0) < 2147483648
    split <;> omega
  · show -2147483648 ≤ (if r.h > s.framesmaxs1 then r.h else s.framesmaxs1) ∧
      (if r.h > s.framesmaxs1 then r.h else s.framesmaxs1) < 2147483648
    split <;> omega

theorem next_token_size {fl : CFloat} (c : Bool) (s : State fl) (r : Bool × State fl)
    (hI : SizeInv s) (h : next_token c s = .ok r) : SizeInv r.2 := by
  obtain ⟨q, t, e⟩ := next_token_ok h
  rw [e]; exact hI

theorem do_load_size {fl : CFloat} {env : Env fl} (s s' : State fl)
    (hI : SizeInv s) (h : do_load env s = .ok s') : SizeInv s' := by
  obtain ⟨q, t, w, ht, pal, img, _, _, e3⟩ := do_load_ok h
  rw [e3]; exact hI

theorem group_frame_size {fl : CFloat} {env : Env fl} (g : Int) (s s' : State fl)
    (hI : SizeInv s) (h : group_frame env g s = .ok s') : SizeInv s' ∧ s'.emitted ≠ [] := by
  unfold group_frame at h
  obtain ⟨s1, h1, h2⟩ := bind_ok h
  obtain ⟨l, e⟩ := set_frame_ok h2
  rw [e]
  exact grab_frame_size s s1 hI h1

theorem do_group_size {fl : CFloat} {env : Env fl} (fuel : Nat) (s s' : State fl)
    (hI : SizeInv s) (h : do_group env fuel s = .ok s') : SizeInv s' ∧ s'.emitted ≠ [] := by
  unfold do_group at h
  obtain ⟨s2, h2, hr⟩ := bind_ok h
  obtain ⟨s3, h3, hr2⟩ := bind_ok hr
  obtain ⟨g, hg, hr3⟩ := bind_ok hr2
  obtain ⟨l, e2⟩ := set_frame_ok h2
  obtain ⟨f, hf⟩ := set_frame_desc h2
  have hI2 : SizeInv s2 ∧ GroupInv s.framecount s2 := by
    refine ⟨by rw [e2]; exact hI, Or.inr ⟨_, hf, rfl⟩⟩
  have hI3 : SizeInv s3 ∧ GroupInv s.framecount s3 :=
    parse_group_inv s.framecount (fun t => SizeInv t ∧ GroupInv s.framecount t)
      (fun c t r ht hr => by
        obtain ⟨q, tk, e⟩ := next_token_ok hr
        rw [e]; exact ht)
      (fun t t' ht hr => by
        have := group_frame_size _ t t' ht.1 hr
        exact ⟨this.1, Or.inl this.2⟩)
      (fun t t' ht hr => by
        obtain ⟨q, tk, w, hgt, pal, img, _, _, e3⟩ := do_load_ok hr
        rw [e3]; exact ht)
      fuel s2 s3 hI2 h3
  split at hr3
  · simp at hr3
  · rename_i hne
    simp only [pure, Except.pure, Except.ok.injEq] at hr3
    rw [← hr3]
    refine ⟨hI3.1, ?_⟩
    rcases hI3.2 with hk | ⟨d, hd, hd0⟩
    · exact hk
    · rw [hg] at hd
      simp only [Except.ok.injEq] at hd
      subst hd
      exact absurd hd0 hne

theorem finish_sprite_size {fl : CFloat} {env : Env fl} (s s' : State fl)
    (hI : TopInv s) (h : finish_sprite env s = .ok s') : SizeInv s' := by
  obtain ⟨name, hfc, _, _, e⟩ := finish_sprite_ok h
  obtain ⟨⟨hmax, hfiles⟩, hne⟩ := hI
  have hne' := hne hfc
  obtain ⟨hle, hatt, hemp, hr0, hr1⟩ := hmax
  rw [e]
  refine ⟨⟨hle, hatt, hemp, hr0, hr1⟩, ?_⟩
  intro o ho
  simp only [List.mem_append, List.mem_singleton] at ho
  rcases ho with ho | ho
  · exact hfiles o ho
  · subst ho
    obtain ⟨rest, hrest⟩ := (serialize_starts (finish_fields s)).1
    refine ⟨sprite_header (finish_fields s), rest, hrest, hne', ?_, ?_, ?_⟩
    · intro x hx
      have := hle x hx
      show x.width ≤ little_long s.framesmaxs0 ∧ x.height ≤ little_long s.framesmaxs1
      rw [little_long_of_range _ hr0.1 hr0.2, little_long_of_range _ hr1.1 hr1.2]
      exact this
    · obtain ⟨x, hx, hxw⟩ := (hatt hne').1
      refine ⟨x, hx, ?_⟩
      show x.width = little_long s.framesmaxs0
      rw [little_long_of_range _ hr0.1 hr0.2]; exact hxw
    · obtain ⟨x, hx, hxw⟩ := (hatt hne').2
      refine ⟨x, hx, ?_⟩
      show x.height = little_long s.framesmaxs1
      rw [little_long_of_range _ hr1.1 hr1.2]; exact hxw

theorem directive_top {fl : CFloat} {env : Env fl} (fuel : Nat) (s s' : State fl)
    (hI : TopInv s) (h : directive env fuel s = .ok s') : TopInv s' := by
  rcases directive_cases h with ⟨_, h1⟩ | ⟨_, h1 | h1 | h1 | h1 | h1 | h1 | h1⟩
  · unfold do_spritename at h1
    obtain ⟨s1, hs1, h2⟩ := bind_ok h1
    have hS1 : SizeInv s1 := by
      split at hs1
      · exact finish_sprite_size s s1 hI hs1
      · simp only [pure, Except.pure, Except.ok.injEq] at hs1
        rw [← hs1]; exact hI.1
    obtain ⟨q, t, name, c, e⟩ := spritename_ok h2
    rw [e]
    refine ⟨⟨⟨?_, ?_, ?_, ?_, ?_⟩, hS1.2⟩, fun hc => absurd rfl hc⟩
    · intro x hx; exact absurd hx (List.not_mem_nil x)
    · intro hc; exact absurd rfl hc
    · intro _; exact ⟨by simp [sprite_reset], by simp [sprite_reset]⟩
    · exact ⟨by simp [sprite_reset], by simp [sprite_reset]⟩
    · exact ⟨by simp [sprite_reset], by simp [sprite_reset]⟩
  · obtain ⟨q, t, sp, e⟩ := set_type_ok h1
    rw [e]; exact hI
  · obtain ⟨q, t, sp, e⟩ := set_texture_ok h1
    rw [e]; exact hI
  · obtain ⟨q, t, sp, e⟩ := set_beamlength_ok h1
    rw [e]; exact hI
  · rw [h1]; exact hI
  · obtain ⟨q, t, w, ht, pal, img, _, _, e3⟩ := do_load_ok h1
    rw [e3]; exact hI
  · unfold do_frame at h1
    obtain ⟨s1, hs1, h2⟩ := bind_ok h1
    simp only [pure, Except.pure, Except.ok.injEq] at h2
    have := grab_frame_size s s1 hI.1 hs1
    rw [← h2]
    exact ⟨this.1, fun _ => this.2⟩
  · have := do_group_size fuel s s' hI.1 h1
    exact ⟨this.1, fun _ => this.2⟩

theorem init_state_top {fl : CFloat} (env : Env fl) (buffer_size : Int)
    (cli_output_name : Option (List Nat)) (do16bit : Bool) (filename script : List Nat) :
    TopInv (init_state env buffer_size cli_output_name do16bit filename script) := by
  refine ⟨⟨⟨?_, ?_, ?_, ?_, ?_⟩, ?_⟩, fun hc => absurd rfl hc⟩
  · intro x hx; exact absurd hx (List.not_mem_nil x)
  · intro hc; exact absurd rfl hc
  · intro _; exact ⟨by simp [init_state], by simp [init_state]⟩
  · exact ⟨by simp [init_state], by simp [init_state]⟩
  · exact ⟨by simp [init_state], by simp [init_state]⟩
  · intro o ho; exact absurd ho (List.not_mem_nil o)

/-- C3: in every run of `main` that completes, each output file starts with a header whose
width and height are the maximum width and the maximum height over the frames that
`grab_frame` emitted for that sprite (top-level frames and frames inside groups alike), and
at least one frame was emitted. -/
theorem C3_header_size_is_max {fl : CFloat} (env : Env fl) (buffer_size : Int)
    (cli_output_name : Option (List Nat)) (do16bit : Bool) (filename : List Nat)
    (s : State fl) (h : main_with env buffer_size cli_output_name do16bit filename = .ok s) :
    ∀ o ∈ s.files, HeaderIsMax o := by
  unfold main_with at h
  split at h
  · simp at h
  · rename_i script _
    obtain ⟨s1, hs1, h2⟩ := bind_ok h
    have hT : TopInv s1 :=
      parse_script_inv TopInv
        (fun c t r ht hr => by
          obtain ⟨q, tk, e⟩ := next_token_ok hr
          rw [e]; exact ht)
        (fun fuel t t' => directive_top fuel t t') _ _ _
        (init_state_top env buffer_size cli_output_name do16bit filename script) hs1
    split at h2
    · exact (finish_sprite_size s1 s hT h2).2
    · simp only [pure, Except.pure, Except.ok.injEq] at h2
      rw [← h2]; exact hT.1.2


/-! ## Colour collection -/

theorem add_color_length (u : List Color) (c : Color) :
    u.length ≤ (add_color u c).length ∧ (add_color u c).length ≤ u.length + 1 := by
  unfold add_color
  split <;> simp

theorem collect_list_full (l : List Color) (u : List Color) (h : ¬ u.length < 256) :
    collect_list l u = u := by
  cases l with
  | nil => rfl
  | cons c l => simp only [collect_list, if_neg h]

theorem collect_list_append (l1 l2 : List Color) :
    ∀ u, collect_list (l1 ++ l2) u = collect_list l2 (collect_list l1 u) := by
  induction l1 with
  | nil => intro u; rfl
  | cons c l ih =>
    intro u
    simp only [List.cons_append, collect_list]
    split
    · exact ih _
    · rename_i h
      exact (collect_list_full l2 u h).symm

theorem fold_add_color (l : List Color) :
    ∀ u, l.foldl add_color u = u ++ (first_distinct l).filter (fun d => decide (d ∉ u)) := by
  induction l with
  | nil => intro u; simp [first_distinct]
  | cons c l ih =>
    intro u
    simp only [List.foldl_cons, first_distinct]
    rw [ih]
    unfold add_color
    by_cases hc : c ∈ u
    · rw [if_pos hc]
      congr 1
      rw [List.filter_cons]
      simp only [hc, not_true_eq_false, decide_False, Bool.false_eq_true, if_false,
        List.filter_filter]
      apply List.filter_congr
      intro d _
      by_cases hd : d ∈ u
      · simp [hd]
      · have : d ≠ c := fun e => hd (e ▸ hc)
        simp [hd, this]
    · rw [if_neg hc]
      rw [List.filter_cons]
      simp only [hc, not_false_eq_true, decide_True, if_true, List.filter_filter,
        List.append_assoc, List.singleton_append]
      congr 2
      apply List.filter_congr
      intro d _
      simp only [List.mem_append, List.mem_singleton, not_or, ne_eq, Bool.decide_and,
        Bool.and_comm]

theorem collect_list_eq_take (l : List Color) :
    ∀ u, u.length ≤ 256 → collect_list l u = (l.foldl add_color u).take 256 := by
  induction l with
  | nil =>
    intro u hu
    simp only [collect_list, List.foldl_nil]
    exact (List.take_of_length_le hu).symm
  | cons c l ih =>
    intro u hu
    simp only [collect_list, List.foldl_cons]
    split
    · rename_i hlt
      exact ih _ (by have := add_color_length u c; omega)
    · rename_i hlt
      rw [fold_add_color]
      have h256 : 256 ≤ u.length := by omega
      unfold add_color
      split
      · rw [List.take_append_of_le_length h256]
        exact (List.take_of_length_le (by omega)).symm
      · rw [List.append_assoc, List.take_append_of_le_length h256]
        exact (List.take_of_length_le (by omega)).symm

/-- The capped collection keeps the first 256 distinct colours. -/
theorem collect_list_nil (l : List Color) :
    collect_list l [] = (first_distinct l).take 256 := by
  rw [collect_list_eq_take l [] (by simp), fold_add_color]
  simp

theorem mem_first_distinct (l : List Color) (c : Color) : c ∈ first_distinct l ↔ c ∈ l := by
  induction l with
  | nil => simp [first_distinct]
  | cons a l ih =>
    simp only [first_distinct, List.mem_cons, List.mem_filter, decide_eq_true_eq, ih]
    by_cases h : c = a
    · simp [h]
    · simp [h]

theorem first_distinct_nodup (l : List Color) : (first_distinct l).Nodup := by
  induction l with
  | nil => simp [first_distinct]
  | cons a l ih =>
    simp only [first_distinct, List.nodup_cons, List.mem_filter, decide_eq_true_eq]
    exact ⟨fun h => h.2 rfl, ih.filter _⟩


theorem peek_ok {a : List Nat} {i : Int} {v : Nat} (h : peek a i = .ok v) :
    0 ≤ i ∧ v = a.getD i.toNat 0 := by
  unfold peek at h
  split at h
  · rename_i hc
    simp only [Except.ok.injEq] at h
    exact ⟨hc.1, h.symm⟩
  · simp at h

theorem pixel_rgb_eq {bpp : Int} {row : List Nat} {x : Nat} {c : Color}
    (hbpp : bpp = 24 ∨ bpp = 32) (hx : 4 * (x : Int) + 4 < 2147483648)
    (h : pixel_rgb bpp row (x : Int) = .ok c) : c = pixel_at bpp row x := by
  unfold pixel_rgb at h
  unfold pixel_at
  rcases hbpp with hb | hb
  · subst hb
    simp only [if_true] at h ⊢
    obtain ⟨b, hb1, h⟩ := bind_ok h
    obtain ⟨g, hg1, h⟩ := bind_ok h
    obtain ⟨r, hr1, h⟩ := bind_ok h
    simp only [pure, Except.pure, Except.ok.injEq] at h
    have e0 : wrap32 ((x : Int) * 3) = (x : Int) * 3 := wrap32_of_range _ (by omega) (by omega)
    have e1 : wrap32 ((x : Int) * 3 + 1) = (x : Int) * 3 + 1 :=
      wrap32_of_range _ (by omega) (by omega)
    have e2 : wrap32 ((x : Int) * 3 + 2) = (x : Int) * 3 + 2 :=
      wrap32_of_range _ (by omega) (by omega)
    rw [e0] at hb1 hg1 hr1
    rw [e1] at hg1
    rw [e2] at hr1
    have t0 : ((x : Int) * 3).toNat = 3 * x := by omega
    have t1 : ((x : Int) * 3 + 1).toNat = 3 * x + 1 := by omega
    have t2 : ((x : Int) * 3 + 2).toNat = 3 * x + 2 := by omega
    rw [← h, (peek_ok hb1).2, (peek_ok hg1).2, (peek_ok hr1).2, t0, t1, t2]
  · subst hb
    simp only [show ¬ ((32 : Int) = 24) by decide, if_false, if_true] at h ⊢
    obtain ⟨b, hb1, h⟩ := bind_ok h
    obtain ⟨g, hg1, h⟩ := bind_ok h
    obtain ⟨r, hr1, h⟩ := bind_ok h
    simp only [pure, Except.pure, Except.ok.injEq] at h
    have e0 : wrap32 ((x : Int) * 4) = (x : Int) * 4 := wrap32_of_range _ (by omega) (by omega)
    have e1 : wrap32 ((x : Int) * 4 + 1) = (x : Int) * 4 + 1 :=
      wrap32_of_range _ (by omega) (by omega)
    have e2 : wrap32 ((x : Int) * 4 + 2) = (x : Int) * 4 + 2 :=
      wrap32_of_range _ (by omega) (by omega)
    rw [e0] at hb1 hg1 hr1
    rw [e1] at hg1
    rw [e2] at hr1
    have t0 : ((x : Int) * 4).toNat = 4 * x := by omega
    have t1 : ((x : Int) * 4 + 1).toNat = 4 * x + 1 := by omega
    have t2 : ((x : Int) * 4 + 2).toNat = 4 * x + 2 := by omega
    rw [← h, (peek_ok hb1).2, (peek_ok hg1).2, (peek_ok hr1).2, t0, t1, t2]

theorem collect_row_eq {bpp : Int} {row : List Nat} (hbpp : bpp = 24 ∨ bpp = 32) :
    ∀ (n x : Nat) (u v : List Color), 4 * ((x + n : Nat) : Int) < 2147483648 →
      collect_row bpp row n (x : Int) u = .ok v →
      v = collect_list ((List.range' x n).map (pixel_at bpp row)) u := by
  intro n
  induction n with
  | zero =>
    intro x u v _ h
    simp only [collect_row, Except.ok.injEq] at h
    subst h; rfl
  | succ n ih =>
    intro x u v hx h
    simp only [collect_row] at h
    simp only [List.range'_succ, List.map_cons, collect_list]
    split at h
    · rename_i hlt
      rw [if_pos hlt]
      obtain ⟨c, hc, h2⟩ := bind_ok h
      have hce := pixel_rgb_eq hbpp (by push_cast at hx; omega) hc
      subst hce
      have hcast : ((x : Int) + 1) = ((x + 1 : Nat) : Int) := by push_cast; rfl
      rw [hcast] at h2
      exact ih (x + 1) _ _ (by push_cast at hx ⊢; omega) h2
    · rename_i hlt
      rw [if_neg hlt]
      simp only [Except.ok.injEq] at h
      exact h.symm

theorem collect_rows_eq {bpp width : Int} {row_size : Nat} (hbpp : bpp = 24 ∨ bpp = 32)
    (hw : 4 * (width.toNat : Int) < 2147483648) :
    ∀ (n : Nat) (f : FILE) (u : List Color) (r : List Color × FILE),
      collect_rows bpp width row_size n f u = .ok r →
      r.1 = collect_list
        (((read_rows row_size n f).map (row_colors bpp width.toNat)).flatten) u := by
  intro n
  induction n with
  | zero =>
    intro f u r h
    simp only [collect_rows, Except.ok.injEq] at h
    subst h; rfl
  | succ n ih =>
    intro f u r h
    simp only [collect_rows] at h
    simp only [read_rows, List.map_cons, List.flatten_cons]
    split at h
    · obtain ⟨u1, h1, h2⟩ := bind_ok h
      have e1 := collect_row_eq hbpp width.toNat 0 u u1 (by simpa using hw) (by simpa using h1)
      rw [collect_list_append, ih _ _ _ h2, e1]
      unfold row_colors
      rw [List.range_eq_range']
    · rename_i hlt
      simp only [Except.ok.injEq] at h
      subst h
      exact (collect_list_full _ _ hlt).symm


theorem fread_or_zero_bytes (f : FILE) (count : Nat) (hf : ∀ x ∈ f.data, x < 256) :
    (∀ x ∈ (fread_or_zero f count).1, x < 256) ∧ (fread_or_zero f count).2.data = f.data := by
  unfold fread_or_zero fread
  refine ⟨?_, rfl⟩
  intro x hx
  simp only at hx
  split at hx
  · exact hf x (List.mem_of_mem_drop (List.mem_of_mem_take hx))
  · rw [List.mem_replicate] at hx
    omega

theorem read_rows_bytes (row_size : Nat) :
    ∀ (n : Nat) (f : FILE), (∀ x ∈ f.data, x < 256) →
      ∀ row ∈ read_rows row_size n f, ∀ x ∈ row, x < 256 := by
  intro n
  induction n with
  | zero => intro f _ row hrow; simp [read_rows] at hrow
  | succ n ih =>
    intro f hf row hrow
    simp only [read_rows, List.mem_cons] at hrow
    have hb := fread_or_zero_bytes f row_size hf
    rcases hrow with hrow | hrow
    · subst hrow; exact hb.1
    · exact ih _ (by rw [hb.2]; exact hf) row hrow

theorem pixel_at_bytes (bpp : Int) (row : List Nat) (x : Nat) (hrow : ∀ y ∈ row, y < 256) :
    (pixel_at bpp row x).1 < 256 ∧ (pixel_at bpp row x).2.1 < 256 ∧
      (pixel_at bpp row x).2.2 < 256 := by
  unfold pixel_at
  split <;> exact ⟨getD_lt_of_forall _ hrow _, getD_lt_of_forall _ hrow _,
    getD_lt_of_forall _ hrow _⟩

theorem scanned_colors_bytes (bpp : Int) (width row_size height : Nat) (f : FILE)
    (hf : ∀ x ∈ f.data, x < 256) :
    ∀ c ∈ scanned_colors bpp width row_size height f,
      c.1 < 256 ∧ c.2.1 < 256 ∧ c.2.2 < 256 := by
  intro c hc
  unfold scanned_colors at hc
  rw [List.mem_flatten] at hc
  obtain ⟨l, hl, hcl⟩ := hc
  rw [List.mem_map] at hl
  obtain ⟨row, hrow, rfl⟩ := hl
  unfold row_colors at hcl
  rw [List.mem_map] at hcl
  obtain ⟨x, _, rfl⟩ := hcl
  exact pixel_at_bytes bpp row x (read_rows_bytes row_size height f hf row hrow)

theorem palette_bytes_lt (u : List Color)
    (hu : ∀ c ∈ u, c.1 < 256 ∧ c.2.1 < 256 ∧ c.2.2 < 256) :
    ∀ x ∈ palette_bytes u, x < 256 := by
  induction u with
  | nil => intro x hx; simp [palette_bytes] at hx
  | cons c rest ih =>
    intro x hx
    simp only [palette_bytes, List.mem_cons] at hx
    have hc := hu c (List.mem_cons_self _ _)
    rcases hx with hx | hx | hx | hx
    · omega
    · omega
    · omega
    · exact ih (fun d hd => hu d (List.mem_cons_of_mem _ hd)) x hx

/-- The palette pass on a true-colour image with no palette established returns
`collected_palette`, and the nearest-match scan over it finds a nearest entry. -/
theorem bmp_palette_first_distinct (original_palette : List Nat) (f : FILE)
    (width height bpp data_offset colors_used : Int) (p : List Nat × List Nat × FILE)
    (hbpp : bpp = 24 ∨ bpp = 32) (hov : width * bpp + 31 < 2147483648)
    (hf : ∀ x ∈ f.data, x < 256)
    (h : bmp_palette false original_palette f width height bpp data_offset colors_used
      = .ok p) :
    p.1 = collected_palette bpp width height data_offset f ∧
    p.2.1 = p.1 ∧
    (first_colors bpp width height data_offset f).length =
      min 256 (first_distinct (scanned_colors bpp width.toNat (row_size_of width bpp).toNat
        height.toNat (fseek_set f data_offset))).length ∧
    (∀ r g b : Nat, r < 256 → g < 256 → b < 256 →
      ∃ i : Nat, nearest p.1 r g b = (i : Int) ∧ i < 256 ∧
        ∀ j, j < 256 → sqdist p.1 r g b i ≤ sqdist p.1 r g b j) := by
  have hw4 : 4 * (width.toNat : Int) < 2147483648 := by
    rcases hbpp with hb | hb <;> subst hb <;> omega
  have hbpp8 : ¬ bpp = 8 := by
    rcases hbpp with hb | hb <;> subst hb <;> decide
  unfold bmp_palette at h
  rw [if_neg hbpp8] at h
  simp only [Bool.not_false, if_true] at h
  split at h
  · simp at h
  · obtain ⟨c, hc, h2⟩ := bind_ok h
    obtain ⟨z, hz, h3⟩ := bind_ok h2
    simp only [pure, Except.pure, Except.ok.injEq] at h3
    have hcl := collect_rows_length _ _ _ _ _ _ _ (by simp) hc
    have hzl := zero_fill_length _ _ _ hz
    have hce := collect_rows_eq hbpp hw4 _ _ _ _ hc
    rw [collect_list_nil] at hce
    have hfd : ∀ x ∈ (fseek_set f data_offset).data, x < 256 := by
      unfold fseek_set
      split <;> exact hf
    have hz2 : z = List.replicate (3 * (256 - c.1.length)) 0 := by
      rw [hzl]
      congr 2
      unfold PALETTE_SIZE
      omega
    have hp1 : p.1 = palette_bytes c.1 ++ z := by rw [← h3]
    have hp2 : p.2.1 = p.1 := by rw [← h3]
    rw [hz2, hce] at hp1
    refine ⟨hp1, hp2, List.length_take _ _, ?_⟩
    intro r g b hr hg hb
    have hpal : ∀ x ∈ p.1, x < 256 := by
      rw [hp1]
      intro x hx
      rw [List.mem_append] at hx
      rcases hx with hx | hx
      · refine palette_bytes_lt _ ?_ x hx
        intro d hd
        have hd2 := (mem_first_distinct _ d).mp (List.mem_of_mem_take hd)
        exact scanned_colors_bytes _ _ _ _ _ hfd d hd2
      · rw [List.mem_replicate] at hx
        omega
    obtain ⟨m, hm, hspec⟩ := nearest_loop_spec p.1 hpal r g b hr hg hb 256 0 0 999999
      (Or.inl ⟨rfl, rfl, rfl⟩)
    refine ⟨m, by unfold nearest; exact hm, ?_⟩
    rcases hspec with ⟨h0, _, _⟩ | ⟨h1, h2, _⟩
    · omega
    · exact ⟨by omega, fun j hj => h2 j (by omega)⟩



/-! ## A decoded true-colour image has a row stride that did not overflow -/

theorem cdiv_32_bounds (v : Int) (h1 : -2147483648 ≤ v) (h2 : v < 2147483648) :
    -67108864 ≤ cdiv v 32 ∧ cdiv v 32 ≤ 67108863 ∧ (0 ≤ v → cdiv v 32 = v / 32) := by
  unfold cdiv
  by_cases hv : 0 ≤ v
  · have e : v.tdiv 32 = v / 32 := Int.tdiv_eq_ediv hv (by decide)
    rw [e]
    exact ⟨by omega, by omega, fun _ => rfl⟩
  · have e : v.tdiv 32 = -((-v).tdiv 32) := by
      rw [Int.neg_tdiv, neg_neg]
    have e2 : (-v).tdiv 32 = (-v) / 32 := Int.tdiv_eq_ediv (by omega) (by decide)
    rw [e, e2]
    exact ⟨by omega, by omega, fun h => absurd h hv⟩

theorem row_size_of_le (width bpp : Int) : row_size_of width bpp ≤ 268435452 := by
  unfold row_size_of
  have hr := wrap32_range (wrap32 (width * bpp) + 31)
  have hc := cdiv_32_bounds _ hr.1 hr.2
  rw [wrap32_of_range _ (by omega) (by omega)]
  omega

theorem row_size_of_exact (width bpp : Int) (h0 : 0 ≤ width * bpp)
    (h1 : width * bpp + 31 < 2147483648) :
    row_size_of width bpp = (width * bpp + 31) / 32 * 4 := by
  unfold row_size_of
  rw [wrap32_of_range (width * bpp) (by omega) (by omega),
    wrap32_of_range (width * bpp + 31) (by omega) (by omega)]
  have hc := cdiv_32_bounds (width * bpp + 31) (by omega) (by omega)
  rw [hc.2.2 (by omega)]
  exact wrap32_of_range _ (by omega) (by omega)

theorem peek_lt {a : List Nat} {i : Int} {v : Nat} (h : peek a i = .ok v) :
    0 ≤ i ∧ i < a.length := by
  unfold peek at h
  split at h
  · rename_i hc; exact hc
  · simp at h

theorem pixel_rgb_in_row {bpp : Int} {row : List Nat} {x : Nat} {c : Color}
    (hbpp : bpp = 24 ∨ bpp = 32) (hx : 4 * (x : Int) + 4 < 2147483648)
    (h : pixel_rgb bpp row (x : Int) = .ok c) :
    (bpp = 24 → 3 * (x : Int) + 2 < row.length) ∧ (bpp = 32 → 4 * (x : Int) + 2 < row.length) := by
  unfold pixel_rgb at h
  rcases hbpp with hb | hb
  · subst hb
    simp only [if_true] at h
    obtain ⟨b, _, h⟩ := bind_ok h
    obtain ⟨g, _, h⟩ := bind_ok h
    obtain ⟨r, hr1, h⟩ := bind_ok h
    have e0 : wrap32 ((x : Int) * 3) = (x : Int) * 3 := wrap32_of_range _ (by omega) (by omega)
    have e2 : wrap32 ((x : Int) * 3 + 2) = (x : Int) * 3 + 2 :=
      wrap32_of_range _ (by omega) (by omega)
    rw [e0, e2] at hr1
    have := peek_lt hr1
    exact ⟨fun _ => by omega, fun hc => absurd hc (by decide)⟩
  · subst hb
    simp only [show ¬ ((32 : Int) = 24) by decide, if_false, if_true] at h
    obtain ⟨b, _, h⟩ := bind_ok h
    obtain ⟨g, _, h⟩ := bind_ok h
    obtain ⟨r, hr1, h⟩ := bind_ok h
    have e0 : wrap32 ((x : Int) * 4) = (x : Int) * 4 := wrap32_of_range _ (by omega) (by omega)
    have e2 : wrap32 ((x : Int) * 4 + 2) = (x : Int) * 4 + 2 :=
      wrap32_of_range _ (by omega) (by omega)
    rw [e0, e2] at hr1
    have := peek_lt hr1
    exact ⟨fun hc => absurd hc (by decide), fun _ => by omega⟩

theorem decode_row_reads {bpp : Int} {pal row : List Nat} {width y : Int}
    (hbpp : bpp = 24 ∨ bpp = 32) :
    ∀ (n x : Nat) (img img' : List Nat),
      decode_row bpp pal row width y n (x : Int) img = .ok img' →
      ∀ k, k < n → ∃ c, pixel_rgb bpp row ((x + k : Nat) : Int) = .ok c := by
  have h8 : ¬ bpp = 8 := by rcases hbpp with hb | hb <;> subst hb <;> decide
  intro n
  induction n with
  | zero => intro x img img' _ k hk; omega
  | succ n ih =>
    intro x img img' h k hk
    simp only [decode_row, if_neg h8, if_pos hbpp] at h
    obtain ⟨c, hc, h2⟩ := bind_ok h
    obtain ⟨img1, _, h3⟩ := bind_ok h2
    cases k with
    | zero => exact ⟨c, by simpa using hc⟩
    | succ k =>
      have hcast : ((x : Int) + 1) = ((x + 1 : Nat) : Int) := by push_cast; rfl
      rw [hcast] at h3
      obtain ⟨c', hc'⟩ := ih (x + 1) _ _ h3 k (by omega)
      exact ⟨c', by rw [show x + (k + 1) = x + 1 + k by omega]; exact hc'⟩

theorem fread_or_zero_length (f : FILE) (count : Nat) :
    (fread_or_zero f count).1.length = count := by
  unfold fread_or_zero
  simp only
  split
  · rename_i h; exact h
  · exact List.length_replicate _ _

/-- If the pixel pass over a true-colour image of positive size completes, the row stride
was computed without overflow. -/
theorem decode_rows_no_overflow {bpp : Int} {pal : List Nat} {width height y : Int}
    {f : FILE} {img img' : List Nat} (hbpp : bpp = 24 ∨ bpp = 32)
    (hw : 0 < width) (hw2 : width < 2147483648) (hh : 0 < height)
    (hrs : 0 ≤ row_size_of width bpp)
    (h : decode_rows bpp pal width (row_size_of width bpp).toNat height.toNat y f img
      = .ok img') :
    width * bpp + 31 < 2147483648 := by
  obtain ⟨n, hn⟩ : ∃ n, height.toNat = n + 1 := ⟨height.toNat - 1, by omega⟩
  rw [hn] at h
  simp only [decode_rows] at h
  obtain ⟨img1, h1, _⟩ := bind_ok h
  have hreads := decode_row_reads hbpp width.toNat 0 _ _ (by simpa using h1)
  have hlen := fread_or_zero_length f (row_size_of width bpp).toNat
  have hle := row_size_of_le width bpp
  by_contra hov
  rcases hbpp with hb | hb
  · subst hb
    have hwid : 89478484 < width.toNat := by omega
    obtain ⟨c, hc⟩ := hreads 89478484 hwid
    simp only [Nat.zero_add] at hc
    have := (pixel_rgb_in_row (Or.inl rfl) (by norm_num) hc).1 rfl
    rw [hlen] at this
    push_cast at this
    omega
  · subst hb
    have hwid : 67108863 < width.toNat := by omega
    obtain ⟨c, hc⟩ := hreads 67108863 hwid
    simp only [Nat.zero_add] at hc
    have := (pixel_rgb_in_row (Or.inr rfl) (by norm_num) hc).2 rfl
    rw [hlen] at this
    push_cast at this
    omega


/-! ## Group serialisation -/

theorem running_sums_length (fl : CFloat) :
    ∀ (ts : List fl.F) (tot : fl.F), (running_sums fl tot ts).length = ts.length := by
  intro ts
  induction ts with
  | nil => intro tot; rfl
  | cons t ts ih => intro tot; simp only [running_sums, List.length_cons, ih]

theorem running_sums_get (fl : CFloat) :
    ∀ (ts : List fl.F) (tot : fl.F) (k : Nat), k < ts.length →
      (running_sums fl tot ts)[k]? = some ((ts.take (k + 1)).foldl fl.add tot) := by
  intro ts
  induction ts with
  | nil => intro tot k hk; simp at hk
  | cons t ts ih =>
    intro tot k hk
    cases k with
    | zero => simp [running_sums]
    | succ k =>
      simp only [running_sums, List.getElem?_cons_succ, List.take_succ_cons, List.foldl_cons]
      exact ih _ k (by simpa using hk)

theorem running_sums_chain (fl : CFloat)
    (hmono : ∀ a t : fl.F, fl.le t fl.zero = false → fl.le a (fl.add a t) = true) :
    ∀ (ts : List fl.F) (tot : fl.F), (∀ t ∈ ts, fl.le t fl.zero = false) →
      List.Chain (fun a b => fl.le a b = true) tot (running_sums fl tot ts) := by
  intro ts
  induction ts with
  | nil => intro tot _; exact List.Chain.nil
  | cons t ts ih =>
    intro tot hpos
    simp only [running_sums]
    exact List.Chain.cons (hmono tot t (hpos t (List.mem_cons_self _ _)))
      (ih _ (fun x hx => hpos x (List.mem_cons_of_mem _ hx)))

theorem write_intervals_eq {fl : CFloat} (s : State fl) (g : Int) :
    ∀ (cs : List (spritepackage_t fl)) (j : Nat) (tot : fl.F) (w : Written fl),
      (∀ i (hi : i < cs.length), frame_desc s (g + 1 + ((j + i : Nat) : Int)) =
        .ok (cs.get ⟨i, hi⟩)) →
      (write_intervals s g cs.length (j : Int) tot w).chunks =
        w.chunks ++ (running_sums fl tot (cs.map (fun c => c.interval))).map Chunk.interval ∧
      (write_intervals s g cs.length (j : Int) tot w).status = w.status := by
  intro cs
  induction cs with
  | nil => intro j tot w _; simp [write_intervals, running_sums]
  | cons c cs ih =>
    intro j tot w hcs
    have h0 := hcs 0 (by simp)
    simp only [Nat.add_zero, List.get_eq_getElem, List.getElem_cons_zero] at h0
    simp only [List.length_cons, write_intervals, h0, List.map_cons, running_sums]
    have hcast : ((j : Int) + 1) = ((j + 1 : Nat) : Int) := by push_cast; rfl
    rw [hcast]
    have := ih (j + 1) (fl.add tot c.interval)
      { w with reads := w.reads ++ [g + 1 + (j : Int)],
               chunks := w.chunks ++ [Chunk.interval (fl.add tot c.interval)] }
      (by
        intro i hi
        have := hcs (i + 1) (by simpa using hi)
        simp only [List.get_eq_getElem, List.getElem_cons_succ] at this
        rw [show j + 1 + i = j + (i + 1) by omega]
        exact this)
    rw [this.1, this.2]
    simp

theorem write_single_payload {fl : CFloat} {s : State fl} {pdata : Int}
    {cs : List (Chunk fl)} (h : write_single s pdata = .ok cs) :
    ∀ c ∈ cs, is_payload c = true := by
  unfold write_single at h
  obtain ⟨o0, _, h⟩ := bind_ok h
  obtain ⟨o1, _, h⟩ := bind_ok h
  obtain ⟨wd, _, h⟩ := bind_ok h
  obtain ⟨ht, _, h⟩ := bind_ok h
  split at h
  · simp at h
  · obtain ⟨px, _, h⟩ := bind_ok h
    simp only [pure, Except.pure, Except.ok.injEq] at h
    subst h
    intro c hc
    simp only [List.mem_cons, List.mem_singleton, List.not_mem_nil, or_false] at hc
    rcases hc with hc | hc <;> subst hc <;> rfl

theorem write_group_frames_payload {fl : CFloat} (s : State fl) :
    ∀ (n : Nat) (c : Int) (w : Written fl),
      ∃ rest, (write_group_frames s n c w).chunks = w.chunks ++ rest ∧
        ∀ x ∈ rest, is_payload x = true := by
  intro n
  induction n with
  | zero => intro c w; exact ⟨[], by simp [write_group_frames], by simp⟩
  | succ n ih =>
    intro c w
    simp only [write_group_frames]
    split
    · exact ⟨[], by simp, by simp⟩
    · split
      · exact ⟨[], by simp, by simp⟩
      · rename_i cs hcs
        obtain ⟨rest, hrest, hp⟩ := ih (c + 1)
          { chunks := w.chunks ++ cs, reads := w.reads ++ [c], status := w.status }
        refine ⟨cs ++ rest, by rw [hrest, List.append_assoc], ?_⟩
        intro x hx
        rw [List.mem_append] at hx
        rcases hx with hx | hx
        · exact write_single_payload hcs x hx
        · exact hp x hx


theorem running_sums_chain' (fl : CFloat)
    (hmono : ∀ a t : fl.F, fl.le t fl.zero = false → fl.le a (fl.add a t) = true)
    (ts : List fl.F) (tot : fl.F) (hpos : ∀ t ∈ ts, fl.le t fl.zero = false) :
    List.Chain' (fun a b => fl.le a b = true) (running_sums fl tot ts) := by
  cases ts with
  | nil => exact List.chain'_nil
  | cons t ts =>
    simp only [running_sums, List.Chain']
    exact running_sums_chain fl hmono ts _ (fun x hx => hpos x (List.mem_cons_of_mem _ hx))

/-- For a group whose header descriptor `d` (at index `g`) counts the `n >= 1` children
`cs` recorded after it, `finish_sprite` writes the child count `n`, then exactly `n`
interval records — the running sums of the children's own intervals, the `k`-th being
`t1 + ... + tk` added left to right — then only Single payloads, whatever the float
addition is.  For an addition that never decreases a value when a positive interval is
added (exact arithmetic; not a float with NaN) the written sequence is non-decreasing; and
in exact decimal arithmetic the intervals 0.1, 0.2, 0.3 give 0.1, 0.3, 0.6. -/
theorem group_cumulative_intervals {fl : CFloat} (s : State fl) (g : Int)
    (d : spritepackage_t fl) (cs : List (spritepackage_t fl)) (w : Written fl)
    (hn : d.numgroupframes = (cs.length : Int)) (hne : cs ≠ [])
    (hrange : (cs.length : Int) < 2147483648)
    (hcs : ∀ i (hi : i < cs.length), frame_desc s (g + 1 + (i : Int)) = .ok (cs.get ⟨i, hi⟩))
    (hmono : ∀ a t : fl.F, fl.le t fl.zero = false → fl.le a (fl.add a t) = true)
    (hpos : ∀ c ∈ cs, fl.le c.interval fl.zero = false) :
    (∃ rest, (write_group s g d w).chunks =
        w.chunks ++ Chunk.group (cs.length : Int) ::
          ((running_sums fl fl.zero (cs.map (fun c => c.interval))).map Chunk.interval ++ rest) ∧
        ∀ x ∈ rest, is_payload x = true) ∧
    (running_sums fl fl.zero (cs.map (fun c => c.interval))).length = cs.length ∧
    (∀ k, k < cs.length → (running_sums fl fl.zero (cs.map (fun c => c.interval)))[k]? =
      some (((cs.map (fun c => c.interval)).take (k + 1)).foldl fl.add fl.zero)) ∧
    List.Chain' (fun a b => fl.le a b = true)
      (running_sums fl fl.zero (cs.map (fun c => c.interval))) ∧
    (running_sums decimal decimal.zero
      [decimal.tenth, decimal.atof (bytes "0.2"), decimal.atof (bytes "0.3")] : List ℚ) =
      [1 / 10, 3 / 10, 3 / 5] := by
  have hlen : 0 < cs.length := List.length_pos.mpr hne
  refine ⟨?_, ?_, ?_, ?_, ?_⟩
  · unfold write_group
    simp only
    have hll : little_long d.numgroupframes = (cs.length : Int) := by
      rw [hn]; exact little_long_of_range _ (by omega) hrange
    have htn : d.numgroupframes.toNat = cs.length := by rw [hn]; exact Int.toNat_natCast _
    rw [hll, htn]
    have hi := write_intervals_eq s g cs 0 fl.zero
      { w with chunks := w.chunks ++ [Chunk.group (cs.length : Int)] }
      (by intro i hi; simpa using hcs i hi)
    simp only [Nat.cast_zero] at hi
    split
    · refine ⟨[], ?_, by simp⟩
      rw [hi.1]
      simp
    · obtain ⟨rest, hrest, hp⟩ := write_group_frames_payload s cs.length (g + 1)
        (write_intervals s g cs.length 0 fl.zero
          { w with chunks := w.chunks ++ [Chunk.group (cs.length : Int)] })
      refine ⟨rest, ?_, hp⟩
      rw [hrest, hi.1]
      simp
  · rw [running_sums_length, List.length_map]
  · intro k hk
    exact running_sums_get fl _ _ k (by simpa using hk)
  · exact running_sums_chain' fl hmono _ _ (by
      intro t ht
      rw [List.mem_map] at ht
      obtain ⟨c, hc, rfl⟩ := ht
      exact hpos c hc)
  · decide!


/-! ## Arena growth -/

theorem relocate_get {fl : CFloat} (old new : Int) :
    ∀ (n : Nat) (l : List (spritepackage_t fl)) (i : Nat),
      (relocate old new n l)[i]? =
        (l[i]?).map (fun f => if i < n then { f with pdata := new + (f.pdata - old) } else f) := by
  intro n
  induction n with
  | zero =>
    intro l i
    simp only [relocate, Nat.not_lt_zero, if_false]
    cases l[i]? <;> rfl
  | succ n ih =>
    intro l i
    cases l with
    | nil => simp [relocate]
    | cons f rest =>
      cases i with
      | zero => simp [relocate]
      | succ i =>
        simp only [relocate, List.getElem?_cons_succ, ih, Nat.add_lt_add_iff_right]

/-- When `ensure_buffer_capacity` returns, the write cursor and the `pdata` of every
descriptor below `framecount` keep their offset from the arena base, the arena content and
the other descriptor fields are unchanged, and the capacity is at least the size requested
(for requests below 2^63). -/
theorem ensure_buffer_capacity_relocates {fl : CFloat} {env : Env fl} {s s' : State fl}
    {needed : Int} (h : ensure_buffer_capacity env s needed = .ok s') :
    s'.plump - s'.lumpbuffer = s.plump - s.lumpbuffer ∧ s'.lump = s.lump ∧
    s'.framecount = s.framecount ∧
    (∀ (i : Nat) (f : spritepackage_t fl), (i : Int) < s.framecount → s.frames[i]? = some f →
      ∃ f', s'.frames[i]? = some f' ∧ f'.pdata - s'.lumpbuffer = f.pdata - s.lumpbuffer ∧
        f'.type = f.type ∧ f'.interval = f.interval ∧
        f'.numgroupframes = f.numgroupframes) ∧
    (0 ≤ needed → needed < 9223372036854775808 → needed ≤ s'.buffer_size) := by
  unfold ensure_buffer_capacity at h
  split at h
  · simp only at h
    split at h
    · simp at h
    · rename_i base _
      simp only [Except.ok.injEq] at h
      subst h
      refine ⟨by simp, rfl, rfl, ?_, ?_⟩
      · intro i f hi hf
        have hpos : s.framecount > 0 := by omega
        simp only [if_pos hpos, relocate_get, hf, Option.map_some']
        have hlt : i < s.framecount.toNat := by omega
        rw [if_pos hlt]
        exact ⟨_, rfl, by simp, rfl, rfl, rfl⟩
      · intro h0 h1
        show needed ≤ wrap_size (needed * 2)
        unfold wrap_size
        omega
  · rename_i hle
    simp only [Except.ok.injEq] at h
    subst h
    refine ⟨rfl, rfl, rfl, ?_, ?_⟩
    · intro i f _ hf
      exact ⟨f, hf, rfl, rfl, rfl, rfl⟩
    · intro _ _
      omega


/-! ## The fuel given by `main` is enough -/

theorem skip_whitespace_len (crossline : Bool) :
    ∀ (p : List Nat) (m : Bool),
      (skip_whitespace crossline m p).2.length ≤ p.length ∧
      ((skip_whitespace crossline m p).1 = true →
        ∃ ch rest, (skip_whitespace crossline m p).2 = ch :: rest ∧ ¬ char_of_byte ch ≤ 32) := by
  intro p
  induction p with
  | nil => intro m; cases m <;> simp [skip_whitespace]
  | cons c rest ih =>
    intro m
    cases m with
    | true =>
      simp only [skip_whitespace]
      split
      · split
        · simp
        · have := ih false
          exact ⟨by simp only [List.length_cons]; omega, this.2⟩
      · have := ih true
        exact ⟨by simp only [List.length_cons]; omega, this.2⟩
    | false =>
      simp only [skip_whitespace]
      split
      · split
        · simp
        · have := ih false
          exact ⟨by simp only [List.length_cons]; omega, this.2⟩
      · split
        · have := ih false
          exact ⟨by simp only [List.length_cons]; omega, this.2⟩
        · rename_i hws
          split
          · split
            · simp
            · have := ih true
              exact ⟨by simp only [List.length_cons]; omega, this.2⟩
          · exact ⟨le_refl _, fun _ => ⟨c, rest, rfl, hws⟩⟩

theorem read_unquoted_len :
    ∀ (p : List Nat), (read_unquoted p).2.length ≤ p.length ∧
      (∀ ch rest, p = ch :: rest → ¬ char_of_byte ch ≤ 32 →
        (read_unquoted p).2.length < p.length) := by
  intro p
  induction p with
  | nil => simp [read_unquoted]
  | cons c rest ih =>
    simp only [read_unquoted]
    split
    · rename_i hws
      cases rest with
      | nil => exact ⟨by simp, fun ch r he hn => by
          simp only [List.cons.injEq] at he; exact absurd (he.1 ▸ hws) hn⟩
      | cons d r2 => exact ⟨le_refl _, fun ch r he hn => by
          simp only [List.cons.injEq] at he; exact absurd (he.1 ▸ hws) hn⟩
    · cases rest with
      | nil => exact ⟨by simp, fun _ _ _ _ => by simp⟩
      | cons d r2 =>
        simp only
        have := ih.1
        exact ⟨by simp only [List.length_cons] at this ⊢; omega,
          fun _ _ _ _ => by simp only [List.length_cons] at this ⊢; omega⟩

theorem read_quoted_len :
    ∀ (p t q : List Nat), read_quoted p = some (t, q) → q.length < p.length := by
  intro p
  induction p with
  | nil => intro t q h; simp [read_quoted] at h
  | cons c rest ih =>
    intro t q h
    simp only [read_quoted] at h
    split at h
    · simp only [Option.some.injEq, Prod.mk.injEq] at h
      rw [← h.2]; simp
    · split at h
      · simp at h
      · rename_i t1 p1 hq
        simp only [Option.some.injEq, Prod.mk.injEq] at h
        have := ih _ _ hq
        rw [← h.2]
        simp only [List.length_cons]; omega

theorem get_token_len {crossline : Bool} {p tok : List Nat} {r : Bool × List Nat × List Nat}
    (h : get_token crossline p tok = .ok r) :
    r.2.1.length ≤ p.length ∧ (r.1 = true → r.2.1.length < p.length) := by
  unfold get_token at h
  have hs := skip_whitespace_len crossline p false
  split at h
  · rename_i q hq
    simp only [Except.ok.injEq] at h
    rw [hq] at hs
    subst h
    exact ⟨hs.1, fun hc => by simp at hc⟩
  · simp only [Except.ok.injEq] at h
    subst h
    exact ⟨by simp, fun hc => by simp at hc⟩
  · rename_i c rest hq
    rw [hq] at hs
    obtain ⟨ch, r2, he, hn⟩ := hs.2 rfl
    simp only [List.cons.injEq] at he
    split at h
    · split at h
      · simp at h
      · rename_i t q hrq
        simp only [Except.ok.injEq] at h
        subst h
        have := read_quoted_len _ _ _ hrq
        have h1 := hs.1
        simp only [List.length_cons] at h1
        exact ⟨by simp only; omega, fun _ => by simp only; omega⟩
    · simp only [Except.ok.injEq] at h
      subst h
      have := (read_unquoted_len (c :: rest)).2 c rest rfl (he.1 ▸ hn)
      have h1 : (c :: rest).length ≤ p.length := hs.1
      exact ⟨by simp only; omega, fun _ => by simp only; omega⟩

theorem get_token_nofuel (crossline : Bool) (p tok : List Nat) :
    NoFuelErr (get_token crossline p tok) := by
  unfold NoFuelErr get_token
  split
  · simp
  · simp
  · split
    · split <;> simp
    · simp

theorem bind_nofuel {α β : Type} {x : Except Err α} {f : α → Except Err β}
    (hx : NoFuelErr x) (hf : ∀ a, x = .ok a → NoFuelErr (f a)) : NoFuelErr (x >>= f) := by
  cases x with
  | error e =>
    unfold NoFuelErr at hx ⊢
    simpa [bind, Except.bind] using hx
  | ok a => exact hf a rfl

theorem next_token_len {fl : CFloat} {crossline : Bool} {s : State fl} {r : Bool × State fl}
    (h : next_token crossline s = .ok r) :
    Shrinks s r.2 ∧ (r.1 = true → r.2.scriptptr.length < s.scriptptr.length) := by
  unfold next_token at h
  obtain ⟨a, ha, h2⟩ := bind_ok h
  simp only [pure, Except.pure, Except.ok.injEq] at h2
  have := get_token_len ha
  subst h2
  exact this

theorem next_token_nofuel {fl : CFloat} (crossline : Bool) (s : State fl) :
    NoFuelErr (next_token crossline s) := by
  unfold next_token
  exact bind_nofuel (get_token_nofuel _ _ _) (fun a _ => by simp [NoFuelErr, pure, Except.pure])


theorem nofuel_ok {α : Type} (a : α) : NoFuelErr (Except.ok a : Except Err α) := by
  simp [NoFuelErr]

theorem nofuel_ite {α : Type} {c : Prop} [Decidable c] {a b : Except Err α}
    (ha : NoFuelErr a) (hb : NoFuelErr b) : NoFuelErr (if c then a else b) := by
  split
  · exact ha
  · exact hb

theorem peek_nofuel (a : List Nat) (i : Int) : NoFuelErr (peek a i) := by
  unfold peek; split <;> simp [NoFuelErr]

theorem put_nofuel (a : List Nat) (i : Int) (v : Nat) : NoFuelErr (put a i v) := by
  unfold put; split <;> simp [NoFuelErr]

theorem set_frame_nofuel {fl : CFloat} (s : State fl) (idx : Int)
    (g : spritepackage_t fl → spritepackage_t fl) : NoFuelErr (set_frame s idx g) := by
  unfold set_frame
  split
  · simp [NoFuelErr]
  · split <;> simp [NoFuelErr]

theorem frame_desc_nofuel {fl : CFloat} (s : State fl) (idx : Int) :
    NoFuelErr (frame_desc s idx) := by
  unfold frame_desc
  split
  · simp [NoFuelErr]
  · split <;> simp [NoFuelErr]

theorem poke_nofuel {fl : CFloat} (s : State fl) (addr : Int) (bs : List Nat) :
    NoFuelErr (poke s addr bs) := by
  unfold poke
  simp only
  split <;> simp [NoFuelErr]

theorem peek_bytes_nofuel {fl : CFloat} (s : State fl) (addr : Int) (n : Nat) :
    NoFuelErr (peek_bytes s addr n) := by
  unfold peek_bytes
  simp only
  split <;> simp [NoFuelErr]

theorem peek_int_nofuel {fl : CFloat} (s : State fl) (addr : Int) :
    NoFuelErr (peek_int s addr) := by
  unfold peek_int
  exact bind_nofuel (peek_bytes_nofuel _ _ _) (fun _ _ => nofuel_ok _)

theorem ensure_frame_capacity_nofuel {fl : CFloat} (env : Env fl) (s : State fl) :
    NoFuelErr (ensure_frame_capacity env s) := by
  unfold ensure_frame_capacity
  split
  · simp only
    split <;> simp [NoFuelErr]
  · simp [NoFuelErr]

theorem ensure_buffer_capacity_nofuel {fl : CFloat} (env : Env fl) (s : State fl)
    (needed : Int) : NoFuelErr (ensure_buffer_capacity env s needed) := by
  unfold ensure_buffer_capacity
  split
  · simp only
    split <;> simp [NoFuelErr]
  · simp [NoFuelErr]

theorem copy_row_nofuel {fl : CFloat} (source : Int) :
    ∀ (n : Nat) (x : Int) (s : State fl), NoFuelErr (copy_row source n x s) := by
  intro n
  induction n with
  | zero => intro x s; simp [copy_row, NoFuelErr]
  | succ n ih =>
    intro x s
    simp only [copy_row]
    exact bind_nofuel (peek_nofuel _ _) (fun _ _ =>
      bind_nofuel (poke_nofuel _ _ _) (fun _ _ => ih _ _))

theorem copy_rows_nofuel {fl : CFloat} (w : Nat) :
    ∀ (n : Nat) (source : Int) (s : State fl), NoFuelErr (copy_rows w n source s) := by
  intro n
  induction n with
  | zero => intro x s; simp [copy_rows, NoFuelErr]
  | succ n ih =>
    intro x s
    simp only [copy_rows]
    exact bind_nofuel (copy_row_nofuel _ _ _ _) (fun _ _ => ih _ _)

theorem frame_rect_nofuel {fl : CFloat} (s : State fl) : NoFuelErr (frame_rect s) := by
  unfold frame_rect
  exact bind_nofuel (next_token_nofuel _ _) (fun _ _ =>
    bind_nofuel (next_token_nofuel _ _) (fun _ _ =>
      bind_nofuel (next_token_nofuel _ _) (fun _ _ =>
        bind_nofuel (next_token_nofuel _ _) (fun _ _ => nofuel_ok _))))

theorem frame_alloc_nofuel {fl : CFloat} (env : Env fl) (s : State fl) (r : Rect) :
    NoFuelErr (frame_alloc env s r) := by
  unfold frame_alloc
  exact bind_nofuel (ensure_frame_capacity_nofuel _ _) (fun _ _ =>
    bind_nofuel (set_frame_nofuel _ _ _) (fun _ _ => ensure_buffer_capacity_nofuel _ _ _))

theorem frame_interval_nofuel {fl : CFloat} (s : State fl) : NoFuelErr (frame_interval s) := by
  unfold frame_interval
  exact bind_nofuel (next_token_nofuel _ _) (fun _ _ =>
    bind_nofuel (set_frame_nofuel _ _ _) (fun _ _ =>
      nofuel_ite (by simp [NoFuelErr]) (nofuel_ok _)))

theorem frame_origin_nofuel {fl : CFloat} (s : State fl) (r : Rect) :
    NoFuelErr (frame_origin s r) := by
  unfold frame_origin
  exact bind_nofuel (next_token_nofuel _ _) (fun _ _ =>
    bind_nofuel (nofuel_ite (next_token_nofuel _ _) (nofuel_ok _)) (fun _ _ => nofuel_ok _))

theorem frame_store_nofuel {fl : CFloat} (s : State fl) (r : Rect) (pframe : Int)
    (hd : dspriteframe_t) : NoFuelErr (frame_store s r pframe hd) := by
  unfold frame_store
  exact bind_nofuel (poke_nofuel _ _ _) (fun _ _ =>
    bind_nofuel (poke_nofuel _ _ _) (fun _ _ =>
      bind_nofuel (poke_nofuel _ _ _) (fun _ _ =>
        bind_nofuel (poke_nofuel _ _ _) (fun _ _ =>
          bind_nofuel (copy_rows_nofuel _ _ _ _) (fun _ _ =>
            bind_nofuel (set_frame_nofuel _ _ _) (fun _ _ => nofuel_ok _))))))

theorem grab_frame_nofuel {fl : CFloat} (env : Env fl) (s : State fl) :
    NoFuelErr (grab_frame env s) := by
  unfold grab_frame
  exact bind_nofuel (frame_rect_nofuel _) (fun _ _ =>
    nofuel_ite (by simp [NoFuelErr])
      (bind_nofuel (frame_alloc_nofuel _ _ _) (fun _ _ =>
        bind_nofuel (frame_interval_nofuel _) (fun _ _ =>
          bind_nofuel (frame_origin_nofuel _ _) (fun _ _ => frame_store_nofuel _ _ _ _)))))

theorem grab_frame_shrinks {fl : CFloat} {env : Env fl} {s s' : State fl}
    (h : grab_frame env s = .ok s') : Shrinks s s' := by
  unfold grab_frame at h
  obtain ⟨a, ha, hrest⟩ := bind_ok h
  split at hrest
  · simp at hrest
  · obtain ⟨s3, h3, hr3⟩ := bind_ok hrest
    obtain ⟨s4, h4, hr4⟩ := bind_ok hr3
    obtain ⟨o, ho, hst⟩ := bind_ok hr4
    -- the four required tokens
    unfold frame_rect at ha
    obtain ⟨t1, h1, ha⟩ := bind_ok ha
    obtain ⟨t2, h2, ha⟩ := bind_ok ha
    obtain ⟨t3, h3', ha⟩ := bind_ok ha
    obtain ⟨t4, h4', ha⟩ := bind_ok ha
    simp only [pure, Except.pure, Except.ok.injEq] at ha
    have l1 := (next_token_len h1).1
    have l2 := (next_token_len h2).1
    have l3 := (next_token_len h3').1
    have l4 := (next_token_len h4').1
    have ea : a.2 = t4.2 := by rw [← ha]
    -- allocation keeps the cursor
    obtain ⟨mf, l, n, b, p3, e3⟩ := frame_alloc_ok h3
    -- the optional interval
    unfold frame_interval at h4
    obtain ⟨t5, h5, h4⟩ := bind_ok h4
    obtain ⟨s4a, hs4a, h4⟩ := bind_ok h4
    obtain ⟨lf, e4a⟩ := set_frame_ok hs4a
    have l5 := (next_token_len h5).1
    have e4 : s4 = s4a := by
      split at h4
      · simp at h4
      · simp only [pure, Except.pure, Except.ok.injEq] at h4
        exact h4.symm
    -- the optional origin
    unfold frame_origin at ho
    obtain ⟨t6, h6, ho⟩ := bind_ok ho
    obtain ⟨t7, h7, ho⟩ := bind_ok ho
    simp only [pure, Except.pure, Except.ok.injEq] at ho
    have l6 := (next_token_len h6).1
    have l7 : Shrinks t6.2 t7.2 := by
      split at h7
      · exact (next_token_len h7).1
      · simp only [pure, Except.pure, Except.ok.injEq] at h7
        rw [← h7]; exact le_refl _
    have eo : o.2 = t7.2 := by rw [← ho]
    obtain ⟨m, p, lst, e5⟩ := frame_store_ok hst
    unfold Shrinks at *
    rw [e5]
    show o.2.scriptptr.length ≤ s.scriptptr.length
    rw [eo]
    have q1 : s3.scriptptr = a.2.scriptptr := by rw [e3]
    have q2 : s4.scriptptr = t5.2.scriptptr := by rw [e4, e4a]
    rw [q1, ea] at l5
    rw [q2] at l6
    omega


theorem nofuel_ite_neg {α : Type} {c : Prop} [Decidable c] {a b : Except Err α}
    (ha : NoFuelErr a) (hb : ¬ c → NoFuelErr b) : NoFuelErr (if c then a else b) := by
  split
  · exact ha
  · rename_i h
    exact hb h

theorem load_color_table_nofuel :
    ∀ (n : Nat) (i : Int) (f : FILE), NoFuelErr (load_color_table n i f) := by
  intro n
  induction n with
  | zero => intro i f; simp [load_color_table, NoFuelErr]
  | succ n ih =>
    intro i f
    simp only [load_color_table]
    exact nofuel_ite (bind_nofuel (ih _ _) (fun _ _ => nofuel_ok _)) (by simp [NoFuelErr])

theorem zero_fill_nofuel : ∀ (n : Nat) (i : Int), NoFuelErr (zero_fill n i) := by
  intro n
  induction n with
  | zero => intro i; simp [zero_fill, NoFuelErr]
  | succ n ih =>
    intro i
    simp only [zero_fill]
    exact nofuel_ite (bind_nofuel (ih _) (fun _ _ => nofuel_ok _)) (by simp [NoFuelErr])

theorem pixel_rgb_nofuel (bpp : Int) (row : List Nat) (x : Int) :
    NoFuelErr (pixel_rgb bpp row x) := by
  unfold pixel_rgb
  exact nofuel_ite
    (bind_nofuel (peek_nofuel _ _) (fun _ _ => bind_nofuel (peek_nofuel _ _) (fun _ _ =>
      bind_nofuel (peek_nofuel _ _) (fun _ _ => nofuel_ok _))))
    (nofuel_ite
      (bind_nofuel (peek_nofuel _ _) (fun _ _ => bind_nofuel (peek_nofuel _ _) (fun _ _ =>
        bind_nofuel (peek_nofuel _ _) (fun _ _ => nofuel_ok _))))
      (nofuel_ok _))

theorem collect_row_nofuel (bpp : Int) (row : List Nat) :
    ∀ (n : Nat) (x : Int) (u : List Color), NoFuelErr (collect_row bpp row n x u) := by
  intro n
  induction n with
  | zero => intro x u; simp [collect_row, NoFuelErr]
  | succ n ih =>
    intro x u
    simp only [collect_row]
    exact nofuel_ite (bind_nofuel (pixel_rgb_nofuel _ _ _) (fun _ _ => ih _ _)) (nofuel_ok _)

theorem collect_rows_nofuel (bpp width : Int) (row_size : Nat) :
    ∀ (n : Nat) (f : FILE) (u : List Color),
      NoFuelErr (collect_rows bpp width row_size n f u) := by
  intro n
  induction n with
  | zero => intro f u; simp [collect_rows, NoFuelErr]
  | succ n ih =>
    intro f u
    simp only [collect_rows]
    exact nofuel_ite (bind_nofuel (collect_row_nofuel _ _ _ _ _) (fun _ _ => ih _ _))
      (nofuel_ok _)

theorem decode_row_nofuel (bpp : Int) (pal row : List Nat) (width y : Int) :
    ∀ (n : Nat) (x : Int) (img : List Nat),
      NoFuelErr (decode_row bpp pal row width y n x img) := by
  intro n
  induction n with
  | zero => intro x img; simp [decode_row, NoFuelErr]
  | succ n ih =>
    intro x img
    simp only [decode_row]
    exact nofuel_ite
      (bind_nofuel (peek_nofuel _ _) (fun _ _ =>
        bind_nofuel (put_nofuel _ _ _) (fun _ _ => ih _ _)))
      (nofuel_ite
        (bind_nofuel (pixel_rgb_nofuel _ _ _) (fun _ _ =>
          bind_nofuel (put_nofuel _ _ _) (fun _ _ => ih _ _)))
        (ih _ _))

theorem decode_rows_nofuel (bpp : Int) (pal : List Nat) (width : Int) (row_size : Nat) :
    ∀ (n : Nat) (y : Int) (f : FILE) (img : List Nat),
      NoFuelErr (decode_rows bpp pal width row_size n y f img) := by
  intro n
  induction n with
  | zero => intro y f img; simp [decode_rows, NoFuelErr]
  | succ n ih =>
    intro y f img
    simp only [decode_rows]
    exact bind_nofuel (decode_row_nofuel _ _ _ _ _ _ _ _) (fun _ _ => ih _ _ _)

theorem bmp_palette_nofuel (established : Bool) (original_palette : List Nat) (f : FILE)
    (width height bpp data_offset colors_used : Int) :
    NoFuelErr (bmp_palette established original_palette f width height bpp data_offset
      colors_used) := by
  unfold bmp_palette
  exact nofuel_ite
    (bind_nofuel (load_color_table_nofuel _ _ _) (fun _ _ =>
      bind_nofuel (zero_fill_nofuel _ _) (fun _ _ => nofuel_ite (nofuel_ok _) (nofuel_ok _))))
    (nofuel_ite
      (nofuel_ite (by simp [NoFuelErr])
        (bind_nofuel (collect_rows_nofuel _ _ _ _ _ _) (fun _ _ =>
          bind_nofuel (zero_fill_nofuel _ _) (fun _ _ => nofuel_ok _))))
      (nofuel_ok _))

theorem load_bmp_body_nofuel {fl : CFloat} (env : Env fl) (s : State fl) (f : FILE)
    (b : BmpInfo) : NoFuelErr (load_bmp_body env s f b) := by
  unfold load_bmp_body
  exact bind_nofuel (bmp_palette_nofuel _ _ _ _ _ _ _ _) (fun _ _ =>
    nofuel_ite (by simp [NoFuelErr]) (nofuel_ite (by simp [NoFuelErr])
      (bind_nofuel (decode_rows_nofuel _ _ _ _ _ _ _ _) (fun _ _ => nofuel_ok _))))

theorem load_bmp_nofuel {fl : CFloat} (env : Env fl) (s : State fl) (filename : List Nat) :
    NoFuelErr (load_bmp env s filename) := by
  unfold load_bmp
  split
  · simp [NoFuelErr]
  · exact nofuel_ite (by simp [NoFuelErr]) (nofuel_ite (by simp [NoFuelErr])
      (nofuel_ite (by simp [NoFuelErr]) (load_bmp_body_nofuel _ _ _ _)))

theorem do_load_nofuel {fl : CFloat} (env : Env fl) (s : State fl) :
    NoFuelErr (do_load env s) := by
  unfold do_load
  exact bind_nofuel (next_token_nofuel _ _) (fun _ _ => load_bmp_nofuel _ _ _)

theorem do_load_shrinks {fl : CFloat} {env : Env fl} {s s' : State fl}
    (h : do_load env s = .ok s') : Shrinks s s' := by
  unfold do_load at h
  obtain ⟨r, hr, h2⟩ := bind_ok h
  have l := (next_token_len hr).1
  obtain ⟨w, ht, pal, img, _, _, e⟩ := load_bmp_ok h2
  unfold Shrinks at *
  rw [e]
  exact l

theorem set_type_nofuel {fl : CFloat} (s : State fl) : NoFuelErr (set_type s) := by
  unfold set_type
  exact bind_nofuel (next_token_nofuel _ _) (fun _ _ =>
    nofuel_ite (nofuel_ok _) (nofuel_ite (nofuel_ok _) (nofuel_ite (nofuel_ok _)
      (nofuel_ite (nofuel_ok _) (nofuel_ite (nofuel_ok _) (by simp [NoFuelErr]))))))

theorem set_type_shrinks {fl : CFloat} {s s' : State fl} (h : set_type s = .ok s') :
    Shrinks s s' := by
  unfold set_type at h
  obtain ⟨r, hr, h2⟩ := bind_ok h
  have l := (next_token_len hr).1
  unfold Shrinks at *
  repeat' split at h2
  all_goals first
    | (simp only [pure, Except.pure, Except.ok.injEq] at h2
       rw [← h2]; exact l)
    | simp at h2

theorem set_texture_nofuel {fl : CFloat} (s : State fl) : NoFuelErr (set_texture s) := by
  unfold set_texture
  exact bind_nofuel (next_token_nofuel _ _) (fun _ _ =>
    nofuel_ite (nofuel_ok _) (nofuel_ite (nofuel_ok _) (nofuel_ite (nofuel_ok _)
      (nofuel_ite (nofuel_ok _) (by simp [NoFuelErr])))))

theorem set_texture_shrinks {fl : CFloat} {s s' : State fl} (h : set_texture s = .ok s') :
    Shrinks s s' := by
  unfold set_texture at h
  obtain ⟨r, hr, h2⟩ := bind_ok h
  have l := (next_token_len hr).1
  unfold Shrinks at *
  repeat' split at h2
  all_goals first
    | (simp only [pure, Except.pure, Except.ok.injEq] at h2
       rw [← h2]; exact l)
    | simp at h2

theorem set_beamlength_nofuel {fl : CFloat} (s : State fl) : NoFuelErr (set_beamlength s) := by
  unfold set_beamlength
  exact bind_nofuel (next_token_nofuel _ _) (fun _ _ => nofuel_ok _)

theorem set_beamlength_shrinks {fl : CFloat} {s s' : State fl}
    (h : set_beamlength s = .ok s') : Shrinks s s' := by
  unfold set_beamlength at h
  obtain ⟨r, hr, h2⟩ := bind_ok h
  have l := (next_token_len hr).1
  unfold Shrinks at *
  simp only [pure, Except.pure, Except.ok.injEq] at h2
  rw [← h2]; exact l

theorem spritename_nofuel {fl : CFloat} (s : State fl) : NoFuelErr (spritename s) := by
  unfold spritename
  refine bind_nofuel (next_token_nofuel _ _) (fun t _ => ?_)
  split
  · exact nofuel_ite (by simp [NoFuelErr]) (nofuel_ok _)
  · exact nofuel_ok _

theorem spritename_shrinks {fl : CFloat} {s s' : State fl} (h : spritename s = .ok s') :
    Shrinks s s' := by
  unfold spritename at h
  obtain ⟨r, hr, h2⟩ := bind_ok h
  have l := (next_token_len hr).1
  unfold Shrinks at *
  split at h2
  · split at h2
    · simp at h2
    · simp only [pure, Except.pure, Except.ok.injEq] at h2
      rw [← h2]; exact l
  · simp only [pure, Except.pure, Except.ok.injEq] at h2
    rw [← h2]; exact l

theorem write_single_nofuel {fl : CFloat} (s : State fl) (pdata : Int) :
    NoFuelErr (write_single s pdata) := by
  unfold write_single
  exact bind_nofuel (peek_int_nofuel _ _) (fun _ _ =>
    bind_nofuel (peek_int_nofuel _ _) (fun _ _ =>
      bind_nofuel (peek_int_nofuel _ _) (fun _ _ =>
        bind_nofuel (peek_int_nofuel _ _) (fun _ _ =>
          nofuel_ite (by simp [NoFuelErr])
            (bind_nofuel (peek_bytes_nofuel _ _ _) (fun _ _ => nofuel_ok _))))))

theorem error_ne_fuel {α : Type} {x : Except Err α} {e : Err} (hx : NoFuelErr x)
    (h : x = .error e) : some e ≠ some Err.out_of_fuel := by
  intro he
  simp only [Option.some.injEq] at he
  rw [he] at h
  exact hx h

theorem write_intervals_status {fl : CFloat} (s : State fl) (groupframe : Int) :
    ∀ (n : Nat) (j : Int) (tot : fl.F) (w : Written fl),
      w.status ≠ some Err.out_of_fuel →
      (write_intervals s groupframe n j tot w).status ≠ some Err.out_of_fuel := by
  intro n
  induction n with
  | zero => intro j tot w hw; simpa [write_intervals] using hw
  | succ n ih =>
    intro j tot w hw
    simp only [write_intervals]
    split
    · rename_i e he
      exact error_ne_fuel (frame_desc_nofuel _ _) he
    · exact ih _ _ _ hw

theorem write_group_frames_status {fl : CFloat} (s : State fl) :
    ∀ (n : Nat) (c : Int) (w : Written fl),
      w.status ≠ some Err.out_of_fuel →
      (write_group_frames s n c w).status ≠ some Err.out_of_fuel := by
  intro n
  induction n with
  | zero => intro c w hw; simpa [write_group_frames] using hw
  | succ n ih =>
    intro c w hw
    simp only [write_group_frames]
    split
    · rename_i e he
      exact error_ne_fuel (frame_desc_nofuel _ _) he
    · split
      · rename_i e he
        exact error_ne_fuel (write_single_nofuel _ _) he
      · exact ih _ _ hw

theorem write_group_status {fl : CFloat} (s : State fl) (g : Int) (d : spritepackage_t fl)
    (w : Written fl) (hw : w.status ≠ some Err.out_of_fuel) :
    (write_group s g d w).status ≠ some Err.out_of_fuel := by
  unfold write_group
  simp only
  split
  · exact write_intervals_status _ _ _ _ _ _ hw
  · exact write_group_frames_status _ _ _ _ (write_intervals_status _ _ _ _ _ _ hw)

theorem write_frames_status {fl : CFloat} (s : State fl) :
    ∀ (n : Nat) (c : Int) (w : Written fl),
      w.status ≠ some Err.out_of_fuel →
      (write_frames s n c w).status ≠ some Err.out_of_fuel := by
  intro n
  induction n with
  | zero => intro c w hw; simpa [write_frames] using hw
  | succ n ih =>
    intro c w hw
    simp only [write_frames]
    split
    · rename_i e he
      exact error_ne_fuel (frame_desc_nofuel _ _) he
    · split
      · split
        · rename_i e he
          exact error_ne_fuel (write_single_nofuel _ _) he
        · exact ih _ _ hw
      · split
        · exact write_group_status _ _ _ _ hw
        · exact ih _ _ (write_group_status _ _ _ _ hw)

theorem serialize_status {fl : CFloat} (s : State fl) :
    (serialize s).status ≠ some Err.out_of_fuel := by
  unfold serialize
  apply write_frames_status
  unfold write_palette
  split
  · split <;> simp
  · simp

theorem finish_sprite_nofuel {fl : CFloat} (env : Env fl) (s : State fl) :
    NoFuelErr (finish_sprite env s) := by
  unfold finish_sprite
  refine nofuel_ite (by simp [NoFuelErr]) ?_
  simp only
  split
  · simp [NoFuelErr]
  · refine nofuel_ite (by simp [NoFuelErr]) ?_
    split
    · rename_i e he
      have := serialize_status (finish_fields s)
      unfold NoFuelErr
      intro h
      simp only [Except.error.injEq] at h
      rw [he, h] at this
      exact this rfl
    · exact nofuel_ok _

theorem finish_sprite_shrinks {fl : CFloat} {env : Env fl} {s s' : State fl}
    (h : finish_sprite env s = .ok s') : Shrinks s s' := by
  obtain ⟨name, _, _, _, e⟩ := finish_sprite_ok h
  unfold Shrinks
  rw [e]
  exact le_refl _

theorem do_spritename_nofuel {fl : CFloat} (env : Env fl) (s : State fl) :
    NoFuelErr (do_spritename env s) := by
  unfold do_spritename
  exact bind_nofuel (nofuel_ite (finish_sprite_nofuel _ _) (nofuel_ok _))
    (fun _ _ => spritename_nofuel _)

theorem do_spritename_shrinks {fl : CFloat} {env : Env fl} {s s' : State fl}
    (h : do_spritename env s = .ok s') : Shrinks s s' := by
  unfold do_spritename at h
  obtain ⟨s1, h1, h2⟩ := bind_ok h
  have l2 := spritename_shrinks h2
  have l1 : Shrinks s s1 := by
    split at h1
    · exact finish_sprite_shrinks h1
    · simp only [pure, Except.pure, Except.ok.injEq] at h1
      rw [← h1]; exact le_refl _
  unfold Shrinks at *
  omega

theorem do_frame_nofuel {fl : CFloat} (env : Env fl) (s : State fl) :
    NoFuelErr (do_frame env s) := by
  unfold do_frame
  exact bind_nofuel (grab_frame_nofuel _ _) (fun _ _ => nofuel_ok _)

theorem do_frame_shrinks {fl : CFloat} {env : Env fl} {s s' : State fl}
    (h : do_frame env s = .ok s') : Shrinks s s' := by
  unfold do_frame at h
  obtain ⟨s1, h1, h2⟩ := bind_ok h
  have l := grab_frame_shrinks h1
  simp only [pure, Except.pure, Except.ok.injEq] at h2
  unfold Shrinks at *
  rw [← h2]; exact l

theorem group_frame_nofuel {fl : CFloat} (env : Env fl) (g : Int) (s : State fl) :
    NoFuelErr (group_frame env g s) := by
  unfold group_frame
  exact bind_nofuel (grab_frame_nofuel _ _) (fun _ _ => set_frame_nofuel _ _ _)

theorem group_frame_shrinks {fl : CFloat} {env : Env fl} {g : Int} {s s' : State fl}
    (h : group_frame env g s = .ok s') : Shrinks s s' := by
  unfold group_frame at h
  obtain ⟨s1, h1, h2⟩ := bind_ok h
  have l := grab_frame_shrinks h1
  obtain ⟨lf, e⟩ := set_frame_ok h2
  unfold Shrinks at *
  rw [e]; exact l

theorem parse_group_total {fl : CFloat} (env : Env fl) (g : Int) :
    ∀ (n : Nat) (s : State fl), s.scriptptr.length < n →
      NoFuelErr (parse_group env g n s) ∧
      ∀ s', parse_group env g n s = .ok s' → Shrinks s s' := by
  intro n
  induction n with
  | zero => intro s h; omega
  | succ n ih =>
    intro s hn
    simp only [parse_group]
    constructor
    · refine bind_nofuel (next_token_nofuel _ _) (fun t ht => ?_)
      have lt := next_token_len ht
      refine nofuel_ite_neg (nofuel_ok _) (fun hc => ?_)
      have hlt : t.2.scriptptr.length < s.scriptptr.length := by
        apply lt.2
        simpa using hc
      refine nofuel_ite ?_ (nofuel_ite ?_ (nofuel_ite (nofuel_ok _) (by simp [NoFuelErr])))
      · refine bind_nofuel (group_frame_nofuel _ _ _) (fun s2 h2 => ?_)
        have := group_frame_shrinks h2
        unfold Shrinks at this
        exact (ih s2 (by omega)).1
      · refine bind_nofuel (do_load_nofuel _ _) (fun s2 h2 => ?_)
        have := do_load_shrinks h2
        unfold Shrinks at this
        exact (ih s2 (by omega)).1
    · intro s' h
      obtain ⟨t, ht, h2⟩ := bind_ok h
      have lt := next_token_len ht
      have l0 := lt.1
      unfold Shrinks at l0 ⊢
      split at h2
      · simp only [pure, Except.pure, Except.ok.injEq] at h2
        rw [← h2]; exact l0
      · rename_i hc
        have hlt : t.2.scriptptr.length < s.scriptptr.length := by
          apply lt.2
          simpa using hc
        split at h2
        · obtain ⟨s2, hs2, h3⟩ := bind_ok h2
          have l2 := group_frame_shrinks hs2
          unfold Shrinks at l2
          have l3 := (ih s2 (by omega)).2 s' h3
          unfold Shrinks at l3
          omega
        · split at h2
          · obtain ⟨s2, hs2, h3⟩ := bind_ok h2
            have l2 := do_load_shrinks hs2
            unfold Shrinks at l2
            have l3 := (ih s2 (by omega)).2 s' h3
            unfold Shrinks at l3
            omega
          · split at h2
            · simp only [pure, Except.pure, Except.ok.injEq] at h2
              rw [← h2]; exact l0
            · simp at h2

theorem do_group_total {fl : CFloat} (env : Env fl) (fuel : Nat) (s : State fl)
    (hf : s.scriptptr.length < fuel) :
    NoFuelErr (do_group env fuel s) ∧ ∀ s', do_group env fuel s = .ok s' → Shrinks s s' := by
  unfold do_group
  constructor
  · refine bind_nofuel (set_frame_nofuel _ _ _) (fun s2 h2 => ?_)
    obtain ⟨l, e⟩ := set_frame_ok h2
    have q : s2.scriptptr = s.scriptptr := by rw [e]
    refine bind_nofuel (parse_group_total env _ fuel s2 (by rw [q]; exact hf)).1 (fun _ _ => ?_)
    exact bind_nofuel (frame_desc_nofuel _ _) (fun _ _ =>
      nofuel_ite (by simp [NoFuelErr]) (nofuel_ok _))
  · intro s' h
    obtain ⟨s2, h2, h⟩ := bind_ok h
    obtain ⟨s3, h3, h⟩ := bind_ok h
    obtain ⟨gd, _, h⟩ := bind_ok h
    obtain ⟨l, e⟩ := set_frame_ok h2
    have q : s2.scriptptr = s.scriptptr := by rw [e]
    have l3 := (parse_group_total env _ fuel s2 (by rw [q]; exact hf)).2 s3 h3
    unfold Shrinks at l3 ⊢
    split at h
    · simp at h
    · simp only [pure, Except.pure, Except.ok.injEq] at h
      rw [← h]
      show s3.scriptptr.length ≤ s.scriptptr.length
      rw [← q]; exact l3

theorem directive_total {fl : CFloat} (env : Env fl) (fuel : Nat) (s : State fl)
    (hf : s.scriptptr.length < fuel) :
    NoFuelErr (directive env fuel s) ∧ ∀ s', directive env fuel s = .ok s' → Shrinks s s' := by
  unfold directive
  split
  · exact ⟨do_spritename_nofuel _ _, fun _ h => do_spritename_shrinks h⟩
  split
  · exact ⟨set_type_nofuel _, fun _ h => set_type_shrinks h⟩
  split
  · exact ⟨set_texture_nofuel _, fun _ h => set_texture_shrinks h⟩
  split
  · exact ⟨set_beamlength_nofuel _, fun _ h => set_beamlength_shrinks h⟩
  split
  · refine ⟨nofuel_ok _, fun s' h => ?_⟩
    simp only [pure, Except.pure, Except.ok.injEq] at h
    unfold Shrinks
    rw [← h]
  split
  · exact ⟨do_load_nofuel _ _, fun _ h => do_load_shrinks h⟩
  split
  · exact ⟨do_frame_nofuel _ _, fun _ h => do_frame_shrinks h⟩
  split
  · exact do_group_total env fuel s hf
  · exact ⟨by simp [NoFuelErr], fun s' h => by simp at h⟩

theorem parse_script_total {fl : CFloat} (env : Env fl) :
    ∀ (n : Nat) (s : State fl), s.scriptptr.length < n → NoFuelErr (parse_script env n s) := by
  intro n
  induction n with
  | zero => intro s h; omega
  | succ n ih =>
    intro s hn
    simp only [parse_script]
    refine bind_nofuel (next_token_nofuel _ _) (fun t ht => ?_)
    have lt := next_token_len ht
    refine nofuel_ite_neg (nofuel_ok _) (fun hc => ?_)
    have hlt : t.2.scriptptr.length < s.scriptptr.length := by
      apply lt.2
      simpa using hc
    have hd := directive_total env (n + 1) t.2 (by omega)
    refine bind_nofuel hd.1 (fun s1 h1 => ?_)
    have l1 := hd.2 s1 h1
    unfold Shrinks at l1
    exact ih s1 (by omega)

/-- The loop bound that `main` passes to `parse_script` is never the reason a
run stops: every failure of a run is a failure of the program. -/
theorem main_with_never_out_of_fuel {fl : CFloat} (env : Env fl) (buffer_size : Int)
    (cli_output_name : Option (List Nat)) (do16bit : Bool) (filename : List Nat) :
    main_with env buffer_size cli_output_name do16bit filename ≠ .error Err.out_of_fuel := by
  show NoFuelErr _
  unfold main_with
  split
  · simp [NoFuelErr]
  · rename_i script _
    refine bind_nofuel (parse_script_total env _ _ ?_) (fun _ _ =>
      nofuel_ite (finish_sprite_nofuel _ _) (nofuel_ok _))
    simp [init_state]


/-! ## The same-line probe of the tokenizer -/

theorem skip_whitespace_probe :
    ∀ (p : List Nat), (skip_whitespace false false p).1 = false →
      skip_whitespace true false (skip_whitespace false false p).2 =
        skip_whitespace true false p := by
  intro p
  induction p with
  | nil => intro _; simp [skip_whitespace]
  | cons c rest ih =>
    intro h
    by_cases h10 : c = 10
    · simp [skip_whitespace, h10]
    · by_cases hsp : char_of_byte c ≤ 32
      · simp only [skip_whitespace, h10, hsp, if_true, if_false] at h ⊢
        exact ih h
      · by_cases hc : c = 47 ∧ rest.head? = some 47
        · simp [skip_whitespace, h10, hsp, hc]
        · simp [skip_whitespace, h10, hsp, hc] at h

theorem skip_whitespace_blank (crossline : Bool) (ws rest : List Nat)
    (hws : ∀ c ∈ ws, char_of_byte c ≤ 32 ∧ c ≠ 10) :
    skip_whitespace crossline false (ws ++ rest) = skip_whitespace crossline false rest := by
  induction ws with
  | nil => rfl
  | cons c ws ih =>
    have hc := hws c (List.mem_cons_self _ _)
    simp only [List.cons_append, skip_whitespace, hc.2, hc.1, if_true, if_false]
    exact ih (fun d hd => hws d (List.mem_cons_of_mem _ hd))

theorem get_token_probe {p tok q t : List Nat}
    (h : get_token false p tok = .ok (false, q, t)) :
    t = tok ∧ get_token true q tok = get_token true p tok := by
  unfold get_token at h
  have hp := skip_whitespace_probe p
  split at h
  · rename_i q' hq
    simp only [Except.ok.injEq, Prod.mk.injEq, true_and] at h
    rw [hq] at hp
    have := hp rfl
    simp only at this
    refine ⟨h.2.symm, ?_⟩
    unfold get_token
    rw [← h.1, this]
  · rename_i hq
    simp only [Except.ok.injEq, Prod.mk.injEq, true_and] at h
    have he := skip_whitespace_len false p false
    rw [hq] at he
    have := he.2 rfl
    simp at this
  · split at h
    · split at h <;> simp at h
    · simp at h

/-- C11: when only blanks (characters at most 32 other than the newline) stand between
the cursor and a newline, `get_token(false)` returns false, leaves the token buffer as it
was and the cursor on that newline, and `get_token(true)` called from there gives exactly
what it would have given from the original cursor. -/
theorem C11_probe_leaves_newline (ws rest tok : List Nat)
    (hws : ∀ c ∈ ws, char_of_byte c ≤ 32 ∧ c ≠ 10) :
    get_token false (ws ++ 10 :: rest) tok = .ok (false, 10 :: rest, tok) ∧
    get_token true (10 :: rest) tok = get_token true (ws ++ 10 :: rest) tok := by
  have h1 : get_token false (ws ++ 10 :: rest) tok = .ok (false, 10 :: rest, tok) := by
    unfold get_token
    rw [skip_whitespace_blank false ws (10 :: rest) hws]
    simp [skip_whitespace]
  exact ⟨h1, (get_token_probe h1).2⟩

/-- Witness for C11: two spaces and a tab before the newline that ends a `$frame` line. -/
theorem C11_probe_leaves_newline_witness :
    get_token false ([32, 32, 9] ++ 10 :: bytes "$frame 0 0 1 1") (bytes "4") =
      .ok (false, 10 :: bytes "$frame 0 0 1 1", bytes "4") ∧
    get_token true (10 :: bytes "$frame 0 0 1 1") (bytes "4") =
      get_token true ([32, 32, 9] ++ 10 :: bytes "$frame 0 0 1 1") (bytes "4") :=
  C11_probe_leaves_newline [32, 32, 9] (bytes "$frame 0 0 1 1") (bytes "4") (by decide)


/-! ## Unquoted tokens -/

theorem read_unquoted_eq :
    ∀ (p : List Nat), read_unquoted p =
      (p.takeWhile (fun c => !ends_token c),
        if (p.dropWhile (fun c => !ends_token c)).length ≤ 1 then []
        else p.dropWhile (fun c => !ends_token c)) := by
  intro p
  induction p with
  | nil => simp [read_unquoted]
  | cons c rest ih =>
    by_cases hc : char_of_byte c ≤ 32
    · cases rest with
      | nil => simp [read_unquoted, ends_token, hc]
      | cons d rest => simp [read_unquoted, ends_token, hc]
    · cases rest with
      | nil => simp [read_unquoted, ends_token, hc]
      | cons d rest =>
        have e : read_unquoted (c :: d :: rest) =
            (c :: (read_unquoted (d :: rest)).1, (read_unquoted (d :: rest)).2) := by
          rw [read_unquoted]
          simp only [hc, if_false]
        rw [e, ih]
        simp [ends_token, hc]

theorem put_append {pre tail : List Nat} (x v : Nat) :
    put (pre ++ x :: tail) (pre.length : Int) v = .ok (pre ++ v :: tail) := by
  unfold put
  have h1 : (0 : Int) ≤ (pre.length : Int) := Int.ofNat_nonneg _
  have h2 : (pre.length : Int) < ((pre ++ x :: tail).length : Int) := by
    simp only [List.length_append, List.length_cons]
    push_cast
    omega
  simp only [h1, h2, and_self, if_true, Int.toNat_natCast, Except.ok.injEq]
  simp


theorem token_store_spec (alloc : Int → Bool) (junk : Nat → Nat) (pre tail : List Nat) (c : Nat)
    (ht : tail ≠ []) (hlen : pre.length + tail.length < 4611686018427387904) :
    token_store alloc junk (pre ++ tail) pre.length c = .error Err.alloc_failed ∨
    ∃ tail', tail' ≠ [] ∧
      token_store alloc junk (pre ++ tail) pre.length c = .ok (pre ++ c :: tail') ∧
      (pre.length + 1 + tail'.length = pre.length + tail.length ∨
        pre.length + 1 + tail'.length = 4 * (pre.length + 1)) := by
  cases tail with
  | nil => exact absurd rfl ht
  | cons x tl =>
    cases tl with
    | cons y tl =>
      right
      refine ⟨y :: tl, List.cons_ne_nil _ _, ?_, Or.inl (by simp only [List.length_cons]; omega)⟩
      unfold token_store
      simp only [List.length_append, List.length_cons] at hlen ⊢
      have hc : ¬ ((pre.length : Int) ≥
          to_ptrdiff (wrap_size (((pre.length + (tl.length + 1 + 1) : Nat) : Int) - 1))) := by
        unfold to_ptrdiff wrap_size
        push_cast
        split <;> omega
      rw [if_neg hc]
      exact put_append x c
    | nil =>
      unfold token_store
      simp only [List.length_append, List.length_cons, List.length_nil] at hlen ⊢
      have hc : (pre.length : Int) ≥
          to_ptrdiff (wrap_size (((pre.length + (0 + 1) : Nat) : Int) - 1)) := by
        unfold to_ptrdiff wrap_size
        push_cast
        split <;> omega
      rw [if_pos hc]
      unfold ensure_token_capacity
      simp only [List.length_append, List.length_cons, List.length_nil]
      have h2 : wrap_size (((pre.length + (0 + 1) : Nat) : Int) * 2) =
          ((2 * (pre.length + 1) : Nat) : Int) := by
        unfold wrap_size
        push_cast
        omega
      have h4 : wrap_size (((2 * (pre.length + 1) : Nat) : Int) * 2) =
          ((4 * (pre.length + 1) : Nat) : Int) := by
        unfold wrap_size
        push_cast
        omega
      rw [h2, h4]
      have hgt : ((2 * (pre.length + 1) : Nat) : Int) > ((pre.length + (0 + 1) : Nat) : Int) := by
        push_cast
        omega
      rw [if_pos hgt]
      cases ha : alloc ((4 * (pre.length + 1) : Nat) : Int) with
      | false => left; simp [bind, Except.bind]
      | true =>
        right
        simp only [if_true, Int.toNat_natCast]
        refine ⟨(List.range (4 * (pre.length + 1) - (pre.length + (0 + 1)))).map
          (fun k => junk (pre.length + (0 + 1) + k)), ?_, ?_, Or.inr ?_⟩
        · intro h
          have := congrArg List.length h
          simp only [List.length_map, List.length_range, List.length_nil] at this
          omega
        · have htake : ((pre ++ [x] ++ (List.range (4 * (pre.length + 1) -
              (pre.length + (0 + 1)))).map (fun k => junk (pre.length + (0 + 1) + k))).take
              (4 * (pre.length + 1))) = pre ++ x :: (List.range (4 * (pre.length + 1) -
              (pre.length + (0 + 1)))).map (fun k => junk (pre.length + (0 + 1) + k)) := by
            rw [List.take_of_length_le]
            · simp
            · simp only [List.length_append, List.length_cons, List.length_nil,
                List.length_map, List.length_range]
              omega
          show (Except.ok _ >>= fun t => put t (pre.length : Int) c) = _
          rw [htake]
          exact put_append x c
        · simp only [List.length_map, List.length_range]
          omega

theorem read_unquoted_buf_refines (alloc : Int → Bool) (junk : Nat → Nat)
    (B : Nat) (hB : B < 4611686018427387904) :
    ∀ (p pre tail : List Nat), tail ≠ [] → pre.length + tail.length ≤ B →
      4 * (pre.length + p.length + 1) ≤ B →
      read_unquoted_buf alloc junk p (pre ++ tail) pre.length = .error Err.alloc_failed ∨
      ∃ tail', read_unquoted_buf alloc junk p (pre ++ tail) pre.length =
        .ok (pre ++ (read_unquoted p).1 ++ 0 :: tail', (read_unquoted p).2) := by
  intro p
  induction p with
  | nil =>
    intro pre tail ht _ _
    right
    cases tail with
    | nil => exact absurd rfl ht
    | cons x tl =>
      refine ⟨tl, ?_⟩
      simp only [read_unquoted_buf, read_unquoted, List.append_nil]
      rw [put_append x 0]
      rfl
  | cons c rest ih =>
    intro pre tail ht hl hp
    by_cases hc : char_of_byte c ≤ 32
    · right
      cases tail with
      | nil => exact absurd rfl ht
      | cons x tl =>
        refine ⟨tl, ?_⟩
        simp only [read_unquoted_buf, hc, if_true]
        rw [put_append x 0]
        cases rest with
        | nil => simp [read_unquoted, hc, bind, Except.bind]
        | cons d rest => simp [read_unquoted, hc, bind, Except.bind]
    · simp only [read_unquoted_buf, hc, if_false]
      rcases token_store_spec alloc junk pre tail c ht (by omega) with hs | ⟨tail', ht', hs, hlen⟩
      · left
        rw [hs]
        rfl
      · rw [hs]
        simp only [List.length_cons] at hp
        cases rest with
        | nil =>
          right
          cases tail' with
          | nil => exact absurd rfl ht'
          | cons y tl =>
            refine ⟨tl, ?_⟩
            have e : pre ++ c :: y :: tl = (pre ++ [c]) ++ y :: tl := by simp
            show (put (pre ++ c :: y :: tl) ((pre.length : Int) + 1) 0 >>= fun t => .ok (t, [])) = _
            rw [e]
            have e2 : ((pre.length : Int) + 1) = (((pre ++ [c]).length : Nat) : Int) := by simp
            rw [e2, put_append y 0]
            simp [read_unquoted, hc, bind, Except.bind]
        | cons d rest =>
          have e : pre ++ c :: tail' = (pre ++ [c]) ++ tail' := by simp
          have e2 : pre.length + 1 = (pre ++ [c]).length := by simp
          have hrec : read_unquoted (c :: d :: rest) =
              (c :: (read_unquoted (d :: rest)).1, (read_unquoted (d :: rest)).2) := by
            rw [read_unquoted]
            simp only [hc, if_false]
          show read_unquoted_buf alloc junk (d :: rest) (pre ++ c :: tail') (pre.length + 1) = _ ∨
            ∃ tl, read_unquoted_buf alloc junk (d :: rest) (pre ++ c :: tail') (pre.length + 1) = _
          rw [e, e2, hrec]
          have hl2 : (pre ++ [c]).length + tail'.length ≤ B := by
            simp only [List.length_append, List.length_cons, List.length_nil]
            simp only [List.length_cons] at hp
            omega
          have hp2 : 4 * ((pre ++ [c]).length + (d :: rest).length + 1) ≤ B := by
            simp only [List.length_append, List.length_cons, List.length_nil] at hp ⊢
            omega
          rcases ih (pre ++ [c]) tail' ht' hl2 hp2 with h1 | ⟨tl, h1⟩
          · exact Or.inl h1
          · refine Or.inr ⟨tl, ?_⟩
            rw [h1]
            simp


theorem get_token_unquoted {crossline : Bool} {p tok rest : List Nat} {c : Nat}
    (hs : skip_whitespace crossline false p = (true, c :: rest)) (hq : c ≠ 34) :
    get_token crossline p tok = .ok (true,
      (if ((c :: rest).dropWhile (fun c => !ends_token c)).length ≤ 1 then []
        else (c :: rest).dropWhile (fun c => !ends_token c)),
      (c :: rest).takeWhile (fun c => !ends_token c)) := by
  unfold get_token
  rw [hs]
  simp only [hq, if_false]
  rw [read_unquoted_eq]

theorem ends_token_ascii {c : Nat} (h : c < 128) : ends_token c = is_blank c := by
  unfold ends_token is_blank char_of_byte
  simp only [h, if_true]
  congr 1
  exact propext Int.ofNat_le

theorem takeWhile_congr_mem {α : Type} (f g : α → Bool) :
    ∀ (l : List α), (∀ x ∈ l, f x = g x) → l.takeWhile f = l.takeWhile g := by
  intro l
  induction l with
  | nil => intro _; rfl
  | cons a l ih =>
    intro h
    simp only [List.takeWhile, h a (List.mem_cons_self _ _)]
    rw [ih (fun x hx => h x (List.mem_cons_of_mem _ hx))]

/-- On text made of bytes below 128 an unquoted token is the run of characters up to the
next byte that is at most 32 or to the end of the text, whatever its length. -/
theorem get_token_unquoted_ascii {crossline : Bool} {p tok rest : List Nat} {c : Nat}
    (hs : skip_whitespace crossline false p = (true, c :: rest)) (hq : c ≠ 34)
    (hascii : ∀ x ∈ c :: rest, x < 128) :
    ∃ q, get_token crossline p tok =
      .ok (true, q, (c :: rest).takeWhile (fun c => !is_blank c)) := by
  rw [get_token_unquoted hs hq]
  rw [takeWhile_congr_mem (fun c => !ends_token c) (fun c => !is_blank c) (c :: rest)
    (fun x hx => by simp only [ends_token_ascii (hascii x hx)])]
  exact ⟨_, rfl⟩

theorem cstr_append_zero (t tail : List Nat) (h : ∀ x ∈ t, x ≠ 0) :
    cstr (t ++ 0 :: tail) = t := by
  unfold cstr
  induction t with
  | nil => simp [List.takeWhile]
  | cons a t ih =>
    have ha := h a (List.mem_cons_self _ _)
    have hb : (a != 0) = true := by simpa using ha
    rw [List.cons_append, List.takeWhile_cons, hb]
    simp only [if_true]
    rw [ih (fun x hx => h x (List.mem_cons_of_mem _ hx))]

theorem read_unquoted_no_nul : ∀ (p : List Nat), ∀ x ∈ (read_unquoted p).1, x ≠ 0 := by
  intro p x hx
  rw [read_unquoted_eq] at hx
  have := List.mem_takeWhile_imp hx
  intro h0
  rw [h0] at this
  simp [ends_token, char_of_byte] at this

/-- The token loop on the real buffer agrees with `read_unquoted`: starting from a buffer
of at least one byte, it either stops on a refused allocation or leaves the cursor where
`read_unquoted` leaves it and, in the buffer, the C string of the whole token. -/
theorem read_unquoted_buf_token (alloc : Int → Bool) (junk : Nat → Nat) (p token : List Nat)
    (ht : token ≠ []) (hl : token.length < 4611686018427387904)
    (hp : 4 * (p.length + 1) < 4611686018427387904) :
    read_unquoted_buf alloc junk p token 0 = .error Err.alloc_failed ∨
    ∃ buf, read_unquoted_buf alloc junk p token 0 = .ok (buf, (read_unquoted p).2) ∧
      cstr buf = (read_unquoted p).1 := by
  have h := read_unquoted_buf_refines alloc junk (max token.length (4 * (p.length + 1)))
    (by omega) p [] token ht (by simp) (by simp)
  simp only [List.nil_append, List.length_nil] at h
  rcases h with h | ⟨tail', h⟩
  · exact Or.inl h
  · exact Or.inr ⟨_, h, cstr_append_zero _ _ (read_unquoted_no_nul p)⟩

/-- C12: in the text `caf` followed by the two bytes 195 and 169 (a letter outside ASCII),
a space, `x` and a further line, the unquoted token read is `caf`: the byte 195, which is
neither white space nor a control character, ends it, and the next call skips both bytes
and returns `x`. -/
theorem C12_high_byte_ends_token :
    (get_token true [99, 97, 102, 195, 169, 32, 120, 10, 121] []).toOption =
      some (true, [195, 169, 32, 120, 10, 121], [99, 97, 102]) ∧
    is_blank 195 = false ∧ is_blank 169 = false ∧
    [99, 97, 102, 195, 169, 32, 120, 10, 121].takeWhile (fun c => !is_blank c) =
      [99, 97, 102, 195, 169] ∧
    (get_token true [195, 169, 32, 120, 10, 121] [99, 97, 102]).toOption =
      some (true, [10, 121], [120]) := by
  decide


/-! ## What `grab_frame` stores in the arena -/

theorem poke_spec {fl : CFloat} {s s' : State fl} {addr : Int} {bs : List Nat}
    (h : poke s addr bs = .ok s') :
    s' = { s with lump := lump_write s.lump (addr - s.lumpbuffer) bs } ∧
      0 ≤ addr - s.lumpbuffer ∧ addr - s.lumpbuffer + bs.length ≤ s.buffer_size := by
  unfold poke at h
  simp only at h
  split at h
  · rename_i hc
    simp only [Except.ok.injEq] at h
    exact ⟨h.symm, hc.1, hc.2⟩
  · simp at h

theorem lump_write_append (lump : Int → Nat) (off : Int) (a b : List Nat) :
    lump_write (lump_write lump off a) (off + a.length) b = lump_write lump off (a ++ b) := by
  funext o
  unfold lump_write
  simp only [List.length_append, Nat.cast_add]
  by_cases h1 : off + (a.length : Int) ≤ o ∧ o < off + (a.length : Int) + (b.length : Int)
  · have h2 : off ≤ o ∧ o < off + ((a.length : Int) + (b.length : Int)) := by omega
    rw [if_pos h1, if_pos h2]
    have e : (o - off).toNat = a.length + (o - (off + (a.length : Int))).toNat := by omega
    rw [e, List.getD_eq_getElem?_getD, List.getD_eq_getElem?_getD,
      List.getElem?_append_right (by omega)]
    simp
  · rw [if_neg h1]
    by_cases h3 : off ≤ o ∧ o < off + (a.length : Int)
    · have h2 : off ≤ o ∧ o < off + ((a.length : Int) + (b.length : Int)) := by omega
      rw [if_pos h3, if_pos h2]
      rw [List.getD_eq_getElem?_getD, List.getD_eq_getElem?_getD,
        List.getElem?_append_left (by omega)]
    · have h2 : ¬ (off ≤ o ∧ o < off + ((a.length : Int) + (b.length : Int))) := by omega
      rw [if_neg h3, if_neg h2]

theorem lump_write_nil (lump : Int → Nat) (off : Int) : lump_write lump off [] = lump := by
  funext o
  unfold lump_write
  simp only [List.length_nil, Nat.cast_zero, add_zero]
  rw [if_neg (by omega)]

theorem copied_row_length (img : List Nat) (source : Int) (n : Nat) :
    (copied_row img source n).length = n := by
  simp [copied_row]

theorem copied_row_succ (img : List Nat) (source : Int) (n : Nat) :
    copied_row img source (n + 1) = img.getD source.toNat 0 :: copied_row img (source + 1) n := by
  unfold copied_row
  rw [List.range_succ_eq_map]
  simp only [List.map_cons, List.map_map, Nat.cast_zero, add_zero]
  congr 1
  apply List.map_congr_left
  intro k _
  simp only [Function.comp, Nat.cast_succ]
  congr 2
  omega

theorem copied_rect_length (img : List Nat) (width : Int) (w : Nat) :
    ∀ (n : Nat) (source : Int), (copied_rect img width w n source).length = n * w := by
  intro n
  induction n with
  | zero => intro _; simp [copied_rect]
  | succ n ih =>
    intro source
    simp only [copied_rect, List.length_append, copied_row_length, ih]
    ring

/-- The inner pixel loop stores `n` bytes of the image at the cursor and reads only inside
the image. -/
theorem copy_row_spec {fl : CFloat} (source : Int) :
    ∀ (n : Nat) (x : Int) (s s' : State fl), copy_row source n x s = .ok s' →
      s' = { s with
        lump := lump_write s.lump (s.plump - s.lumpbuffer) (copied_row s.byteimage (source + x) n)
        plump := s.plump + n } ∧
      (0 < n → 0 ≤ s.plump - s.lumpbuffer ∧ s.plump - s.lumpbuffer + n ≤ s.buffer_size) ∧
      (∀ k : Nat, k < n → 0 ≤ source + x + k ∧ source + x + k < s.byteimage.length) := by
  intro n
  induction n with
  | zero =>
    intro x s s' h
    simp only [copy_row, Except.ok.injEq] at h
    subst h
    refine ⟨?_, fun h => absurd h (by omega), fun k hk => absurd hk (by omega)⟩
    simp [copied_row, lump_write_nil]
  | succ n ih =>
    intro x s s' h
    simp only [copy_row] at h
    obtain ⟨v, hv, h⟩ := bind_ok h
    obtain ⟨s1, h1, h⟩ := bind_ok h
    obtain ⟨e1, b1, b2⟩ := poke_spec h1
    obtain ⟨e2, b3, b4⟩ := ih _ _ _ h
    have hv2 := peek_ok hv
    have hvlt := peek_lt hv
    refine ⟨?_, fun _ => ⟨b1, ?_⟩, ?_⟩
    · rw [e2, e1]
      simp only
      rw [copied_row_succ]
      have ea : source + (x + 1) = source + x + 1 := by ring
      have el : s.plump + 1 - s.lumpbuffer = s.plump - s.lumpbuffer + (([v] : List Nat).length : Int) := by
        simp only [List.length_cons, List.length_nil]; push_cast; ring
      rw [ea, el, lump_write_append, ← hv2.2]
      simp only [List.singleton_append, Nat.cast_succ]
      congr 1
      ring
    · by_cases hn : 0 < n
      · have := (b3 hn).2
        rw [e1] at this
        simp only at this
        push_cast
        omega
      · have : n = 0 := by omega
        subst this
        simp only [List.length_cons, List.length_nil] at b2
        push_cast at b2 ⊢
        omega
    · intro k hk
      cases k with
      | zero =>
        simp only [Nat.cast_zero, add_zero]
        exact hvlt
      | succ k =>
        have := b4 k (by omega)
        rw [e1] at this
        simp only at this
        push_cast
        constructor <;> omega


/-- The outer pixel loop stores `n` rows of `w` bytes at the cursor and reads only inside
the image. -/
theorem copy_rows_spec {fl : CFloat} (w : Nat) :
    ∀ (n : Nat) (source : Int) (s s' : State fl), copy_rows w n source s = .ok s' →
      s' = { s with
        lump := lump_write s.lump (s.plump - s.lumpbuffer)
          (copied_rect s.byteimage s.byteimagewidth w n source)
        plump := s.plump + ((n * w : Nat) : Int) } ∧
      (0 < n * w → 0 ≤ s.plump - s.lumpbuffer ∧
        s.plump - s.lumpbuffer + ((n * w : Nat) : Int) ≤ s.buffer_size) ∧
      (∀ y x : Nat, y < n → x < w →
        0 ≤ source + y * s.byteimagewidth + x ∧
        source + y * s.byteimagewidth + x < s.byteimage.length) := by
  intro n
  induction n with
  | zero =>
    intro source s s' h
    simp only [copy_rows, Except.ok.injEq] at h
    subst h
    refine ⟨?_, fun h => absurd h (by omega), fun y x hy _ => absurd hy (by omega)⟩
    simp [copied_rect, lump_write_nil]
  | succ n ih =>
    intro source s s' h
    simp only [copy_rows] at h
    obtain ⟨s1, h1, h⟩ := bind_ok h
    obtain ⟨e1, b1, b2⟩ := copy_row_spec _ _ _ _ _ h1
    obtain ⟨e2, b3, b4⟩ := ih _ _ _ h
    have hW : s1.byteimagewidth = s.byteimagewidth := by rw [e1]
    have hI : s1.byteimage = s.byteimage := by rw [e1]
    have hP : s1.plump = s.plump + (w : Int) := by rw [e1]
    have hB : s1.lumpbuffer = s.lumpbuffer := by rw [e1]
    have hS : s1.buffer_size = s.buffer_size := by rw [e1]
    have hL : s1.lump = lump_write s.lump (s.plump - s.lumpbuffer)
        (copied_row s.byteimage (source + 0) w) := by rw [e1]
    refine ⟨?_, ?_, ?_⟩
    · rw [e2, hL, hP, hB, hW, hI]
      rw [e1]
      simp only [copied_rect, add_zero]
      have el : s.plump + (w : Int) - s.lumpbuffer =
          s.plump - s.lumpbuffer + ((copied_row s.byteimage source w).length : Int) := by
        rw [copied_row_length]; ring
      rw [el, lump_write_append]
      congr 1
      push_cast
      ring
    · intro hpos
      by_cases hw : 0 < w
      · have c1 := b1 hw
        by_cases hn : 0 < n * w
        · have c2 := b3 hn
          rw [hP, hB, hS] at c2
          refine ⟨c1.1, ?_⟩
          have : ((n + 1) * w : Nat) = n * w + w := by ring
          rw [this]
          push_cast
          push_cast at c2
          omega
        · have hz : n * w = 0 := by omega
          have : ((n + 1) * w : Nat) = w := by
            have : (n + 1) * w = n * w + w := by ring
            omega
          rw [this]
          exact c1
      · have : w = 0 := by omega
        subst this
        simp at hpos
    · intro y x hy hx
      cases y with
      | zero =>
        have := b2 x hx
        simp only [add_zero] at this
        simp only [Nat.cast_zero, zero_mul, add_zero]
        exact this
      | succ y =>
        have := b4 y x (by omega) hx
        rw [hW, hI] at this
        push_cast
        constructor
        · have := this.1; nlinarith
        · have := this.2; nlinarith

theorem copied_rect_eq_frame_pixels (img : List Nat) (width : Int) (r : Rect) :
    copied_rect img width r.w.toNat r.h.toNat (r.yl * width + r.xl) =
      frame_pixels img width r := by
  unfold frame_pixels
  generalize r.h.toNat = n
  generalize r.yl = yl
  induction n generalizing yl with
  | zero => simp [copied_rect]
  | succ n ih =>
    rw [copied_rect, List.range_succ_eq_map, List.flatMap_cons, List.flatMap_map]
    have e : yl * width + r.xl + width = (yl + 1) * width + r.xl := by ring
    rw [e, ih (yl + 1)]
    congr 1
    · unfold copied_row
      apply List.map_congr_left
      intro x _
      congr 2
      push_cast
      ring
    · apply List.flatMap_congr
      intro y _
      apply List.map_congr_left
      intro x _
      simp only [Function.comp, Nat.cast_succ]
      congr 2
      ring


/-! ## Stages of `grab_frame` and the arena -/

theorem SameArena.refl {fl : CFloat} (s : State fl) : SameArena s s :=
  ⟨rfl, rfl, rfl, rfl, rfl, rfl, rfl, fun h => h, fun _ f _ hf => ⟨f, hf, rfl, rfl, rfl, rfl⟩⟩

theorem SameArena.trans {fl : CFloat} {s t u : State fl} (h1 : SameArena s t)
    (h2 : SameArena t u) : SameArena s u := by
  obtain ⟨a1, a2, a3, a4, a5, a6, a7, a8, a9⟩ := h1
  obtain ⟨b1, b2, b3, b4, b5, b6, b7, b8, b9⟩ := h2
  refine ⟨b1.trans a1, b2.trans a2, b3.trans a3, b4.trans a4, b5.trans a5, b6.trans a6,
    b7.trans a7, fun h => b8 (a8 h), ?_⟩
  intro i f hi hf
  obtain ⟨f1, hf1, e1, u1, v1, w1⟩ := a9 i f hi hf
  obtain ⟨f2, hf2, e2, u2, v2, w2⟩ := b9 i f1 (by rw [a3]; exact hi) hf1
  exact ⟨f2, hf2, e2.trans e1, u2.trans u1, v2.trans v1, w2.trans w1⟩

theorem next_token_same {fl : CFloat} {c : Bool} {s : State fl} {r : Bool × State fl}
    (h : next_token c s = .ok r) : SameArena s r.2 := by
  obtain ⟨p, t, e⟩ := next_token_ok h
  rw [e]
  exact ⟨rfl, rfl, rfl, rfl, rfl, rfl, rfl, fun h => h,
    fun _ f _ hf => ⟨f, hf, rfl, rfl, rfl, rfl⟩⟩

theorem set_frame_spec {fl : CFloat} {s s' : State fl} {idx : Int}
    {g : spritepackage_t fl → spritepackage_t fl} (h : set_frame s idx g = .ok s') :
    0 ≤ idx ∧ ∃ f, s.frames[idx.toNat]? = some f ∧
      s' = { s with frames := s.frames.set idx.toNat (g f) } := by
  unfold set_frame at h
  split at h
  · simp at h
  · rename_i hidx
    split at h
    · simp at h
    · rename_i f hf
      simp only [Except.ok.injEq] at h
      rw [List.get?_eq_getElem?] at hf
      exact ⟨by omega, f, hf, h.symm⟩

/-- Changing a descriptor at or above `framecount` leaves the arena view as it is. -/
theorem set_frame_same {fl : CFloat} {s s' : State fl} {idx : Int}
    {g : spritepackage_t fl → spritepackage_t fl} (h : set_frame s idx g = .ok s')
    (hidx : s.framecount ≤ idx) : SameArena s s' := by
  obtain ⟨h0, f0, hf0, e⟩ := set_frame_spec h
  rw [e]
  refine ⟨rfl, rfl, rfl, rfl, rfl, rfl, rfl, fun h => by simpa using h, ?_⟩
  intro i f hi hf
  simp only
  have hne : idx.toNat ≠ i := by omega
  exact ⟨f, by rw [List.getElem?_set_ne hne]; exact hf, rfl, rfl, rfl, rfl⟩

theorem resize_frames_length {fl : CFloat} (env : Env fl) (l : List (spritepackage_t fl))
    (n : Nat) : (resize_frames env l n).length = n := by
  unfold resize_frames
  simp only [List.length_take, List.length_append, List.length_map, List.length_range]
  omega

theorem resize_frames_get {fl : CFloat} (env : Env fl) (l : List (spritepackage_t fl))
    (n i : Nat) (hn : i < n) (hl : i < l.length) : (resize_frames env l n)[i]? = l[i]? := by
  unfold resize_frames
  rw [List.getElem?_take_of_lt hn, List.getElem?_append_left hl]

theorem relocate_length {fl : CFloat} (old new : Int) :
    ∀ (n : Nat) (l : List (spritepackage_t fl)), (relocate old new n l).length = l.length := by
  intro n
  induction n with
  | zero => intro l; rfl
  | succ n ih =>
    intro l
    cases l with
    | nil => rfl
    | cons f rest => simp [relocate, ih]

theorem ensure_buffer_capacity_same {fl : CFloat} {env : Env fl} {s s' : State fl}
    {needed : Int} (h : ensure_buffer_capacity env s needed = .ok s') : SameArena s s' := by
  obtain ⟨a1, a2, a3, a4, _⟩ := ensure_buffer_capacity_relocates h
  obtain ⟨n, b, p, l, e⟩ := ensure_buffer_capacity_ok h
  refine ⟨a2, a1, a3, by rw [e], by rw [e], by rw [e], by rw [e], ?_, ?_⟩
  · intro hl
    unfold ensure_buffer_capacity at h
    split at h
    · simp only at h
      split at h
      · simp at h
      · simp only [Except.ok.injEq] at h
        rw [← h]
        simp only
        split
        · rw [relocate_length]; exact hl
        · exact hl
    · simp only [Except.ok.injEq] at h
      rw [← h]; exact hl
  · intro i f hi hf
    obtain ⟨f', hf', e1, e2, e3, e4⟩ := a4 i f hi hf
    exact ⟨f', hf', e1, e2, e3, e4⟩

/-- The allocation stage of `grab_frame`: the arena view is unchanged, the new descriptor
exists and is typed Single. -/
theorem frame_alloc_same {fl : CFloat} {env : Env fl} {s s3 : State fl} {r : Rect}
    (h : frame_alloc env s r = .ok s3) :
    SameArena s s3 ∧ 0 ≤ s.framecount ∧
      (s3.framecount.toNat < s3.frames.length) := by
  unfold frame_alloc at h
  obtain ⟨s1, h1, h⟩ := bind_ok h
  obtain ⟨s2, h2, h⟩ := bind_ok h
  obtain ⟨hidx, f0, hf0, e2⟩ := set_frame_spec h2
  have hlt : s1.framecount.toNat < s1.frames.length := (List.getElem?_eq_some.mp hf0).1
  have c2 := set_frame_same h2 (le_refl _)
  have c3 := ensure_buffer_capacity_same h
  have hfc1 : s1.framecount = s.framecount := by
    obtain ⟨m, l, e⟩ := ensure_frame_capacity_ok h1
    rw [e]
  have c1 : SameArena s s1 := by
    unfold ensure_frame_capacity at h1
    split at h1
    · simp only at h1
      split at h1
      · simp at h1
      · simp only [Except.ok.injEq] at h1
        have hlen : s1.frames.length = (wrap32 (s.max_frames * 2)).toNat := by
          rw [← h1]; exact resize_frames_length _ _ _
        have hr := wrap32_range (s.max_frames * 2)
        refine ⟨by rw [← h1], by rw [← h1], by rw [← h1], by rw [← h1], by rw [← h1],
          by rw [← h1], by rw [← h1], fun _ => by rw [hlen]; omega, ?_⟩
        intro i f hi hf
        have hil : i < s.frames.length := (List.getElem?_eq_some.mp hf).1
        have hin : i < (wrap32 (s.max_frames * 2)).toNat := by
          rw [← hlen]
          rw [hfc1] at hlt
          omega
        refine ⟨f, ?_, by rw [← h1], rfl, rfl, rfl⟩
        rw [← h1]
        simp only
        rw [resize_frames_get _ _ _ _ hin hil]
        exact hf
    · simp only [Except.ok.injEq] at h1
      rw [← h1]
      exact SameArena.refl s
  have c := (c1.trans c2).trans c3
  refine ⟨c, by rw [← hfc1]; exact hidx, ?_⟩
  -- the descriptor at `framecount` is still there after the arena has grown
  have hlen2 : s2.frames.length = s1.frames.length := by rw [e2]; simp
  have hfc2 : s2.framecount = s1.framecount := by rw [e2]
  obtain ⟨n, b, p, l, e3⟩ := ensure_buffer_capacity_ok h
  have hfc3 : s3.framecount = s2.framecount := by rw [e3]
  have hlen3 : s3.frames.length = s2.frames.length := by
    unfold ensure_buffer_capacity at h
    split at h
    · simp only at h
      split at h
      · simp at h
      · simp only [Except.ok.injEq] at h
        rw [← h]
        simp only
        split
        · rw [relocate_length]
        · rfl
    · simp only [Except.ok.injEq] at h
      rw [← h]
  rw [hfc3, hfc2, hlen3, hlen2]
  exact hlt


theorem int32_bytes_length (v : Int) : (int32_bytes v).length = 4 := by
  simp [int32_bytes]

theorem frame_bytes_length (hd : dspriteframe_t) : (frame_bytes hd).length = 16 := by
  simp [frame_bytes, int32_bytes_length]

/-- The last stage of `grab_frame` with `pframe` at the write cursor: the header and the
pixel rows are stored at the cursor, the cursor moves past them, the descriptor at
`framecount` gets its `pdata`, and every pixel read lies inside the image. -/
theorem frame_store_spec {fl : CFloat} {s s' : State fl} {r : Rect} {hd : dspriteframe_t}
    (h : frame_store s r s.plump hd = .ok s') :
    s'.lump = lump_write s.lump (s.plump - s.lumpbuffer)
      (frame_bytes hd ++ copied_rect s.byteimage s.byteimagewidth r.w.toNat r.h.toNat
        (wrap32 (r.yl * s.byteimagewidth) + r.xl)) ∧
    s'.lumpbuffer = s.lumpbuffer ∧ s'.buffer_size = s.buffer_size ∧
    s'.plump = s.plump + 16 + ((r.h.toNat * r.w.toNat : Nat) : Int) ∧
    0 ≤ s.plump - s.lumpbuffer ∧
    s.plump - s.lumpbuffer + 16 + ((r.h.toNat * r.w.toNat : Nat) : Int) ≤ s.buffer_size ∧
    0 ≤ s.framecount ∧
    (∃ f, s.frames[s.framecount.toNat]? = some f ∧
      s'.frames = s.frames.set s.framecount.toNat { f with pdata := s.plump }) ∧
    s'.framecount = wrap32 (s.framecount + 1) ∧ s'.emitted = s.emitted ++ [hd] ∧
    (∀ y x : Nat, y < r.h.toNat → x < r.w.toNat →
      0 ≤ wrap32 (r.yl * s.byteimagewidth) + r.xl + y * s.byteimagewidth + x ∧
      wrap32 (r.yl * s.byteimagewidth) + r.xl + y * s.byteimagewidth + x <
        s.byteimage.length) := by
  unfold frame_store at h
  obtain ⟨s5, h5, h⟩ := bind_ok h
  obtain ⟨s6, h6, h⟩ := bind_ok h
  obtain ⟨s7, h7, h⟩ := bind_ok h
  obtain ⟨s8, h8, h⟩ := bind_ok h
  obtain ⟨s10, h10, h⟩ := bind_ok h
  obtain ⟨s11, h11, h⟩ := bind_ok h
  simp only [pure, Except.pure, Except.ok.injEq] at h
  obtain ⟨e5, a5, b5⟩ := poke_spec h5
  obtain ⟨e6, a6, b6⟩ := poke_spec h6
  obtain ⟨e7, a7, b7⟩ := poke_spec h7
  obtain ⟨e8, a8, b8⟩ := poke_spec h8
  obtain ⟨e10, a10, b10⟩ := copy_rows_spec _ _ _ _ _ h10
  obtain ⟨hfc, f, hf, e11⟩ := set_frame_spec h11
  -- the four header stores make one block of sixteen bytes
  have hl5 : s5.lumpbuffer = s.lumpbuffer := by rw [e5]
  have hl6 : s6.lumpbuffer = s.lumpbuffer := by rw [e6, ← hl5]
  have hl7 : s7.lumpbuffer = s.lumpbuffer := by rw [e7, ← hl6]
  have hl8 : s8.lumpbuffer = s.lumpbuffer := by rw [e8, ← hl7]
  have hb5 : s5.buffer_size = s.buffer_size := by rw [e5]
  have hb6 : s6.buffer_size = s.buffer_size := by rw [e6, ← hb5]
  have hb7 : s7.buffer_size = s.buffer_size := by rw [e7, ← hb6]
  have hb8 : s8.buffer_size = s.buffer_size := by rw [e8, ← hb7]
  have hp5 : s5.plump = s.plump := by rw [e5]
  have hp6 : s6.plump = s.plump := by rw [e6, ← hp5]
  have hp7 : s7.plump = s.plump := by rw [e7, ← hp6]
  have hp8 : s8.plump = s.plump := by rw [e8, ← hp7]
  have hm5 : s5.lump = lump_write s.lump (s.plump - s.lumpbuffer) (int32_bytes hd.origin0) := by
    rw [e5]
  have hm6 : s6.lump = lump_write s.lump (s.plump - s.lumpbuffer)
      (int32_bytes hd.origin0 ++ int32_bytes hd.origin1) := by
    rw [e6]
    simp only
    rw [hm5, hl5]
    have e : s.plump + 4 - s.lumpbuffer =
        s.plump - s.lumpbuffer + ((int32_bytes hd.origin0).length : Int) := by
      rw [int32_bytes_length]; push_cast; omega
    rw [e, lump_write_append]
  have hm7 : s7.lump = lump_write s.lump (s.plump - s.lumpbuffer)
      (int32_bytes hd.origin0 ++ int32_bytes hd.origin1 ++ int32_bytes hd.width) := by
    rw [e7]
    simp only
    rw [hm6, hl6]
    have e : s.plump + 8 - s.lumpbuffer = s.plump - s.lumpbuffer +
        ((int32_bytes hd.origin0 ++ int32_bytes hd.origin1).length : Int) := by
      simp only [List.length_append, int32_bytes_length]; push_cast; omega
    rw [e, lump_write_append]
  have hm8 : s8.lump = lump_write s.lump (s.plump - s.lumpbuffer) (frame_bytes hd) := by
    rw [e8]
    simp only
    unfold frame_bytes
    rw [hm7, hl7]
    have e : s.plump + 12 - s.lumpbuffer = s.plump - s.lumpbuffer +
        ((int32_bytes hd.origin0 ++ int32_bytes hd.origin1 ++ int32_bytes hd.width).length :
          Int) := by
      simp only [List.length_append, int32_bytes_length]; push_cast; omega
    rw [e, lump_write_append]
  have hW8 : s8.byteimagewidth = s.byteimagewidth := by rw [e8, e7, e6, e5]
  have hI8 : s8.byteimage = s.byteimage := by rw [e8, e7, e6, e5]
  have hF8 : s8.frames = s.frames := by rw [e8, e7, e6, e5]
  have hC8 : s8.framecount = s.framecount := by rw [e8, e7, e6, e5]
  have hE8 : s8.emitted = s.emitted := by rw [e8, e7, e6, e5]
  simp only [hW8, hI8, hp8, hl8, hb8, hm8] at e10 a10 b10
  have hF10 : s10.frames = s.frames := by rw [e10]; exact hF8
  have hC10 : s10.framecount = s.framecount := by rw [e10]; exact hC8
  have hE10 : s10.emitted = s.emitted := by rw [e10]; exact hE8
  rw [hC10] at hfc
  rw [hC10, hF10] at hf
  rw [hC10, hF10] at e11
  have hL : s'.lump = lump_write s.lump (s.plump - s.lumpbuffer)
      (frame_bytes hd ++ copied_rect s.byteimage s.byteimagewidth r.w.toNat r.h.toNat
        (wrap32 (r.yl * s.byteimagewidth) + r.xl)) := by
    rw [← h, e11]
    simp only
    rw [e10]
    simp only
    have e : s.plump + 16 - s.lumpbuffer =
        s.plump - s.lumpbuffer + ((frame_bytes hd).length : Int) := by
      rw [frame_bytes_length]; push_cast; omega
    rw [e, lump_write_append]
  refine ⟨hL, ?_, ?_, ?_, a5, ?_, hfc, ⟨f, hf, ?_⟩, ?_, ?_, b10⟩
  · rw [← h, e11]; simp only; rw [e10]
  · rw [← h, e11]; simp only; rw [e10]
  · rw [← h, e11]; simp only; rw [e10]
  · by_cases hpos : 0 < r.h.toNat * r.w.toNat
    · have := (a10 hpos).2
      omega
    · have hz : r.h.toNat * r.w.toNat = 0 := by omega
      rw [hz]
      simp only [int32_bytes_length] at b8
      rw [hl7, hb7] at b8
      push_cast at b8 ⊢
      omega
  · rw [← h, e11]
  · rw [← h, e11]
  · rw [← h, e11]; simp only [hE10]


theorem grab_frame_stages {fl : CFloat} {env : Env fl} {s s' : State fl}
    (h : grab_frame env s = .ok s') :
    ∃ (a : Rect × State fl) (s3 s4 : State fl) (o : dspriteframe_t × State fl),
      frame_rect s = .ok a ∧
      bad_coordinates a.1.xl a.1.yl a.1.w a.1.h a.2.byteimagewidth a.2.byteimageheight = false ∧
      frame_alloc env a.2 a.1 = .ok s3 ∧ frame_interval s3 = .ok s4 ∧
      frame_origin s4 a.1 = .ok o ∧ frame_store o.2 a.1 s3.plump o.1 = .ok s' := by
  unfold grab_frame at h
  obtain ⟨a, ha, hrest⟩ := bind_ok h
  split at hrest
  · simp at hrest
  · rename_i hbad
    obtain ⟨s3, h3, hr3⟩ := bind_ok hrest
    obtain ⟨s4, h4, hr4⟩ := bind_ok hr3
    obtain ⟨o, ho, hst⟩ := bind_ok hr4
    exact ⟨a, s3, s4, o, ha, by simpa using hbad, h3, h4, ho, hst⟩

theorem next_token_spec {fl : CFloat} {c : Bool} {s : State fl} {r : Bool × State fl}
    (h : next_token c s = .ok r) :
    ∃ x, get_token c s.scriptptr s.token = .ok x ∧
      r = (x.1, { s with scriptptr := x.2.1, token := x.2.2 }) := by
  unfold next_token at h
  obtain ⟨x, hx, h2⟩ := bind_ok h
  simp only [pure, Except.pure, Except.ok.injEq] at h2
  exact ⟨x, hx, h2.symm⟩

theorem frame_rect_same {fl : CFloat} {s : State fl} {a : Rect × State fl}
    (h : frame_rect s = .ok a) : SameArena s a.2 ∧ a.2.plump = s.plump ∧
      a.2.lumpbuffer = s.lumpbuffer ∧ a.2.frames = s.frames := by
  obtain ⟨⟨p, t, e⟩, _⟩ := frame_rect_ok h
  rw [e]
  exact ⟨⟨rfl, rfl, rfl, rfl, rfl, rfl, rfl, fun h => h,
    fun _ f _ hf => ⟨f, hf, rfl, rfl, rfl, rfl⟩⟩, rfl, rfl, rfl⟩

/-- The interval stage: the probe for an optional interval, and the interval recorded in
the descriptor at `framecount`. -/
theorem frame_interval_spec {fl : CFloat} {s3 s4 : State fl} (h : frame_interval s3 = .ok s4) :
    ∃ (x : Bool × List Nat × List Nat) (f : spritepackage_t fl),
      get_token false s3.scriptptr s3.token = .ok x ∧ 0 ≤ s3.framecount ∧
      s3.frames[s3.framecount.toNat]? = some f ∧
      s4 = { s3 with
        scriptptr := x.2.1, token := x.2.2
        frames := s3.frames.set s3.framecount.toNat
          { f with interval := if x.1 then fl.atof x.2.2 else fl.tenth } } ∧
      ¬ (x.1 = true ∧ fl.le (fl.atof x.2.2) fl.zero = true) := by
  unfold frame_interval at h
  obtain ⟨t5, h5, h⟩ := bind_ok h
  obtain ⟨s, hs, h⟩ := bind_ok h
  obtain ⟨x, hx, e5⟩ := next_token_spec h5
  obtain ⟨h0, f, hf, e⟩ := set_frame_spec hs
  split at h
  · simp at h
  · rename_i hno
    simp only [pure, Except.pure, Except.ok.injEq] at h
    subst h
    rw [e5] at hf h0 e hno
    simp only at hf h0 e hno
    exact ⟨x, f, hx, h0, hf, e, by simpa using hno⟩

/-- The origin stage: the probe for an optional origin and the frame header that results. -/
theorem frame_origin_spec {fl : CFloat} {s4 : State fl} {r : Rect}
    {o : dspriteframe_t × State fl} (h : frame_origin s4 r = .ok o) :
    ∃ (x y : Bool × List Nat × List Nat),
      get_token false s4.scriptptr s4.token = .ok x ∧
      (if x.1 then get_token false x.2.1 x.2.2 else .ok x) = .ok y ∧
      o.2 = { s4 with scriptptr := y.2.1, token := y.2.2 } ∧
      o.1 = ⟨if x.1 then wrap32 (- atoi x.2.2) else wrap32 (- shr1 r.w),
             if x.1 then atoi y.2.2 else shr1 r.h, r.w, r.h⟩ := by
  unfold frame_origin at h
  obtain ⟨t6, h6, h⟩ := bind_ok h
  obtain ⟨t7, h7, h⟩ := bind_ok h
  simp only [pure, Except.pure, Except.ok.injEq] at h
  obtain ⟨x, hx, e6⟩ := next_token_spec h6
  by_cases hc : x.1 = true
  · have hc6 : t6.1 = true := by rw [e6]; exact hc
    rw [if_pos hc6] at h7
    obtain ⟨y, hy, e7⟩ := next_token_spec h7
    rw [e6] at hy
    simp only at hy
    refine ⟨x, y, hx, by rw [if_pos hc]; exact hy, ?_, ?_⟩
    · rw [← h, e7, e6]
    · rw [← h, e7, e6]
  · have hc6 : ¬ t6.1 = true := by rw [e6]; exact hc
    rw [if_neg hc6] at h7
    simp only [pure, Except.pure, Except.ok.injEq] at h7
    refine ⟨x, x, hx, by rw [if_neg hc], ?_, ?_⟩
    · rw [← h, ← h7, e6]
    · rw [← h, ← h7, e6]


theorem ensure_buffer_capacity_type {fl : CFloat} {env : Env fl} {s s' : State fl}
    {needed : Int} (h : ensure_buffer_capacity env s needed = .ok s') (i : Nat)
    (f : spritepackage_t fl) (hf : s.frames[i]? = some f) :
    ∃ f', s'.frames[i]? = some f' ∧ f'.type = f.type ∧ f'.interval = f.interval ∧
      f'.numgroupframes = f.numgroupframes := by
  unfold ensure_buffer_capacity at h
  split at h
  · simp only at h
    split at h
    · simp at h
    · simp only [Except.ok.injEq] at h
      rw [← h]
      simp only
      split
      · rw [relocate_get, hf]
        simp only [Option.map_some']
        split
        · exact ⟨_, rfl, rfl, rfl, rfl⟩
        · exact ⟨_, rfl, rfl, rfl, rfl⟩
      · exact ⟨f, hf, rfl, rfl, rfl⟩
  · simp only [Except.ok.injEq] at h
    rw [← h]
    exact ⟨f, hf, rfl, rfl, rfl⟩

theorem frame_alloc_type {fl : CFloat} {env : Env fl} {s s3 : State fl} {r : Rect}
    (h : frame_alloc env s r = .ok s3) :
    ∃ f, s3.frames[s.framecount.toNat]? = some f ∧ f.type = SPR_SINGLE := by
  unfold frame_alloc at h
  obtain ⟨s1, h1, h⟩ := bind_ok h
  obtain ⟨s2, h2, h⟩ := bind_ok h
  obtain ⟨hidx, f0, hf0, e2⟩ := set_frame_spec h2
  have hfc1 : s1.framecount = s.framecount := by
    obtain ⟨m, l, e⟩ := ensure_frame_capacity_ok h1
    rw [e]
  have hlt : s1.framecount.toNat < s1.frames.length := (List.getElem?_eq_some.mp hf0).1
  have hf2 : s2.frames[s1.framecount.toNat]? = some { f0 with type := SPR_SINGLE } := by
    rw [e2]
    simp only
    rw [List.getElem?_set_self hlt]
  obtain ⟨f', hf', ht, _⟩ := ensure_buffer_capacity_type h _ _ hf2
  rw [hfc1] at hf'
  exact ⟨f', hf', ht⟩

/-- The effect of a successful `grab_frame` on the arena and the descriptor array. -/
theorem grab_frame_grabbed {fl : CFloat} {env : Env fl} {s s' : State fl}
    (h : grab_frame env s = .ok s') :
    ∃ (a : Rect × State fl) (hd : dspriteframe_t) (f : spritepackage_t fl),
      frame_rect s = .ok a ∧ Grabbed s s' a hd f := by
  obtain ⟨a, s3, s4, o, ha, hbad, h3, h4, ho, hst⟩ := grab_frame_stages h
  obtain ⟨c1, p1, l1, f1⟩ := frame_rect_same ha
  obtain ⟨c3, n3, slot3⟩ := frame_alloc_same h3
  obtain ⟨f3, hf3, ht3⟩ := frame_alloc_type h3
  obtain ⟨x, f4, hx, n4, hf4, e4, _⟩ := frame_interval_spec h4
  obtain ⟨x6, y6, hx6, hy6, eo, ehd⟩ := frame_origin_spec ho
  have c13 := c1.trans c3
  obtain ⟨k1, k2, k3, k4, k5, k6, k7, k8, k9⟩ := c13
  -- the state the last stage starts from
  have q_plump : o.2.plump = s3.plump := by rw [eo, e4]
  have q_base : o.2.lumpbuffer = s3.lumpbuffer := by rw [eo, e4]
  have q_lump : o.2.lump = s.lump := by rw [eo, e4]; exact k1
  have q_size : o.2.buffer_size = s3.buffer_size := by rw [eo, e4]
  have q_img : o.2.byteimage = s.byteimage := by rw [eo, e4]; exact k4
  have q_w : o.2.byteimagewidth = s.byteimagewidth := by rw [eo, e4]; exact k5
  have q_h : o.2.byteimageheight = s.byteimageheight := by rw [eo, e4]; exact k6
  have q_cnt : o.2.framecount = s.framecount := by rw [eo, e4]; exact k3
  have q_emit : o.2.emitted = s.emitted := by rw [eo, e4]; exact k7
  have q_frames : o.2.frames = s3.frames.set s3.framecount.toNat
      { f4 with interval := if x.1 then fl.atof x.2.2 else fl.tenth } := by rw [eo, e4]
  rw [← q_plump] at hst
  obtain ⟨t1, t2, t3, t4, t5, t6, t7, ⟨f5, hf5, t8⟩, t9, t10, t11⟩ := frame_store_spec hst
  have hfc3 : s3.framecount = s.framecount := k3
  have hfa : a.2.framecount = s.framecount := by
    obtain ⟨_, _, e, _⟩ := c1
    exact e
  rw [hfa] at hf3
  rw [hfc3] at hf4 q_frames
  rw [hf3] at hf4
  simp only [Option.some.injEq] at hf4
  have hlt3 : s.framecount.toNat < s3.frames.length := by rw [← hfc3]; exact slot3
  rw [q_cnt, q_frames, List.getElem?_set_self hlt3] at hf5
  simp only [Option.some.injEq] at hf5
  have hoff : o.2.plump - o.2.lumpbuffer = s.plump - s.lumpbuffer := by
    rw [q_plump, q_base]; exact k2
  refine ⟨a, o.1, { f5 with pdata := o.2.plump }, ha, ?_⟩
  constructor
  · have := hbad
    rw [show a.2.byteimagewidth = s.byteimagewidth from c1.2.2.2.2.1,
      show a.2.byteimageheight = s.byteimageheight from c1.2.2.2.2.2.1] at this
    exact this
  · rw [t1, q_lump, hoff, q_img, q_w]
  · rw [t4, t2]
    have := hoff
    omega
  · rw [← hoff]; exact t5
  · rw [t3, ← hoff]; exact t6
  · rw [← q_cnt]; exact t7
  · rw [t9, q_cnt]
  · rw [t8, q_cnt, q_frames]
    simp only [List.length_set]
    exact hlt3
  · rw [t10, q_emit]
  · rw [t8, q_cnt, q_frames]
    rw [List.getElem?_set_self (by simp only [List.length_set]; exact hlt3)]
  · show o.2.plump - s'.lumpbuffer = _
    rw [t2]; exact hoff
  · show f5.type = SPR_SINGLE
    rw [← hf5, ← hf4]
    exact ht3
  · intro hl
    rw [t8, q_frames]
    simp only [List.length_set]
    exact k8 hl
  · intro i g hi hg
    obtain ⟨g', hg', eg, eg1, eg2, eg3⟩ := k9 i g hi hg
    have hne : s.framecount.toNat ≠ i := by omega
    refine ⟨g', ?_, ?_, eg1, eg2, eg3⟩
    · rw [t8, q_cnt, q_frames, List.getElem?_set_ne hne, List.getElem?_set_ne hne]
      exact hg'
    · rw [t2, q_base]; exact eg
  · intro y x hy hx
    have := t11 y x hy hx
    rw [q_w, q_img] at this
    exact this
  · obtain ⟨u1, u2, u3⟩ : s'.byteimage = o.2.byteimage ∧ s'.byteimagewidth = o.2.byteimagewidth ∧
        s'.byteimageheight = o.2.byteimageheight := by
      obtain ⟨m, p, l, e5⟩ := frame_store_ok hst
      rw [e5]
      exact ⟨rfl, rfl, rfl⟩
    exact ⟨u1.trans q_img, u2.trans q_w, u3.trans q_h⟩
  · rw [ehd]
    exact ⟨rfl, rfl⟩
  · obtain ⟨mf, l3, n, b, p3, e3⟩ := frame_alloc_ok h3
    have hs3 : s3.scriptptr = a.2.scriptptr ∧ s3.token = a.2.token := by
      rw [e3]; exact ⟨rfl, rfl⟩
    have hs4 : s4.scriptptr = x.2.1 ∧ s4.token = x.2.2 := by
      rw [e4]; exact ⟨rfl, rfl⟩
    have hs' : s'.scriptptr = y6.2.1 ∧ s'.token = y6.2.2 := by
      obtain ⟨m, p, l, e5⟩ := frame_store_ok hst
      rw [e5, eo]
      exact ⟨rfl, rfl⟩
    rw [hs3.1, hs3.2] at hx
    rw [hs4.1, hs4.2] at hx6
    refine ⟨x, x6, y6, hx, ?_, hx6, hy6, ehd, hs'.1, hs'.2⟩
    show f5.interval = _
    rw [← hf5]


/-! ## Recorded frames stay in the arena -/

theorem flatMap_singleton {α β : Type} (f : α → β) :
    ∀ (l : List α), (l.flatMap fun a => [f a]) = l.map f := by
  intro l
  induction l with
  | nil => rfl
  | cons a l ih => simp [List.flatMap_cons, ih]

theorem peek_bytes_eq {fl : CFloat} (s : State fl) (addr : Int) (n : Nat)
    (h : 0 ≤ addr - s.lumpbuffer ∧ addr - s.lumpbuffer + n ≤ s.buffer_size) :
    peek_bytes s addr n =
      .ok ((List.range n).map (fun (k : Nat) => s.lump (addr - s.lumpbuffer + (k : Int)))) := by
  unfold peek_bytes
  simp only [h, and_self, if_true]
  congr 1
  simp only [List.map_flatMap, List.bind_eq_flatMap, List.pure_def, List.map_cons, List.map_nil]
  exact flatMap_singleton _ _

theorem int32_at_bytes (v : Int) (h1 : -2147483648 ≤ v) (h2 : v < 2147483648) :
    int32_at (int32_bytes v) 0 = v := little_long_of_range v h1 h2

theorem map_getD_range (l : List Nat) :
    (List.range l.length).map (fun (k : Nat) => l.getD k 0) = l := by
  apply List.ext_getElem
  · simp
  · intro i h1 h2
    simp only [List.getElem_map, List.getElem_range]
    rw [List.getD_eq_getElem?_getD, List.getElem?_eq_getElem h2]
    rfl

theorem int32_bytes_four (v : Int) : ∃ a b c d, int32_bytes v = [a, b, c, d] :=
  ⟨_, _, _, _, rfl⟩

theorem frame_bytes_fields (hd : dspriteframe_t) (px : List Nat) :
    (List.range 4).map (fun (k : Nat) => (frame_bytes hd ++ px).getD (0 + k) 0) =
      int32_bytes hd.origin0 ∧
    (List.range 4).map (fun (k : Nat) => (frame_bytes hd ++ px).getD (4 + k) 0) =
      int32_bytes hd.origin1 ∧
    (List.range 4).map (fun (k : Nat) => (frame_bytes hd ++ px).getD (8 + k) 0) =
      int32_bytes hd.width ∧
    (List.range 4).map (fun (k : Nat) => (frame_bytes hd ++ px).getD (12 + k) 0) =
      int32_bytes hd.height := by
  unfold frame_bytes
  obtain ⟨a0, b0, c0, d0, e0⟩ := int32_bytes_four hd.origin0
  obtain ⟨a1, b1, c1, d1, e1⟩ := int32_bytes_four hd.origin1
  obtain ⟨a2, b2, c2, d2, e2⟩ := int32_bytes_four hd.width
  obtain ⟨a3, b3, c3, d3, e3⟩ := int32_bytes_four hd.height
  rw [e0, e1, e2, e3]
  simp [List.range, List.range.loop]

/-- Reading back a block that holds a frame header followed by pixel bytes: the four
header fields and the bytes, as `finish_sprite` reads them. -/
theorem header_reads {fl : CFloat} {s : State fl} {addr : Int} {hd : dspriteframe_t}
    {px : List Nat} (h0 : 0 ≤ addr - s.lumpbuffer)
    (hfit : addr - s.lumpbuffer + 16 + (px.length : Int) ≤ s.buffer_size)
    (hc : ∀ k : Nat, k < 16 + px.length →
      s.lump (addr - s.lumpbuffer + (k : Int)) = (frame_bytes hd ++ px).getD k 0)
    (r0 : -2147483648 ≤ hd.origin0 ∧ hd.origin0 < 2147483648)
    (r1 : -2147483648 ≤ hd.origin1 ∧ hd.origin1 < 2147483648)
    (r2 : -2147483648 ≤ hd.width ∧ hd.width < 2147483648)
    (r3 : -2147483648 ≤ hd.height ∧ hd.height < 2147483648) :
    peek_int s addr = .ok hd.origin0 ∧ peek_int s (addr + 4) = .ok hd.origin1 ∧
    peek_int s (addr + 8) = .ok hd.width ∧ peek_int s (addr + 12) = .ok hd.height ∧
    peek_bytes s (addr + 16) px.length = .ok px := by
  have hb : ∀ j : Nat, j ≤ 12 → peek_bytes s (addr + (j : Int)) 4 =
      .ok ((List.range 4).map (fun (k : Nat) => (frame_bytes hd ++ px).getD (j + k) 0)) := by
    intro j hj
    rw [peek_bytes_eq s _ 4 (by constructor <;> push_cast <;> omega)]
    congr 1
    apply List.map_congr_left
    intro k hk
    have hk4 : k < 4 := List.mem_range.mp hk
    have := hc (j + k) (by omega)
    rw [← this]
    congr 1
    push_cast
    omega
  refine ⟨?_, ?_, ?_, ?_, ?_⟩
  · unfold peek_int
    have := hb 0 (by omega)
    simp only [Nat.cast_zero, add_zero] at this
    rw [this, (frame_bytes_fields hd px).1]
    show Except.ok (int32_at _ 0) = _
    rw [int32_at_bytes hd.origin0 r0.1 r0.2]
  · unfold peek_int
    have := hb 4 (by omega)
    simp only [Nat.cast_ofNat] at this
    rw [this, (frame_bytes_fields hd px).2.1]
    show Except.ok (int32_at _ 0) = _
    rw [int32_at_bytes hd.origin1 r1.1 r1.2]
  · unfold peek_int
    have := hb 8 (by omega)
    simp only [Nat.cast_ofNat] at this
    rw [this, (frame_bytes_fields hd px).2.2.1]
    show Except.ok (int32_at _ 0) = _
    rw [int32_at_bytes hd.width r2.1 r2.2]
  · unfold peek_int
    have := hb 12 (by omega)
    simp only [Nat.cast_ofNat] at this
    rw [this, (frame_bytes_fields hd px).2.2.2]
    show Except.ok (int32_at _ 0) = _
    rw [int32_at_bytes hd.height r3.1 r3.2]
  · rw [peek_bytes_eq s _ _ (by constructor <;> omega)]
    congr 1
    conv_rhs => rw [← map_getD_range px]
    apply List.map_congr_left
    intro k hk
    have hkl : k < px.length := List.mem_range.mp hk
    have := hc (16 + k) (by omega)
    have e : addr + 16 - s.lumpbuffer + (k : Int) =
        addr - s.lumpbuffer + ((16 + k : Nat) : Int) := by push_cast; omega
    rw [e, this, List.getD_eq_getElem?_getD, List.getD_eq_getElem?_getD,
      List.getElem?_append_right (by rw [frame_bytes_length]; omega), frame_bytes_length]
    simp

/-- A stored payload is what the serialiser reads for its descriptor: `finish_sprite`
writes the header `hd`, then the bytes `px`. -/
theorem stored_write_single {fl : CFloat} {s : State fl} {i : Nat} {hd : dspriteframe_t}
    {px : List Nat} (hs : Stored s i hd px) (hp : Payload hd px) :
    ∃ f, frame_desc s i = .ok f ∧
      write_single s f.pdata = .ok [Chunk.frame hd, Chunk.pixels px] := by
  obtain ⟨_, _, f, hf, h0, _, hfit, hc⟩ := hs
  obtain ⟨r0, r1, r2, r3, hnn, hlen⟩ := hp
  obtain ⟨e0, e1, e2, e3, e4⟩ := header_reads h0 hfit hc r0 r1 r2 r3
  refine ⟨f, ?_, ?_⟩
  · unfold frame_desc
    have : ¬ ((i : Int) < 0) := by omega
    simp only [this, if_false, Int.toNat_natCast, List.get?_eq_getElem?, hf]
  · unfold write_single
    rw [e0]
    show (peek_int s (f.pdata + 4) >>= _) = _
    rw [e1]
    show (peek_int s (f.pdata + 8) >>= _) = _
    rw [e2]
    show (peek_int s (f.pdata + 12) >>= _) = _
    rw [e3]
    simp only [bind, Except.bind]
    rw [if_neg (by omega), ← hlen, e4]
    simp only [pure, Except.pure]
    rw [little_long_of_range _ r0.1 r0.2, little_long_of_range _ r1.1 r1.2,
      little_long_of_range _ r2.1 r2.2, little_long_of_range _ r3.1 r3.2]


theorem stored_of_fields {fl : CFloat} {s t : State fl} {i : Nat} {hd : dspriteframe_t}
    {px : List Nat} (hs : Stored s i hd px) (h1 : t.frames = s.frames)
    (h2 : t.framecount = s.framecount) (h3 : t.lumpbuffer = s.lumpbuffer)
    (h4 : t.plump = s.plump) (h5 : t.buffer_size = s.buffer_size) (h6 : t.lump = s.lump) :
    Stored t i hd px := by
  unfold Stored at hs ⊢
  rw [h1, h2, h3, h4, h5, h6]
  exact hs

theorem stored_next_token {fl : CFloat} {i : Nat} {hd : dspriteframe_t} {px : List Nat}
    (c : Bool) (s : State fl) (r : Bool × State fl) (hs : Stored s i hd px)
    (h : next_token c s = .ok r) : Stored r.2 i hd px := by
  obtain ⟨p, t, e⟩ := next_token_ok h
  rw [e]
  exact stored_of_fields hs rfl rfl rfl rfl rfl rfl

theorem stored_set_frame {fl : CFloat} {s s' : State fl} {i : Nat} {hd : dspriteframe_t}
    {px : List Nat} {idx : Int} {g : spritepackage_t fl → spritepackage_t fl}
    (hs : Stored s i hd px) (h : set_frame s idx g = .ok s')
    (hg : ∀ f, (g f).pdata = f.pdata) : Stored s' i hd px := by
  obtain ⟨h0, f0, hf0, e⟩ := set_frame_spec h
  obtain ⟨c1, c2, f, hf, c3, c4, c5, c6⟩ := hs
  rw [e]
  refine ⟨by simpa using c1, c2, ?_⟩
  simp only
  by_cases hi : idx.toNat = i
  · subst hi
    rw [hf0] at hf
    simp only [Option.some.injEq] at hf
    subst hf
    have hlt : idx.toNat < s.frames.length := (List.getElem?_eq_some.mp hf0).1
    refine ⟨g f0, by rw [List.getElem?_set_self hlt], ?_⟩
    rw [hg]
    exact ⟨c3, c4, c5, c6⟩
  · exact ⟨f, by rw [List.getElem?_set_ne hi]; exact hf, c3, c4, c5, c6⟩

/-- A later `grab_frame` leaves every recorded payload where it is: it writes at the
cursor, above all of them, and a grown arena keeps the offsets. -/
theorem stored_of_grabbed_old {fl : CFloat} {s s' : State fl} {a : Rect × State fl}
    {hd hd' : dspriteframe_t} {f : spritepackage_t fl} {i : Nat} {px : List Nat}
    (hs : Stored s i hd px) (hg : Grabbed s s' a hd' f) : Stored s' i hd px := by
  obtain ⟨c1, c2, g, hgi, c3, c4, c5, c6⟩ := hs
  obtain ⟨g', hg', eg, _⟩ := hg.older i g c2 hgi
  have hcap := hg.capacity c1
  have hslot := hg.slot
  have hn := hg.count_nonneg
  refine ⟨hcap, ?_, g', hg', ?_, ?_, ?_, ?_⟩
  · rw [hg.count, wrap32_of_range _ (by omega) (by omega)]
    omega
  · rw [eg]; exact c3
  · rw [eg, hg.cursor]; omega
  · rw [eg]
    have := hg.fits
    omega
  · intro k hk
    rw [eg, hg.content]
    unfold lump_write
    rw [if_neg (by omega)]
    exact c6 k hk

/-- The frame just grabbed is recorded: its header and the bytes copied from the image lie
at the descriptor's `pdata`. -/
theorem stored_of_grabbed_new {fl : CFloat} {s s' : State fl} {a : Rect × State fl}
    {hd : dspriteframe_t} {f : spritepackage_t fl} (hg : Grabbed s s' a hd f)
    (hcap : s.frames.length < 2147483648) :
    Stored s' s.framecount.toNat hd
      (copied_rect s.byteimage s.byteimagewidth a.1.w.toNat a.1.h.toNat
        (wrap32 (a.1.yl * s.byteimagewidth) + a.1.xl)) := by
  have hn := hg.count_nonneg
  have hslot := hg.slot
  have hc := hg.capacity hcap
  refine ⟨hc, ?_, f, hg.desc, ?_, ?_, ?_, ?_⟩
  · rw [hg.count, wrap32_of_range _ (by omega) (by omega)]
    omega
  · rw [hg.desc_at]; exact hg.start_nonneg
  · rw [hg.desc_at, hg.cursor, copied_rect_length]
  · rw [hg.desc_at, copied_rect_length]; exact hg.fits
  · intro k hk
    rw [hg.desc_at, hg.content]
    unfold lump_write
    rw [copied_rect_length] at hk
    rw [if_pos (by
      simp only [List.length_append, frame_bytes_length, copied_rect_length]
      push_cast
      omega)]
    congr 1
    omega

theorem stored_grab_frame {fl : CFloat} {env : Env fl} {i : Nat} {hd : dspriteframe_t}
    {px : List Nat} (s s' : State fl) (hs : Stored s i hd px)
    (h : grab_frame env s = .ok s') : Stored s' i hd px := by
  obtain ⟨a, hd', f, _, hg⟩ := grab_frame_grabbed h
  exact stored_of_grabbed_old hs hg

theorem stored_do_load {fl : CFloat} {env : Env fl} {i : Nat} {hd : dspriteframe_t}
    {px : List Nat} (s s' : State fl) (hs : Stored s i hd px)
    (h : do_load env s = .ok s') : Stored s' i hd px := by
  obtain ⟨p, t, w, ht, pal, img, _, _, e⟩ := do_load_ok h
  rw [e]
  exact stored_of_fields hs rfl rfl rfl rfl rfl rfl

theorem stored_group_frame {fl : CFloat} {env : Env fl} {g : Int} {i : Nat}
    {hd : dspriteframe_t} {px : List Nat} (s s' : State fl) (hs : Stored s i hd px)
    (h : group_frame env g s = .ok s') : Stored s' i hd px := by
  unfold group_frame at h
  obtain ⟨s1, h1, h2⟩ := bind_ok h
  exact stored_set_frame (stored_grab_frame s s1 hs h1) h2 (fun _ => rfl)

theorem stored_do_group {fl : CFloat} {env : Env fl} {fuel : Nat} {i : Nat}
    {hd : dspriteframe_t} {px : List Nat} (s s' : State fl) (hs : Stored s i hd px)
    (h : do_group env fuel s = .ok s') : Stored s' i hd px := by
  unfold do_group at h
  obtain ⟨s2, h2, h⟩ := bind_ok h
  obtain ⟨s3, h3, h⟩ := bind_ok h
  obtain ⟨gd, _, h⟩ := bind_ok h
  have hs0 : Stored { s with framecount := wrap32 (s.framecount + 1) } i hd px := by
    obtain ⟨h0, f0, hf0, _⟩ := set_frame_spec h2
    have hlt : s.framecount.toNat < s.frames.length := (List.getElem?_eq_some.mp hf0).1
    obtain ⟨c1, c2, rest⟩ := hs
    refine ⟨c1, ?_, rest⟩
    show (i : Int) < wrap32 (s.framecount + 1)
    rw [wrap32_of_range _ (by omega) (by omega)]
    omega
  have hs2 := stored_set_frame hs0 h2 (fun _ => rfl)
  have hs3 := parse_group_inv s.framecount (fun t => Stored t i hd px)
    (fun c t r hI ht => stored_next_token c t r hI ht)
    (fun t t' hI ht => stored_group_frame t t' hI ht)
    (fun t t' hI ht => stored_do_load t t' hI ht) fuel s2 s3 hs2 h3
  split at h
  · simp at h
  · simp only [pure, Except.pure, Except.ok.injEq] at h
    rw [← h]
    exact stored_of_fields hs3 rfl rfl rfl rfl rfl rfl

/-- Within one sprite no directive disturbs a recorded payload. -/
theorem stored_directive {fl : CFloat} {env : Env fl} {fuel : Nat} {i : Nat}
    {hd : dspriteframe_t} {px : List Nat} (s s' : State fl) (hs : Stored s i hd px)
    (hne : cstr s.token ≠ tok_spritename) (h : directive env fuel s = .ok s') :
    Stored s' i hd px := by
  rcases directive_cases h with ⟨h0, _⟩ | ⟨_, h1 | h1 | h1 | h1 | h1 | h1 | h1⟩
  · exact absurd h0 hne
  · obtain ⟨p, t, sp, e⟩ := set_type_ok h1
    rw [e]; exact stored_of_fields hs rfl rfl rfl rfl rfl rfl
  · obtain ⟨p, t, sp, e⟩ := set_texture_ok h1
    rw [e]; exact stored_of_fields hs rfl rfl rfl rfl rfl rfl
  · obtain ⟨p, t, sp, e⟩ := set_beamlength_ok h1
    rw [e]; exact stored_of_fields hs rfl rfl rfl rfl rfl rfl
  · rw [h1]; exact stored_of_fields hs rfl rfl rfl rfl rfl rfl
  · exact stored_do_load s s' hs h1
  · unfold do_frame at h1
    obtain ⟨s1, hs1, h2⟩ := bind_ok h1
    simp only [pure, Except.pure, Except.ok.injEq] at h2
    rw [← h2]
    exact stored_of_fields (stored_grab_frame s s1 hs hs1) rfl rfl rfl rfl rfl rfl
  · exact stored_do_group s s' hs h1


/-! ## Default interval and origin of a frame -/

theorem skip_whitespace_probe_again :
    ∀ (p : List Nat), (skip_whitespace false false p).1 = false →
      skip_whitespace false false (skip_whitespace false false p).2 =
        skip_whitespace false false p := by
  intro p
  induction p with
  | nil => intro _; simp [skip_whitespace]
  | cons c rest ih =>
    intro h
    by_cases h10 : c = 10
    · simp [skip_whitespace, h10]
    · by_cases hsp : char_of_byte c ≤ 32
      · simp only [skip_whitespace, h10, hsp, if_true, if_false] at h ⊢
        exact ih h
      · by_cases hc : c = 47 ∧ rest.head? = some 47
        · simp [skip_whitespace, h10, hsp, hc]
        · simp [skip_whitespace, h10, hsp, hc] at h

/-- A failed same-line probe fails again when repeated: the cursor does not move. -/
theorem get_token_probe_again {p tok q t : List Nat}
    (h : get_token false p tok = .ok (false, q, t)) :
    get_token false q t = .ok (false, q, t) := by
  have ht := (get_token_probe h).1
  unfold get_token at h
  have hp := skip_whitespace_probe_again p
  split at h
  · rename_i q' hq
    simp only [Except.ok.injEq, Prod.mk.injEq, true_and] at h
    rw [hq] at hp
    have := hp rfl
    simp only at this
    unfold get_token
    rw [← h.1, this]
  · rename_i hq
    have he := skip_whitespace_len false p false
    rw [hq] at he
    have := he.2 rfl
    simp at this
  · split at h
    · split at h <;> simp at h
    · simp at h

theorem grabbed_block {fl : CFloat} {s s' : State fl} {a : Rect × State fl}
    {hd : dspriteframe_t} {f : spritepackage_t fl} (hg : Grabbed s s' a hd f) :
    0 ≤ f.pdata - s'.lumpbuffer ∧
    f.pdata - s'.lumpbuffer + 16 + ((copied_rect s.byteimage s.byteimagewidth a.1.w.toNat
      a.1.h.toNat (wrap32 (a.1.yl * s.byteimagewidth) + a.1.xl)).length : Int) ≤
        s'.buffer_size ∧
    ∀ k : Nat, k < 16 + (copied_rect s.byteimage s.byteimagewidth a.1.w.toNat
        a.1.h.toNat (wrap32 (a.1.yl * s.byteimagewidth) + a.1.xl)).length →
      s'.lump (f.pdata - s'.lumpbuffer + (k : Int)) =
        (frame_bytes hd ++ copied_rect s.byteimage s.byteimagewidth a.1.w.toNat
          a.1.h.toNat (wrap32 (a.1.yl * s.byteimagewidth) + a.1.xl)).getD k 0 := by
  refine ⟨?_, ?_, ?_⟩
  · rw [hg.desc_at]; exact hg.start_nonneg
  · rw [hg.desc_at, copied_rect_length]; exact hg.fits
  · intro k hk
    rw [hg.desc_at, hg.content]
    unfold lump_write
    rw [copied_rect_length] at hk
    rw [if_pos (by
      simp only [List.length_append, frame_bytes_length, copied_rect_length]
      push_cast
      omega)]
    congr 1
    omega

theorem frame_desc_of_get {fl : CFloat} {s : State fl} {i : Int} {f : spritepackage_t fl}
    (h0 : 0 ≤ i) (hf : s.frames[i.toNat]? = some f) : frame_desc s i = .ok f := by
  unfold frame_desc
  have : ¬ (i < 0) := by omega
  simp only [this, if_false, List.get?_eq_getElem?, hf]

/-- C13: a `$frame` directive whose four numbers are followed by nothing more on the line
(the same-line probe fails), with `w > 0` and `h > 0`: `grab_frame` records the interval
`0.1f` in the descriptor and the header `(-(w div 2), h div 2, w, h)`, the division
truncating, both in its history and in the arena at the descriptor's `pdata`. -/
theorem C13_default_interval_and_origin {fl : CFloat} (env : Env fl) (s s' : State fl)
    (a : Rect × State fl) (q t : List Nat)
    (h : grab_frame env s = .ok s') (ha : frame_rect s = .ok a)
    (hw : 0 < a.1.w) (hh : 0 < a.1.h)
    (hnone : get_token false a.2.scriptptr a.2.token = .ok (false, q, t)) :
    s'.emitted = s.emitted ++ [⟨-(cdiv a.1.w 2), cdiv a.1.h 2, a.1.w, a.1.h⟩] ∧
    ∃ f, frame_desc s' s.framecount = .ok f ∧ f.type = SPR_SINGLE ∧ f.interval = fl.tenth ∧
      peek_int s' f.pdata = .ok (-(cdiv a.1.w 2)) ∧
      peek_int s' (f.pdata + 4) = .ok (cdiv a.1.h 2) ∧
      peek_int s' (f.pdata + 8) = .ok a.1.w ∧ peek_int s' (f.pdata + 12) = .ok a.1.h := by
  obtain ⟨a', hd, f, ha', hg⟩ := grab_frame_grabbed h
  rw [ha] at ha'
  simp only [Except.ok.injEq] at ha'
  subst ha'
  obtain ⟨_, r1, r2, r3, r4⟩ := frame_rect_ok ha
  obtain ⟨x, y, z, hx, hiv, hy, hz, ehd, _, _⟩ := hg.header
  rw [hnone] at hx
  simp only [Except.ok.injEq] at hx
  subst hx
  simp only at hiv hy
  rw [get_token_probe_again hnone] at hy
  simp only [Except.ok.injEq] at hy
  subst hy
  simp only [Bool.false_eq_true, if_false] at ehd hiv
  have e0 : wrap32 (- shr1 a.1.w) = -(cdiv a.1.w 2) := by
    unfold shr1 cdiv
    rw [Int.tdiv_eq_ediv (by omega) (by omega), wrap32_of_range _ (by omega) (by omega)]
  have e1 : shr1 a.1.h = cdiv a.1.h 2 := by
    unfold shr1 cdiv
    rw [Int.tdiv_eq_ediv (by omega) (by omega)]
  obtain ⟨b0, b1, b2⟩ := grabbed_block hg
  have hr0 : -2147483648 ≤ hd.origin0 ∧ hd.origin0 < 2147483648 := by
    rw [ehd]; exact wrap32_range _
  have hr1 : -2147483648 ≤ hd.origin1 ∧ hd.origin1 < 2147483648 := by
    rw [ehd]; simp only; unfold shr1; constructor <;> omega
  rw [e0, e1] at ehd
  have hr2 : -2147483648 ≤ hd.width ∧ hd.width < 2147483648 := by
    rw [ehd]; exact ⟨r1, r2⟩
  have hr3 : -2147483648 ≤ hd.height ∧ hd.height < 2147483648 := by
    rw [ehd]; exact ⟨r3, r4⟩
  obtain ⟨p0, p1, p2, p3, _⟩ := header_reads b0 b1 b2 hr0 hr1 hr2 hr3
  rw [ehd] at p0 p1 p2 p3
  refine ⟨by rw [hg.history, ehd], f, frame_desc_of_get hg.count_nonneg hg.desc,
    hg.desc_type, hiv, p0, p1, p2, p3⟩


/-! ## The pixel block of a frame -/

theorem frame_pixels_length (img : List Nat) (width : Int) (r : Rect) :
    (frame_pixels img width r).length = r.h.toNat * r.w.toNat := by
  rw [← copied_rect_eq_frame_pixels, copied_rect_length]

/-- A `$frame` whose rectangle lies inside the decoded image (of `width * height` below
`2^31` bytes).  The bytes `grab_frame` stores after the header `hd` (which carries the
rectangle's width and height) are `image[(yl + y) * W + (xl + x)]`, rows from the top,
every index inside the image; the payload is recorded for the new descriptor; no later
token or directive of the same sprite disturbs it; and what `finish_sprite` reads at that
descriptor, and writes, is the header followed by exactly those bytes. -/
theorem frame_pixels_stored {fl : CFloat} (env : Env fl) (s s' : State fl)
    (a : Rect × State fl)
    (h : grab_frame env s = .ok s') (ha : frame_rect s = .ok a)
    (hin : a.1.xl + a.1.w ≤ s.byteimagewidth ∧ a.1.yl + a.1.h ≤ s.byteimageheight)
    (himg : s.byteimagewidth * s.byteimageheight < 2147483648)
    (hcap : s.frames.length < 2147483648) :
    ∃ hd : dspriteframe_t, s'.emitted = s.emitted ++ [hd] ∧
      hd.width = a.1.w ∧ hd.height = a.1.h ∧
      (frame_pixels s.byteimage s.byteimagewidth a.1).length = (a.1.w * a.1.h).toNat ∧
      (∀ y x : Nat, y < a.1.h.toNat → x < a.1.w.toNat →
        0 ≤ (a.1.yl + y) * s.byteimagewidth + (a.1.xl + x) ∧
        (a.1.yl + y) * s.byteimagewidth + (a.1.xl + x) < s.byteimage.length) ∧
      Stored s' s.framecount.toNat hd (frame_pixels s.byteimage s.byteimagewidth a.1) ∧
      ∀ t : State fl,
        Stored t s.framecount.toNat hd (frame_pixels s.byteimage s.byteimagewidth a.1) →
        (∀ (c : Bool) (r : Bool × State fl), next_token c t = .ok r →
          Stored r.2 s.framecount.toNat hd (frame_pixels s.byteimage s.byteimagewidth a.1)) ∧
        (∀ (fuel : Nat) (t' : State fl), cstr t.token ≠ tok_spritename →
          directive env fuel t = .ok t' →
          Stored t' s.framecount.toNat hd (frame_pixels s.byteimage s.byteimagewidth a.1)) ∧
        ∃ f, frame_desc (finish_fields t) s.framecount.toNat = .ok f ∧
          write_single (finish_fields t) f.pdata =
            .ok [Chunk.frame hd, Chunk.pixels (frame_pixels s.byteimage s.byteimagewidth a.1)] := by
  obtain ⟨a', hd, f, ha', hg⟩ := grab_frame_grabbed h
  rw [ha] at ha'
  simp only [Except.ok.injEq] at ha'
  subst ha'
  obtain ⟨_, r1, r2, r3, r4⟩ := frame_rect_ok ha
  -- the rectangle as the coordinate test leaves it
  have hacc := hg.accepted
  unfold bad_coordinates at hacc
  simp only [decide_eq_false_iff_not, not_or, not_lt, not_le] at hacc
  obtain ⟨hxl, hyl, hw, hh, _, _⟩ := hacc
  have hW : 0 < s.byteimagewidth := by omega
  have hH : 0 < s.byteimageheight := by omega
  have hyW : a.1.yl * s.byteimagewidth < 2147483648 := by nlinarith
  have hyW0 : 0 ≤ a.1.yl * s.byteimagewidth := by positivity
  have hwh : a.1.w * a.1.h < 2147483648 := by nlinarith
  have hwh0 : 0 ≤ a.1.w * a.1.h := by positivity
  have esrc : wrap32 (a.1.yl * s.byteimagewidth) + a.1.xl =
      a.1.yl * s.byteimagewidth + a.1.xl := by
    rw [wrap32_of_range _ (by omega) hyW]
  have hst := stored_of_grabbed_new hg hcap
  rw [esrc, copied_rect_eq_frame_pixels] at hst
  have hlen : (frame_pixels s.byteimage s.byteimagewidth a.1).length =
      (a.1.w * a.1.h).toNat := by
    rw [frame_pixels_length]
    have e1 : a.1.w = (a.1.w.toNat : Int) := by omega
    have e2 : a.1.h = (a.1.h.toNat : Int) := by omega
    rw [e1, e2, ← Nat.cast_mul, Int.toNat_natCast, Int.toNat_natCast, Int.toNat_natCast]
    ring
  obtain ⟨x, y, z, _, _, _, _, ehd, _, _⟩ := hg.header
  have hpay : Payload hd (frame_pixels s.byteimage s.byteimagewidth a.1) := by
    have hs := hg.size
    refine ⟨?_, ?_, by rw [hs.1]; exact ⟨r1, r2⟩, by rw [hs.2]; exact ⟨r3, r4⟩, ?_, ?_⟩
    · rw [ehd]; simp only
      split
      · exact wrap32_range _
      · exact wrap32_range _
    · rw [ehd]; simp only
      split
      · exact atoi_range _
      · unfold shr1; constructor <;> omega
    · rw [hs.1, hs.2, wrap32_of_range _ (by omega) hwh]; exact hwh0
    · rw [hs.1, hs.2, wrap32_of_range _ (by omega) hwh]; exact hlen
  refine ⟨hd, hg.history, hg.size.1, hg.size.2, hlen, ?_, hst, ?_⟩
  · intro y x hy hx
    have := hg.reads y x hy hx
    rw [esrc] at this
    have e : (a.1.yl + (y : Int)) * s.byteimagewidth + (a.1.xl + (x : Int)) =
        a.1.yl * s.byteimagewidth + a.1.xl + (y : Int) * s.byteimagewidth + (x : Int) := by ring
    rw [e]
    exact this
  · intro t ht
    refine ⟨fun c r hr => stored_next_token c t r ht hr,
      fun fuel t' hne hd' => stored_directive t t' ht hne hd', ?_⟩
    have hf : Stored (finish_fields t) s.framecount.toNat hd
        (frame_pixels s.byteimage s.byteimagewidth a.1) :=
      stored_of_fields ht rfl rfl rfl rfl rfl rfl
    exact stored_write_single hf hpay


/-! ## Numeric arguments are converted by `atoi` -/

theorem atoi_digits_prefix :
    ∀ (ds : List Nat) (c : Nat) (rest : List Nat) (acc : Int),
      (∀ d ∈ ds, 48 ≤ d ∧ d ≤ 57) → ¬ (48 ≤ c ∧ c ≤ 57) →
      atoi_digits (ds ++ c :: rest) acc = atoi_digits ds acc := by
  intro ds
  induction ds with
  | nil =>
    intro c rest acc _ hc
    simp [atoi_digits, hc]
  | cons d ds ih =>
    intro c rest acc hd hc
    have h1 := hd d (List.mem_cons_self _ _)
    simp only [List.cons_append, atoi_digits, h1, and_self, if_true]
    exact ih c rest _ (fun x hx => hd x (List.mem_cons_of_mem _ hx)) hc

theorem cstr_digits_prefix :
    ∀ (ds : List Nat) (l : List Nat), (∀ d ∈ ds, 48 ≤ d ∧ d ≤ 57) →
      cstr (ds ++ l) = ds ++ cstr l := by
  intro ds
  induction ds with
  | nil => intro l _; rfl
  | cons d ds ih =>
    intro l hd
    have h1 := hd d (List.mem_cons_self _ _)
    have hb : (d != 0) = true := by simp; omega
    unfold cstr at ih ⊢
    rw [List.cons_append, List.takeWhile_cons, hb]
    simp only [if_true, List.cons_append]
    rw [ih l (fun x hx => hd x (List.mem_cons_of_mem _ hx))]

/-- The conversion stops at the first character that is not a digit: what follows the
leading digits of a token has no effect on the value. -/
theorem atoi_ignores_suffix (d : Nat) (ds : List Nat) (c : Nat) (rest : List Nat)
    (hd : ∀ x ∈ d :: ds, 48 ≤ x ∧ x ≤ 57) (hc : ¬ (48 ≤ c ∧ c ≤ 57)) :
    atoi ((d :: ds) ++ c :: rest) = atoi (d :: ds) := by
  have h1 := hd d (List.mem_cons_self _ _)
  have e1 : cstr ((d :: ds) ++ c :: rest) = (d :: ds) ++ cstr (c :: rest) :=
    cstr_digits_prefix _ _ hd
  have e2 : cstr (d :: ds) = d :: ds := by
    have := cstr_digits_prefix (d :: ds) [] hd
    simpa [cstr] using this
  have hskip : ∀ l, atoi_skip (d :: l) = d :: l := by
    intro l
    have : ¬ (d = 32 ∨ (9 ≤ d ∧ d ≤ 13)) := by omega
    simp only [atoi_skip, this, if_false]
  unfold atoi
  rw [e1, e2]
  simp only [List.cons_append, hskip]
  have e3 : atoi_digits (d :: (ds ++ cstr (c :: rest))) 0 = atoi_digits (d :: ds) 0 := by
    by_cases h0 : c = 0
    · subst h0
      have : cstr (0 :: rest) = [] := by simp [cstr]
      rw [this, List.append_nil]
    · have hcs : cstr (c :: rest) = c :: cstr rest := by
        unfold cstr
        rw [List.takeWhile_cons]
        simp [h0]
      rw [hcs]
      exact atoi_digits_prefix (d :: ds) c (cstr rest) 0 hd hc
  split
  · rename_i heq; simp only [List.cons.injEq] at heq; omega
  · rename_i heq; simp only [List.cons.injEq] at heq; omega
  · split
    · rename_i heq; simp only [List.cons.injEq] at heq; omega
    · rename_i heq; simp only [List.cons.injEq] at heq; omega
    · rw [e3]

/-- A token that starts with neither a digit, a sign nor white space converts to 0. -/
theorem atoi_no_number (c : Nat) (rest : List Nat) (hc : ¬ (48 ≤ c ∧ c ≤ 57))
    (hs : c ≠ 45 ∧ c ≠ 43) (hb : ¬ (c = 32 ∨ (9 ≤ c ∧ c ≤ 13))) :
    atoi (c :: rest) = 0 := by
  unfold atoi
  by_cases h0 : c = 0
  · subst h0
    have : cstr (0 :: rest) = [] := by simp [cstr]
    rw [this]
    decide
  · have hcs : cstr (c :: rest) = c :: cstr rest := by
      unfold cstr
      rw [List.takeWhile_cons]
      simp [h0]
    rw [hcs]
    simp only [atoi_skip, hb, if_false]
    split
    · rename_i heq; simp only [List.cons.injEq] at heq; exact absurd heq.1 hs.1
    · rename_i heq; simp only [List.cons.injEq] at heq; exact absurd heq.1 hs.2
    · simp only [atoi_digits, hc, if_false]
      decide

theorem frame_rect_spec {fl : CFloat} {s : State fl} {a : Rect × State fl}
    (h : frame_rect s = .ok a) :
    ∃ (x1 x2 x3 x4 : Bool × List Nat × List Nat),
      get_token false s.scriptptr s.token = .ok x1 ∧
      get_token false x1.2.1 x1.2.2 = .ok x2 ∧
      get_token false x2.2.1 x2.2.2 = .ok x3 ∧
      get_token false x3.2.1 x3.2.2 = .ok x4 ∧
      a.1 = ⟨atoi x1.2.2, atoi x2.2.2, atoi x3.2.2, atoi x4.2.2⟩ := by
  unfold frame_rect at h
  obtain ⟨t1, h1, h⟩ := bind_ok h
  obtain ⟨t2, h2, h⟩ := bind_ok h
  obtain ⟨t3, h3, h⟩ := bind_ok h
  obtain ⟨t4, h4, h⟩ := bind_ok h
  simp only [pure, Except.pure, Except.ok.injEq] at h
  obtain ⟨x1, g1, e1⟩ := next_token_spec h1
  obtain ⟨x2, g2, e2⟩ := next_token_spec h2
  obtain ⟨x3, g3, e3⟩ := next_token_spec h3
  obtain ⟨x4, g4, e4⟩ := next_token_spec h4
  rw [e1] at g2 e2
  simp only at g2 e2
  rw [e2] at g3 e3
  simp only at g3 e3
  rw [e3] at g4 e4
  simp only at g4 e4
  refine ⟨x1, x2, x3, x4, g1, g2, g3, g4, ?_⟩
  rw [← h, e1, e2, e3, e4]

/-! ## The output path of a sprite -/

theorem session_next_token {fl : CFloat} {out : Option (List Nat)} {dir : List Nat} {c : Bool}
    (b : Bool) (s : State fl) (r : Bool × State fl) (hI : SessionIs out dir c s)
    (h : next_token b s = .ok r) : SessionIs out dir c r.2 := by
  obtain ⟨p, t, e⟩ := next_token_ok h
  rw [e]; exact hI

theorem session_grab_frame {fl : CFloat} {env : Env fl} {out : Option (List Nat)}
    {dir : List Nat} {c : Bool} (s s' : State fl) (hI : SessionIs out dir c s)
    (h : grab_frame env s = .ok s') : SessionIs out dir c s' := by
  obtain ⟨r, hd, sp, tk, mf, n, b, q, l, m, _, _, _, _, _, _, _, e⟩ := grab_frame_ok h
  rw [e]; exact hI

theorem session_do_load {fl : CFloat} {env : Env fl} {out : Option (List Nat)}
    {dir : List Nat} {c : Bool} (s s' : State fl) (hI : SessionIs out dir c s)
    (h : do_load env s = .ok s') : SessionIs out dir c s' := by
  obtain ⟨q, t, w, ht, pal, img, _, _, e⟩ := do_load_ok h
  rw [e]; exact hI

theorem session_group_frame {fl : CFloat} {env : Env fl} {out : Option (List Nat)}
    {dir : List Nat} {c : Bool} (g : Int) (s s' : State fl) (hI : SessionIs out dir c s)
    (h : group_frame env g s = .ok s') : SessionIs out dir c s' := by
  unfold group_frame at h
  obtain ⟨s1, h1, h2⟩ := bind_ok h
  obtain ⟨l, e⟩ := set_frame_ok h2
  rw [e]
  exact session_grab_frame s s1 hI h1

theorem session_do_group {fl : CFloat} {env : Env fl} {out : Option (List Nat)}
    {dir : List Nat} {c : Bool} (fuel : Nat) (s s' : State fl) (hI : SessionIs out dir c s)
    (h : do_group env fuel s = .ok s') : SessionIs out dir c s' := by
  unfold do_group at h
  obtain ⟨s2, h2, hr⟩ := bind_ok h
  obtain ⟨s3, h3, hr2⟩ := bind_ok hr
  obtain ⟨g, _, hr3⟩ := bind_ok hr2
  obtain ⟨l, e2⟩ := set_frame_ok h2
  have hI2 : SessionIs out dir c s2 := by rw [e2]; exact hI
  have hI3 : SessionIs out dir c s3 :=
    parse_group_inv s.framecount (fun t => SessionIs out dir c t)
      (fun b t r => session_next_token b t r) (fun t t' => session_group_frame _ t t')
      (fun t t' => session_do_load t t') fuel s2 s3 hI2 h3
  split at hr3
  · simp at hr3
  · simp only [pure, Except.pure, Except.ok.injEq] at hr3
    rw [← hr3]; exact hI3

theorem session_flush {fl : CFloat} {env : Env fl} {out : Option (List Nat)}
    {dir : List Nat} {c : Bool} (s s' : State fl) (hI : SessionIs out dir c s)
    (h : flush_pending env s = .ok s') : SessionIs out dir c s' := by
  unfold flush_pending at h
  split at h
  · obtain ⟨name, _, _, _, e⟩ := finish_sprite_ok h
    rw [e]; exact hI
  · simp only [pure, Except.pure, Except.ok.injEq] at h
    rw [← h]; exact hI

theorem do_spritename_eq {fl : CFloat} (env : Env fl) (s : State fl) :
    do_spritename env s = flush_pending env s >>= spritename := rfl

/-- The `$spritename` branch once the pending sprite is flushed and the name token read:
the ambiguity error when the override has been used, else the new output path. -/
theorem spritename_spec {fl : CFloat} {s : State fl} {r : Bool × State fl}
    (hr : next_token false s = .ok r) :
    (∀ name, s.cli_output_name = some name → s.cli_output_consumed = true →
      spritename s = .error Err.multiple_spritename) ∧
    (∀ name, s.cli_output_name = some name → s.cli_output_consumed = false →
      spritename s = .ok (sprite_reset r.2 (cstr name) true)) ∧
    (s.cli_output_name = none →
      spritename s = .ok (sprite_reset r.2
        (cstr s.spritedir ++ cstr r.2.token ++ str_dot_spr) s.cli_output_consumed)) := by
  obtain ⟨p, t, e⟩ := next_token_ok hr
  have e1 : r.2.cli_output_name = s.cli_output_name := by rw [e]
  have e2 : r.2.cli_output_consumed = s.cli_output_consumed := by rw [e]
  have e3 : r.2.spritedir = s.spritedir := by rw [e]
  refine ⟨?_, ?_, ?_⟩
  · intro name hn hc
    unfold spritename
    rw [hr]
    show (match r.2.cli_output_name with
      | some name => _
      | none => _) = _
    rw [e1, hn]
    simp only [e2, hc, if_true]
  · intro name hn hc
    unfold spritename
    rw [hr]
    show (match r.2.cli_output_name with
      | some name => _
      | none => _) = _
    rw [e1, hn]
    simp only [e2, hc, Bool.false_eq_true, if_false]
    rfl
  · intro hn
    unfold spritename
    rw [hr]
    show (match r.2.cli_output_name with
      | some name => _
      | none => _) = _
    rw [e1, hn]
    simp only [e2, e3]
    rfl

theorem session_spritename {fl : CFloat} {out : Option (List Nat)} {dir : List Nat} {c : Bool}
    (s s' : State fl) (hI : SessionIs out dir c s) (h : spritename s = .ok s') :
    SessionIs out dir c s' ∧ (c = true → out = none) := by
  unfold spritename at h
  obtain ⟨r, hr, h2⟩ := bind_ok h
  obtain ⟨p, t, e⟩ := next_token_ok hr
  have e1 : r.2.cli_output_name = s.cli_output_name := by rw [e]
  have e2 : r.2.cli_output_consumed = s.cli_output_consumed := by rw [e]
  have e3 : r.2.spritedir = s.spritedir := by rw [e]
  obtain ⟨i1, i2, i3⟩ := hI
  split at h2
  · rename_i name hn
    split at h2
    · simp at h2
    · rename_i hc
      simp only [pure, Except.pure, Except.ok.injEq] at h2
      rw [← h2]
      refine ⟨⟨by simp only [sprite_reset]; rw [e1]; exact i1,
        by simp only [sprite_reset]; rw [e3]; exact i2, fun _ => rfl⟩, ?_⟩
      intro hct
      have := i3 hct
      rw [e2, this] at hc
      exact absurd rfl hc
  · rename_i hn
    simp only [pure, Except.pure, Except.ok.injEq] at h2
    rw [← h2]
    refine ⟨⟨by simp only [sprite_reset]; rw [e1]; exact i1,
      by simp only [sprite_reset]; rw [e3]; exact i2,
      fun hct => by simp only [sprite_reset]; rw [e2]; exact i3 hct⟩, ?_⟩
    intro _
    rw [← i1, ← e1, hn]

theorem session_directive {fl : CFloat} {env : Env fl} {out : Option (List Nat)}
    {dir : List Nat} {c : Bool} (fuel : Nat) (s s' : State fl) (hI : SessionIs out dir c s)
    (h : directive env fuel s = .ok s') :
    SessionIs out dir c s' ∧ (cstr s.token = tok_spritename → c = true → out = none) := by
  rcases directive_cases h with ⟨h0, h1⟩ | ⟨hne, h1 | h1 | h1 | h1 | h1 | h1 | h1⟩
  · rw [do_spritename_eq] at h1
    obtain ⟨s1, hs1, h2⟩ := bind_ok h1
    have := session_spritename s1 s' (session_flush s s1 hI hs1) h2
    exact ⟨this.1, fun _ => this.2⟩
  · obtain ⟨q, t, sp, e⟩ := set_type_ok h1
    exact ⟨by rw [e]; exact hI, fun h0 => absurd h0 hne⟩
  · obtain ⟨q, t, sp, e⟩ := set_texture_ok h1
    exact ⟨by rw [e]; exact hI, fun h0 => absurd h0 hne⟩
  · obtain ⟨q, t, sp, e⟩ := set_beamlength_ok h1
    exact ⟨by rw [e]; exact hI, fun h0 => absurd h0 hne⟩
  · exact ⟨by rw [h1]; exact hI, fun h0 => absurd h0 hne⟩
  · exact ⟨session_do_load s s' hI h1, fun h0 => absurd h0 hne⟩
  · unfold do_frame at h1
    obtain ⟨s1, hs1, h2⟩ := bind_ok h1
    simp only [pure, Except.pure, Except.ok.injEq] at h2
    rw [← h2]
    exact ⟨session_grab_frame s s1 hI hs1, fun h0 => absurd h0 hne⟩
  · exact ⟨session_do_group fuel s s' hI h1, fun h0 => absurd h0 hne⟩

/-- C15: a `$spritename` directive that completes.  With an override on the command line
it is the first one: the override was unused, it becomes the output path and is marked
used; from then on the mark and the override stay through every token and directive, no
`$spritename` directive completes, and one whose pending sprite is flushed and whose name
token is read stops with the ambiguity error.  With no override the output path is the
script directory followed by the token and `.spr`, the directory never changes, and
different tokens give different paths. -/
theorem C15_output_path {fl : CFloat} (env : Env fl) (s s' : State fl)
    (h : do_spritename env s = .ok s') :
    (∀ name, s.cli_output_name = some name →
      s.cli_output_consumed = false ∧ s'.spriteoutname = some (cstr name) ∧
      SessionIs (some name) s.spritedir true s' ∧
      (∀ (b : Bool) (t : State fl) (r : Bool × State fl),
        SessionIs (some name) s.spritedir true t → next_token b t = .ok r →
        SessionIs (some name) s.spritedir true r.2) ∧
      (∀ (fuel : Nat) (t t' : State fl), SessionIs (some name) s.spritedir true t →
        directive env fuel t = .ok t' →
        cstr t.token ≠ tok_spritename ∧ SessionIs (some name) s.spritedir true t') ∧
      (∀ (t t1 : State fl) (r : Bool × State fl), SessionIs (some name) s.spritedir true t →
        flush_pending env t = .ok t1 → next_token false t1 = .ok r →
        do_spritename env t = .error Err.multiple_spritename)) ∧
    (s.cli_output_name = none →
      (∃ (t1 : State fl) (r : Bool × State fl), flush_pending env s = .ok t1 ∧
        next_token false t1 = .ok r ∧
        s'.spriteoutname = some (cstr s.spritedir ++ cstr r.2.token ++ str_dot_spr)) ∧
      SessionIs none s.spritedir false s' ∧
      (∀ (fuel : Nat) (t t' : State fl), SessionIs none s.spritedir false t →
        directive env fuel t = .ok t' → SessionIs none s.spritedir false t') ∧
      (∀ n1 n2 : List Nat, cstr n1 ≠ cstr n2 →
        cstr s.spritedir ++ cstr n1 ++ str_dot_spr ≠
          cstr s.spritedir ++ cstr n2 ++ str_dot_spr)) := by
  rw [do_spritename_eq] at h
  obtain ⟨s1, hs1, h2⟩ := bind_ok h
  have hh := h2
  unfold spritename at hh
  obtain ⟨r, hr, _⟩ := bind_ok hh
  obtain ⟨sp1, sp2, sp3⟩ := spritename_spec hr
  have hs01 : SessionIs s.cli_output_name s.spritedir false s1 :=
    session_flush s s1 ⟨rfl, rfl, fun hc => by simp at hc⟩ hs1
  have hcons : s1.cli_output_consumed = s.cli_output_consumed := by
    unfold flush_pending at hs1
    split at hs1
    · obtain ⟨name, _, _, _, e⟩ := finish_sprite_ok hs1
      rw [e]; rfl
    · simp only [pure, Except.pure, Except.ok.injEq] at hs1
      rw [← hs1]
  constructor
  · intro name hn
    have hn1 : s1.cli_output_name = some name := by rw [hs01.1]; exact hn
    have hc : s.cli_output_consumed = false := by
      cases hcv : s.cli_output_consumed with
      | false => rfl
      | true =>
        have := sp1 name hn1 (by rw [hcons]; exact hcv)
        rw [this] at h2
        simp at h2
    have hv := sp2 name hn1 (by rw [hcons]; exact hc)
    rw [hv] at h2
    simp only [Except.ok.injEq] at h2
    obtain ⟨p, t, e⟩ := next_token_ok hr
    refine ⟨hc, by rw [← h2]; rfl, ?_, ?_, ?_, ?_⟩
    · rw [← h2]
      refine ⟨?_, ?_, fun _ => rfl⟩
      · show r.2.cli_output_name = some name
        rw [e]; exact hn1
      · show r.2.spritedir = s.spritedir
        rw [e]; exact hs01.2.1
    · intro b t r' hI hr'
      exact session_next_token b t r' hI hr'
    · intro fuel t t' hI hd
      have := session_directive fuel t t' hI hd
      refine ⟨?_, this.1⟩
      intro h0
      have := this.2 h0 rfl
      simp at this
    · intro t t1 r' hI hf hr'
      have hI1 := session_flush t t1 hI hf
      rw [do_spritename_eq, hf]
      show spritename t1 = _
      exact (spritename_spec hr').1 name hI1.1 (hI1.2.2 rfl)
  · intro hn
    have hn1 : s1.cli_output_name = none := by rw [hs01.1]; exact hn
    have hv := sp3 hn1
    rw [hv] at h2
    simp only [Except.ok.injEq] at h2
    obtain ⟨p, t, e⟩ := next_token_ok hr
    refine ⟨⟨s1, r, hs1, hr, ?_⟩, ?_, ?_, ?_⟩
    · rw [← h2, hs01.2.1]; rfl
    · rw [← h2]
      refine ⟨?_, ?_, fun hc => by simp at hc⟩
      · show r.2.cli_output_name = none
        rw [e]; exact hn1
      · show r.2.spritedir = s.spritedir
        rw [e]; exact hs01.2.1
    · intro fuel t t' hI hd
      exact (session_directive fuel t t' hI hd).1
    · intro n1 n2 hne heq
      apply hne
      have := List.append_cancel_right heq
      exact List.append_cancel_left this


/-! ## Group blocks -/

theorem except_cases {α : Type} (x : Except Err α) : (∃ a, x = .ok a) ∨ (∃ e, x = .error e) := by
  cases x with
  | ok a => exact Or.inl ⟨a, rfl⟩
  | error e => exact Or.inr ⟨e, rfl⟩

theorem next_token_true_lt {fl : CFloat} {t u : State fl}
    (h : next_token true t = .ok (true, u)) : u.scriptptr.length < t.scriptptr.length :=
  (next_token_len h).2 rfl

/-- The loop of a group block, as `parse_group` runs it with enough fuel, ends in `v`
exactly when the block accepts some directives and then closes, and ends with the error
`e` exactly when it accepts some directives and then fails with `e`. -/
theorem parse_group_outcome {fl : CFloat} (env : Env fl) (g : Int) :
    ∀ (fuel : Nat) (s : State fl), s.scriptptr.length < fuel →
      (∀ v, parse_group env g fuel s = .ok v →
        ∃ n t, BlockRun env g s n t ∧ BlockCloses t v) ∧
      (∀ e, parse_group env g fuel s = .error e →
        ∃ n t, BlockRun env g s n t ∧ BlockFails env g t e) := by
  intro fuel
  induction fuel with
  | zero => intro s h; omega
  | succ fuel ih =>
    intro s hs
    rcases except_cases (next_token true s) with ⟨r, hr⟩ | ⟨e0, hr⟩
    · obtain ⟨b, u⟩ := r
      cases b with
      | false =>
        have hv : parse_group env g (fuel + 1) s = .ok u := by
          simp only [parse_group, hr, bind, Except.bind, pure, Except.pure, Bool.not_false, if_true]
        refine ⟨fun v h => ?_, fun e h => ?_⟩
        · rw [hv] at h
          simp only [Except.ok.injEq] at h
          subst h
          exact ⟨0, s, BlockRun.here s, Or.inl hr⟩
        · rw [hv] at h
          simp at h
      | true =>
        have hlt := next_token_true_lt hr
        by_cases hf : cstr u.token = tok_frame
        · rcases except_cases (group_frame env g u) with ⟨w, hw⟩ | ⟨e1, hw⟩
          · have hsh := group_frame_shrinks hw
            unfold Shrinks at hsh
            have hrec : parse_group env g (fuel + 1) s = parse_group env g fuel w := by
              simp only [parse_group, hr, bind, Except.bind, pure, Except.pure, Bool.not_true, Bool.false_eq_true, if_false, hf, if_true, hw]
            obtain ⟨i1, i2⟩ := ih w (by omega)
            refine ⟨fun v h => ?_, fun e h => ?_⟩
            · rw [hrec] at h
              obtain ⟨n, t, hrun, hcl⟩ := i1 v h
              exact ⟨n + 1, t, BlockRun.frame hr hf hw hrun, hcl⟩
            · rw [hrec] at h
              obtain ⟨n, t, hrun, hfl⟩ := i2 e h
              exact ⟨n + 1, t, BlockRun.frame hr hf hw hrun, hfl⟩
          · have hv : parse_group env g (fuel + 1) s = .error e1 := by
              simp only [parse_group, hr, bind, Except.bind, pure, Except.pure, Bool.not_true, Bool.false_eq_true, if_false, hf, if_true, hw]
            refine ⟨fun v h => ?_, fun e h => ?_⟩
            · rw [hv] at h; simp at h
            · rw [hv] at h
              simp only [Except.error.injEq] at h
              subst h
              exact ⟨0, s, BlockRun.here s, Or.inr ⟨u, hr, Or.inl ⟨hf, hw⟩⟩⟩
        · by_cases hl : cstr u.token = tok_load
          · rcases except_cases (do_load env u) with ⟨w, hw⟩ | ⟨e1, hw⟩
            · have hsh := do_load_shrinks hw
              unfold Shrinks at hsh
              have hrec : parse_group env g (fuel + 1) s = parse_group env g fuel w := by
                simp only [parse_group, hr, bind, Except.bind, pure, Except.pure, Bool.not_true, Bool.false_eq_true, if_false, hf, hl, if_true, hw,
                  (by decide : ¬ tok_load = tok_frame)]
              obtain ⟨i1, i2⟩ := ih w (by omega)
              refine ⟨fun v h => ?_, fun e h => ?_⟩
              · rw [hrec] at h
                obtain ⟨n, t, hrun, hcl⟩ := i1 v h
                exact ⟨n, t, BlockRun.load hr hf hl hw hrun, hcl⟩
              · rw [hrec] at h
                obtain ⟨n, t, hrun, hfl⟩ := i2 e h
                exact ⟨n, t, BlockRun.load hr hf hl hw hrun, hfl⟩
            · have hv : parse_group env g (fuel + 1) s = .error e1 := by
                simp only [parse_group, hr, bind, Except.bind, pure, Except.pure, Bool.not_true, Bool.false_eq_true, if_false, hf, hl, if_true, hw,
                  (by decide : ¬ tok_load = tok_frame)]
              refine ⟨fun v h => ?_, fun e h => ?_⟩
              · rw [hv] at h; simp at h
              · rw [hv] at h
                simp only [Except.error.injEq] at h
                subst h
                exact ⟨0, s, BlockRun.here s, Or.inr ⟨u, hr, Or.inr (Or.inl ⟨hf, hl, hw⟩)⟩⟩
          · by_cases he : cstr u.token = tok_groupend
            · have hv : parse_group env g (fuel + 1) s = .ok u := by
                simp only [parse_group, hr, bind, Except.bind, pure, Except.pure, Bool.not_true, Bool.false_eq_true, if_false, hf, hl, he, if_true,
                  (by decide : ¬ tok_groupend = tok_frame), (by decide : ¬ tok_groupend = tok_load)]
              refine ⟨fun v h => ?_, fun e h => ?_⟩
              · rw [hv] at h
                simp only [Except.ok.injEq] at h
                subst h
                exact ⟨0, s, BlockRun.here s, Or.inr ⟨hr, hf, hl, he⟩⟩
              · rw [hv] at h; simp at h
            · have hv : parse_group env g (fuel + 1) s = .error Err.group_expected := by
                simp only [parse_group, hr, bind, Except.bind, pure, Except.pure, Bool.not_true, Bool.false_eq_true, if_false, hf, hl, he]
              refine ⟨fun v h => ?_, fun e h => ?_⟩
              · rw [hv] at h; simp at h
              · rw [hv] at h
                simp only [Except.error.injEq] at h
                subst h
                exact ⟨0, s, BlockRun.here s,
                  Or.inr ⟨u, hr, Or.inr (Or.inr ⟨hf, hl, he, rfl⟩)⟩⟩
    · have hv : parse_group env g (fuel + 1) s = .error e0 := by
        simp only [parse_group, hr, bind, Except.bind, pure, Except.pure, Bool.not_false, if_true]
      refine ⟨fun v h => ?_, fun e h => ?_⟩
      · rw [hv] at h; simp at h
      · rw [hv] at h
        simp only [Except.error.injEq] at h
        subst h
        exact ⟨0, s, BlockRun.here s, Or.inl hr⟩


theorem parse_group_step_closes {fl : CFloat} (env : Env fl) (g : Int) (fuel : Nat)
    {t v : State fl} (h : BlockCloses t v) : parse_group env g (fuel + 1) t = .ok v := by
  rcases h with hr | ⟨hr, hf, hl, he⟩
  · simp only [parse_group, hr, bind, Except.bind, pure, Except.pure, Bool.not_false, if_true]
  · simp only [parse_group, hr, bind, Except.bind, pure, Except.pure, Bool.not_true,
      Bool.false_eq_true, if_false, hf, hl, he, if_true,
      (by decide : ¬ tok_groupend = tok_frame), (by decide : ¬ tok_groupend = tok_load)]

theorem parse_group_step_fails {fl : CFloat} (env : Env fl) (g : Int) (fuel : Nat)
    {t : State fl} {e : Err} (h : BlockFails env g t e) :
    parse_group env g (fuel + 1) t = .error e := by
  rcases h with hr | ⟨u, hr, ⟨hf, hw⟩ | ⟨hf, hl, hw⟩ | ⟨hf, hl, he, rfl⟩⟩
  · simp only [parse_group, hr, bind, Except.bind]
  · simp only [parse_group, hr, bind, Except.bind, pure, Except.pure, Bool.not_true,
      Bool.false_eq_true, if_false, hf, if_true, hw]
  · simp only [parse_group, hr, bind, Except.bind, pure, Except.pure, Bool.not_true,
      Bool.false_eq_true, if_false, hf, hl, if_true, hw, (by decide : ¬ tok_load = tok_frame)]
  · simp only [parse_group, hr, bind, Except.bind, pure, Except.pure, Bool.not_true,
      Bool.false_eq_true, if_false, hf, hl, he]

/-- Each directive accepted in a block moves the cursor: a block that accepts `n` frames
has read at least `n` characters. -/
theorem block_run_length {fl : CFloat} {env : Env fl} {g : Int} {t w : State fl} {n : Nat}
    (h : BlockRun env g t n w) : n + w.scriptptr.length ≤ t.scriptptr.length := by
  induction h with
  | here t => simp
  | @frame t u v w n hr hf hw hrun ih =>
    have h1 := next_token_true_lt hr
    have h2 := group_frame_shrinks hw
    unfold Shrinks at h2
    omega
  | @load t u v w n hr hf hl hw hrun ih =>
    have h1 := next_token_true_lt hr
    have h2 := do_load_shrinks hw
    unfold Shrinks at h2
    omega

/-- With enough fuel `parse_group` follows the block: it returns what the block closes
with, or the error the block fails with. -/
theorem parse_group_of_run {fl : CFloat} {env : Env fl} {g : Int} {t w : State fl} {n : Nat}
    (h : BlockRun env g t n w) :
    ∀ fuel, t.scriptptr.length < fuel →
      (∀ v, BlockCloses w v → parse_group env g fuel t = .ok v) ∧
      (∀ e, BlockFails env g w e → parse_group env g fuel t = .error e) := by
  induction h with
  | here t =>
    intro fuel hfuel
    cases fuel with
    | zero => omega
    | succ k =>
      exact ⟨fun v hv => parse_group_step_closes env g k hv,
        fun e he => parse_group_step_fails env g k he⟩
  | @frame t u v w n hr hf hw hrun ih =>
    intro fuel hfuel
    cases fuel with
    | zero => omega
    | succ k =>
      have h1 := next_token_true_lt hr
      have h2 := group_frame_shrinks hw
      unfold Shrinks at h2
      have hrec : parse_group env g (k + 1) t = parse_group env g k v := by
        simp only [parse_group, hr, bind, Except.bind, pure, Except.pure, Bool.not_true,
          Bool.false_eq_true, if_false, hf, if_true, hw]
      rw [hrec]
      exact ih k (by omega)
  | @load t u v w n hr hf hl hw hrun ih =>
    intro fuel hfuel
    cases fuel with
    | zero => omega
    | succ k =>
      have h1 := next_token_true_lt hr
      have h2 := do_load_shrinks hw
      unfold Shrinks at h2
      have hrec : parse_group env g (k + 1) t = parse_group env g k v := by
        simp only [parse_group, hr, bind, Except.bind, pure, Except.pure, Bool.not_true,
          Bool.false_eq_true, if_false, hf, hl, if_true, hw,
          (by decide : ¬ tok_load = tok_frame)]
      rw [hrec]
      exact ih k (by omega)

theorem group_header_next_token {fl : CFloat} {g k : Int} {b : Bool} {t : State fl}
    {r : Bool × State fl} (hI : GroupHeader g k t) (h : next_token b t = .ok r) :
    GroupHeader g k r.2 := by
  obtain ⟨p, tk, e⟩ := next_token_ok h
  rw [e]; exact hI

theorem group_header_do_load {fl : CFloat} {env : Env fl} {g k : Int} {t v : State fl}
    (hI : GroupHeader g k t) (h : do_load env t = .ok v) : GroupHeader g k v := by
  obtain ⟨q, tk, w, ht, pal, img, _, _, e⟩ := do_load_ok h
  rw [e]; exact hI

/-- One `$frame` inside a group: the header's child count goes up by one (in `int`
arithmetic) and one frame header is emitted. -/
theorem group_header_group_frame {fl : CFloat} {env : Env fl} {g k : Int} {u v : State fl}
    (hI : GroupHeader g k u) (h : group_frame env g u = .ok v) :
    GroupHeader g (wrap32 (k + 1)) v ∧ v.emitted.length = u.emitted.length + 1 := by
  unfold group_frame at h
  obtain ⟨s1, h1, h2⟩ := bind_ok h
  obtain ⟨a, hd, f, _, hg⟩ := grab_frame_grabbed h1
  obtain ⟨g0, g1, g2, d, hd0, hd1, hd2⟩ := hI
  obtain ⟨d', hd', _, e1, _, e3⟩ := hg.older g.toNat d (by omega) hd0
  obtain ⟨_, f0, hf0, e⟩ := set_frame_spec h2
  rw [hd'] at hf0
  simp only [Option.some.injEq] at hf0
  subst hf0
  have hcap := hg.capacity g2
  have hslot := hg.slot
  have hn := hg.count_nonneg
  have hlt : g.toNat < s1.frames.length := (List.getElem?_eq_some.mp hd').1
  refine ⟨⟨g0, ?_, ?_, ?_⟩, ?_⟩
  · rw [e]
    show g < s1.framecount
    rw [hg.count, wrap32_of_range _ (by omega) (by omega)]
    omega
  · rw [e]
    simpa using hcap
  · rw [e]
    simp only
    refine ⟨_, List.getElem?_set_self hlt, ?_, ?_⟩
    · show d'.type = SPR_GROUP
      rw [e1]; exact hd1
    · show wrap32 (d'.numgroupframes + 1) = wrap32 (k + 1)
      rw [e3, hd2]
  · rw [e]
    show s1.emitted.length = _
    rw [hg.history]
    simp

/-- A block that accepts `n` frames leaves the header with `n` more children and the
history with `n` more frame headers. -/
theorem group_header_run {fl : CFloat} {env : Env fl} {g : Int} {t w : State fl} {n : Nat}
    (h : BlockRun env g t n w) :
    ∀ k : Int, 0 ≤ k → k + n < 2147483648 → GroupHeader g k t →
      GroupHeader g (k + n) w ∧ w.emitted.length = t.emitted.length + n := by
  induction h with
  | here t =>
    intro k _ _ hI
    simpa using hI
  | @frame t u v w n hr hf hw hrun ih =>
    intro k hk0 hk hI
    have hIu := group_header_next_token hI hr
    obtain ⟨hIv, hev⟩ := group_header_group_frame hIu hw
    push_cast at hk
    rw [wrap32_of_range _ (by omega) (by omega)] at hIv
    obtain ⟨i1, i2⟩ := ih (k + 1) (by omega) (by omega) hIv
    obtain ⟨p, tk, e⟩ := next_token_ok hr
    have heu : u.emitted = t.emitted := by
      have : u = { t with scriptptr := p, token := tk } := e
      rw [this]
    refine ⟨?_, ?_⟩
    · have e2 : k + ((n + 1 : Nat) : Int) = k + 1 + (n : Int) := by push_cast; ring
      rw [e2]; exact i1
    · rw [i2, hev, heu]; ring
  | @load t u v w n hr hf hl hw hrun ih =>
    intro k hk0 hk hI
    have hIu := group_header_next_token hI hr
    have hIv := group_header_do_load hIu hw
    obtain ⟨i1, i2⟩ := ih k hk0 hk hIv
    obtain ⟨p, tk, e⟩ := next_token_ok hr
    have heu : u.emitted = t.emitted := by
      have : u = { t with scriptptr := p, token := tk } := e
      rw [this]
    obtain ⟨q, tk2, w2, ht2, pal, img, _, _, e3⟩ := do_load_ok hw
    have hev : v.emitted = u.emitted := by rw [e3]
    exact ⟨i1, by rw [i2, hev, heu]⟩


theorem group_open_set {fl : CFloat} (s : State fl) (f : spritepackage_t fl)
    (h0 : 0 ≤ s.framecount) (hf : s.frames[s.framecount.toNat]? = some f) :
    set_frame { s with framecount := wrap32 (s.framecount + 1) } s.framecount
      (fun f => { f with type := SPR_GROUP, numgroupframes := 0 }) = .ok (group_open s f) := by
  unfold set_frame
  have : ¬ (s.framecount < 0) := by omega
  simp only [this, if_false, List.get?_eq_getElem?, hf]
  rfl

theorem group_open_header {fl : CFloat} (s : State fl) (f : spritepackage_t fl)
    (h0 : 0 ≤ s.framecount) (hf : s.frames[s.framecount.toNat]? = some f)
    (hcap : s.frames.length < 2147483648) : GroupHeader s.framecount 0 (group_open s f) := by
  have hlt : s.framecount.toNat < s.frames.length := (List.getElem?_eq_some.mp hf).1
  refine ⟨h0, ?_, ?_, { f with type := SPR_GROUP, numgroupframes := 0 }, ?_, rfl, rfl⟩
  · show s.framecount < wrap32 (s.framecount + 1)
    rw [wrap32_of_range _ (by omega) (by omega)]
    omega
  · show (s.frames.set _ _).length < _
    simpa using hcap
  · show (s.frames.set _ _)[s.framecount.toNat]? = _
    rw [List.getElem?_set_self hlt]

theorem group_header_desc {fl : CFloat} {g k : Int} {s : State fl} (h : GroupHeader g k s) :
    ∃ d, frame_desc s g = .ok d ∧ d.type = SPR_GROUP ∧ d.numgroupframes = k := by
  obtain ⟨g0, _, _, d, hd, h1, h2⟩ := h
  exact ⟨d, frame_desc_of_get g0 hd, h1, h2⟩

theorem block_closes_header {fl : CFloat} {g k : Int} {t v : State fl}
    (hI : GroupHeader g k t) (h : BlockCloses t v) :
    GroupHeader g k v ∧ v.emitted = t.emitted := by
  rcases h with hr | ⟨hr, _⟩
  · obtain ⟨p, tk, e⟩ := next_token_ok hr
    exact ⟨group_header_next_token hI hr, by
      have : v = { t with scriptptr := p, token := tk } := e
      rw [this]⟩
  · obtain ⟨p, tk, e⟩ := next_token_ok hr
    exact ⟨group_header_next_token hI hr, by
      have : v = { t with scriptptr := p, token := tk } := e
      rw [this]⟩

/-- C16: a `$groupstart` block opened with room for its header descriptor (index
`framecount` within the descriptor array), in a script shorter than `2^31` characters.
Its processing fails with `e` exactly when the block, after some accepted `$frame` and
`$load` directives, fails with `e` (a token that cannot be read, a `$frame` or `$load`
that fails, or a token other than `$frame`, `$load`, `$groupend`), or closes having
accepted no `$frame`, where `e` is the empty-group error.  When it completes, the block
accepted `n >= 1` frames and closed, the header descriptor is typed Group with child count
`n`, and `n` frame headers were emitted. -/
theorem C16_group_block {fl : CFloat} (env : Env fl) (fuel : Nat) (s : State fl)
    (f : spritepackage_t fl) (hfuel : s.scriptptr.length < fuel)
    (hlen : s.scriptptr.length < 2147483648)
    (h0 : 0 ≤ s.framecount) (hf : s.frames[s.framecount.toNat]? = some f)
    (hcap : s.frames.length < 2147483648) :
    (∀ e, do_group env fuel s = .error e ↔
      (∃ n t, BlockRun env s.framecount (group_open s f) n t ∧
        BlockFails env s.framecount t e) ∨
      (∃ t v, BlockRun env s.framecount (group_open s f) 0 t ∧ BlockCloses t v ∧
        e = Err.empty_group)) ∧
    (∀ s', do_group env fuel s = .ok s' →
      ∃ (n : Nat) (t v : State fl) (d : spritepackage_t fl), 1 ≤ n ∧
        BlockRun env s.framecount (group_open s f) n t ∧ BlockCloses t v ∧
        frame_desc s' s.framecount = .ok d ∧ d.type = SPR_GROUP ∧
        d.numgroupframes = (n : Int) ∧ s'.emitted.length = s.emitted.length + n) := by
  have hset := group_open_set s f h0 hf
  have hI0 := group_open_header s f h0 hf hcap
  have hsp : (group_open s f).scriptptr = s.scriptptr := rfl
  have hem : (group_open s f).emitted = s.emitted := rfl
  have hfuel2 : (group_open s f).scriptptr.length < fuel := by rw [hsp]; exact hfuel
  have hdo : do_group env fuel s =
      (parse_group env s.framecount fuel (group_open s f) >>= fun s3 =>
        frame_desc s3 s.framecount >>= fun g =>
          if g.numgroupframes = 0 then .error Err.empty_group
          else pure { s3 with sprite :=
            { s3.sprite with numframes := wrap32 (s3.sprite.numframes + 1) } }) := by
    unfold do_group
    rw [hset]
    rfl
  -- what the loop's result implies, once it has closed in `v` after `n` frames
  have hclosed : ∀ (n : Nat) (t v : State fl),
      BlockRun env s.framecount (group_open s f) n t → BlockCloses t v →
      parse_group env s.framecount fuel (group_open s f) = .ok v ∧
      ∃ d, frame_desc v s.framecount = .ok d ∧ d.type = SPR_GROUP ∧
        d.numgroupframes = (n : Int) ∧ v.emitted.length = s.emitted.length + n := by
    intro n t v hrun hcl
    have hb := block_run_length hrun
    rw [hsp] at hb
    obtain ⟨i1, i2⟩ := group_header_run hrun 0 (le_refl _) (by omega) hI0
    obtain ⟨j1, j2⟩ := block_closes_header i1 hcl
    obtain ⟨d, hd, hd1, hd2⟩ := group_header_desc j1
    refine ⟨((parse_group_of_run hrun) fuel hfuel2).1 v hcl, d, hd, hd1, ?_, ?_⟩
    · rw [hd2]; ring
    · rw [j2, i2, hem]
  refine ⟨fun e => ⟨fun h => ?_, fun h => ?_⟩, fun s' h => ?_⟩
  · rw [hdo] at h
    rcases except_cases (parse_group env s.framecount fuel (group_open s f)) with
      ⟨s3, h3⟩ | ⟨e3, h3⟩
    · obtain ⟨n, t, hrun, hcl⟩ := (parse_group_outcome env s.framecount fuel _ hfuel2).1 s3 h3
      obtain ⟨_, d, hd, hd1, hd2, _⟩ := hclosed n t s3 hrun hcl
      rw [h3] at h
      simp only [bind, Except.bind, hd] at h
      split at h
      · rename_i hz
        simp only [Except.error.injEq] at h
        have hn : n = 0 := by
          rw [hd2] at hz
          exact_mod_cast hz
        subst hn
        exact Or.inr ⟨t, s3, hrun, hcl, h.symm⟩
      · simp [pure, Except.pure] at h
    · rw [h3] at h
      simp only [bind, Except.bind, Except.error.injEq] at h
      subst h
      exact Or.inl ((parse_group_outcome env s.framecount fuel _ hfuel2).2 e3 h3)
  · rcases h with ⟨n, t, hrun, hfl⟩ | ⟨t, v, hrun, hcl, he⟩
    · rw [hdo, ((parse_group_of_run hrun) fuel hfuel2).2 e hfl]
      rfl
    · obtain ⟨hp, d, hd, _, hd2, _⟩ := hclosed 0 t v hrun hcl
      rw [hdo, hp]
      simp only [bind, Except.bind, hd]
      rw [if_pos (by rw [hd2]; rfl), he]
  · rw [hdo] at h
    obtain ⟨s3, h3, h⟩ := bind_ok h
    obtain ⟨d0, hd0, h⟩ := bind_ok h
    obtain ⟨n, t, hrun, hcl⟩ := (parse_group_outcome env s.framecount fuel _ hfuel2).1 s3 h3
    obtain ⟨_, d, hd, hd1, hd2, hem3⟩ := hclosed n t s3 hrun hcl
    rw [hd] at hd0
    simp only [Except.ok.injEq] at hd0
    subst hd0
    split at h
    · simp at h
    · rename_i hnz
      simp only [pure, Except.pure, Except.ok.injEq] at h
      have hn : 1 ≤ n := by
        rcases Nat.eq_zero_or_pos n with hz | hpos
        · subst hz
          exact absurd hd2 hnz
        · exact hpos
      refine ⟨n, t, s3, d, hn, hrun, hcl, ?_, hd1, hd2, ?_⟩
      · rw [← h]
        exact hd
      · rw [← h]
        exact hem3


/-! ## The pixel pass of `load_bmp` -/

theorem peek_in {a : List Nat} {i : Int} (h0 : 0 ≤ i) (h1 : i < a.length) :
    peek a i = .ok (a.getD i.toNat 0) := by
  unfold peek
  rw [if_pos ⟨h0, h1⟩]

theorem put_in {a : List Nat} {i : Int} (v : Nat) (h0 : 0 ≤ i) (h1 : i < a.length) :
    put a i v = .ok (a.set i.toNat v) := by
  unfold put
  rw [if_pos ⟨h0, h1⟩]

theorem getD_set_same (a : List Nat) (i v : Nat) (h : i < a.length) :
    (a.set i v).getD i 0 = v := by
  rw [List.getD_eq_getElem?_getD, List.getElem?_set_self h]
  rfl

theorem getD_set_other (a : List Nat) (i j v : Nat) (h : i ≠ j) :
    (a.set i v).getD j 0 = a.getD j 0 := by
  rw [List.getD_eq_getElem?_getD, List.getD_eq_getElem?_getD, List.getElem?_set_ne h]

theorem pixel_rgb_total {bpp : Int} {row : List Nat} {x : Nat}
    (hbpp : bpp = 24 ∨ bpp = 32) (hx : 4 * (x : Int) + 4 < 2147483648)
    (hrow : RowFits bpp row.length (x + 1)) :
    pixel_rgb bpp row (x : Int) = .ok (pixel_at bpp row x) := by
  unfold pixel_rgb pixel_at
  rcases hbpp with hb | hb
  · subst hb
    have hl := hrow.2.1 rfl
    simp only [if_true]
    have e0 : wrap32 ((x : Int) * 3) = (x : Int) * 3 := wrap32_of_range _ (by omega) (by omega)
    have e1 : wrap32 ((x : Int) * 3 + 1) = (x : Int) * 3 + 1 :=
      wrap32_of_range _ (by omega) (by omega)
    have e2 : wrap32 ((x : Int) * 3 + 2) = (x : Int) * 3 + 2 :=
      wrap32_of_range _ (by omega) (by omega)
    have t0 : ((x : Int) * 3).toNat = 3 * x := by omega
    have t1 : ((x : Int) * 3 + 1).toNat = 3 * x + 1 := by omega
    have t2 : ((x : Int) * 3 + 2).toNat = 3 * x + 2 := by omega
    rw [e0, e1, e2, peek_in (by omega) (by omega), peek_in (by omega) (by omega),
      peek_in (by omega) (by omega), t0, t1, t2]
    rfl
  · subst hb
    have hl := hrow.2.2 rfl
    simp only [show ¬ ((32 : Int) = 24) by decide, if_false, if_true]
    have e0 : wrap32 ((x : Int) * 4) = (x : Int) * 4 := wrap32_of_range _ (by omega) (by omega)
    have e1 : wrap32 ((x : Int) * 4 + 1) = (x : Int) * 4 + 1 :=
      wrap32_of_range _ (by omega) (by omega)
    have e2 : wrap32 ((x : Int) * 4 + 2) = (x : Int) * 4 + 2 :=
      wrap32_of_range _ (by omega) (by omega)
    have t0 : ((x : Int) * 4).toNat = 4 * x := by omega
    have t1 : ((x : Int) * 4 + 1).toNat = 4 * x + 1 := by omega
    have t2 : ((x : Int) * 4 + 2).toNat = 4 * x + 2 := by omega
    rw [e0, e1, e2, peek_in (by omega) (by omega), peek_in (by omega) (by omega),
      peek_in (by omega) (by omega), t0, t1, t2]
    rfl

theorem RowFits.mono {bpp : Int} {len m k : Nat} (h : RowFits bpp len m) (hk : k ≤ m) :
    RowFits bpp len k :=
  ⟨fun e => le_trans hk (h.1 e), fun e => by have := h.2.1 e; omega,
    fun e => by have := h.2.2 e; omega⟩

/-- One iteration of the inner loop of the pixel pass, for a supported depth and a row
buffer long enough: the value of the pixel is stored, then the loop goes on. -/
theorem decode_row_step {bpp : Int} {pal row : List Nat} {width y : Int}
    (hbpp : bpp = 8 ∨ bpp = 24 ∨ bpp = 32) (n x : Nat) (img : List Nat)
    (hx : 4 * (x : Int) + 4 < 2147483648) (hrow : RowFits bpp row.length (x + 1)) :
    decode_row bpp pal row width y (n + 1) (x : Int) img =
      (put img (wrap32 (wrap32 (y * width) + (x : Int))) (pixel_value bpp pal row x)) >>=
        fun img1 => decode_row bpp pal row width y n ((x : Int) + 1) img1 := by
  rcases hbpp with hb | hb
  · subst hb
    have hl := hrow.1 rfl
    simp only [decode_row, if_true, pixel_value]
    rw [peek_in (by omega) (by omega)]
    simp only [bind, Except.bind, Int.toNat_ofNat]
  · have h8 : ¬ bpp = 8 := by rcases hb with hb | hb <;> subst hb <;> decide
    simp only [decode_row, if_neg h8, if_pos hb, pixel_value]
    rw [pixel_rgb_total hb hx hrow]
    simp only [bind, Except.bind]

/-- The inner loop of the pixel pass over pixels `x .. x + n` of row `y`, where
`y * width = b`: it completes, the image keeps its length, entry `b + x + k` holds the
value of pixel `x + k` and every other entry is unchanged. -/
theorem decode_row_spec {bpp : Int} {pal row : List Nat} {width y : Int} {b : Nat}
    (hbpp : bpp = 8 ∨ bpp = 24 ∨ bpp = 32) (hb : y * width = (b : Int)) :
    ∀ (n x : Nat) (img : List Nat), b + x + n ≤ img.length → img.length < 2147483648 →
      4 * (x + n) < 2147483648 → RowFits bpp row.length (x + n) →
      ∃ img', decode_row bpp pal row width y n (x : Int) img = .ok img' ∧
        img'.length = img.length ∧
        (∀ k, k < n → img'.getD (b + x + k) 0 = pixel_value bpp pal row (x + k)) ∧
        (∀ j, j < b + x ∨ b + x + n ≤ j → img'.getD j 0 = img.getD j 0) := by
  intro n
  induction n with
  | zero =>
    intro x img _ _ _ _
    exact ⟨img, by simp only [decode_row], rfl, fun k hk => absurd hk (by omega), fun _ _ => rfl⟩
  | succ n ih =>
    intro x img hlen himg hx hrow
    have e1 : wrap32 (wrap32 (y * width) + (x : Int)) = ((b + x : Nat) : Int) := by
      have e0 : wrap32 (b : Int) = (b : Int) := wrap32_of_range _ (by omega) (by omega)
      rw [hb, e0, wrap32_of_range _ (by omega) (by omega)]
      push_cast; rfl
    rw [decode_row_step hbpp n x img (by omega) (hrow.mono (by omega)), e1,
      put_in _ (by omega) (by omega)]
    simp only [bind, Except.bind, Int.toNat_ofNat]
    have hcast : ((x : Int) + 1) = ((x + 1 : Nat) : Int) := by push_cast; rfl
    rw [hcast]
    obtain ⟨img', h1, h2, h3, h4⟩ := ih (x + 1) (img.set (b + x) (pixel_value bpp pal row x))
      (by rw [List.length_set]; omega) (by rw [List.length_set]; omega) (by omega)
      (by rw [show x + 1 + n = x + (n + 1) by omega]; exact hrow)
    refine ⟨img', h1, by rw [h2, List.length_set], ?_, ?_⟩
    · intro k hk
      cases k with
      | zero =>
        rw [Nat.add_zero, Nat.add_zero, h4 (b + x) (Or.inl (by omega)),
          getD_set_same _ _ _ (by omega)]
      | succ k =>
        have := h3 k (by omega)
        rw [show b + x + (k + 1) = b + (x + 1) + k by omega,
          show x + (k + 1) = x + 1 + k by omega]
        exact this
    · intro j hj
      rw [h4 j (by omega), getD_set_other _ _ _ _ (by omega)]


theorem fread_or_zero_data (f : FILE) (count : Nat) : (fread_or_zero f count).2.data = f.data :=
  rfl

theorem fread_or_zero_pos (f : FILE) (count : Nat) :
    (fread_or_zero f count).2.pos = f.pos + min count (f.data.length - f.pos) := by
  simp [fread_or_zero, fread]

theorem nth_row_zero (f : FILE) (row_size : Nat) :
    nth_row f row_size 0 = (fread_or_zero f row_size).1 := by
  simp [nth_row]

theorem nth_row_length (f : FILE) (row_size k : Nat) : (nth_row f row_size k).length = row_size :=
  fread_or_zero_length _ _

/-- A row all of whose bytes are in the file is those bytes. -/
theorem nth_row_readable (f : FILE) (row_size k : Nat)
    (h : f.pos + (k + 1) * row_size ≤ f.data.length) :
    nth_row f row_size k = (f.data.drop (f.pos + k * row_size)).take row_size := by
  have e : (k + 1) * row_size = k * row_size + row_size := Nat.succ_mul _ _
  simp only [nth_row, fread_or_zero, fread]
  rw [if_pos]
  simp only [List.length_take, List.length_drop]
  omega

/-- A row that reaches past the end of the file is zero bytes. -/
theorem nth_row_short (f : FILE) (row_size k : Nat) (hrs : 0 < row_size)
    (h : f.data.length < f.pos + (k + 1) * row_size) :
    nth_row f row_size k = List.replicate row_size 0 := by
  have e : (k + 1) * row_size = k * row_size + row_size := Nat.succ_mul _ _
  simp only [nth_row, fread_or_zero, fread]
  rw [if_neg]
  simp only [List.length_take, List.length_drop]
  omega

/-- The rows after a read are the rows of the stream before it, shifted by one. -/
theorem nth_row_next (f : FILE) (row_size k : Nat) (hrs : 0 < row_size) :
    nth_row (fread_or_zero f row_size).2 row_size k = nth_row f row_size (k + 1) := by
  have e : (k + 1) * row_size = k * row_size + row_size := Nat.succ_mul _ _
  have e2 : (k + 1 + 1) * row_size = k * row_size + row_size + row_size := by
    rw [Nat.succ_mul, Nat.succ_mul]
  by_cases hfull : f.pos + row_size ≤ f.data.length
  · have hp : (fread_or_zero f row_size).2 =
        { f with pos := f.pos + row_size } := by
      simp only [fread_or_zero, fread, List.length_take, List.length_drop]
      congr 1
      omega
    rw [hp]
    simp only [nth_row]
    rw [show f.pos + row_size + k * row_size = f.pos + (k + 1) * row_size by omega]
  · rw [nth_row_short f row_size (k + 1) hrs (by omega)]
    apply nth_row_short _ _ _ hrs
    rw [fread_or_zero_data, fread_or_zero_pos]
    omega

/-- The pixel pass over the `n` rows `n - 1, ..., 0` of an image `W` pixels wide, for a
supported depth and a row stride that holds `W` pixels: it completes, the image keeps its
length, row `y` of the image holds the values of the pixels of the `(n - 1 - y)`-th row
read, and the entries from `n * W` on are unchanged. -/
theorem decode_rows_spec {bpp : Int} {pal : List Nat} {W rs : Nat}
    (hbpp : bpp = 8 ∨ bpp = 24 ∨ bpp = 32) (hW : 0 < W) (h4 : 4 * W < 2147483648)
    (hrs : RowFits bpp rs W) :
    ∀ (n : Nat) (f : FILE) (img : List Nat), n * W ≤ img.length → img.length < 2147483648 →
      ∃ img', decode_rows bpp pal (W : Int) rs n ((n : Int) - 1) f img = .ok img' ∧
        img'.length = img.length ∧
        (∀ y x, y < n → x < W →
          img'.getD (y * W + x) 0 = pixel_value bpp pal (nth_row f rs (n - 1 - y)) x) ∧
        (∀ j, n * W ≤ j → img'.getD j 0 = img.getD j 0) := by
  have hrs0 : 0 < rs := by
    rcases hbpp with hb | hb | hb
    · have := hrs.1 hb; omega
    · have := hrs.2.1 hb; omega
    · have := hrs.2.2 hb; omega
  intro n
  induction n with
  | zero =>
    intro f img _ _
    exact ⟨img, by simp only [decode_rows], rfl, fun y x hy _ => absurd hy (by omega),
      fun _ _ => rfl⟩
  | succ n ih =>
    intro f img hlen himg
    have es : (n + 1) * W = n * W + W := Nat.succ_mul _ _
    have ey : ((n + 1 : Nat) : Int) - 1 = (n : Int) := by push_cast; omega
    have hb : (n : Int) * (W : Int) = ((n * W : Nat) : Int) := by push_cast; rfl
    simp only [decode_rows, ey, Int.toNat_ofNat]
    have hfit : RowFits bpp (fread_or_zero f rs).1.length (0 + W) := by
      rw [fread_or_zero_length, Nat.zero_add]; exact hrs
    obtain ⟨img1, h1, h2, h3, h4⟩ := @decode_row_spec bpp pal _ _ _ _ hbpp hb W 0 img
      (by omega) himg (by omega) hfit
    have h1b : decode_row bpp pal (fread_or_zero f rs).1 (W : Int) (n : Int) W 0 img
        = .ok img1 := by simpa using h1
    rw [h1b]
    simp only [bind, Except.bind]
    obtain ⟨img', g1, g2, g3, g4⟩ := ih (fread_or_zero f rs).2 img1 (by omega) (by omega)
    refine ⟨img', g1, by rw [g2, h2], ?_, ?_⟩
    · intro y x hy hx
      by_cases hyn : y < n
      · rw [g3 y x hyn hx, nth_row_next f rs _ hrs0]
        congr 2
        omega
      · have hy2 : y = n := by omega
        subst hy2
        rw [g4 _ (by omega)]
        have := h3 x hx
        rw [Nat.add_zero, Nat.zero_add] at this
        rw [this, show y + 1 - 1 - y = 0 by omega, nth_row_zero]
    · intro j hj
      rw [g4 j (by omega), h4 j (Or.inr (by omega))]


/-! ## `load_bmp` completes on a well-formed header -/

theorem fseek_set_data (f : FILE) (offset : Int) : (fseek_set f offset).data = f.data := by
  unfold fseek_set
  split <;> rfl

theorem load_color_table_total : ∀ (n : Nat) (i : Int) (f : FILE), 0 ≤ i → i + n ≤ 256 →
    ∃ r, load_color_table n i f = .ok r ∧ r.2.data = f.data := by
  intro n
  induction n with
  | zero => intro i f _ _; exact ⟨([], f), rfl, rfl⟩
  | succ n ih =>
    intro i f h0 h1
    have hw : wrap32 (i * 3) = i * 3 := wrap32_of_range _ (by omega) (by omega)
    simp only [load_color_table, hw]
    rw [if_pos ⟨by omega, by push_cast at h1; omega⟩]
    obtain ⟨r, hr, hd⟩ := ih (i + 1) (fread_or_zero f 4).2 (by omega) (by push_cast at h1; omega)
    rw [hr]
    exact ⟨_, rfl, by simpa using hd⟩

theorem zero_fill_total : ∀ (n : Nat) (i : Int), 0 ≤ i → i + n ≤ 256 →
    ∃ z, zero_fill n i = .ok z := by
  intro n
  induction n with
  | zero => intro i _ _; exact ⟨[], rfl⟩
  | succ n ih =>
    intro i h0 h1
    have hw : wrap32 (i * 3) = i * 3 := wrap32_of_range _ (by omega) (by omega)
    simp only [zero_fill, hw]
    rw [if_pos ⟨by omega, by push_cast at h1; omega⟩]
    obtain ⟨z, hz⟩ := ih (i + 1) (by omega) (by push_cast at h1; omega)
    rw [hz]
    exact ⟨_, rfl⟩

theorem collect_row_total {bpp : Int} {row : List Nat} (hbpp : bpp = 24 ∨ bpp = 32) :
    ∀ (n x : Nat) (u : List Color), 4 * (x + n) < 2147483648 →
      RowFits bpp row.length (x + n) → ∃ v, collect_row bpp row n (x : Int) u = .ok v := by
  intro n
  induction n with
  | zero => intro x u _ _; exact ⟨u, rfl⟩
  | succ n ih =>
    intro x u hx hrow
    simp only [collect_row]
    split
    · rw [pixel_rgb_total hbpp (by omega) (hrow.mono (by omega))]
      simp only [bind, Except.bind]
      have hcast : ((x : Int) + 1) = ((x + 1 : Nat) : Int) := by push_cast; rfl
      rw [hcast]
      exact ih (x + 1) _ (by omega) (by rw [show x + 1 + n = x + (n + 1) by omega]; exact hrow)
    · exact ⟨u, rfl⟩

theorem collect_rows_total {bpp : Int} {W rs : Nat} (hbpp : bpp = 24 ∨ bpp = 32)
    (h4 : 4 * W < 2147483648) (hrs : RowFits bpp rs W) :
    ∀ (n : Nat) (f : FILE) (u : List Color),
      ∃ c, collect_rows bpp (W : Int) rs n f u = .ok c ∧ c.2.data = f.data := by
  intro n
  induction n with
  | zero => intro f u; exact ⟨(u, f), rfl, rfl⟩
  | succ n ih =>
    intro f u
    simp only [collect_rows, Int.toNat_ofNat]
    split
    · have hfit : RowFits bpp (fread_or_zero f rs).1.length (0 + W) := by
        rw [fread_or_zero_length, Nat.zero_add]; exact hrs
      obtain ⟨v, hv⟩ := collect_row_total hbpp W 0 u (by omega) hfit
      have hv2 : collect_row bpp (fread_or_zero f rs).1 W 0 u = .ok v := by simpa using hv
      rw [hv2]
      simp only [bind, Except.bind]
      obtain ⟨c, hc, hd⟩ := ih (fread_or_zero f rs).2 v
      exact ⟨c, hc, by rw [hd, fread_or_zero_data]⟩
    · exact ⟨(u, f), rfl, rfl⟩

/-- The row stride holds a row of pixels when it is computed without overflow. -/
theorem row_size_fits {width bpp : Int} (hbpp : bpp = 8 ∨ bpp = 24 ∨ bpp = 32)
    (hw : 0 < width) (hrow : width * bpp + 31 < 2147483648) :
    0 ≤ row_size_of width bpp ∧ RowFits bpp (row_size_of width bpp).toNat width.toNat ∧
      4 * width.toNat < 2147483648 := by
  have e := row_size_of_exact width bpp
    (by rcases hbpp with hb | hb | hb <;> subst hb <;> omega) hrow
  rw [e]
  rcases hbpp with hb | hb | hb <;> subst hb
  · exact ⟨by omega, ⟨fun _ => by omega, fun h => absurd h (by decide),
      fun h => absurd h (by decide)⟩, by omega⟩
  · exact ⟨by omega, ⟨fun h => absurd h (by decide), fun _ => by omega,
      fun h => absurd h (by decide)⟩, by omega⟩
  · exact ⟨by omega, ⟨fun h => absurd h (by decide), fun h => absurd h (by decide),
      fun _ => by omega⟩, by omega⟩

/-- The palette part of `load_bmp` completes for a supported depth, a positive width whose
row stride is computed without overflow and, at 8 bits, a colour count from 0 to 256; the
stream it leaves is a stream over the same file. -/
theorem bmp_palette_total (established : Bool) (original_palette : List Nat) (f : FILE)
    {width height bpp data_offset colors_used : Int}
    (hbpp : bpp = 8 ∨ bpp = 24 ∨ bpp = 32) (hw : 0 < width)
    (hrow : width * bpp + 31 < 2147483648)
    (hcol : bpp = 8 → 0 ≤ colors_used ∧ colors_used ≤ 256) :
    ∃ p, bmp_palette established original_palette f width height bpp data_offset colors_used
        = .ok p ∧ p.2.2.data = f.data := by
  unfold bmp_palette
  by_cases h8 : bpp = 8
  · rw [if_pos h8]
    obtain ⟨c0, c1⟩ := hcol h8
    have hpc : 0 < palette_colors_of colors_used ∧ palette_colors_of colors_used ≤ 256 := by
      unfold palette_colors_of PALETTE_SIZE
      split <;> omega
    obtain ⟨r, hr, hd⟩ := load_color_table_total (palette_colors_of colors_used).toNat 0
      (fseek_set f 54) (le_refl _) (by omega)
    obtain ⟨z, hz⟩ := zero_fill_total (PALETTE_SIZE - palette_colors_of colors_used).toNat
      (palette_colors_of colors_used) (by omega) (by unfold PALETTE_SIZE; omega)
    rw [hr, hz]
    simp only [bind, Except.bind]
    rw [fseek_set_data] at hd
    cases established
    · exact ⟨_, rfl, hd⟩
    · exact ⟨_, rfl, hd⟩
  · rw [if_neg h8]
    have hb : bpp = 24 ∨ bpp = 32 := by rcases hbpp with hb | hb | hb; exact absurd hb h8; exact Or.inl hb; exact Or.inr hb
    obtain ⟨r0, rfit, r4⟩ := row_size_fits hbpp hw hrow
    cases established
    · simp only [Bool.not_false, if_true]
      rw [if_neg (by omega)]
      have hwid : width = ((width.toNat : Nat) : Int) := (Int.toNat_of_nonneg (by omega)).symm
      obtain ⟨c, hc, hd⟩ := collect_rows_total hb r4 rfit height.toNat (fseek_set f data_offset) []
      rw [← hwid] at hc
      have hcl := collect_rows_length _ _ _ _ _ _ _ (by simp) hc
      obtain ⟨z, hz⟩ := zero_fill_total (PALETTE_SIZE - c.1.length).toNat c.1.length
        (by omega) (by unfold PALETTE_SIZE; omega)
      rw [hc]
      simp only [bind, Except.bind]
      rw [hz]
      rw [fseek_set_data] at hd
      exact ⟨_, rfl, hd⟩
    · exact ⟨_, rfl, rfl⟩

theorem fresh_length {fl : CFloat} (env : Env fl) (n : Nat) : (fresh env n).length = n := by
  have e : (List.length ∘ fun a : Nat => [(a : Int)]) = fun _ => 1 := rfl
  simp [fresh, e]

theorem nth_row_congr (f g : FILE) (hd : f.data = g.data) (hp : f.pos = g.pos)
    (row_size k : Nat) : nth_row f row_size k = nth_row g row_size k := by
  cases f; cases g
  simp only at hd hp
  subst hd; subst hp
  rfl

theorem load_color_table_data : ∀ (n : Nat) (i : Int) (f : FILE) (r : List Nat × FILE),
    load_color_table n i f = .ok r → r.2.data = f.data := by
  intro n
  induction n with
  | zero =>
    intro i f r h
    simp only [load_color_table, Except.ok.injEq] at h
    subst h; rfl
  | succ n ih =>
    intro i f r h
    simp only [load_color_table] at h
    split at h
    · obtain ⟨r1, h1, h2⟩ := bind_ok h
      simp only [pure, Except.pure, Except.ok.injEq] at h2
      subst h2
      exact (ih _ _ _ h1).trans (fread_or_zero_data f 4)
    · simp at h

theorem collect_rows_data (bpp width : Int) (row_size : Nat) :
    ∀ (n : Nat) (f : FILE) (u : List Color) (r : List Color × FILE),
      collect_rows bpp width row_size n f u = .ok r → r.2.data = f.data := by
  intro n
  induction n with
  | zero =>
    intro f u r h
    simp only [collect_rows, Except.ok.injEq] at h
    subst h; rfl
  | succ n ih =>
    intro f u r h
    simp only [collect_rows] at h
    split at h
    · obtain ⟨u1, _, h2⟩ := bind_ok h
      exact (ih _ _ _ h2).trans (fread_or_zero_data f row_size)
    · simp only [Except.ok.injEq] at h
      subst h; rfl

/-- The stream the palette part of `load_bmp` leaves is a stream over the same file. -/
theorem bmp_palette_data {established : Bool} {original_palette : List Nat} {f : FILE}
    {width height bpp data_offset colors_used : Int} {p : List Nat × List Nat × FILE}
    (h : bmp_palette established original_palette f width height bpp data_offset colors_used
      = .ok p) : p.2.2.data = f.data := by
  unfold bmp_palette at h
  split at h
  · obtain ⟨r, hr, h2⟩ := bind_ok h
    obtain ⟨z, _, h3⟩ := bind_ok h2
    have hd := load_color_table_data _ _ _ _ hr
    rw [fseek_set_data] at hd
    cases established
    · simp only [Bool.not_false, pure, Except.pure, Except.ok.injEq, if_true] at h3
      subst h3; exact hd
    · simp only [Bool.not_true, pure, Except.pure, Bool.false_eq_true, if_false,
        Except.ok.injEq] at h3
      subst h3; exact hd
  · cases established
    · simp only [Bool.not_false, if_true] at h
      split at h
      · simp at h
      · obtain ⟨c, hc, h2⟩ := bind_ok h
        obtain ⟨z, _, h3⟩ := bind_ok h2
        simp only [pure, Except.pure, Except.ok.injEq] at h3
        subst h3
        have hd := collect_rows_data _ _ _ _ _ _ _ hc
        rw [fseek_set_data] at hd
        exact hd
    · simp only [Bool.not_true, pure, Except.pure, Bool.false_eq_true, if_false,
        Except.ok.injEq] at h
      subst h; rfl

/-- The header checks of `load_bmp` pass: the file opens, 54 bytes are read, they start
with `BM` and the dimensions are positive. -/
theorem load_bmp_header {fl : CFloat} (env : Env fl) (s : State fl)
    (filename data : List Nat) (b : BmpInfo)
    (hfs : env.fs (bmp_path s.spritedir filename) = some data)
    (hb : bmp_info (read_header data) = b)
    (hlen : (read_header data).length = 54)
    (hB : (read_header data).getD 0 0 = 66) (hM : (read_header data).getD 1 0 = 77)
    (hw : 0 < b.width) (hh : 0 < b.height) :
    load_bmp env s filename = load_bmp_body env s (bmp_stream data) b := by
  unfold load_bmp
  rw [hfs]
  simp only [hb, hlen, hB, hM, ne_eq, not_true_eq_false, if_false, or_self]
  rw [if_neg (by omega)]

/-- The pixel part of `load_bmp`, once the palette part has completed with `p`, on a
header with positive dimensions whose product fits an `int`, a depth of 8, 24 or 32 bits
with a row stride computed without overflow and a non-negative data offset.  It completes
whatever the length of the pixel data; the image has `width * height` pixels; row `y` of
the image holds the pixel values of stored row `height - 1 - y`, where a stored row that
is not in the file in full counts as zero bytes. -/
theorem load_bmp_body_run {fl : CFloat} (env : Env fl) (s : State fl)
    (data : List Nat) (b : BmpInfo) (p : List Nat × List Nat × FILE)
    (hp : bmp_palette s.palette_established s.original_palette (bmp_stream data)
      b.width b.height b.bpp b.data_offset b.colors_used = .ok p)
    (hw : 0 < b.width) (hh : 0 < b.height)
    (hbpp : b.bpp = 8 ∨ b.bpp = 24 ∨ b.bpp = 32)
    (hoff : 0 ≤ b.data_offset) (hsize : b.width * b.height < 2147483648)
    (hrow : b.width * b.bpp + 31 < 2147483648) :
    ∃ img, load_bmp_body env s (bmp_stream data) b = .ok { s with
        byteimagewidth := b.width
        byteimageheight := b.height
        lbmpalette := p.1
        original_palette := p.2.1
        palette_established := true
        byteimage := img } ∧
      img.length = b.width.toNat * b.height.toNat ∧
      ∀ y x : Nat, y < b.height.toNat → x < b.width.toNat →
        img.getD (y * b.width.toNat + x) 0 =
          pixel_value b.bpp p.1
            (nth_row ⟨data, b.data_offset.toNat⟩ (row_size_of b.width b.bpp).toNat
              (b.height.toNat - 1 - y)) x := by
  obtain ⟨r0, rfit, r4⟩ := row_size_fits hbpp hw hrow
  have hd := bmp_palette_data hp
  have hwid : b.width = ((b.width.toNat : Nat) : Int) := (Int.toNat_of_nonneg (by omega)).symm
  have hhei : b.height = ((b.height.toNat : Nat) : Int) := (Int.toNat_of_nonneg (by omega)).symm
  have hprod : b.width * b.height = ((b.height.toNat * b.width.toNat : Nat) : Int) := by
    push_cast; rw [← hwid, ← hhei]; ring
  have hpos : 0 ≤ b.width * b.height := by rw [hprod]; exact Int.natCast_nonneg _
  have hwrap : wrap32 (b.width * b.height) = b.width * b.height :=
    wrap32_of_range _ (by omega) hsize
  have hfl : (fresh env (b.width * b.height).toNat).length = b.height.toNat * b.width.toNat := by
    rw [fresh_length, hprod, Int.toNat_ofNat]
  obtain ⟨img, hi, hl, hv, _⟩ := @decode_rows_spec b.bpp p.1 _ _ hbpp
    (by omega : 0 < b.width.toNat) r4 rfit b.height.toNat
    (fseek_set p.2.2 b.data_offset) (fresh env (b.width * b.height).toNat)
    (by rw [hfl]) (by rw [hfl]; omega)
  rw [← hwid, ← hhei] at hi
  refine ⟨img, ?_, by rw [hl, hfl, Nat.mul_comm], ?_⟩
  · unfold load_bmp_body
    rw [hp]
    simp only [bind, Except.bind]
    rw [if_neg (by omega), hwrap, if_neg (by omega), hi]
    rfl
  · intro y x hy hx
    rw [hv y x hy hx]
    congr 1
    apply nth_row_congr
    · rw [fseek_set_data, hd]; rfl
    · unfold fseek_set
      rw [if_neg (by omega)]

/-- What a completed `load_bmp` has decoded, for a header as in `load_bmp_body_run`: the
declared dimensions, `width * height` pixels, and in row `y` of the image the pixel values
of stored row `height - 1 - y`. -/
theorem load_bmp_image {fl : CFloat} (env : Env fl) (s s' : State fl)
    (filename data : List Nat) (b : BmpInfo)
    (hfs : env.fs (bmp_path s.spritedir filename) = some data)
    (hb : bmp_info (read_header data) = b)
    (hlen : (read_header data).length = 54)
    (hB : (read_header data).getD 0 0 = 66) (hM : (read_header data).getD 1 0 = 77)
    (hw : 0 < b.width) (hh : 0 < b.height)
    (hbpp : b.bpp = 8 ∨ b.bpp = 24 ∨ b.bpp = 32)
    (hoff : 0 ≤ b.data_offset) (hsize : b.width * b.height < 2147483648)
    (hrow : b.width * b.bpp + 31 < 2147483648)
    (h : load_bmp env s filename = .ok s') :
    s'.byteimagewidth = b.width ∧ s'.byteimageheight = b.height ∧
      s'.byteimage.length = b.width.toNat * b.height.toNat ∧
      ∀ y x : Nat, y < b.height.toNat → x < b.width.toNat →
        s'.byteimage.getD (y * b.width.toNat + x) 0 =
          pixel_value b.bpp s'.lbmpalette
            (nth_row ⟨data, b.data_offset.toNat⟩ (row_size_of b.width b.bpp).toNat
              (b.height.toNat - 1 - y)) x := by
  rw [load_bmp_header env s filename data b hfs hb hlen hB hM hw hh] at h
  have h2 := h
  unfold load_bmp_body at h2
  obtain ⟨p, hp, _⟩ := bind_ok h2
  obtain ⟨img, hi, hl, hv⟩ := load_bmp_body_run env s data b p hp hw hh hbpp hoff hsize hrow
  rw [hi] at h
  simp only [Except.ok.injEq] at h
  subst h
  exact ⟨rfl, rfl, hl, hv⟩

/-- The function `load_bmp` completes on a well-formed header (as in `load_bmp_body_run`,
with a colour count from 0 to 256 at 8 bits), whatever the length of the pixel data. -/
theorem load_bmp_total {fl : CFloat} (env : Env fl) (s : State fl)
    (filename data : List Nat) (b : BmpInfo)
    (hfs : env.fs (bmp_path s.spritedir filename) = some data)
    (hb : bmp_info (read_header data) = b)
    (hlen : (read_header data).length = 54)
    (hB : (read_header data).getD 0 0 = 66) (hM : (read_header data).getD 1 0 = 77)
    (hw : 0 < b.width) (hh : 0 < b.height)
    (hbpp : b.bpp = 8 ∨ b.bpp = 24 ∨ b.bpp = 32)
    (hcol : b.bpp = 8 → 0 ≤ b.colors_used ∧ b.colors_used ≤ 256)
    (hoff : 0 ≤ b.data_offset) (hsize : b.width * b.height < 2147483648)
    (hrow : b.width * b.bpp + 31 < 2147483648) :
    ∃ s', load_bmp env s filename = .ok s' := by
  obtain ⟨p, hp, _⟩ := @bmp_palette_total s.palette_established s.original_palette
    (bmp_stream data) b.width b.height b.bpp b.data_offset b.colors_used hbpp hw hrow hcol
  obtain ⟨img, hi, _, _⟩ := load_bmp_body_run env s data b p hp hw hh hbpp hoff hsize hrow
  rw [load_bmp_header env s filename data b hfs hb hlen hB hM hw hh]
  exact ⟨_, hi⟩


theorem getD_replicate_zero (n i : Nat) : (List.replicate n 0).getD i 0 = 0 := by
  rw [List.getD_eq_getElem?_getD, List.getElem?_replicate]
  split <;> rfl

theorem getD_take_drop (l : List Nat) (a n x : Nat) (hx : x < n) :
    ((l.drop a).take n).getD x 0 = l.getD (a + x) 0 := by
  rw [List.getD_eq_getElem?_getD, List.getD_eq_getElem?_getD, List.getElem?_take_of_lt hx,
    List.getElem?_drop]

theorem pixel_value_zero_row (bpp : Int) (pal : List Nat) (n x : Nat) :
    pixel_value bpp pal (List.replicate n 0) x =
      if bpp = 8 then 0 else ((nearest pal 0 0 0) % 256).toNat := by
  unfold pixel_value pixel_at
  split
  · exact getD_replicate_zero _ _
  · split <;> simp only [getD_replicate_zero]

/-- C18: an 8-bit bitmap `width` by `height` pixels with a well-formed header (a `BM`
signature, positive dimensions whose product fits an `int`, a row stride computed without
overflow, a non-negative data offset) all of whose `height` stored rows are in the file.
When `load_bmp` completes, which it does when the colour count is from 0 to 256, the image
has the declared dimensions and entry `y * width + x` is byte `x` of stored row
`height - 1 - y`, unchanged: the first stored row is the bottom row of the image. -/
theorem C18_rows_flipped {fl : CFloat} (env : Env fl) (s : State fl)
    (filename data : List Nat) (b : BmpInfo)
    (hfs : env.fs (bmp_path s.spritedir filename) = some data)
    (hb : bmp_info (read_header data) = b)
    (hlen : (read_header data).length = 54)
    (hB : (read_header data).getD 0 0 = 66) (hM : (read_header data).getD 1 0 = 77)
    (hw : 0 < b.width) (hh : 0 < b.height) (hbpp : b.bpp = 8)
    (hoff : 0 ≤ b.data_offset) (hsize : b.width * b.height < 2147483648)
    (hrow : b.width * 8 + 31 < 2147483648)
    (hread : b.data_offset.toNat + b.height.toNat * (row_size_of b.width 8).toNat
      ≤ data.length) :
    (0 ≤ b.colors_used ∧ b.colors_used ≤ 256 → ∃ s', load_bmp env s filename = .ok s') ∧
    ∀ s', load_bmp env s filename = .ok s' →
      s'.byteimagewidth = b.width ∧ s'.byteimageheight = b.height ∧
      s'.byteimage.length = b.width.toNat * b.height.toNat ∧
      ∀ y x : Nat, y < b.height.toNat → x < b.width.toNat →
        s'.byteimage.getD (y * b.width.toNat + x) 0 =
          data.getD (b.data_offset.toNat +
            (b.height.toNat - 1 - y) * (row_size_of b.width 8).toNat + x) 0 := by
  have hrow2 : b.width * b.bpp + 31 < 2147483648 := by rw [hbpp]; exact hrow
  have hbpp3 : b.bpp = 8 ∨ b.bpp = 24 ∨ b.bpp = 32 := Or.inl hbpp
  refine ⟨fun hcol => load_bmp_total env s filename data b hfs hb hlen hB hM hw hh hbpp3
    (fun _ => hcol) hoff hsize hrow2, ?_⟩
  intro s' h
  obtain ⟨e1, e2, e3, e4⟩ := load_bmp_image env s s' filename data b hfs hb hlen hB hM hw hh
    hbpp3 hoff hsize hrow2 h
  refine ⟨e1, e2, e3, ?_⟩
  intro y x hy hx
  obtain ⟨_, rfit, _⟩ := row_size_fits hbpp3 hw hrow2
  have hrs := rfit.1 hbpp
  rw [hbpp] at hrs
  have hk : (b.height.toNat - 1 - y + 1) * (row_size_of b.width 8).toNat ≤
      b.height.toNat * (row_size_of b.width 8).toNat :=
    Nat.mul_le_mul_right _ (by omega)
  rw [e4 y x hy hx, hbpp]
  simp only [pixel_value, if_true]
  rw [nth_row_readable _ _ _ (by show b.data_offset.toNat + _ ≤ data.length; omega)]
  exact getD_take_drop _ _ _ _ (by omega)

/-- C19: a bitmap with a well-formed header (a `BM` signature, positive dimensions whose
product fits an `int`, a depth of 8, 24 or 32 bits with a row stride computed without
overflow, a non-negative data offset and, at 8 bits, a colour count from 0 to 256),
whatever the length of its pixel data.  The function `load_bmp` completes, the image has
the declared dimensions and `width * height` pixels, and each row of the image whose
stored row is not in the file in full holds what a row of zero bytes decodes to: 0 at 8
bits, the index of the palette entry nearest to `(0, 0, 0)` at 24 and 32 bits. -/
theorem C19_truncated_rows_zero {fl : CFloat} (env : Env fl) (s : State fl)
    (filename data : List Nat) (b : BmpInfo)
    (hfs : env.fs (bmp_path s.spritedir filename) = some data)
    (hb : bmp_info (read_header data) = b)
    (hlen : (read_header data).length = 54)
    (hB : (read_header data).getD 0 0 = 66) (hM : (read_header data).getD 1 0 = 77)
    (hw : 0 < b.width) (hh : 0 < b.height)
    (hbpp : b.bpp = 8 ∨ b.bpp = 24 ∨ b.bpp = 32)
    (hcol : b.bpp = 8 → 0 ≤ b.colors_used ∧ b.colors_used ≤ 256)
    (hoff : 0 ≤ b.data_offset) (hsize : b.width * b.height < 2147483648)
    (hrow : b.width * b.bpp + 31 < 2147483648) :
    ∃ s', load_bmp env s filename = .ok s' ∧
      s'.byteimagewidth = b.width ∧ s'.byteimageheight = b.height ∧
      s'.byteimage.length = b.width.toNat * b.height.toNat ∧
      ∀ y x : Nat, y < b.height.toNat → x < b.width.toNat →
        data.length < b.data_offset.toNat +
          (b.height.toNat - y) * (row_size_of b.width b.bpp).toNat →
        s'.byteimage.getD (y * b.width.toNat + x) 0 =
          if b.bpp = 8 then 0 else ((nearest s'.lbmpalette 0 0 0) % 256).toNat := by
  obtain ⟨s', h⟩ := load_bmp_total env s filename data b hfs hb hlen hB hM hw hh hbpp hcol
    hoff hsize hrow
  obtain ⟨e1, e2, e3, e4⟩ := load_bmp_image env s s' filename data b hfs hb hlen hB hM hw hh
    hbpp hoff hsize hrow h
  refine ⟨s', h, e1, e2, e3, ?_⟩
  intro y x hy hx hshort
  obtain ⟨_, rfit, _⟩ := row_size_fits hbpp hw hrow
  have hrs0 : 0 < (row_size_of b.width b.bpp).toNat := by
    rcases hbpp with hb8 | hb24 | hb32
    · have := rfit.1 hb8; omega
    · have := rfit.2.1 hb24; omega
    · have := rfit.2.2 hb32; omega
  have hk : b.height.toNat - 1 - y + 1 = b.height.toNat - y := by omega
  rw [e4 y x hy hx, nth_row_short _ _ _ hrs0 (by show data.length < _ + _; rw [hk]; exact hshort)]
  exact pixel_value_zero_row _ _ _ _


/-! ## The bounding radius (`finish_sprite`) -/

/-- While the sum of the squared half-extents fits an `int`, `finish_sprite` takes the
square root of exactly that sum. -/
theorem finish_fields_radius_exact {fl : CFloat} (s : State fl)
    (hfit : (s.framesmaxs0 / 2) * (s.framesmaxs0 / 2) +
      (s.framesmaxs1 / 2) * (s.framesmaxs1 / 2) < 2147483648) :
    (finish_fields s).sprite.boundingradius =
      fl.sqrt ((s.framesmaxs0 / 2) * (s.framesmaxs0 / 2) +
        (s.framesmaxs1 / 2) * (s.framesmaxs1 / 2)) := by
  have a0 : 0 ≤ (s.framesmaxs0 / 2) * (s.framesmaxs0 / 2) := mul_self_nonneg _
  have a1 : 0 ≤ (s.framesmaxs1 / 2) * (s.framesmaxs1 / 2) := mul_self_nonneg _
  simp only [finish_fields, shr1]
  have e0 := wrap32_of_range ((s.framesmaxs0 / 2) * (s.framesmaxs0 / 2)) (by omega) (by omega)
  have e1 := wrap32_of_range ((s.framesmaxs1 / 2) * (s.framesmaxs1 / 2)) (by omega) (by omega)
  rw [e0, e1, wrap32_of_range _ (by omega) (by omega)]

/-- Maxima up to 65535 in both directions keep the sum within an `int`. -/
theorem finish_fields_radius_small {fl : CFloat} (s : State fl)
    (h0 : 0 ≤ s.framesmaxs0) (h1 : 0 ≤ s.framesmaxs1)
    (b0 : s.framesmaxs0 ≤ 65535) (b1 : s.framesmaxs1 ≤ 65535) :
    (finish_fields s).sprite.boundingradius =
      fl.sqrt ((s.framesmaxs0 / 2) * (s.framesmaxs0 / 2) +
        (s.framesmaxs1 / 2) * (s.framesmaxs1 / 2)) := by
  apply finish_fields_radius_exact s
  have c0 : s.framesmaxs0 / 2 ≤ 32767 := by omega
  have c1 : s.framesmaxs1 / 2 ≤ 32767 := by omega
  have d0 : 0 ≤ s.framesmaxs0 / 2 := by omega
  have d1 : 0 ≤ s.framesmaxs1 / 2 := by omega
  nlinarith

/-- C20 (fails in the code): with the running maxima 92682 by 1, the dimensions of a frame
that covers a 92682 by 1 image, the half-extents are 46341 and 0 and the sum of their
squares is 2147488281, above the largest `int`; the product computed in `int` wraps to
-2147479015, and `finish_sprite` takes the square root of that negative number. -/
theorem C20_radius_overflows {fl : CFloat} (s : State fl) :
    (finish_fields { s with framesmaxs0 := 92682, framesmaxs1 := 1 }).sprite.boundingradius =
      fl.sqrt (-2147479015) ∧
    shr1 92682 * shr1 92682 + shr1 1 * shr1 1 = 2147488281 ∧
    (2147483647 : Int) < 2147488281 := by
  refine ⟨?_, by decide, by decide⟩
  simp only [finish_fields]
  congr 1


/-! ## A supplied origin -/

/-- C21 (as the code has it): a `$frame` whose four numbers are followed on the same line
by an interval and two further tokens `ox oy`.  The header recorded (in the history and in
the arena at the descriptor's `pdata`) has the origin `(-ox, oy)`, the first value negated
in `int`, with the width and height of the rectangle; the interval is the value of its
token.  So a directive that supplies `w div 2` and `h div 2` records the header that a
directive with no origin records, `(-(w div 2), h div 2, w, h)`. -/
theorem C21_origin_x_negated {fl : CFloat} (env : Env fl) (s s' : State fl)
    (a : Rect × State fl) (p1 t1 p2 t2 p3 t3 : List Nat)
    (h : grab_frame env s = .ok s') (ha : frame_rect s = .ok a)
    (h1 : get_token false a.2.scriptptr a.2.token = .ok (true, p1, t1))
    (h2 : get_token false p1 t1 = .ok (true, p2, t2))
    (h3 : get_token false p2 t2 = .ok (true, p3, t3)) :
    s'.emitted = s.emitted ++ [⟨wrap32 (-(atoi t2)), atoi t3, a.1.w, a.1.h⟩] ∧
    (∃ f, frame_desc s' s.framecount = .ok f ∧ f.type = SPR_SINGLE ∧
      f.interval = fl.atof t1 ∧
      peek_int s' f.pdata = .ok (wrap32 (-(atoi t2))) ∧
      peek_int s' (f.pdata + 4) = .ok (atoi t3) ∧
      peek_int s' (f.pdata + 8) = .ok a.1.w ∧ peek_int s' (f.pdata + 12) = .ok a.1.h) ∧
    (atoi t2 = cdiv a.1.w 2 → atoi t3 = cdiv a.1.h 2 →
      s'.emitted = s.emitted ++ [⟨-(cdiv a.1.w 2), cdiv a.1.h 2, a.1.w, a.1.h⟩]) := by
  obtain ⟨a', hd, f, ha', hg⟩ := grab_frame_grabbed h
  rw [ha] at ha'
  simp only [Except.ok.injEq] at ha'
  subst ha'
  obtain ⟨_, r1, r2, r3, r4⟩ := frame_rect_ok ha
  obtain ⟨x, y, z, hx, hiv, hy, hz, ehd, _, _⟩ := hg.header
  rw [h1] at hx
  simp only [Except.ok.injEq] at hx
  subst hx
  simp only at hiv hy
  rw [h2] at hy
  simp only [Except.ok.injEq] at hy
  subst hy
  simp only [if_true] at hz hiv ehd
  rw [h3] at hz
  simp only [Except.ok.injEq] at hz
  subst hz
  simp only at ehd
  obtain ⟨b0, b1, b2⟩ := grabbed_block hg
  have hr0 : -2147483648 ≤ hd.origin0 ∧ hd.origin0 < 2147483648 := by
    rw [ehd]; exact wrap32_range _
  have hr1 : -2147483648 ≤ hd.origin1 ∧ hd.origin1 < 2147483648 := by
    rw [ehd]; exact atoi_range _
  have hr2 : -2147483648 ≤ hd.width ∧ hd.width < 2147483648 := by
    rw [ehd]; exact ⟨r1, r2⟩
  have hr3 : -2147483648 ≤ hd.height ∧ hd.height < 2147483648 := by
    rw [ehd]; exact ⟨r3, r4⟩
  obtain ⟨q0, q1, q2, q3, _⟩ := header_reads b0 b1 b2 hr0 hr1 hr2 hr3
  rw [ehd] at q0 q1 q2 q3
  have hem : s'.emitted = s.emitted ++ [⟨wrap32 (-(atoi t2)), atoi t3, a.1.w, a.1.h⟩] := by
    rw [hg.history, ehd]
  refine ⟨hem, ⟨f, frame_desc_of_get hg.count_nonneg hg.desc, hg.desc_type, hiv,
    q0, q1, q2, q3⟩, ?_⟩
  intro e2 e3
  have hacc := hg.accepted
  have hw : 0 < a.1.w := by
    by_contra hn
    have : bad_coordinates a.1.xl a.1.yl a.1.w a.1.h s.byteimagewidth s.byteimageheight
        = true := by
      unfold bad_coordinates
      simp only [decide_eq_true_eq]
      right; right; left; omega
    rw [this] at hacc
    exact Bool.noConfusion hacc
  have e0 : wrap32 (-(cdiv a.1.w 2)) = -(cdiv a.1.w 2) := by
    unfold cdiv
    rw [Int.tdiv_eq_ediv (by omega) (by omega), wrap32_of_range _ (by omega) (by omega)]
  rw [hem, e2, e3, e0]


/-! ## Missing frame arguments -/

/-- When a `$frame` line holds one token only, all four numbers of the rectangle are
converted from that token: each further `get_token(false)` fails, leaves the token buffer
as it is, and `atoi` is applied to it again. -/
theorem frame_rect_reuses_token {fl : CFloat} {s : State fl} {a : Rect × State fl}
    {q t q' t' : List Nat} (ha : frame_rect s = .ok a)
    (h1 : get_token false s.scriptptr s.token = .ok (true, q, t))
    (h2 : get_token false q t = .ok (false, q', t')) :
    a.1 = ⟨atoi t, atoi t, atoi t, atoi t⟩ := by
  obtain ⟨x1, x2, x3, x4, g1, g2, g3, g4, e⟩ := frame_rect_spec ha
  have et : t' = t := (get_token_probe h2).1
  subst et
  rw [h1] at g1
  simp only [Except.ok.injEq] at g1
  subst g1
  simp only at g2
  rw [h2] at g2
  simp only [Except.ok.injEq] at g2
  subst g2
  simp only at g3
  rw [get_token_probe_again h2] at g3
  simp only [Except.ok.injEq] at g3
  subst g3
  simp only at g4
  rw [get_token_probe_again h2] at g4
  simp only [Except.ok.injEq] at g4
  subst g4
  exact e


/-! ## Capacity of the descriptor array -/

/-- After `ensure_frame_capacity` the index `framecount` is inside the descriptor array:
the write `frames[framecount].type = SPR_SINGLE` that follows it in `grab_frame` is below
the capacity. -/
theorem ensure_frame_capacity_room {fl : CFloat} {env : Env fl} {s s1 : State fl}
    (hinv : CapInv s) (h : ensure_frame_capacity env s = .ok s1) :
    CapInv s1 ∧ s1.framecount = s.framecount ∧ s1.framecount < s1.max_frames ∧
      s1.framecount.toNat < s1.frames.length := by
  obtain ⟨hl, h0, hle, hpos, hmf⟩ := hinv
  unfold ensure_frame_capacity at h
  split at h
  · rename_i hge
    simp only at h
    split at h
    · simp at h
    · rename_i hm
      simp only [Except.ok.injEq] at h
      subst h
      have hlen := resize_frames_length env s.frames (wrap32 (s.max_frames * 2)).toNat
      have e : wrap32 (s.max_frames * 2) = s.max_frames * 2 := by
        unfold wrap32 at hm ⊢
        omega
      refine ⟨⟨?_, h0, ?_, ?_, ?_⟩, rfl, ?_, ?_⟩
      · exact hlen
      · show s.framecount ≤ wrap32 (s.max_frames * 2)
        omega
      · show 0 < wrap32 (s.max_frames * 2)
        omega
      · exact (wrap32_range _).2
      · show s.framecount < wrap32 (s.max_frames * 2)
        omega
      · show s.framecount.toNat < (resize_frames env s.frames _).length
        rw [hlen]
        omega
  · rename_i hlt
    simp only [Except.ok.injEq] at h
    subst h
    exact ⟨⟨hl, h0, hle, hpos, hmf⟩, rfl, by omega, by omega⟩

/-- The `$groupstart` branch when the descriptor count equals the capacity: the header
descriptor is written at index `framecount`, one past the end of the array. -/
theorem do_group_past_capacity {fl : CFloat} (env : Env fl) (fuel : Nat) (s : State fl)
    (hinv : CapInv s) (hfull : s.framecount = s.max_frames) :
    do_group env fuel s = .error Err.out_of_bounds := by
  obtain ⟨hl, h0, _, _, _⟩ := hinv
  have hnone : s.frames.get? s.framecount.toNat = none := by
    rw [List.get?_eq_none]
    omega
  unfold do_group set_frame
  simp only [if_neg (by omega : ¬ s.framecount < 0), hnone]
  rfl


/-! ## Exact colours -/

theorem read_rows_eq (row_size : Nat) (hrs : 0 < row_size) :
    ∀ (n : Nat) (f : FILE), read_rows row_size n f = (List.range n).map (nth_row f row_size) := by
  intro n
  induction n with
  | zero => intro f; rfl
  | succ n ih =>
    intro f
    rw [List.range_succ_eq_map]
    simp only [read_rows, List.map_cons, List.map_map]
    rw [nth_row_zero, ih]
    congr 1
    apply List.map_congr_left
    intro k _
    exact nth_row_next f row_size k hrs

/-- Every pixel of every row read is among the colours scanned by the first pass. -/
theorem pixel_mem_scanned (bpp : Int) (width row_size height : Nat) (f : FILE)
    (hrs : 0 < row_size) (k x : Nat) (hk : k < height) (hx : x < width) :
    pixel_at bpp (nth_row f row_size k) x ∈ scanned_colors bpp width row_size height f := by
  unfold scanned_colors
  rw [List.mem_flatten]
  refine ⟨row_colors bpp width (nth_row f row_size k), ?_, ?_⟩
  · rw [List.mem_map]
    refine ⟨nth_row f row_size k, ?_, rfl⟩
    rw [read_rows_eq row_size hrs, List.mem_map]
    exact ⟨k, List.mem_range.mpr hk, rfl⟩
  · unfold row_colors
    rw [List.mem_map]
    exact ⟨x, List.mem_range.mpr hx, rfl⟩

/-- Entry `i` of a palette made of a list of colours is the `i`-th colour. -/
theorem palette_entry : ∀ (u : List Color) (z : List Nat) (i : Nat) (c : Color),
    u[i]? = some c →
    (palette_bytes u ++ z).getD (3 * i) 0 = c.1 ∧
    (palette_bytes u ++ z).getD (3 * i + 1) 0 = c.2.1 ∧
    (palette_bytes u ++ z).getD (3 * i + 2) 0 = c.2.2 := by
  intro u
  induction u with
  | nil => intro z i c h; simp at h
  | cons d rest ih =>
    intro z i c h
    cases i with
    | zero =>
      simp only [List.getElem?_cons_zero, Option.some.injEq] at h
      subst h
      simp [palette_bytes]
    | succ i =>
      simp only [List.getElem?_cons_succ] at h
      obtain ⟨h0, h1, h2⟩ := ih z i c h
      have e0 : 3 * (i + 1) = 3 * i + 1 + 1 + 1 := by omega
      have e1 : 3 * (i + 1) + 1 = 3 * i + 1 + 1 + 1 + 1 := by omega
      have e2 : 3 * (i + 1) + 2 = 3 * i + 2 + 1 + 1 + 1 := by omega
      refine ⟨?_, ?_, ?_⟩
      · rw [e0]; simpa [palette_bytes] using h0
      · rw [e1]; simpa [palette_bytes] using h1
      · rw [e2]; simpa [palette_bytes] using h2

theorem sqdist_nonneg (pal : List Nat) (r g b i : Nat) : 0 ≤ sqdist pal r g b i := by
  unfold sqdist
  positivity

theorem sqdist_eq_zero (pal : List Nat) (r g b i : Nat) :
    sqdist pal r g b i = 0 ↔
      pal.getD (3 * i) 0 = r ∧ pal.getD (3 * i + 1) 0 = g ∧ pal.getD (3 * i + 2) 0 = b := by
  unfold sqdist
  constructor
  · intro h
    have a0 := sq_nonneg ((r : Int) - (pal.getD (3 * i) 0 : Int))
    have a1 := sq_nonneg ((g : Int) - (pal.getD (3 * i + 1) 0 : Int))
    have a2 := sq_nonneg ((b : Int) - (pal.getD (3 * i + 2) 0 : Int))
    have z0 : ((r : Int) - (pal.getD (3 * i) 0 : Int)) ^ 2 = 0 := by omega
    have z1 : ((g : Int) - (pal.getD (3 * i + 1) 0 : Int)) ^ 2 = 0 := by omega
    have z2 : ((b : Int) - (pal.getD (3 * i + 2) 0 : Int)) ^ 2 = 0 := by omega
    have y0 := pow_eq_zero_iff (two_ne_zero) |>.mp z0
    have y1 := pow_eq_zero_iff (two_ne_zero) |>.mp z1
    have y2 := pow_eq_zero_iff (two_ne_zero) |>.mp z2
    omega
  · rintro ⟨h0, h1, h2⟩
    rw [h0, h1, h2]
    simp

/-- On a palette that starts with a list of distinct colours, the nearest-match scan maps
a colour of the list to its position in the list. -/
theorem nearest_exact (u : List Color) (z : List Nat) (i : Nat) (c : Color)
    (hu : u.Nodup) (hpal : ∀ x ∈ palette_bytes u ++ z, x < 256)
    (hc : c.1 < 256 ∧ c.2.1 < 256 ∧ c.2.2 < 256) (hlen : u.length ≤ 256)
    (hi : u[i]? = some c) :
    nearest (palette_bytes u ++ z) c.1 c.2.1 c.2.2 = (i : Int) := by
  obtain ⟨m, hm, hspec⟩ := nearest_loop_spec (palette_bytes u ++ z) hpal c.1 c.2.1 c.2.2
    hc.1 hc.2.1 hc.2.2 256 0 0 999999 (Or.inl ⟨rfl, rfl, rfl⟩)
  have hil : i < u.length := by
    by_contra hn
    rw [List.getElem?_eq_none (by omega)] at hi
    exact Option.noConfusion hi
  have hz : sqdist (palette_bytes u ++ z) c.1 c.2.1 c.2.2 i = 0 :=
    (sqdist_eq_zero _ _ _ _ _).mpr (palette_entry u z i c hi)
  rcases hspec with ⟨h0, _, _⟩ | ⟨h1, h2, h3⟩
  · omega
  · have hmz : sqdist (palette_bytes u ++ z) c.1 c.2.1 c.2.2 m = 0 := by
      have := h2 i (by omega)
      have := sqdist_nonneg (palette_bytes u ++ z) c.1 c.2.1 c.2.2 m
      omega
    have hmi : m = i := by
      rcases Nat.lt_trichotomy m i with hlt | heq | hgt
      · exfalso
        have hml : m < u.length := by omega
        obtain ⟨e0, e1, e2⟩ := palette_entry u z m u[m] (List.getElem?_eq_getElem hml)
        obtain ⟨f0, f1, f2⟩ := (sqdist_eq_zero _ _ _ _ _).mp hmz
        have hcm : u[m] = c := by
          apply Prod.ext
          · rw [← e0, f0]
          · apply Prod.ext
            · rw [← e1, f1]
            · rw [← e2, f2]
        have hci : u[i] = c := by
          rw [List.getElem?_eq_getElem hil] at hi
          exact Option.some.inj hi
        have := (List.Nodup.getElem_inj_iff hu).mp (hcm.trans hci.symm)
        omega
      · exact heq
      · exfalso
        have := h3 i hgt
        omega
    unfold nearest
    rw [← hmi]
    exact hm


/-- The palette a completed `load_bmp` leaves for a true-colour file made of bytes, read
with no palette established: the collected colours, then zero bytes. -/
theorem load_bmp_collected {fl : CFloat} (env : Env fl) (s s' : State fl)
    (filename data : List Nat) (b : BmpInfo)
    (hfs : env.fs (bmp_path s.spritedir filename) = some data)
    (hb : bmp_info (read_header data) = b)
    (hlen : (read_header data).length = 54)
    (hB : (read_header data).getD 0 0 = 66) (hM : (read_header data).getD 1 0 = 77)
    (hw : 0 < b.width) (hh : 0 < b.height) (hbpp : b.bpp = 24 ∨ b.bpp = 32)
    (hoff : 0 ≤ b.data_offset) (hsize : b.width * b.height < 2147483648)
    (hrow : b.width * b.bpp + 31 < 2147483648)
    (hest : s.palette_established = false) (hbytes : ∀ x ∈ data, x < 256)
    (h : load_bmp env s filename = .ok s') :
    s'.lbmpalette = collected_palette b.bpp b.width b.height b.data_offset (bmp_stream data) := by
  rw [load_bmp_header env s filename data b hfs hb hlen hB hM hw hh] at h
  have h2 := h
  unfold load_bmp_body at h2
  obtain ⟨p, hp, _⟩ := bind_ok h2
  obtain ⟨img, hi, _, _⟩ := load_bmp_body_run env s data b p hp hw hh (Or.inr hbpp) hoff hsize
    hrow
  rw [hi] at h
  simp only [Except.ok.injEq] at h
  subst h
  rw [hest] at hp
  have hstream : ∀ x ∈ (bmp_stream data).data, x < 256 := hbytes
  exact (bmp_palette_first_distinct _ _ _ _ _ _ _ p hbpp hrow hstream hp).1

theorem nth_row_bytes (f : FILE) (row_size k : Nat) (hf : ∀ x ∈ f.data, x < 256) :
    ∀ x ∈ nth_row f row_size k, x < 256 := by
  unfold nth_row
  exact (fread_or_zero_bytes { f with pos := f.pos + k * row_size } row_size hf).1

/-- C24: a 24- or 32-bit bitmap made of bytes, with a well-formed header (a `BM`
signature, positive dimensions whose product fits an `int`, a row stride computed without
overflow, a non-negative data offset), all of whose stored rows are in the file and whose
pixels have at most 256 distinct colours, read with no palette established.  The function
`load_bmp` completes, and for every pixel the index stored in the image is the position
of the pixel's own colour in the list of collected colours, so the palette entry at that
index is exactly the pixel's colour. -/
theorem C24_exact_colours_lossless {fl : CFloat} (env : Env fl) (s : State fl)
    (filename data : List Nat) (b : BmpInfo)
    (hfs : env.fs (bmp_path s.spritedir filename) = some data)
    (hb : bmp_info (read_header data) = b)
    (hlen : (read_header data).length = 54)
    (hB : (read_header data).getD 0 0 = 66) (hM : (read_header data).getD 1 0 = 77)
    (hw : 0 < b.width) (hh : 0 < b.height) (hbpp : b.bpp = 24 ∨ b.bpp = 32)
    (hoff : 0 ≤ b.data_offset) (hsize : b.width * b.height < 2147483648)
    (hrow : b.width * b.bpp + 31 < 2147483648)
    (hest : s.palette_established = false) (hbytes : ∀ x ∈ data, x < 256)
    (hread : b.data_offset.toNat + b.height.toNat * (row_size_of b.width b.bpp).toNat
      ≤ data.length)
    (hcol : (first_distinct (scanned_colors b.bpp b.width.toNat
      (row_size_of b.width b.bpp).toNat b.height.toNat
      (fseek_set (bmp_stream data) b.data_offset))).length ≤ 256) :
    ∃ s', load_bmp env s filename = .ok s' ∧
      ∀ y x : Nat, y < b.height.toNat → x < b.width.toNat →
        (first_colors b.bpp b.width b.height b.data_offset (bmp_stream data))[
            s'.byteimage.getD (y * b.width.toNat + x) 0]? =
          some (pixel_at b.bpp ((data.drop (b.data_offset.toNat +
            (b.height.toNat - 1 - y) * (row_size_of b.width b.bpp).toNat)).take
              (row_size_of b.width b.bpp).toNat) x) ∧
        (s'.lbmpalette.getD (3 * s'.byteimage.getD (y * b.width.toNat + x) 0) 0,
          s'.lbmpalette.getD (3 * s'.byteimage.getD (y * b.width.toNat + x) 0 + 1) 0,
          s'.lbmpalette.getD (3 * s'.byteimage.getD (y * b.width.toNat + x) 0 + 2) 0) =
          pixel_at b.bpp ((data.drop (b.data_offset.toNat +
            (b.height.toNat - 1 - y) * (row_size_of b.width b.bpp).toNat)).take
              (row_size_of b.width b.bpp).toNat) x := by
  have hbpp3 : b.bpp = 8 ∨ b.bpp = 24 ∨ b.bpp = 32 := Or.inr hbpp
  have h8 : ¬ b.bpp = 8 := by
    rcases hbpp with hb24 | hb32
    · rw [hb24]; decide
    · rw [hb32]; decide
  obtain ⟨s', h⟩ := load_bmp_total env s filename data b hfs hb hlen hB hM hw hh hbpp3
    (fun e => absurd e h8) hoff hsize hrow
  obtain ⟨_, _, _, e4⟩ := load_bmp_image env s s' filename data b hfs hb hlen hB hM hw hh
    hbpp3 hoff hsize hrow h
  have hpal := load_bmp_collected env s s' filename data b hfs hb hlen hB hM hw hh hbpp hoff
    hsize hrow hest hbytes h
  refine ⟨s', h, ?_⟩
  intro y x hy hx
  obtain ⟨_, rfit, _⟩ := row_size_fits hbpp3 hw hrow
  have hrs0 : 0 < (row_size_of b.width b.bpp).toNat := by
    rcases hbpp with hb24 | hb32
    · have := rfit.2.1 hb24; omega
    · have := rfit.2.2 hb32; omega
  -- the stored row and the colour of the pixel
  have hk : (b.height.toNat - 1 - y + 1) * (row_size_of b.width b.bpp).toNat ≤
      b.height.toNat * (row_size_of b.width b.bpp).toNat :=
    Nat.mul_le_mul_right _ (by omega)
  have hrowk := nth_row_readable ⟨data, b.data_offset.toNat⟩ (row_size_of b.width b.bpp).toNat
    (b.height.toNat - 1 - y) (by show b.data_offset.toNat + _ ≤ data.length; omega)
  have hstream : nth_row (fseek_set (bmp_stream data) b.data_offset)
      (row_size_of b.width b.bpp).toNat (b.height.toNat - 1 - y) =
      nth_row ⟨data, b.data_offset.toNat⟩ (row_size_of b.width b.bpp).toNat
        (b.height.toNat - 1 - y) := by
    apply nth_row_congr
    · rw [fseek_set_data]; rfl
    · unfold fseek_set
      rw [if_neg (by omega)]
  have hmem := pixel_mem_scanned b.bpp b.width.toNat (row_size_of b.width b.bpp).toNat
    b.height.toNat (fseek_set (bmp_stream data) b.data_offset) hrs0
    (b.height.toNat - 1 - y) x (by omega) hx
  rw [hstream] at hmem
  have hcb := pixel_at_bytes b.bpp (nth_row ⟨data, b.data_offset.toNat⟩
    (row_size_of b.width b.bpp).toNat (b.height.toNat - 1 - y)) x
    (nth_row_bytes _ _ _ hbytes)
  -- the palette
  have hfc : first_colors b.bpp b.width b.height b.data_offset (bmp_stream data) =
      first_distinct (scanned_colors b.bpp b.width.toNat (row_size_of b.width b.bpp).toNat
        b.height.toNat (fseek_set (bmp_stream data) b.data_offset)) := by
    unfold first_colors
    exact List.take_of_length_le hcol
  have hpal2 : s'.lbmpalette =
      palette_bytes (first_colors b.bpp b.width b.height b.data_offset (bmp_stream data)) ++
        List.replicate (3 * (256 - (first_colors b.bpp b.width b.height b.data_offset
          (bmp_stream data)).length)) 0 := by
    rw [hpal]; rfl
  have hfd : ∀ x ∈ (fseek_set (bmp_stream data) b.data_offset).data, x < 256 := by
    rw [fseek_set_data]; exact hbytes
  have hpb : ∀ v ∈ s'.lbmpalette, v < 256 := by
    rw [hpal2, hfc]
    intro v hv
    rw [List.mem_append] at hv
    rcases hv with hv | hv
    · refine palette_bytes_lt _ ?_ v hv
      intro d hd
      exact scanned_colors_bytes _ _ _ _ _ hfd d ((mem_first_distinct _ d).mp hd)
    · rw [List.mem_replicate] at hv
      omega
  have hmem2 := (mem_first_distinct _ _).mpr hmem
  rw [← hfc] at hmem2
  obtain ⟨i, hi⟩ := List.getElem?_of_mem hmem2
  have hnd : (first_colors b.bpp b.width b.height b.data_offset (bmp_stream data)).Nodup := by
    rw [hfc]; exact first_distinct_nodup _
  have hl256 : (first_colors b.bpp b.width b.height b.data_offset
      (bmp_stream data)).length ≤ 256 := by
    rw [hfc]; exact hcol
  have hil : i < (first_colors b.bpp b.width b.height b.data_offset
      (bmp_stream data)).length := by
    by_contra hn
    rw [List.getElem?_eq_none (by omega)] at hi
    exact Option.noConfusion hi
  rw [hpal2] at hpb
  have hnear := nearest_exact _ _ i _ hnd hpb hcb hl256 hi
  rw [← hpal2] at hnear
  have hval : s'.byteimage.getD (y * b.width.toNat + x) 0 = i := by
    rw [e4 y x hy hx]
    unfold pixel_value
    rw [if_neg h8, hnear]
    omega
  obtain ⟨p0, p1, p2⟩ := palette_entry _ (List.replicate (3 * (256 -
    (first_colors b.bpp b.width b.height b.data_offset (bmp_stream data)).length)) 0) i _ hi
  rw [← hpal2] at p0 p1 p2
  rw [hval, ← hrowk]
  exact ⟨hi, by rw [p0, p1, p2]⟩


/-! ## The row stride -/

/-- C25: for a width `W > 0` and a depth of 8, 24 or 32 bits such that `W * bpp + 31` fits
an `int`, the row stride `load_bmp` computes is `((W * bpp + 31) div 32) * 4`, a multiple
of 4 with `W * bpp <= 8 * row_size`; every index the passes over a row read for a pixel
`0 <= x < W` (`x` at 8 bits, `3x .. 3x + 2` at 24, `4x .. 4x + 2` at 32) is below it, and
on a row buffer of that length the reads of the model complete with the bytes at those
indices. -/
theorem C25_row_stride_holds_row (width bpp : Int) (hbpp : bpp = 8 ∨ bpp = 24 ∨ bpp = 32)
    (hw : 0 < width) (hrow : width * bpp + 31 < 2147483648) :
    row_size_of width bpp = (width * bpp + 31) / 32 * 4 ∧
    4 ∣ row_size_of width bpp ∧
    width * bpp ≤ 8 * row_size_of width bpp ∧
    (∀ x : Int, 0 ≤ x → x < width →
      (bpp = 8 → x < row_size_of width bpp) ∧
      (bpp = 24 → 3 * x + 2 < row_size_of width bpp) ∧
      (bpp = 32 → 4 * x + 2 < row_size_of width bpp)) ∧
    (∀ (row : List Nat) (x : Nat), (row.length : Int) = row_size_of width bpp →
      (x : Int) < width →
      (bpp = 8 → peek row (x : Int) = .ok (row.getD x 0)) ∧
      (bpp = 24 ∨ bpp = 32 → pixel_rgb bpp row (x : Int) = .ok (pixel_at bpp row x))) := by
  have e := row_size_of_exact width bpp
    (by rcases hbpp with hb | hb | hb <;> subst hb <;> omega) hrow
  have hidx : ∀ x : Int, 0 ≤ x → x < width →
      (bpp = 8 → x < row_size_of width bpp) ∧
      (bpp = 24 → 3 * x + 2 < row_size_of width bpp) ∧
      (bpp = 32 → 4 * x + 2 < row_size_of width bpp) := by
    intro x hx0 hx
    rw [e]
    refine ⟨fun hb => ?_, fun hb => ?_, fun hb => ?_⟩ <;> subst hb <;> omega
  refine ⟨e, ⟨(width * bpp + 31) / 32, by rw [e]; ring⟩, ?_, hidx, ?_⟩
  · rw [e]
    rcases hbpp with hb | hb | hb <;> subst hb <;> omega
  · intro row x hlen hx
    obtain ⟨i8, i24, i32⟩ := hidx (x : Int) (by omega) hx
    refine ⟨fun hb => ?_, fun hb => ?_⟩
    · have := i8 hb
      have e2 : ((x : Int)).toNat = x := by omega
      rw [peek_in (by omega) (by omega), e2]
    · have h4 : 4 * (x : Int) + 4 < 2147483648 := by
        rcases hb with hb | hb <;> subst hb <;> omega
      apply pixel_rgb_total hb h4
      refine ⟨fun h8 => ?_, fun h24 => ?_, fun h32 => ?_⟩
      · exfalso; rcases hb with hb | hb <;> rw [hb] at h8 <;> exact absurd h8 (by decide)
      · have := i24 h24; omega
      · have := i32 h32; omega


/-! ## The error `No frames` -/

theorem get_token_noframes (crossline : Bool) (p tok : List Nat) :
    NoFramesErr (get_token crossline p tok) := by
  unfold NoFramesErr get_token
  split
  · simp
  · simp
  · split
    · split <;> simp
    · simp

theorem bind_noframes {α β : Type} {x : Except Err α} {f : α → Except Err β}
    (hx : NoFramesErr x) (hf : ∀ a, x = .ok a → NoFramesErr (f a)) : NoFramesErr (x >>= f) := by
  cases x with
  | error e =>
    unfold NoFramesErr at hx ⊢
    simpa [bind, Except.bind] using hx
  | ok a => exact hf a rfl

theorem next_token_noframes {fl : CFloat} (crossline : Bool) (s : State fl) :
    NoFramesErr (next_token crossline s) := by
  unfold next_token
  exact bind_noframes (get_token_noframes _ _ _) (fun a _ => by simp [NoFramesErr, pure, Except.pure])

theorem noframes_ok {α : Type} (a : α) : NoFramesErr (Except.ok a : Except Err α) := by
  simp [NoFramesErr]

theorem noframes_ite {α : Type} {c : Prop} [Decidable c] {a b : Except Err α}
    (ha : NoFramesErr a) (hb : NoFramesErr b) : NoFramesErr (if c then a else b) := by
  split
  · exact ha
  · exact hb

theorem noframes_ite_neg {α : Type} {c : Prop} [Decidable c] {a b : Except Err α}
    (ha : NoFramesErr a) (hb : ¬ c → NoFramesErr b) : NoFramesErr (if c then a else b) := by
  split
  · exact ha
  · rename_i h
    exact hb h

theorem peek_noframes (a : List Nat) (i : Int) : NoFramesErr (peek a i) := by
  unfold peek; split <;> simp [NoFramesErr]

theorem put_noframes (a : List Nat) (i : Int) (v : Nat) : NoFramesErr (put a i v) := by
  unfold put; split <;> simp [NoFramesErr]

theorem set_frame_noframes {fl : CFloat} (s : State fl) (idx : Int)
    (g : spritepackage_t fl → spritepackage_t fl) : NoFramesErr (set_frame s idx g) := by
  unfold set_frame
  split
  · simp [NoFramesErr]
  · split <;> simp [NoFramesErr]

theorem frame_desc_noframes {fl : CFloat} (s : State fl) (idx : Int) :
    NoFramesErr (frame_desc s idx) := by
  unfold frame_desc
  split
  · simp [NoFramesErr]
  · split <;> simp [NoFramesErr]

theorem poke_noframes {fl : CFloat} (s : State fl) (addr : Int) (bs : List Nat) :
    NoFramesErr (poke s addr bs) := by
  unfold poke
  simp only
  split <;> simp [NoFramesErr]

theorem peek_bytes_noframes {fl : CFloat} (s : State fl) (addr : Int) (n : Nat) :
    NoFramesErr (peek_bytes s addr n) := by
  unfold peek_bytes
  simp only
  split <;> simp [NoFramesErr]

theorem peek_int_noframes {fl : CFloat} (s : State fl) (addr : Int) :
    NoFramesErr (peek_int s addr) := by
  unfold peek_int
  exact bind_noframes (peek_bytes_noframes _ _ _) (fun _ _ => noframes_ok _)

theorem ensure_frame_capacity_noframes {fl : CFloat} (env : Env fl) (s : State fl) :
    NoFramesErr (ensure_frame_capacity env s) := by
  unfold ensure_frame_capacity
  split
  · simp only
    split <;> simp [NoFramesErr]
  · simp [NoFramesErr]

theorem ensure_buffer_capacity_noframes {fl : CFloat} (env : Env fl) (s : State fl)
    (needed : Int) : NoFramesErr (ensure_buffer_capacity env s needed) := by
  unfold ensure_buffer_capacity
  split
  · simp only
    split <;> simp [NoFramesErr]
  · simp [NoFramesErr]

theorem copy_row_noframes {fl : CFloat} (source : Int) :
    ∀ (n : Nat) (x : Int) (s : State fl), NoFramesErr (copy_row source n x s) := by
  intro n
  induction n with
  | zero => intro x s; simp [copy_row, NoFramesErr]
  | succ n ih =>
    intro x s
    simp only [copy_row]
    exact bind_noframes (peek_noframes _ _) (fun _ _ =>
      bind_noframes (poke_noframes _ _ _) (fun _ _ => ih _ _))

theorem copy_rows_noframes {fl : CFloat} (w : Nat) :
    ∀ (n : Nat) (source : Int) (s : State fl), NoFramesErr (copy_rows w n source s) := by
  intro n
  induction n with
  | zero => intro x s; simp [copy_rows, NoFramesErr]
  | succ n ih =>
    intro x s
    simp only [copy_rows]
    exact bind_noframes (copy_row_noframes _ _ _ _) (fun _ _ => ih _ _)

theorem frame_rect_noframes {fl : CFloat} (s : State fl) : NoFramesErr (frame_rect s) := by
  unfold frame_rect
  exact bind_noframes (next_token_noframes _ _) (fun _ _ =>
    bind_noframes (next_token_noframes _ _) (fun _ _ =>
      bind_noframes (next_token_noframes _ _) (fun _ _ =>
        bind_noframes (next_token_noframes _ _) (fun _ _ => noframes_ok _))))

theorem frame_alloc_noframes {fl : CFloat} (env : Env fl) (s : State fl) (r : Rect) :
    NoFramesErr (frame_alloc env s r) := by
  unfold frame_alloc
  exact bind_noframes (ensure_frame_capacity_noframes _ _) (fun _ _ =>
    bind_noframes (set_frame_noframes _ _ _) (fun _ _ => ensure_buffer_capacity_noframes _ _ _))

theorem frame_interval_noframes {fl : CFloat} (s : State fl) : NoFramesErr (frame_interval s) := by
  unfold frame_interval
  exact bind_noframes (next_token_noframes _ _) (fun _ _ =>
    bind_noframes (set_frame_noframes _ _ _) (fun _ _ =>
      noframes_ite (by simp [NoFramesErr]) (noframes_ok _)))

theorem frame_origin_noframes {fl : CFloat} (s : State fl) (r : Rect) :
    NoFramesErr (frame_origin s r) := by
  unfold frame_origin
  exact bind_noframes (next_token_noframes _ _) (fun _ _ =>
    bind_noframes (noframes_ite (next_token_noframes _ _) (noframes_ok _)) (fun _ _ => noframes_ok _))

theorem frame_store_noframes {fl : CFloat} (s : State fl) (r : Rect) (pframe : Int)
    (hd : dspriteframe_t) : NoFramesErr (frame_store s r pframe hd) := by
  unfold frame_store
  exact bind_noframes (poke_noframes _ _ _) (fun _ _ =>
    bind_noframes (poke_noframes _ _ _) (fun _ _ =>
      bind_noframes (poke_noframes _ _ _) (fun _ _ =>
        bind_noframes (poke_noframes _ _ _) (fun _ _ =>
          bind_noframes (copy_rows_noframes _ _ _ _) (fun _ _ =>
            bind_noframes (set_frame_noframes _ _ _) (fun _ _ => noframes_ok _))))))

theorem grab_frame_noframes {fl : CFloat} (env : Env fl) (s : State fl) :
    NoFramesErr (grab_frame env s) := by
  unfold grab_frame
  exact bind_noframes (frame_rect_noframes _) (fun _ _ =>
    noframes_ite (by simp [NoFramesErr])
      (bind_noframes (frame_alloc_noframes _ _ _) (fun _ _ =>
        bind_noframes (frame_interval_noframes _) (fun _ _ =>
          bind_noframes (frame_origin_noframes _ _) (fun _ _ => frame_store_noframes _ _ _ _)))))

theorem load_color_table_noframes :
    ∀ (n : Nat) (i : Int) (f : FILE), NoFramesErr (load_color_table n i f) := by
  intro n
  induction n with
  | zero => intro i f; simp [load_color_table, NoFramesErr]
  | succ n ih =>
    intro i f
    simp only [load_color_table]
    exact noframes_ite (bind_noframes (ih _ _) (fun _ _ => noframes_ok _)) (by simp [NoFramesErr])

theorem zero_fill_noframes : ∀ (n : Nat) (i : Int), NoFramesErr (zero_fill n i) := by
  intro n
  induction n with
  | zero => intro i; simp [zero_fill, NoFramesErr]
  | succ n ih =>
    intro i
    simp only [zero_fill]
    exact noframes_ite (bind_noframes (ih _) (fun _ _ => noframes_ok _)) (by simp [NoFramesErr])

theorem pixel_rgb_noframes (bpp : Int) (row : List Nat) (x : Int) :
    NoFramesErr (pixel_rgb bpp row x) := by
  unfold pixel_rgb
  exact noframes_ite
    (bind_noframes (peek_noframes _ _) (fun _ _ => bind_noframes (peek_noframes _ _) (fun _ _ =>
      bind_noframes (peek_noframes _ _) (fun _ _ => noframes_ok _))))
    (noframes_ite
      (bind_noframes (peek_noframes _ _) (fun _ _ => bind_noframes (peek_noframes _ _) (fun _ _ =>
        bind_noframes (peek_noframes _ _) (fun _ _ => noframes_ok _))))
      (noframes_ok _))

theorem collect_row_noframes (bpp : Int) (row : List Nat) :
    ∀ (n : Nat) (x : Int) (u : List Color), NoFramesErr (collect_row bpp row n x u) := by
  intro n
  induction n with
  | zero => intro x u; simp [collect_row, NoFramesErr]
  | succ n ih =>
    intro x u
    simp only [collect_row]
    exact noframes_ite (bind_noframes (pixel_rgb_noframes _ _ _) (fun _ _ => ih _ _)) (noframes_ok _)

theorem collect_rows_noframes (bpp width : Int) (row_size : Nat) :
    ∀ (n : Nat) (f : FILE) (u : List Color),
      NoFramesErr (collect_rows bpp width row_size n f u) := by
  intro n
  induction n with
  | zero => intro f u; simp [collect_rows, NoFramesErr]
  | succ n ih =>
    intro f u
    simp only [collect_rows]
    exact noframes_ite (bind_noframes (collect_row_noframes _ _ _ _ _) (fun _ _ => ih _ _))
      (noframes_ok _)

theorem decode_row_noframes (bpp : Int) (pal row : List Nat) (width y : Int) :
    ∀ (n : Nat) (x : Int) (img : List Nat),
      NoFramesErr (decode_row bpp pal row width y n x img) := by
  intro n
  induction n with
  | zero => intro x img; simp [decode_row, NoFramesErr]
  | succ n ih =>
    intro x img
    simp only [decode_row]
    exact noframes_ite
      (bind_noframes (peek_noframes _ _) (fun _ _ =>
        bind_noframes (put_noframes _ _ _) (fun _ _ => ih _ _)))
      (noframes_ite
        (bind_noframes (pixel_rgb_noframes _ _ _) (fun _ _ =>
          bind_noframes (put_noframes _ _ _) (fun _ _ => ih _ _)))
        (ih _ _))

theorem decode_rows_noframes (bpp : Int) (pal : List Nat) (width : Int) (row_size : Nat) :
    ∀ (n : Nat) (y : Int) (f : FILE) (img : List Nat),
      NoFramesErr (decode_rows bpp pal width row_size n y f img) := by
  intro n
  induction n with
  | zero => intro y f img; simp [decode_rows, NoFramesErr]
  | succ n ih =>
    intro y f img
    simp only [decode_rows]
    exact bind_noframes (decode_row_noframes _ _ _ _ _ _ _ _) (fun _ _ => ih _ _ _)

theorem bmp_palette_noframes (established : Bool) (original_palette : List Nat) (f : FILE)
    (width height bpp data_offset colors_used : Int) :
    NoFramesErr (bmp_palette established original_palette f width height bpp data_offset
      colors_used) := by
  unfold bmp_palette
  exact noframes_ite
    (bind_noframes (load_color_table_noframes _ _ _) (fun _ _ =>
      bind_noframes (zero_fill_noframes _ _) (fun _ _ => noframes_ite (noframes_ok _) (noframes_ok _))))
    (noframes_ite
      (noframes_ite (by simp [NoFramesErr])
        (bind_noframes (collect_rows_noframes _ _ _ _ _ _) (fun _ _ =>
          bind_noframes (zero_fill_noframes _ _) (fun _ _ => noframes_ok _))))
      (noframes_ok _))

theorem load_bmp_body_noframes {fl : CFloat} (env : Env fl) (s : State fl) (f : FILE)
    (b : BmpInfo) : NoFramesErr (load_bmp_body env s f b) := by
  unfold load_bmp_body
  exact bind_noframes (bmp_palette_noframes _ _ _ _ _ _ _ _) (fun _ _ =>
    noframes_ite (by simp [NoFramesErr]) (noframes_ite (by simp [NoFramesErr])
      (bind_noframes (decode_rows_noframes _ _ _ _ _ _ _ _) (fun _ _ => noframes_ok _))))

theorem load_bmp_noframes {fl : CFloat} (env : Env fl) (s : State fl) (filename : List Nat) :
    NoFramesErr (load_bmp env s filename) := by
  unfold load_bmp
  split
  · simp [NoFramesErr]
  · exact noframes_ite (by simp [NoFramesErr]) (noframes_ite (by simp [NoFramesErr])
      (noframes_ite (by simp [NoFramesErr]) (load_bmp_body_noframes _ _ _ _)))

theorem do_load_noframes {fl : CFloat} (env : Env fl) (s : State fl) :
    NoFramesErr (do_load env s) := by
  unfold do_load
  exact bind_noframes (next_token_noframes _ _) (fun _ _ => load_bmp_noframes _ _ _)

theorem set_type_noframes {fl : CFloat} (s : State fl) : NoFramesErr (set_type s) := by
  unfold set_type
  exact bind_noframes (next_token_noframes _ _) (fun _ _ =>
    noframes_ite (noframes_ok _) (noframes_ite (noframes_ok _) (noframes_ite (noframes_ok _)
      (noframes_ite (noframes_ok _) (noframes_ite (noframes_ok _) (by simp [NoFramesErr]))))))

theorem set_texture_noframes {fl : CFloat} (s : State fl) : NoFramesErr (set_texture s) := by
  unfold set_texture
  exact bind_noframes (next_token_noframes _ _) (fun _ _ =>
    noframes_ite (noframes_ok _) (noframes_ite (noframes_ok _) (noframes_ite (noframes_ok _)
      (noframes_ite (noframes_ok _) (by simp [NoFramesErr])))))

theorem set_beamlength_noframes {fl : CFloat} (s : State fl) : NoFramesErr (set_beamlength s) := by
  unfold set_beamlength
  exact bind_noframes (next_token_noframes _ _) (fun _ _ => noframes_ok _)

theorem spritename_noframes {fl : CFloat} (s : State fl) : NoFramesErr (spritename s) := by
  unfold spritename
  refine bind_noframes (next_token_noframes _ _) (fun t _ => ?_)
  split
  · exact noframes_ite (by simp [NoFramesErr]) (noframes_ok _)
  · exact noframes_ok _

theorem write_single_noframes {fl : CFloat} (s : State fl) (pdata : Int) :
    NoFramesErr (write_single s pdata) := by
  unfold write_single
  exact bind_noframes (peek_int_noframes _ _) (fun _ _ =>
    bind_noframes (peek_int_noframes _ _) (fun _ _ =>
      bind_noframes (peek_int_noframes _ _) (fun _ _ =>
        bind_noframes (peek_int_noframes _ _) (fun _ _ =>
          noframes_ite (by simp [NoFramesErr])
            (bind_noframes (peek_bytes_noframes _ _ _) (fun _ _ => noframes_ok _))))))

theorem error_ne_noframes {α : Type} {x : Except Err α} {e : Err} (hx : NoFramesErr x)
    (h : x = .error e) : some e ≠ some Err.no_frames := by
  intro he
  simp only [Option.some.injEq] at he
  rw [he] at h
  exact hx h

theorem write_intervals_status_noframes {fl : CFloat} (s : State fl) (groupframe : Int) :
    ∀ (n : Nat) (j : Int) (tot : fl.F) (w : Written fl),
      w.status ≠ some Err.no_frames →
      (write_intervals s groupframe n j tot w).status ≠ some Err.no_frames := by
  intro n
  induction n with
  | zero => intro j tot w hw; simpa [write_intervals] using hw
  | succ n ih =>
    intro j tot w hw
    simp only [write_intervals]
    split
    · rename_i e he
      exact error_ne_noframes (frame_desc_noframes _ _) he
    · exact ih _ _ _ hw

theorem write_group_frames_status_noframes {fl : CFloat} (s : State fl) :
    ∀ (n : Nat) (c : Int) (w : Written fl),
      w.status ≠ some Err.no_frames →
      (write_group_frames s n c w).status ≠ some Err.no_frames := by
  intro n
  induction n with
  | zero => intro c w hw; simpa [write_group_frames] using hw
  | succ n ih =>
    intro c w hw
    simp only [write_group_frames]
    split
    · rename_i e he
      exact error_ne_noframes (frame_desc_noframes _ _) he
    · split
      · rename_i e he
        exact error_ne_noframes (write_single_noframes _ _) he
      · exact ih _ _ hw

theorem write_group_status_noframes {fl : CFloat} (s : State fl) (g : Int) (d : spritepackage_t fl)
    (w : Written fl) (hw : w.status ≠ some Err.no_frames) :
    (write_group s g d w).status ≠ some Err.no_frames := by
  unfold write_group
  simp only
  split
  · exact write_intervals_status_noframes _ _ _ _ _ _ hw
  · exact write_group_frames_status_noframes _ _ _ _ (write_intervals_status_noframes _ _ _ _ _ _ hw)

theorem write_frames_status_noframes {fl : CFloat} (s : State fl) :
    ∀ (n : Nat) (c : Int) (w : Written fl),
      w.status ≠ some Err.no_frames →
      (write_frames s n c w).status ≠ some Err.no_frames := by
  intro n
  induction n with
  | zero => intro c w hw; simpa [write_frames] using hw
  | succ n ih =>
    intro c w hw
    simp only [write_frames]
    split
    · rename_i e he
      exact error_ne_noframes (frame_desc_noframes _ _) he
    · split
      · split
        · rename_i e he
          exact error_ne_noframes (write_single_noframes _ _) he
        · exact ih _ _ hw
      · split
        · exact write_group_status_noframes _ _ _ _ hw
        · exact ih _ _ (write_group_status_noframes _ _ _ _ hw)

theorem serialize_status_noframes {fl : CFloat} (s : State fl) :
    (serialize s).status ≠ some Err.no_frames := by
  unfold serialize
  apply write_frames_status_noframes
  unfold write_palette
  split
  · split <;> simp
  · simp

theorem do_frame_noframes {fl : CFloat} (env : Env fl) (s : State fl) :
    NoFramesErr (do_frame env s) := by
  unfold do_frame
  exact bind_noframes (grab_frame_noframes _ _) (fun _ _ => noframes_ok _)

theorem group_frame_noframes {fl : CFloat} (env : Env fl) (g : Int) (s : State fl) :
    NoFramesErr (group_frame env g s) := by
  unfold group_frame
  exact bind_noframes (grab_frame_noframes _ _) (fun _ _ => set_frame_noframes _ _ _)

theorem finish_sprite_noframes {fl : CFloat} (env : Env fl) (s : State fl)
    (h : s.framecount ≠ 0) : NoFramesErr (finish_sprite env s) := by
  unfold finish_sprite
  rw [if_neg h]
  simp only
  split
  · simp [NoFramesErr]
  · refine noframes_ite (by simp [NoFramesErr]) ?_
    split
    · rename_i e he
      have := serialize_status_noframes (finish_fields s)
      unfold NoFramesErr
      intro h
      simp only [Except.error.injEq] at h
      rw [he, h] at this
      exact this rfl
    · exact noframes_ok _

theorem do_spritename_noframes {fl : CFloat} (env : Env fl) (s : State fl) :
    NoFramesErr (do_spritename env s) := by
  unfold do_spritename
  refine bind_noframes ?_ (fun _ _ => spritename_noframes _)
  split
  · rename_i hc
    exact finish_sprite_noframes env s (by omega)
  · exact noframes_ok _

theorem parse_group_noframes {fl : CFloat} (env : Env fl) (g : Int) :
    ∀ (n : Nat) (s : State fl), NoFramesErr (parse_group env g n s) := by
  intro n
  induction n with
  | zero => intro s; simp [parse_group, NoFramesErr]
  | succ n ih =>
    intro s
    simp only [parse_group]
    refine bind_noframes (next_token_noframes _ _) (fun t _ => ?_)
    refine noframes_ite (noframes_ok _) (noframes_ite ?_ (noframes_ite ?_
      (noframes_ite (noframes_ok _) (by simp [NoFramesErr]))))
    · exact bind_noframes (group_frame_noframes _ _ _) (fun s2 _ => ih s2)
    · exact bind_noframes (do_load_noframes _ _) (fun s2 _ => ih s2)

theorem do_group_noframes {fl : CFloat} (env : Env fl) (fuel : Nat) (s : State fl) :
    NoFramesErr (do_group env fuel s) := by
  unfold do_group
  refine bind_noframes (set_frame_noframes _ _ _) (fun s2 _ => ?_)
  refine bind_noframes (parse_group_noframes env _ fuel s2) (fun _ _ => ?_)
  exact bind_noframes (frame_desc_noframes _ _) (fun _ _ =>
    noframes_ite (by simp [NoFramesErr]) (noframes_ok _))

theorem directive_noframes {fl : CFloat} (env : Env fl) (fuel : Nat) (s : State fl) :
    NoFramesErr (directive env fuel s) := by
  unfold directive
  split
  · exact do_spritename_noframes _ _
  split
  · exact set_type_noframes _
  split
  · exact set_texture_noframes _
  split
  · exact set_beamlength_noframes _
  split
  · exact noframes_ok _
  split
  · exact do_load_noframes _ _
  split
  · exact do_frame_noframes _ _
  split
  · exact do_group_noframes env fuel s
  · simp [NoFramesErr]

theorem parse_script_noframes {fl : CFloat} (env : Env fl) :
    ∀ (n : Nat) (s : State fl), NoFramesErr (parse_script env n s) := by
  intro n
  induction n with
  | zero => intro s; simp [parse_script, NoFramesErr]
  | succ n ih =>
    intro s
    simp only [parse_script]
    refine bind_noframes (next_token_noframes _ _) (fun t _ => ?_)
    refine noframes_ite (noframes_ok _) ?_
    exact bind_noframes (directive_noframes env (n + 1) t.2) (fun s1 _ => ih s1)

/-- A directive other than `$spritename`, `$frame` and `$groupstart` records no frame and
writes no file. -/
theorem directive_keeps_count {fl : CFloat} {env : Env fl} {fuel : Nat} {s s' : State fl}
    (h : directive env fuel s = .ok s') (hn : cstr s.token ≠ tok_spritename)
    (hf : cstr s.token ≠ tok_frame) (hg : cstr s.token ≠ tok_groupstart) :
    s'.framecount = s.framecount ∧ s'.files = s.files := by
  unfold directive at h
  rw [if_neg hn] at h
  split at h
  · obtain ⟨p, t, sp, e⟩ := set_type_ok h
    rw [e]; exact ⟨rfl, rfl⟩
  split at h
  · obtain ⟨p, t, sp, e⟩ := set_texture_ok h
    rw [e]; exact ⟨rfl, rfl⟩
  split at h
  · obtain ⟨p, t, sp, e⟩ := set_beamlength_ok h
    rw [e]; exact ⟨rfl, rfl⟩
  split at h
  · simp only [pure, Except.pure, Except.ok.injEq] at h
    rw [← h]; exact ⟨rfl, rfl⟩
  split at h
  · obtain ⟨p, t, w, ht, pal, img, _, _, e⟩ := do_load_ok h
    rw [e]; exact ⟨rfl, rfl⟩
  simp at h

/-- C26: the error `No frames` never ends a run, because both calls of `finish_sprite`
(at a `$spritename` and at the end of the script) are made only when `framecount > 0`,
where its test `framecount == 0` fails.  With no frame counted, the `$spritename` branch
is the name change alone and the end of the script returns the state as it is: no file is
written and no error raised; a `$spritename` that completes leaves the count at 0 and the
files as they are, and the directives other than `$spritename`, `$frame` and
`$groupstart` change neither. -/
theorem C26_no_frames_unreachable {fl : CFloat} (env : Env fl) (buffer_size : Int)
    (cli_output_name : Option (List Nat)) (do16bit : Bool) (filename : List Nat) :
    main_with env buffer_size cli_output_name do16bit filename ≠ .error Err.no_frames ∧
    (∀ s : State fl, s.framecount > 0 → finish_sprite env s ≠ .error Err.no_frames) ∧
    (∀ s : State fl, ¬ s.framecount > 0 → do_spritename env s = spritename s) ∧
    (∀ s s' : State fl, spritename s = .ok s' → s'.files = s.files ∧ s'.framecount = 0) ∧
    (∀ (fuel : Nat) (s s' : State fl), directive env fuel s = .ok s' →
      cstr s.token ≠ tok_spritename → cstr s.token ≠ tok_frame →
      cstr s.token ≠ tok_groupstart →
      s'.framecount = s.framecount ∧ s'.files = s.files) ∧
    (∀ (script : List Nat) (s : State fl), env.fs (cstr filename) = some script →
      parse_script env (script.length + 1)
        (init_state env buffer_size cli_output_name do16bit filename script) = .ok s →
      ¬ s.framecount > 0 →
      main_with env buffer_size cli_output_name do16bit filename = .ok s) := by
  refine ⟨?_, ?_, ?_, ?_, ?_, ?_⟩
  · show NoFramesErr _
    unfold main_with
    split
    · simp [NoFramesErr]
    · refine bind_noframes (parse_script_noframes env _ _) (fun s _ => ?_)
      split
      · rename_i hc
        exact finish_sprite_noframes env s (by omega)
      · exact noframes_ok _
  · intro s hs
    exact finish_sprite_noframes env s (by omega)
  · intro s hs
    unfold do_spritename
    rw [if_neg hs]
    rfl
  · intro s s' h
    obtain ⟨p, t, name, c, e⟩ := spritename_ok h
    rw [e]
    exact ⟨rfl, rfl⟩
  · intro fuel s s' h hn hf hg
    exact directive_keeps_count h hn hf hg
  · intro script s hfs hp hs
    unfold main_with
    rw [hfs]
    simp only
    rw [hp]
    simp only [bind, Except.bind]
    rw [if_neg hs]
    rfl


/-- For a 24- or 32-bit bitmap made of bytes, decoded by `load_bmp` with no palette
established, the palette produced is `collected_palette`: the first
`k = min 256 (number of distinct colours)` distinct colours met when scanning the rows in
file order and the pixels left to right, followed by zero bytes up to 256 entries;
`original_palette` is set to the same table; and the index computed for any pixel colour
is an entry of that table at least as near as every other (so with more than 256 colours
a pixel of a colour not kept maps to its nearest kept colour).  The header passed the
checks of `load_bmp` and the row stride was computed without overflow. -/
theorem load_bmp_first_distinct {fl : CFloat} (env : Env fl) (s s' : State fl)
    (filename data : List Nat)
    (hfs : env.fs (bmp_path s.spritedir filename) = some data)
    (hest : s.palette_established = false)
    (hbpp : (bmp_info (read_header data)).bpp = 24 ∨ (bmp_info (read_header data)).bpp = 32)
    (hbytes : ∀ x ∈ data, x < 256)
    (h : load_bmp env s filename = .ok s') :
    s'.lbmpalette = collected_palette (bmp_info (read_header data)).bpp
      (bmp_info (read_header data)).width (bmp_info (read_header data)).height
      (bmp_info (read_header data)).data_offset (bmp_stream data) ∧
    s'.original_palette = s'.lbmpalette ∧
    (first_colors (bmp_info (read_header data)).bpp (bmp_info (read_header data)).width
      (bmp_info (read_header data)).height (bmp_info (read_header data)).data_offset
      (bmp_stream data)).length =
      min 256 (first_distinct (scanned_colors (bmp_info (read_header data)).bpp
        (bmp_info (read_header data)).width.toNat
        (row_size_of (bmp_info (read_header data)).width
          (bmp_info (read_header data)).bpp).toNat
        (bmp_info (read_header data)).height.toNat
        (fseek_set (bmp_stream data) (bmp_info (read_header data)).data_offset))).length ∧
    (∀ r g b : Nat, r < 256 → g < 256 → b < 256 →
      ∃ i : Nat, nearest s'.lbmpalette r g b = (i : Int) ∧ i < 256 ∧
        ∀ j, j < 256 → sqdist s'.lbmpalette r g b i ≤ sqdist s'.lbmpalette r g b j) ∧
    ((read_header data).length = 54 ∧ (read_header data).getD 0 0 = 66 ∧
      (read_header data).getD 1 0 = 77 ∧ 0 < (bmp_info (read_header data)).width ∧
      0 < (bmp_info (read_header data)).height ∧
      (bmp_info (read_header data)).width * (bmp_info (read_header data)).bpp + 31 <
        2147483648) := by
  unfold load_bmp at h
  rw [hfs] at h
  simp only at h
  split at h
  · simp at h
  · rename_i hlen
    split at h
    · simp at h
    · rename_i hsig
      split at h
      · simp at h
      · rename_i hdim
        unfold load_bmp_body at h
        obtain ⟨p, hp, h2⟩ := bind_ok h
        rw [hest] at hp
        split at h2
        · simp at h2
        · rename_i hrs
          split at h2
          · simp at h2
          · obtain ⟨img, himg, h3⟩ := bind_ok h2
            simp only [pure, Except.pure, Except.ok.injEq] at h3
            have hstream : ∀ x ∈ (bmp_stream data).data, x < 256 := hbytes
            have hw2 : (bmp_info (read_header data)).width < 2147483648 :=
              (wrap32_range _).2
            have hov := decode_rows_no_overflow hbpp (by omega) hw2 (by omega) (by omega) himg
            obtain ⟨e1, e2, e3, e4⟩ :=
              bmp_palette_first_distinct _ _ _ _ _ _ _ p hbpp hov hstream hp
            rw [← h3]
            push_neg at hlen hsig hdim
            exact ⟨e1, e2, e3, e4, hlen, hsig.1, hsig.2, hdim.1, hdim.2, hov⟩

/-- The index stored for each pixel of a decoded true-colour image: an entry of the
palette at least as near to the pixel's colour in the file as every other entry, and the
pixel's own entry when its colour is one of the kept colours. -/
theorem load_bmp_pixel_index {fl : CFloat} (env : Env fl) (s s' : State fl)
    (filename data : List Nat)
    (hfs : env.fs (bmp_path s.spritedir filename) = some data)
    (hest : s.palette_established = false)
    (hbpp : (bmp_info (read_header data)).bpp = 24 ∨ (bmp_info (read_header data)).bpp = 32)
    (hbytes : ∀ x ∈ data, x < 256)
    (h : load_bmp env s filename = .ok s')
    (hoff : 0 ≤ (bmp_info (read_header data)).data_offset)
    (hsize : (bmp_info (read_header data)).width * (bmp_info (read_header data)).height <
      2147483648) :
    s'.byteimagewidth = (bmp_info (read_header data)).width ∧
    s'.byteimageheight = (bmp_info (read_header data)).height ∧
    s'.byteimage.length = (bmp_info (read_header data)).width.toNat *
      (bmp_info (read_header data)).height.toNat ∧
    ∀ y x : Nat, y < (bmp_info (read_header data)).height.toNat →
      x < (bmp_info (read_header data)).width.toNat →
      ∃ i : Nat,
        s'.byteimage.getD (y * (bmp_info (read_header data)).width.toNat + x) 0 = i ∧
        i < 256 ∧
        (∀ j, j < 256 →
          sqdist s'.lbmpalette (file_pixel data (bmp_info (read_header data)) y x).1
            (file_pixel data (bmp_info (read_header data)) y x).2.1
            (file_pixel data (bmp_info (read_header data)) y x).2.2 i ≤
          sqdist s'.lbmpalette (file_pixel data (bmp_info (read_header data)) y x).1
            (file_pixel data (bmp_info (read_header data)) y x).2.1
            (file_pixel data (bmp_info (read_header data)) y x).2.2 j) ∧
        (file_pixel data (bmp_info (read_header data)) y x ∈
            first_colors (bmp_info (read_header data)).bpp
              (bmp_info (read_header data)).width (bmp_info (read_header data)).height
              (bmp_info (read_header data)).data_offset (bmp_stream data) →
          (first_colors (bmp_info (read_header data)).bpp
              (bmp_info (read_header data)).width (bmp_info (read_header data)).height
              (bmp_info (read_header data)).data_offset (bmp_stream data))[i]? =
            some (file_pixel data (bmp_info (read_header data)) y x)) := by
  obtain ⟨e1, _, _, e4, hlen, hB, hM, hw, hh, hrow⟩ :=
    load_bmp_first_distinct env s s' filename data hfs hest hbpp hbytes h
  generalize hb : bmp_info (read_header data) = b at *
  have h8 : ¬ b.bpp = 8 := by
    rcases hbpp with hb24 | hb32
    · rw [hb24]; decide
    · rw [hb32]; decide
  obtain ⟨ew, eh, el, hv⟩ := load_bmp_image env s s' filename data b hfs hb hlen hB hM hw hh
    (Or.inr hbpp) hoff hsize hrow h
  refine ⟨ew, eh, el, ?_⟩
  intro y x hy hx
  have hcb : (file_pixel data b y x).1 < 256 ∧ (file_pixel data b y x).2.1 < 256 ∧
      (file_pixel data b y x).2.2 < 256 :=
    pixel_at_bytes b.bpp _ x (nth_row_bytes _ _ _ hbytes)
  obtain ⟨i, hi, hi256, hmin⟩ := e4 _ _ _ hcb.1 hcb.2.1 hcb.2.2
  have hval : s'.byteimage.getD (y * b.width.toNat + x) 0 = i := by
    rw [hv y x hy hx]
    unfold pixel_value
    rw [if_neg h8]
    show ((nearest s'.lbmpalette (file_pixel data b y x).1 (file_pixel data b y x).2.1
      (file_pixel data b y x).2.2) % 256).toNat = i
    rw [hi]
    omega
  refine ⟨i, hval, hi256, hmin, ?_⟩
  intro hmem
  obtain ⟨k, hk⟩ := List.getElem?_of_mem hmem
  have hsub : ∀ d ∈ first_colors b.bpp b.width b.height b.data_offset (bmp_stream data),
      d ∈ scanned_colors b.bpp b.width.toNat (row_size_of b.width b.bpp).toNat
        b.height.toNat (fseek_set (bmp_stream data) b.data_offset) := by
    intro d hd
    unfold first_colors at hd
    exact (mem_first_distinct _ d).mp (List.mem_of_mem_take hd)
  have hfd : ∀ x ∈ (fseek_set (bmp_stream data) b.data_offset).data, x < 256 := by
    rw [fseek_set_data]; exact hbytes
  have hpb : ∀ v ∈ palette_bytes (first_colors b.bpp b.width b.height b.data_offset
      (bmp_stream data)) ++ List.replicate (3 * (256 - (first_colors b.bpp b.width b.height
        b.data_offset (bmp_stream data)).length)) 0, v < 256 := by
    intro v hv
    rw [List.mem_append] at hv
    rcases hv with hv | hv
    · refine palette_bytes_lt _ ?_ v hv
      intro d hd
      exact scanned_colors_bytes _ _ _ _ _ hfd d (hsub d hd)
    · rw [List.mem_replicate] at hv
      omega
  have hnd : (first_colors b.bpp b.width b.height b.data_offset (bmp_stream data)).Nodup := by
    unfold first_colors
    exact (first_distinct_nodup _).sublist (List.take_sublist _ _)
  have hl256 : (first_colors b.bpp b.width b.height b.data_offset
      (bmp_stream data)).length ≤ 256 := by
    unfold first_colors
    exact (List.length_take_le _ _)
  have hnear := nearest_exact _ _ k _ hnd hpb hcb hl256 hk
  have hpal : s'.lbmpalette = palette_bytes (first_colors b.bpp b.width b.height
      b.data_offset (bmp_stream data)) ++ List.replicate (3 * (256 - (first_colors b.bpp
        b.width b.height b.data_offset (bmp_stream data)).length)) 0 := by
    rw [e1]; rfl
  rw [hpal, hnear] at hi
  have : k = i := by omega
  rw [← this]
  exact hk

/-- C9: for a 24- or 32-bit bitmap made of bytes, decoded by `load_bmp` with no palette
established, the palette produced is `collected_palette`: the first
`k = min 256 (number of distinct colours)` distinct colours met when scanning the rows in
file order and the pixels left to right, followed by zero bytes up to 256 entries;
`original_palette` is set to the same table; and the index computed for any colour is an
entry of that table at least as near as every other.  When moreover the data offset is
not negative and `width * height` fits an `int`, the decoded image has the declared
dimensions and every pixel of it holds such an index for that pixel's colour in the file:
an entry at least as near to the colour as every other entry, and, if the colour is one
of the kept colours, the entry that is this colour (so with more than 256 colours the
first 256 are kept verbatim and a pixel of another colour maps to its nearest kept
colour). -/
theorem C9_palette_is_first_distinct_colours {fl : CFloat} (env : Env fl) (s s' : State fl)
    (filename data : List Nat)
    (hfs : env.fs (bmp_path s.spritedir filename) = some data)
    (hest : s.palette_established = false)
    (hbpp : (bmp_info (read_header data)).bpp = 24 ∨ (bmp_info (read_header data)).bpp = 32)
    (hbytes : ∀ x ∈ data, x < 256)
    (h : load_bmp env s filename = .ok s') :
    s'.lbmpalette = collected_palette (bmp_info (read_header data)).bpp
      (bmp_info (read_header data)).width (bmp_info (read_header data)).height
      (bmp_info (read_header data)).data_offset (bmp_stream data) ∧
    s'.original_palette = s'.lbmpalette ∧
    (first_colors (bmp_info (read_header data)).bpp (bmp_info (read_header data)).width
      (bmp_info (read_header data)).height (bmp_info (read_header data)).data_offset
      (bmp_stream data)).length =
      min 256 (first_distinct (scanned_colors (bmp_info (read_header data)).bpp
        (bmp_info (read_header data)).width.toNat
        (row_size_of (bmp_info (read_header data)).width
          (bmp_info (read_header data)).bpp).toNat
        (bmp_info (read_header data)).height.toNat
        (fseek_set (bmp_stream data) (bmp_info (read_header data)).data_offset))).length ∧
    (∀ r g b : Nat, r < 256 → g < 256 → b < 256 →
      ∃ i : Nat, nearest s'.lbmpalette r g b = (i : Int) ∧ i < 256 ∧
        ∀ j, j < 256 → sqdist s'.lbmpalette r g b i ≤ sqdist s'.lbmpalette r g b j) ∧
    (0 ≤ (bmp_info (read_header data)).data_offset →
      (bmp_info (read_header data)).width * (bmp_info (read_header data)).height <
        2147483648 →
      s'.byteimagewidth = (bmp_info (read_header data)).width ∧
      s'.byteimageheight = (bmp_info (read_header data)).height ∧
      s'.byteimage.length = (bmp_info (read_header data)).width.toNat *
        (bmp_info (read_header data)).height.toNat ∧
      ∀ y x : Nat, y < (bmp_info (read_header data)).height.toNat →
        x < (bmp_info (read_header data)).width.toNat →
        ∃ i : Nat,
          s'.byteimage.getD (y * (bmp_info (read_header data)).width.toNat + x) 0 = i ∧
          i < 256 ∧
          (∀ j, j < 256 →
            sqdist s'.lbmpalette (file_pixel data (bmp_info (read_header data)) y x).1
              (file_pixel data (bmp_info (read_header data)) y x).2.1
              (file_pixel data (bmp_info (read_header data)) y x).2.2 i ≤
            sqdist s'.lbmpalette (file_pixel data (bmp_info (read_header data)) y x).1
              (file_pixel data (bmp_info (read_header data)) y x).2.1
              (file_pixel data (bmp_info (read_header data)) y x).2.2 j) ∧
          (file_pixel data (bmp_info (read_header data)) y x ∈
              first_colors (bmp_info (read_header data)).bpp
                (bmp_info (read_header data)).width (bmp_info (read_header data)).height
                (bmp_info (read_header data)).data_offset (bmp_stream data) →
            (first_colors (bmp_info (read_header data)).bpp
                (bmp_info (read_header data)).width (bmp_info (read_header data)).height
                (bmp_info (read_header data)).data_offset (bmp_stream data))[i]? =
              some (file_pixel data (bmp_info (read_header data)) y x))) := by
  obtain ⟨e1, e2, e3, e4, _⟩ :=
    load_bmp_first_distinct env s s' filename data hfs hest hbpp hbytes h
  exact ⟨e1, e2, e3, e4, fun hoff hsize =>
    load_bmp_pixel_index env s s' filename data hfs hest hbpp hbytes h hoff hsize⟩

/-! ## A frame inside the image is stored -/

theorem next_token_of_get {fl : CFloat} {c : Bool} {s : State fl}
    {x : Bool × List Nat × List Nat} (h : get_token c s.scriptptr s.token = .ok x) :
    next_token c s = .ok (x.1, { s with scriptptr := x.2.1, token := x.2.2 }) := by
  unfold next_token
  rw [h]
  rfl

theorem set_frame_in {fl : CFloat} (s : State fl) (idx : Int)
    (g : spritepackage_t fl → spritepackage_t fl) (h0 : 0 ≤ idx)
    (hlt : idx.toNat < s.frames.length) :
    ∃ l, set_frame s idx g = .ok { s with frames := l } ∧ l.length = s.frames.length := by
  unfold set_frame
  rw [if_neg (by omega)]
  rw [List.get?_eq_getElem?, List.getElem?_eq_getElem hlt]
  exact ⟨_, rfl, List.length_set _ _ _⟩

theorem poke_in {fl : CFloat} (s : State fl) (addr : Int) (bs : List Nat)
    (h0 : 0 ≤ addr - s.lumpbuffer) (h1 : addr - s.lumpbuffer + bs.length ≤ s.buffer_size) :
    ∃ m, poke s addr bs = .ok { s with lump := m } := by
  unfold poke
  simp only
  rw [if_pos ⟨h0, h1⟩]
  exact ⟨_, rfl⟩

theorem copy_row_total {fl : CFloat} (source : Int) :
    ∀ (n : Nat) (x : Int) (s : State fl),
      (∀ k : Nat, k < n → 0 ≤ source + x + k ∧ source + x + k < s.byteimage.length) →
      0 ≤ s.plump - s.lumpbuffer → s.plump - s.lumpbuffer + n ≤ s.buffer_size →
      ∃ s', copy_row source n x s = .ok s' := by
  intro n
  induction n with
  | zero => intro x s _ _ _; exact ⟨s, rfl⟩
  | succ n ih =>
    intro x s hr h0 h1
    have hr0 := hr 0 (by omega)
    simp only [copy_row]
    rw [peek_in (by have := hr0.1; simpa using this) (by have := hr0.2; simpa using this)]
    obtain ⟨m, hm⟩ := poke_in s s.plump [s.byteimage.getD (source + x).toNat 0] h0
      (by simp only [List.length_singleton]; push_cast at h1 ⊢; omega)
    simp only [bind, Except.bind, hm]
    apply ih
    · intro k hk
      have := hr (k + 1) (by omega)
      push_cast at this
      constructor
      · show 0 ≤ source + (x + 1) + k; omega
      · show source + (x + 1) + k < s.byteimage.length; omega
    · show 0 ≤ s.plump + 1 - s.lumpbuffer; omega
    · show s.plump + 1 - s.lumpbuffer + n ≤ s.buffer_size
      push_cast at h1; omega

theorem copy_rows_total {fl : CFloat} (w : Nat) :
    ∀ (n : Nat) (source : Int) (s : State fl),
      (∀ y x : Nat, y < n → x < w →
        0 ≤ source + y * s.byteimagewidth + x ∧
        source + y * s.byteimagewidth + x < s.byteimage.length) →
      0 ≤ s.plump - s.lumpbuffer →
      s.plump - s.lumpbuffer + ((n * w : Nat) : Int) ≤ s.buffer_size →
      ∃ s', copy_rows w n source s = .ok s' := by
  intro n
  induction n with
  | zero => intro source s _ _ _; exact ⟨s, rfl⟩
  | succ n ih =>
    intro source s hr h0 h1
    have es : ((n + 1) * w : Nat) = n * w + w := Nat.succ_mul _ _
    rw [es] at h1
    push_cast at h1
    have hnw : (0 : Int) ≤ ((n * w : Nat) : Int) := Int.natCast_nonneg _
    push_cast at hnw
    obtain ⟨s1, hs1⟩ := copy_row_total source w 0 s
      (by
        intro k hk
        have := hr 0 k (by omega) hk
        simpa using this)
      h0 (by omega)
    obtain ⟨e1, _, _⟩ := copy_row_spec source w 0 s s1 hs1
    simp only [copy_rows]
    rw [hs1]
    simp only [bind, Except.bind]
    apply ih
    · intro y x hy hx
      have := hr (y + 1) x (by omega) hx
      rw [e1]
      push_cast at this
      constructor
      · show 0 ≤ source + s.byteimagewidth + y * s.byteimagewidth + x
        linarith [this.1]
      · show source + s.byteimagewidth + y * s.byteimagewidth + x < s.byteimage.length
        linarith [this.2]
    · rw [e1]
      show 0 ≤ s.plump + w - s.lumpbuffer
      omega
    · rw [e1]
      show s.plump + w - s.lumpbuffer + ((n * w : Nat) : Int) ≤ s.buffer_size
      push_cast
      omega

theorem ensure_frame_capacity_total {fl : CFloat} (env : Env fl) (s : State fl)
    (hinv : CapInv s) (hdbl : s.max_frames * 2 < 2147483648) :
    ∃ s1, ensure_frame_capacity env s = .ok s1 := by
  obtain ⟨_, _, _, hpos, _⟩ := hinv
  unfold ensure_frame_capacity
  split
  · simp only
    rw [wrap32_of_range _ (by omega) hdbl, if_neg (by omega)]
    exact ⟨_, rfl⟩
  · exact ⟨_, rfl⟩

/-- The four conversions of `grab_frame` complete whenever the four calls of `get_token`
do: the rectangle is made of the `atoi` values of the four token buffers. -/
theorem frame_rect_total {fl : CFloat} (s : State fl)
    (x1 x2 x3 x4 : Bool × List Nat × List Nat)
    (h1 : get_token false s.scriptptr s.token = .ok x1)
    (h2 : get_token false x1.2.1 x1.2.2 = .ok x2)
    (h3 : get_token false x2.2.1 x2.2.2 = .ok x3)
    (h4 : get_token false x3.2.1 x3.2.2 = .ok x4) :
    frame_rect s = .ok (⟨atoi x1.2.2, atoi x2.2.2, atoi x3.2.2, atoi x4.2.2⟩,
      { s with scriptptr := x4.2.1, token := x4.2.2 }) := by
  unfold frame_rect
  rw [next_token_of_get h1]
  simp only [bind, Except.bind]
  rw [@next_token_of_get fl false { s with scriptptr := x1.2.1, token := x1.2.2 } x2 h2]
  simp only
  rw [@next_token_of_get fl false { s with scriptptr := x2.2.1, token := x2.2.2 } x3 h3]
  simp only
  rw [@next_token_of_get fl false { s with scriptptr := x3.2.1, token := x3.2.2 } x4 h4]
  rfl


/-- The allocation stage completes when the descriptor array can be doubled and the arena
has room; the state it leaves is ready for the frame. -/
theorem frame_alloc_total {fl : CFloat} (env : Env fl) (s t : State fl) (r : Rect)
    (hinv : CapInv s) (hdbl : s.max_frames * 2 < 2147483648)
    (hin : InsideImage s r) (hroom : ArenaRoom s r)
    (ht : ∃ p k, t = { s with scriptptr := p, token := k }) :
    ∃ s3, frame_alloc env t r = .ok s3 ∧ Ready s s3 ∧ s3.plump = s.plump ∧
      s3.scriptptr = t.scriptptr ∧ s3.token = t.token := by
  obtain ⟨p, k, et⟩ := ht
  have hinvt : CapInv t := by rw [et]; exact hinv
  have hdblt : t.max_frames * 2 < 2147483648 := by rw [et]; exact hdbl
  obtain ⟨s1, h1⟩ := ensure_frame_capacity_total env t hinvt hdblt
  obtain ⟨_, ec, _, hslot⟩ := ensure_frame_capacity_room hinvt h1
  obtain ⟨mf, l1, e1⟩ := ensure_frame_capacity_ok h1
  have hc0 : 0 ≤ s1.framecount := by rw [ec]; exact hinvt.2.1
  obtain ⟨l2, h2, hl2⟩ := set_frame_in s1 s1.framecount
    (fun f => { f with type := SPR_SINGLE }) hc0 hslot
  obtain ⟨hx0, hy0, hw0, hh0, hxw, hyh, hsz, _⟩ := hin
  obtain ⟨ha0, ha1, ha2⟩ := hroom
  have hwh0 : 0 ≤ r.w * r.h := by positivity
  have hwh1 : r.w * r.h ≤ s.byteimagewidth * s.byteimageheight := by
    have : r.w ≤ s.byteimagewidth := by omega
    have : r.h ≤ s.byteimageheight := by omega
    nlinarith
  have e32 : wrap32 (r.w * r.h) = r.w * r.h := wrap32_of_range _ (by omega) (by omega)
  have esz1 : wrap_size (16 + r.w * r.h) = 16 + r.w * r.h := by
    unfold wrap_size; omega
  have esz2 : wrap_size (s.plump - s.lumpbuffer + (16 + r.w * r.h)) =
      s.plump - s.lumpbuffer + (16 + r.w * r.h) := by
    unfold wrap_size; omega
  have f1 : s1.plump = s.plump := by rw [e1, et]
  have f2 : s1.lumpbuffer = s.lumpbuffer := by rw [e1, et]
  have f3 : s1.buffer_size = s.buffer_size := by rw [e1, et]
  have f4 : s1.byteimage = s.byteimage := by rw [e1, et]
  have f5 : s1.byteimagewidth = s.byteimagewidth := by rw [e1, et]
  have f6 : s1.framecount = s.framecount := by rw [e1, et]
  have f7 : s1.emitted = s.emitted := by rw [e1, et]
  have f8 : s1.scriptptr = t.scriptptr := by rw [e1]
  have f9 : s1.token = t.token := by rw [e1]
  have hc : ¬ (wrap_size (({ s1 with frames := l2 } : State fl).plump -
      ({ s1 with frames := l2 } : State fl).lumpbuffer +
        wrap_size (16 + wrap32 (r.w * r.h))) > ({ s1 with frames := l2 } : State fl).buffer_size) := by
    show ¬ (wrap_size (s1.plump - s1.lumpbuffer + wrap_size (16 + wrap32 (r.w * r.h))) >
      s1.buffer_size)
    rw [f1, f2, f3, e32, esz1, esz2]
    omega
  refine ⟨{ s1 with frames := l2 }, ?_, ?_, f1, f8, f9⟩
  · unfold frame_alloc
    rw [h1]
    simp only [bind, Except.bind]
    rw [h2]
    simp only
    unfold ensure_buffer_capacity
    rw [if_neg hc]
  · exact ⟨f1, f2, f3, f4, f5, f6, hc0, by show s1.framecount.toNat < l2.length; rw [hl2]; exact hslot, f7⟩

/-- The interval stage completes when its probe does and a supplied interval is positive. -/
theorem frame_interval_total {fl : CFloat} (s s3 : State fl)
    (x5 : Bool × List Nat × List Nat) (hr : Ready s s3)
    (h5 : get_token false s3.scriptptr s3.token = .ok x5)
    (hpos : x5.1 = true → fl.le (fl.atof x5.2.2) fl.zero = false) :
    ∃ s4, frame_interval s3 = .ok s4 ∧ Ready s s4 ∧
      s4.scriptptr = x5.2.1 ∧ s4.token = x5.2.2 := by
  obtain ⟨l, hl, hlen⟩ := set_frame_in { s3 with scriptptr := x5.2.1, token := x5.2.2 }
    s3.framecount
    (fun f => { f with interval := if x5.1 then fl.atof x5.2.2 else fl.tenth })
    hr.count_nonneg hr.slot
  refine ⟨{ s3 with scriptptr := x5.2.1, token := x5.2.2, frames := l }, ?_, ?_, rfl, rfl⟩
  · unfold frame_interval
    rw [next_token_of_get h5]
    simp only [bind, Except.bind]
    rw [hl]
    simp only
    rw [if_neg]
    · rfl
    · rintro ⟨a, b⟩
      rw [hpos a] at b
      exact Bool.noConfusion b
  · exact ⟨hr.plump, hr.lumpbuffer, hr.buffer_size, hr.image, hr.width, hr.count,
      hr.count_nonneg, by show s3.framecount.toNat < l.length; rw [hlen]; exact hr.slot,
      hr.history⟩

/-- The origin stage completes when its probes do. -/
theorem frame_origin_total {fl : CFloat} (s s4 : State fl) (r : Rect)
    (x6 x7 : Bool × List Nat × List Nat) (hr : Ready s s4)
    (h6 : get_token false s4.scriptptr s4.token = .ok x6)
    (h7 : (if x6.1 then get_token false x6.2.1 x6.2.2 else .ok x6) = .ok x7) :
    ∃ o, frame_origin s4 r = .ok o ∧ Ready s o.2 ∧ o.1.width = r.w ∧ o.1.height = r.h := by
  refine ⟨(⟨if x6.1 then wrap32 (- atoi x6.2.2) else wrap32 (- shr1 r.w),
    if x6.1 then atoi x7.2.2 else shr1 r.h, r.w, r.h⟩,
    { s4 with scriptptr := x7.2.1, token := x7.2.2 }), ?_, ?_, rfl, rfl⟩
  · unfold frame_origin
    rw [next_token_of_get h6]
    simp only [bind, Except.bind]
    cases hx : x6.1 with
    | true =>
      rw [hx] at h7
      simp only [if_true] at h7 ⊢
      rw [@next_token_of_get fl false { s4 with scriptptr := x6.2.1, token := x6.2.2 } x7 h7]
      rfl
    | false =>
      rw [hx] at h7
      simp only [Bool.false_eq_true, if_false, Except.ok.injEq] at h7 ⊢
      subst h7
      rfl
  · exact ⟨hr.plump, hr.lumpbuffer, hr.buffer_size, hr.image, hr.width, hr.count,
      hr.count_nonneg, hr.slot, hr.history⟩


theorem rect_index_inside (W H xl yl w h y x : Int) (hxl : 0 ≤ xl) (hyl : 0 ≤ yl)
    (hy0 : 0 ≤ y) (hy : y < h) (hx0 : 0 ≤ x) (hx : x < w) (hxw : xl + w ≤ W)
    (hyh : yl + h ≤ H) :
    0 ≤ yl * W + xl + y * W + x ∧ yl * W + xl + y * W + x < W * H := by
  have hW : 0 ≤ W := by omega
  have e : yl * W + xl + y * W + x = (yl + y) * W + (xl + x) := by ring
  have h1 : (yl + y) * W ≤ (H - 1) * W := mul_le_mul_of_nonneg_right (by omega) hW
  have h0 : 0 ≤ (yl + y) * W := mul_nonneg (by omega) hW
  have e2 : (H - 1) * W = W * H - W := by ring
  rw [e]
  constructor
  · omega
  · omega

theorem rect_row_start (W H yl h : Int) (hyl : 0 ≤ yl) (hh : 0 < h) (hW : 0 ≤ W)
    (hyh : yl + h ≤ H) (hsz : W * H < 2147483648) :
    wrap32 (yl * W) = yl * W := by
  have h0 : 0 ≤ yl * W := mul_nonneg hyl hW
  have h1 : yl * W ≤ H * W := mul_le_mul_of_nonneg_right (by omega) hW
  have e : H * W = W * H := by ring
  exact wrap32_of_range _ (by omega) (by omega)

/-- The storing stage completes for a rectangle inside the image when the arena has room:
the header and the pixels are written and the frame is counted. -/
theorem frame_store_total {fl : CFloat} (s t : State fl) (r : Rect) (hd : dspriteframe_t)
    (hr : Ready s t) (hin : InsideImage s r) (hroom : ArenaRoom s r) :
    ∃ s', frame_store t r s.plump hd = .ok s' := by
  obtain ⟨hx0, hy0, hw0, hh0, hxw, hyh, hsz, hlen⟩ := hin
  obtain ⟨ha0, ha1, ha2⟩ := hroom
  have hwh0 : 0 ≤ r.w * r.h := by positivity
  have hW : 0 < s.byteimagewidth := by omega
  have hH : 0 < s.byteimageheight := by omega
  have l0 := int32_bytes_length hd.origin0
  have l1 := int32_bytes_length hd.origin1
  have l2 := int32_bytes_length hd.width
  have l3 := int32_bytes_length hd.height
  obtain ⟨m5, e5⟩ := poke_in t s.plump (int32_bytes hd.origin0)
    (by rw [hr.lumpbuffer]; exact ha0)
    (by rw [hr.lumpbuffer, hr.buffer_size, l0]; push_cast; omega)
  obtain ⟨m6, e6⟩ := poke_in { t with lump := m5 } (s.plump + 4) (int32_bytes hd.origin1)
    (by show 0 ≤ s.plump + 4 - t.lumpbuffer; rw [hr.lumpbuffer]; omega)
    (by show s.plump + 4 - t.lumpbuffer + _ ≤ t.buffer_size
        rw [hr.lumpbuffer, hr.buffer_size, l1]; push_cast; omega)
  obtain ⟨m7, e7⟩ := poke_in { t with lump := m6 } (s.plump + 8) (int32_bytes hd.width)
    (by show 0 ≤ s.plump + 8 - t.lumpbuffer; rw [hr.lumpbuffer]; omega)
    (by show s.plump + 8 - t.lumpbuffer + _ ≤ t.buffer_size
        rw [hr.lumpbuffer, hr.buffer_size, l2]; push_cast; omega)
  obtain ⟨m8, e8⟩ := poke_in { t with lump := m7 } (s.plump + 12) (int32_bytes hd.height)
    (by show 0 ≤ s.plump + 12 - t.lumpbuffer; rw [hr.lumpbuffer]; omega)
    (by show s.plump + 12 - t.lumpbuffer + _ ≤ t.buffer_size
        rw [hr.lumpbuffer, hr.buffer_size, l3]; push_cast; omega)
  have eyl := rect_row_start s.byteimagewidth s.byteimageheight r.yl r.h hy0 hh0
    (by omega) hyh hsz
  have ew : ((r.w.toNat : Nat) : Int) = r.w := Int.toNat_of_nonneg (by omega)
  have eh : ((r.h.toNat : Nat) : Int) = r.h := Int.toNat_of_nonneg (by omega)
  obtain ⟨s10, h10⟩ := copy_rows_total r.w.toNat r.h.toNat
    (wrap32 (r.yl * s.byteimagewidth) + r.xl)
    ({ t with
      lump := m8
      plump := t.plump + 16
      framesmaxs0 := if r.w > t.framesmaxs0 then r.w else t.framesmaxs0
      framesmaxs1 := if r.h > t.framesmaxs1 then r.h else t.framesmaxs1 } : State fl)
    (by
      intro y x hy hx
      show 0 ≤ wrap32 (r.yl * s.byteimagewidth) + r.xl + y * t.byteimagewidth + x ∧
        wrap32 (r.yl * s.byteimagewidth) + r.xl + y * t.byteimagewidth + x <
          t.byteimage.length
      rw [eyl, hr.width, hr.image, hlen]
      exact rect_index_inside s.byteimagewidth s.byteimageheight r.xl r.yl r.w r.h y x
        hx0 hy0 (by omega) (by omega) (by omega) (by omega) hxw hyh)
    (by show 0 ≤ t.plump + 16 - t.lumpbuffer; rw [hr.plump, hr.lumpbuffer]; omega)
    (by
      show t.plump + 16 - t.lumpbuffer + ((r.h.toNat * r.w.toNat : Nat) : Int) ≤ t.buffer_size
      rw [hr.plump, hr.lumpbuffer, hr.buffer_size]
      push_cast
      rw [ew, eh]
      have e : r.h * r.w = r.w * r.h := by ring
      omega)
  obtain ⟨e10, _, _⟩ := copy_rows_spec _ _ _ _ _ h10
  have hf10 : s10.frames = t.frames := by rw [e10]
  have hc10 : s10.framecount = t.framecount := by rw [e10]
  obtain ⟨l, hl, _⟩ := set_frame_in s10 s10.framecount
    (fun f => { f with pdata := s.plump })
    (by rw [hc10]; exact hr.count_nonneg) (by rw [hc10, hf10]; exact hr.slot)
  unfold frame_store
  rw [e5]
  simp only [bind, Except.bind]
  rw [e6]
  simp only
  rw [e7]
  simp only
  rw [e8]
  simp only
  rw [hr.width] at *
  rw [h10]
  simp only
  rw [hl]
  exact ⟨_, rfl⟩


/-! ## The error `Bad frame coordinates` -/


theorem get_token_nocoord (crossline : Bool) (p tok : List Nat) :
    NoCoordErr (get_token crossline p tok) := by
  unfold NoCoordErr get_token
  split
  · simp
  · simp
  · split
    · split <;> simp
    · simp

theorem bind_nocoord {α β : Type} {x : Except Err α} {f : α → Except Err β}
    (hx : NoCoordErr x) (hf : ∀ a, x = .ok a → NoCoordErr (f a)) : NoCoordErr (x >>= f) := by
  cases x with
  | error e =>
    unfold NoCoordErr at hx ⊢
    simpa [bind, Except.bind] using hx
  | ok a => exact hf a rfl

theorem next_token_nocoord {fl : CFloat} (crossline : Bool) (s : State fl) :
    NoCoordErr (next_token crossline s) := by
  unfold next_token
  exact bind_nocoord (get_token_nocoord _ _ _) (fun a _ => by simp [NoCoordErr, pure, Except.pure])

theorem nocoord_ok {α : Type} (a : α) : NoCoordErr (Except.ok a : Except Err α) := by
  simp [NoCoordErr]

theorem nocoord_ite {α : Type} {c : Prop} [Decidable c] {a b : Except Err α}
    (ha : NoCoordErr a) (hb : NoCoordErr b) : NoCoordErr (if c then a else b) := by
  split
  · exact ha
  · exact hb

theorem nocoord_ite_neg {α : Type} {c : Prop} [Decidable c] {a b : Except Err α}
    (ha : NoCoordErr a) (hb : ¬ c → NoCoordErr b) : NoCoordErr (if c then a else b) := by
  split
  · exact ha
  · rename_i h
    exact hb h

theorem peek_nocoord (a : List Nat) (i : Int) : NoCoordErr (peek a i) := by
  unfold peek; split <;> simp [NoCoordErr]

theorem put_nocoord (a : List Nat) (i : Int) (v : Nat) : NoCoordErr (put a i v) := by
  unfold put; split <;> simp [NoCoordErr]

theorem set_frame_nocoord {fl : CFloat} (s : State fl) (idx : Int)
    (g : spritepackage_t fl → spritepackage_t fl) : NoCoordErr (set_frame s idx g) := by
  unfold set_frame
  split
  · simp [NoCoordErr]
  · split <;> simp [NoCoordErr]

theorem frame_desc_nocoord {fl : CFloat} (s : State fl) (idx : Int) :
    NoCoordErr (frame_desc s idx) := by
  unfold frame_desc
  split
  · simp [NoCoordErr]
  · split <;> simp [NoCoordErr]

theorem poke_nocoord {fl : CFloat} (s : State fl) (addr : Int) (bs : List Nat) :
    NoCoordErr (poke s addr bs) := by
  unfold poke
  simp only
  split <;> simp [NoCoordErr]

theorem peek_bytes_nocoord {fl : CFloat} (s : State fl) (addr : Int) (n : Nat) :
    NoCoordErr (peek_bytes s addr n) := by
  unfold peek_bytes
  simp only
  split <;> simp [NoCoordErr]

theorem peek_int_nocoord {fl : CFloat} (s : State fl) (addr : Int) :
    NoCoordErr (peek_int s addr) := by
  unfold peek_int
  exact bind_nocoord (peek_bytes_nocoord _ _ _) (fun _ _ => nocoord_ok _)

theorem ensure_frame_capacity_nocoord {fl : CFloat} (env : Env fl) (s : State fl) :
    NoCoordErr (ensure_frame_capacity env s) := by
  unfold ensure_frame_capacity
  split
  · simp only
    split <;> simp [NoCoordErr]
  · simp [NoCoordErr]

theorem ensure_buffer_capacity_nocoord {fl : CFloat} (env : Env fl) (s : State fl)
    (needed : Int) : NoCoordErr (ensure_buffer_capacity env s needed) := by
  unfold ensure_buffer_capacity
  split
  · simp only
    split <;> simp [NoCoordErr]
  · simp [NoCoordErr]

theorem copy_row_nocoord {fl : CFloat} (source : Int) :
    ∀ (n : Nat) (x : Int) (s : State fl), NoCoordErr (copy_row source n x s) := by
  intro n
  induction n with
  | zero => intro x s; simp [copy_row, NoCoordErr]
  | succ n ih =>
    intro x s
    simp only [copy_row]
    exact bind_nocoord (peek_nocoord _ _) (fun _ _ =>
      bind_nocoord (poke_nocoord _ _ _) (fun _ _ => ih _ _))

theorem copy_rows_nocoord {fl : CFloat} (w : Nat) :
    ∀ (n : Nat) (source : Int) (s : State fl), NoCoordErr (copy_rows w n source s) := by
  intro n
  induction n with
  | zero => intro x s; simp [copy_rows, NoCoordErr]
  | succ n ih =>
    intro x s
    simp only [copy_rows]
    exact bind_nocoord (copy_row_nocoord _ _ _ _) (fun _ _ => ih _ _)

theorem frame_rect_nocoord {fl : CFloat} (s : State fl) : NoCoordErr (frame_rect s) := by
  unfold frame_rect
  exact bind_nocoord (next_token_nocoord _ _) (fun _ _ =>
    bind_nocoord (next_token_nocoord _ _) (fun _ _ =>
      bind_nocoord (next_token_nocoord _ _) (fun _ _ =>
        bind_nocoord (next_token_nocoord _ _) (fun _ _ => nocoord_ok _))))

theorem frame_alloc_nocoord {fl : CFloat} (env : Env fl) (s : State fl) (r : Rect) :
    NoCoordErr (frame_alloc env s r) := by
  unfold frame_alloc
  exact bind_nocoord (ensure_frame_capacity_nocoord _ _) (fun _ _ =>
    bind_nocoord (set_frame_nocoord _ _ _) (fun _ _ => ensure_buffer_capacity_nocoord _ _ _))

theorem frame_interval_nocoord {fl : CFloat} (s : State fl) : NoCoordErr (frame_interval s) := by
  unfold frame_interval
  exact bind_nocoord (next_token_nocoord _ _) (fun _ _ =>
    bind_nocoord (set_frame_nocoord _ _ _) (fun _ _ =>
      nocoord_ite (by simp [NoCoordErr]) (nocoord_ok _)))

theorem frame_origin_nocoord {fl : CFloat} (s : State fl) (r : Rect) :
    NoCoordErr (frame_origin s r) := by
  unfold frame_origin
  exact bind_nocoord (next_token_nocoord _ _) (fun _ _ =>
    bind_nocoord (nocoord_ite (next_token_nocoord _ _) (nocoord_ok _)) (fun _ _ => nocoord_ok _))

theorem frame_store_nocoord {fl : CFloat} (s : State fl) (r : Rect) (pframe : Int)
    (hd : dspriteframe_t) : NoCoordErr (frame_store s r pframe hd) := by
  unfold frame_store
  exact bind_nocoord (poke_nocoord _ _ _) (fun _ _ =>
    bind_nocoord (poke_nocoord _ _ _) (fun _ _ =>
      bind_nocoord (poke_nocoord _ _ _) (fun _ _ =>
        bind_nocoord (poke_nocoord _ _ _) (fun _ _ =>
          bind_nocoord (copy_rows_nocoord _ _ _ _) (fun _ _ =>
            bind_nocoord (set_frame_nocoord _ _ _) (fun _ _ => nocoord_ok _))))))

/-- The bad-coordinates error comes from the coordinate test and from nowhere else in
`grab_frame`. -/
theorem grab_frame_coordinates_iff {fl : CFloat} (env : Env fl) (s : State fl)
    (a : Rect × State fl) (ha : frame_rect s = .ok a) :
    grab_frame env s = .error Err.bad_frame_coordinates ↔
      bad_coordinates a.1.xl a.1.yl a.1.w a.1.h s.byteimagewidth s.byteimageheight = true := by
  obtain ⟨⟨p, t, e⟩, _⟩ := frame_rect_ok ha
  have e1 : a.2.byteimagewidth = s.byteimagewidth := by rw [e]
  have e2 : a.2.byteimageheight = s.byteimageheight := by rw [e]
  have hg : grab_frame env s =
      if bad_coordinates a.1.xl a.1.yl a.1.w a.1.h s.byteimagewidth s.byteimageheight = true
      then .error Err.bad_frame_coordinates
      else (do
        let s3 ← frame_alloc env a.2 a.1
        let s4 ← frame_interval s3
        let o ← frame_origin s4 a.1
        frame_store o.2 a.1 s3.plump o.1) := by
    unfold grab_frame
    rw [ha]
    show (if bad_coordinates a.1.xl a.1.yl a.1.w a.1.h a.2.byteimagewidth
      a.2.byteimageheight = true then _ else _) = _
    rw [e1, e2]
  rw [hg]
  constructor
  · intro h
    by_contra hb
    rw [if_neg hb] at h
    exact (bind_nocoord (frame_alloc_nocoord _ _ _) (fun _ _ =>
      bind_nocoord (frame_interval_nocoord _) (fun _ _ =>
        bind_nocoord (frame_origin_nocoord _ _) (fun _ _ => frame_store_nocoord _ _ _ _)))) h
  · intro hb
    rw [if_pos hb]

/-- A rectangle inside the image passes the coordinate test. -/
theorem inside_not_bad {fl : CFloat} (s : State fl) (r : Rect) (hin : InsideImage s r) :
    bad_coordinates r.xl r.yl r.w r.h s.byteimagewidth s.byteimageheight = false := by
  obtain ⟨hx0, hy0, hw0, hh0, hxw, hyh, hsz, _⟩ := hin
  have hW : 0 < s.byteimagewidth := by omega
  have hH : 0 < s.byteimageheight := by omega
  have h1 : s.byteimagewidth * 1 ≤ s.byteimagewidth * s.byteimageheight :=
    mul_le_mul_of_nonneg_left (by omega) (by omega)
  have h2 : 1 * s.byteimageheight ≤ s.byteimagewidth * s.byteimageheight :=
    mul_le_mul_of_nonneg_right (by omega) (by omega)
  have ex : wrap32 (r.xl + r.w) = r.xl + r.w := wrap32_of_range _ (by omega) (by omega)
  have ey : wrap32 (r.yl + r.h) = r.yl + r.h := wrap32_of_range _ (by omega) (by omega)
  unfold bad_coordinates
  rw [ex, ey]
  simp only [decide_eq_false_iff_not]
  omega

/-- With its tokens on the line, a rectangle inside the image, a positive interval if one
is supplied, and room in the frame table and the lump buffer, `grab_frame` stores the
frame, whatever the text of the tokens. -/
theorem grab_frame_total {fl : CFloat} (env : Env fl) (s : State fl)
    (x1 x2 x3 x4 x5 x6 x7 : Bool × List Nat × List Nat)
    (h1 : get_token false s.scriptptr s.token = .ok x1)
    (h2 : get_token false x1.2.1 x1.2.2 = .ok x2)
    (h3 : get_token false x2.2.1 x2.2.2 = .ok x3)
    (h4 : get_token false x3.2.1 x3.2.2 = .ok x4)
    (h5 : get_token false x4.2.1 x4.2.2 = .ok x5)
    (hpos : x5.1 = true → fl.le (fl.atof x5.2.2) fl.zero = false)
    (h6 : get_token false x5.2.1 x5.2.2 = .ok x6)
    (h7 : (if x6.1 then get_token false x6.2.1 x6.2.2 else .ok x6) = .ok x7)
    (hinv : CapInv s) (hdbl : s.max_frames * 2 < 2147483648)
    (hin : InsideImage s ⟨atoi x1.2.2, atoi x2.2.2, atoi x3.2.2, atoi x4.2.2⟩)
    (hroom : ArenaRoom s ⟨atoi x1.2.2, atoi x2.2.2, atoi x3.2.2, atoi x4.2.2⟩) :
    ∃ s', grab_frame env s = .ok s' := by
  have ha := frame_rect_total s x1 x2 x3 x4 h1 h2 h3 h4
  have hb := inside_not_bad s _ hin
  obtain ⟨s3, e3, hr3, hp3, hs3, ht3⟩ := frame_alloc_total env s
    { s with scriptptr := x4.2.1, token := x4.2.2 } _ hinv hdbl hin hroom ⟨_, _, rfl⟩
  obtain ⟨s4, e4, hr4, hs4, ht4⟩ := frame_interval_total s s3 x5 hr3
    (by rw [hs3, ht3]; exact h5) hpos
  obtain ⟨o, e6, hr6, _, _⟩ := frame_origin_total s s4
    ⟨atoi x1.2.2, atoi x2.2.2, atoi x3.2.2, atoi x4.2.2⟩ x6 x7 hr4
    (by rw [hs4, ht4]; exact h6) h7
  obtain ⟨s', e7⟩ := frame_store_total s o.2 _ o.1 hr6 hin hroom
  refine ⟨s', ?_⟩
  unfold grab_frame
  rw [ha]
  simp only [bind, Except.bind]
  simp only [hb, Bool.false_eq_true, if_false]
  rw [e3]
  simp only
  rw [e4]
  simp only
  rw [e6]
  simp only
  rw [hp3]
  exact e7

theorem eq_ok_of_result {α : Type} {x : Except Err α} {a : α}
    (h : (error_of x, result_or a x) = (none, a)) : x = .ok a := by
  cases x with
  | ok b =>
    simp only [result_or, Prod.mk.injEq] at h
    rw [h.2]
  | error e => simp [error_of] at h

/-- The frame that `grab_frame` stores, from the seven tokens of the directive: the
rectangle `x1 .. x4`, the interval probe `x5` and the origin probes `x6`, `x7`. -/
theorem grab_frame_stores {fl : CFloat} (env : Env fl) (s : State fl)
    (x1 x2 x3 x4 x5 x6 x7 : Bool × List Nat × List Nat)
    (h1 : get_token false s.scriptptr s.token = .ok x1)
    (h2 : get_token false x1.2.1 x1.2.2 = .ok x2)
    (h3 : get_token false x2.2.1 x2.2.2 = .ok x3)
    (h4 : get_token false x3.2.1 x3.2.2 = .ok x4)
    (h5 : get_token false x4.2.1 x4.2.2 = .ok x5)
    (hpos : x5.1 = true → fl.le (fl.atof x5.2.2) fl.zero = false)
    (h6 : get_token false x5.2.1 x5.2.2 = .ok x6)
    (h7 : (if x6.1 then get_token false x6.2.1 x6.2.2 else .ok x6) = .ok x7)
    (hinv : CapInv s) (hdbl : s.max_frames * 2 < 2147483648)
    (hin : InsideImage s ⟨atoi x1.2.2, atoi x2.2.2, atoi x3.2.2, atoi x4.2.2⟩)
    (hroom : ArenaRoom s ⟨atoi x1.2.2, atoi x2.2.2, atoi x3.2.2, atoi x4.2.2⟩) :
    ∃ s' f, grab_frame env s = .ok s' ∧
      s'.emitted = s.emitted ++
        [⟨if x6.1 then wrap32 (- atoi x6.2.2) else wrap32 (- shr1 (atoi x3.2.2)),
          if x6.1 then atoi x7.2.2 else shr1 (atoi x4.2.2), atoi x3.2.2, atoi x4.2.2⟩] ∧
      s'.frames[s.framecount.toNat]? = some f ∧
      f.interval = (if x5.1 then fl.atof x5.2.2 else fl.tenth) := by
  obtain ⟨s', hs'⟩ := grab_frame_total env s x1 x2 x3 x4 x5 x6 x7 h1 h2 h3 h4 h5 hpos h6 h7
    hinv hdbl hin hroom
  obtain ⟨a, hd, f, ha, hg⟩ := grab_frame_grabbed hs'
  rw [frame_rect_total s x1 x2 x3 x4 h1 h2 h3 h4] at ha
  simp only [Except.ok.injEq] at ha
  subst ha
  obtain ⟨x, y, z, g5, hi, g6, g7, ehd, _, _⟩ := hg.header
  have e5 : x = x5 := by
    have := g5.symm.trans h5
    simpa using this
  subst e5
  have e6 : y = x6 := by
    have := g6.symm.trans h6
    simpa using this
  subst e6
  have e7 : z = x7 := by
    have := g7.symm.trans h7
    simpa using this
  subst e7
  refine ⟨s', f, hs', ?_, hg.desc, hi⟩
  rw [hg.history, ehd]

/-- C14 (as the code has it): the four numbers of a `$frame` are the `atoi` values of the
four tokens, whatever the tokens are, and reading them does not fail; `atoi` takes the
leading digits of a token and ignores what follows them, and gives 0 for a token that
does not start a number.  With the four tokens on the line, `grab_frame` ends with the
bad-coordinates error exactly when the converted rectangle fails the coordinate test.
When the converted rectangle lies inside the image, a supplied interval is positive and
the frame table and lump buffer have room, the frame is stored, whatever the text of the
tokens: its header has the converted width and height and the origin converted from the
origin tokens the same way.  Every stored frame carries the converted values. -/
theorem C14_frame_numbers_by_atoi {fl : CFloat} (env : Env fl) (s : State fl)
    (x1 x2 x3 x4 : Bool × List Nat × List Nat)
    (h1 : get_token false s.scriptptr s.token = .ok x1)
    (h2 : get_token false x1.2.1 x1.2.2 = .ok x2)
    (h3 : get_token false x2.2.1 x2.2.2 = .ok x3)
    (h4 : get_token false x3.2.1 x3.2.2 = .ok x4) :
    frame_rect s = .ok (⟨atoi x1.2.2, atoi x2.2.2, atoi x3.2.2, atoi x4.2.2⟩,
      { s with scriptptr := x4.2.1, token := x4.2.2 }) ∧
    (grab_frame env s = .error Err.bad_frame_coordinates ↔
      bad_coordinates (atoi x1.2.2) (atoi x2.2.2) (atoi x3.2.2) (atoi x4.2.2)
        s.byteimagewidth s.byteimageheight = true) ∧
    (∀ (x5 x6 x7 : Bool × List Nat × List Nat),
      get_token false x4.2.1 x4.2.2 = .ok x5 →
      (x5.1 = true → fl.le (fl.atof x5.2.2) fl.zero = false) →
      get_token false x5.2.1 x5.2.2 = .ok x6 →
      (if x6.1 then get_token false x6.2.1 x6.2.2 else .ok x6) = .ok x7 →
      CapInv s → s.max_frames * 2 < 2147483648 →
      InsideImage s ⟨atoi x1.2.2, atoi x2.2.2, atoi x3.2.2, atoi x4.2.2⟩ →
      ArenaRoom s ⟨atoi x1.2.2, atoi x2.2.2, atoi x3.2.2, atoi x4.2.2⟩ →
      ∃ s' f, grab_frame env s = .ok s' ∧
        s'.emitted = s.emitted ++
          [⟨if x6.1 then wrap32 (- atoi x6.2.2) else wrap32 (- shr1 (atoi x3.2.2)),
            if x6.1 then atoi x7.2.2 else shr1 (atoi x4.2.2), atoi x3.2.2, atoi x4.2.2⟩] ∧
        s'.frames[s.framecount.toNat]? = some f ∧
        f.interval = (if x5.1 then fl.atof x5.2.2 else fl.tenth)) ∧
    (∀ s', grab_frame env s = .ok s' →
      ∃ hd f, s'.emitted = s.emitted ++ [hd] ∧ hd.width = atoi x3.2.2 ∧
        hd.height = atoi x4.2.2 ∧
        Grabbed s s' (⟨atoi x1.2.2, atoi x2.2.2, atoi x3.2.2, atoi x4.2.2⟩,
          { s with scriptptr := x4.2.1, token := x4.2.2 }) hd f) ∧
    (∀ (d : Nat) (ds : List Nat) (c : Nat) (rest : List Nat),
      (∀ x ∈ d :: ds, 48 ≤ x ∧ x ≤ 57) → ¬ (48 ≤ c ∧ c ≤ 57) →
      atoi ((d :: ds) ++ c :: rest) = atoi (d :: ds)) ∧
    (∀ (c : Nat) (rest : List Nat), ¬ (48 ≤ c ∧ c ≤ 57) → c ≠ 45 ∧ c ≠ 43 →
      ¬ (c = 32 ∨ (9 ≤ c ∧ c ≤ 13)) → atoi (c :: rest) = 0) := by
  have ha := frame_rect_total s x1 x2 x3 x4 h1 h2 h3 h4
  refine ⟨ha, grab_frame_coordinates_iff env s _ ha, ?_, ?_, atoi_ignores_suffix,
    atoi_no_number⟩
  · intro x5 x6 x7 h5 hpos h6 h7 hinv hdbl hin hroom
    exact grab_frame_stores env s x1 x2 x3 x4 x5 x6 x7 h1 h2 h3 h4 h5 hpos h6 h7 hinv hdbl
      hin hroom
  · intro s' h
    obtain ⟨a', hd, f, ha', hg⟩ := grab_frame_grabbed h
    rw [ha] at ha'
    simp only [Except.ok.injEq] at ha'
    subst ha'
    exact ⟨hd, f, hg.history, hg.size.1, hg.size.2, hg⟩

/-! ## Worked instances -/

theorem eq_ok_of_error_none {α : Type} {x : Except Err α} (d : α) (h : error_of x = none) :
    x = .ok (result_or d x) := by
  cases x with
  | ok a => rfl
  | error e => simp [error_of] at h

theorem getD_mem_of_lt {α : Type} (l : List α) (i : Nat) (d : α) (h : i < l.length) :
    l.getD i d ∈ l := by
  rw [List.getD_eq_getElem?_getD, List.getElem?_eq_getElem h]
  exact List.getElem_mem h

set_option maxRecDepth 100000 in
/-- Witness for C3: the second file written for `two_sprite_script`. -/
theorem C3_header_size_is_max_witness :
    HeaderIsMax (two_sprite_run.files.getD 1 ⟨[], [], []⟩) :=
  C3_header_size_is_max two_sprite_env 128 none true qc two_sprite_run
    (eq_ok_of_error_none _ (by decide!)) _ (getD_mem_of_lt _ _ _ (by decide!))

set_option maxRecDepth 100000 in
/-- Witness for C5: a second `$load` after a palette is established. -/
theorem C5_palette_fixed_within_sprite_witness :
    (∀ (name : List Nat) (t : State decimal), load_bmp load_env reload_state name = .ok t →
      PaletteIs t reload_state.original_palette) ∧
    PaletteIs reloaded_state reload_state.original_palette ∧
    (reloaded_state.do16bit = true → ∃ rest, (serialize (finish_fields reloaded_state)).chunks =
      Chunk.header (sprite_header (finish_fields reloaded_state)) :: Chunk.palcount 256 ::
        Chunk.palette reload_state.original_palette :: rest) :=
  C5_palette_fixed_within_sprite load_env 1 reload_state reloaded_state
    reload_state.original_palette ⟨by decide!, rfl, by decide!⟩ (by decide!) (by decide)
    (eq_ok_of_error_none _ (by decide!))

set_option maxRecDepth 100000 in
/-- Witness for C9: `load_bmp` on `bmp24`, which holds three distinct colours; the palette
and the index stored for each of its four pixels. -/
theorem C9_palette_is_first_distinct_colours_witness :
    bmp24_loaded.lbmpalette = collected_palette (bmp_info (read_header bmp24)).bpp
      (bmp_info (read_header bmp24)).width (bmp_info (read_header bmp24)).height
      (bmp_info (read_header bmp24)).data_offset (bmp_stream bmp24) ∧
    bmp24_loaded.original_palette = bmp24_loaded.lbmpalette ∧
    (first_colors (bmp_info (read_header bmp24)).bpp (bmp_info (read_header bmp24)).width
      (bmp_info (read_header bmp24)).height (bmp_info (read_header bmp24)).data_offset
      (bmp_stream bmp24)).length =
      min 256 (first_distinct (scanned_colors (bmp_info (read_header bmp24)).bpp
        (bmp_info (read_header bmp24)).width.toNat
        (row_size_of (bmp_info (read_header bmp24)).width
          (bmp_info (read_header bmp24)).bpp).toNat
        (bmp_info (read_header bmp24)).height.toNat
        (fseek_set (bmp_stream bmp24) (bmp_info (read_header bmp24)).data_offset))).length ∧
    (∀ r g b : Nat, r < 256 → g < 256 → b < 256 →
      ∃ i : Nat, nearest bmp24_loaded.lbmpalette r g b = (i : Int) ∧ i < 256 ∧
        ∀ j, j < 256 → sqdist bmp24_loaded.lbmpalette r g b i ≤
          sqdist bmp24_loaded.lbmpalette r g b j) ∧
    bmp24_loaded.byteimagewidth = (bmp_info (read_header bmp24)).width ∧
    bmp24_loaded.byteimageheight = (bmp_info (read_header bmp24)).height ∧
    bmp24_loaded.byteimage.length = (bmp_info (read_header bmp24)).width.toNat *
      (bmp_info (read_header bmp24)).height.toNat ∧
    ∀ y x : Nat, y < (bmp_info (read_header bmp24)).height.toNat →
      x < (bmp_info (read_header bmp24)).width.toNat →
      ∃ i : Nat,
        bmp24_loaded.byteimage.getD (y * (bmp_info (read_header bmp24)).width.toNat + x) 0 = i ∧
        i < 256 ∧
        (∀ j, j < 256 →
          sqdist bmp24_loaded.lbmpalette (file_pixel bmp24 (bmp_info (read_header bmp24)) y x).1
            (file_pixel bmp24 (bmp_info (read_header bmp24)) y x).2.1
            (file_pixel bmp24 (bmp_info (read_header bmp24)) y x).2.2 i ≤
          sqdist bmp24_loaded.lbmpalette (file_pixel bmp24 (bmp_info (read_header bmp24)) y x).1
            (file_pixel bmp24 (bmp_info (read_header bmp24)) y x).2.1
            (file_pixel bmp24 (bmp_info (read_header bmp24)) y x).2.2 j) ∧
        (file_pixel bmp24 (bmp_info (read_header bmp24)) y x ∈
            first_colors (bmp_info (read_header bmp24)).bpp
              (bmp_info (read_header bmp24)).width (bmp_info (read_header bmp24)).height
              (bmp_info (read_header bmp24)).data_offset (bmp_stream bmp24) →
          (first_colors (bmp_info (read_header bmp24)).bpp
              (bmp_info (read_header bmp24)).width (bmp_info (read_header bmp24)).height
              (bmp_info (read_header bmp24)).data_offset (bmp_stream bmp24))[i]? =
            some (file_pixel bmp24 (bmp_info (read_header bmp24)) y x)) := by
  have h := C9_palette_is_first_distinct_colours bmp24_env bmp24_start bmp24_loaded
    (bytes "c.bmp") bmp24 (by decide!) (by decide!) (by decide!) (by decide!)
    (eq_ok_of_error_none _ (by decide!))
  exact ⟨h.1, h.2.1, h.2.2.1, h.2.2.2.1, h.2.2.2.2 (by decide!) (by decide!)⟩

set_option maxRecDepth 100000 in
/-- The palette collected from `bmp24`: its three colours in scan order, then zeros. -/
theorem bmp24_palette_value :
    bmp24_loaded.lbmpalette.take 12 = [3, 2, 1, 6, 5, 4, 9, 8, 7, 0, 0, 0] ∧
    bmp24_loaded.lbmpalette.length = 768 ∧
    first_colors 24 2 2 54 (bmp_stream bmp24) = [(3, 2, 1), (6, 5, 4), (9, 8, 7)] := by
  decide!

set_option maxRecDepth 100000 in
/-- The group of `interval_script`, three children with intervals 0.1, 0.2 and 0.3, in
exact decimal arithmetic. -/
theorem group_cumulative_intervals_example :
    (∃ rest, (write_group interval_state 0 (interval_desc 0) ⟨[], [], none⟩).chunks =
        ([] : List (Chunk decimal)) ++ Chunk.group (interval_children.length : Int) ::
          ((running_sums decimal decimal.zero
            (interval_children.map (fun c => c.interval))).map Chunk.interval ++ rest) ∧
        ∀ x ∈ rest, is_payload x = true) ∧
    (running_sums decimal decimal.zero
      (interval_children.map (fun c => c.interval))).length = interval_children.length ∧
    (∀ k, k < interval_children.length →
      (running_sums decimal decimal.zero (interval_children.map (fun c => c.interval)))[k]? =
      some (((interval_children.map (fun c => c.interval)).take (k + 1)).foldl
        decimal.add decimal.zero)) ∧
    List.Chain' (fun a b => decimal.le a b = true)
      (running_sums decimal decimal.zero (interval_children.map (fun c => c.interval))) ∧
    (running_sums decimal decimal.zero
      [decimal.tenth, decimal.atof (bytes "0.2"), decimal.atof (bytes "0.3")] : List ℚ) =
      [1 / 10, 3 / 10, 3 / 5] :=
  group_cumulative_intervals interval_state 0 (interval_desc 0) interval_children
    ⟨[], [], none⟩ (by decide!) (List.cons_ne_nil _ _) (by decide)
    (fun i hi =>
      match i, hi with
      | 0, _ => eq_ok_of_error_none (x := frame_desc interval_state 1) _ (by decide!)
      | 1, _ => eq_ok_of_error_none (x := frame_desc interval_state 2) _ (by decide!)
      | 2, _ => eq_ok_of_error_none (x := frame_desc interval_state 3) _ (by decide!)
      | n + 3, h => absurd h (by simp [interval_children]))
    (fun a t h => by
      have h1 : ¬ t ≤ 0 := by simpa using h
      have h2 : a ≤ a + t := by linarith [lt_of_not_ge h1]
      simpa using h2)
    (by decide!)

set_option maxRecDepth 100000 in
/-- The intervals written for `interval_script` are 0.1, 0.3 and 0.6, after the child
count 3. -/
theorem interval_script_values :
    (intervals_of (write_group interval_state 0 (interval_desc 0) ⟨[], [], none⟩).chunks
      : List ℚ) = [1 / 10, 3 / 10, 3 / 5] ∧
    (interval_desc 0).numgroupframes = 3 := by
  decide!

/-! ## Evaluations at concrete inputs -/

set_option maxRecDepth 100000 in
/-- C1: on a sprite made of one group of two frames, `parse_script` has counted one
top-level frame, three descriptors are recorded, and the header written by
`finish_sprite` carries the frame count three. -/
theorem C1_header_counts_descriptors :
    (parsed group_env INITIAL_BUFFER_SIZE group_script).map (fun s =>
      (s.sprite.numframes, s.framecount,
        (header_of (serialize (finish_fields s)).chunks).map (fun h => h.numframes))) =
      some (1, 3, some 3) := by
  decide!

set_option maxRecDepth 100000 in
/-- C2: on the same sprite, three descriptors are recorded (indices 0 to 2) but the frame
loop reads descriptor 3 and writes two frame-type tags for one top-level frame. -/
theorem C2_serializer_reads_past_framecount :
    (parsed group_env INITIAL_BUFFER_SIZE group_script).map (fun s =>
      (s.framecount, (serialize (finish_fields s)).reads,
        count_tags (serialize (finish_fields s)).chunks)) =
      some (3, [0, 1, 2, 1, 2, 3], 2) := by
  decide!

set_option maxRecDepth 100000 in
/-- C7: the same script run with a 64-byte arena (which grows while the second sprite is
built) stops with a fault, and run with a 128-byte arena (which never grows) completes and
writes two files. -/
theorem C7_output_depends_on_capacity :
    error_of (main_with two_sprite_env 64 none true qc) = some Err.out_of_bounds ∧
    (main_with two_sprite_env 128 none true qc).toOption.map
      (fun s => s.files.map (fun o => count_tags o.chunks)) = some [3, 2] := by
  decide!

set_option maxRecDepth 100000 in
/-- C8: the rectangle `xl = 2147483647, w = 1` passes the coordinate test of `grab_frame`
on a 2 by 2 image, and also with no image loaded; the run then stops on an access outside
the image instead of the bad-coordinates error. -/
theorem C8_overflowing_rectangle_accepted :
    bad_coordinates 2147483647 0 1 1 2 2 = false ∧
    error_of (main overflow_env none true qc) = some Err.out_of_bounds ∧
    bad_coordinates 2147483647 2147483647 1 1 0 0 = false ∧
    error_of (main noimage_env none true qc) = some Err.out_of_bounds := by
  decide!

set_option maxRecDepth 100000 in
/-- C10: an 8-bit bitmap declaring 257 colours makes the colour-table loop store at palette
index 256, outside the 256 entries allocated. -/
theorem C10_color_table_overflow :
    error_of (main table_env none true qc) = some Err.out_of_bounds ∧
    error_of (load_color_table 257 0 ⟨bmp8_257, 54⟩) = some Err.out_of_bounds ∧
    error_of (load_color_table 256 0 ⟨bmp8_257, 54⟩) = none := by
  decide!

set_option maxRecDepth 100000 in
/-- Witness for C13: the 4 by 4 frame at the origin of `square_script`. -/
theorem C13_default_interval_and_origin_witness :
    square_frame.emitted = square_state.emitted ++
      [⟨-(cdiv square_rect.1.w 2), cdiv square_rect.1.h 2, square_rect.1.w,
        square_rect.1.h⟩] ∧
    ∃ f, frame_desc square_frame square_state.framecount = .ok f ∧ f.type = SPR_SINGLE ∧
      f.interval = decimal.tenth ∧
      peek_int square_frame f.pdata = .ok (-(cdiv square_rect.1.w 2)) ∧
      peek_int square_frame (f.pdata + 4) = .ok (cdiv square_rect.1.h 2) ∧
      peek_int square_frame (f.pdata + 8) = .ok square_rect.1.w ∧
      peek_int square_frame (f.pdata + 12) = .ok square_rect.1.h :=
  C13_default_interval_and_origin square_env square_state square_frame square_rect
    [] (bytes "4")
    (eq_ok_of_error_none _ (by decide!)) (eq_ok_of_error_none _ (by decide!))
    (by decide!) (by decide!)
    ((eq_ok_of_error_none (false, [], []) (by decide!)).trans
      (congrArg Except.ok (by decide!)))

set_option maxRecDepth 100000 in
/-- The values of the scenario: the rectangle is `0 0 4 4`, the header emitted is
`(-2, 2, 4, 4)`, and the file written holds one Single frame with that header and the
sixteen pixels of the image, top row first. -/
theorem square_script_values :
    (square_rect.1.xl, square_rect.1.yl, square_rect.1.w, square_rect.1.h) = (0, 0, 4, 4) ∧
    square_frame.emitted = [⟨-2, 2, 4, 4⟩] ∧
    (header_of square_file.chunks).map (fun h => h.numframes) = some 1 ∧
    tags_of square_file.chunks = [0] ∧
    frames_of square_file.chunks = [⟨-2, 2, 4, 4⟩] ∧
    pixels_of square_file.chunks = [[1, 1, 0, 0, 0, 0, 1, 1, 1, 0, 1, 0, 0, 1, 0, 1]] := by
  decide!


set_option maxRecDepth 100000 in
/-- C17: on a decoded 2 by 2 image the rectangle `2147483647 0 1 1` passes the coordinate
test of `grab_frame`, and the pixel loop then reads index 2147483647 of the four-byte
image: the byte to store is not a pixel of the image.  On an image 2 wide and 1073741823
high the rectangle `2147483647 1073741825 1 1073741823` passes the test too; there the
loop reads the indices `1 + 2 * y`, all inside the image (first 1, last 2147483645), where
the rectangle's own pixels would be at indices from 4294967297 on, outside it. -/
theorem C17_accepted_rectangle_outside_image :
    (frame_rect wide_state).toOption.map (fun a => (a.1.xl, a.1.yl, a.1.w, a.1.h)) =
      some (2147483647, 0, 1, 1) ∧
    bad_coordinates 2147483647 0 1 1 wide_state.byteimagewidth wide_state.byteimageheight =
      false ∧
    wide_state.byteimage.length = 4 ∧
    error_of (peek wide_state.byteimage
      (wrap32 (0 * wide_state.byteimagewidth) + 2147483647 + 0)) = some Err.out_of_bounds ∧
    error_of (grab_frame load_env wide_state) = some Err.out_of_bounds ∧
    bad_coordinates 2147483647 1073741825 1 1073741823 2 1073741823 = false ∧
    wrap32 (1073741825 * 2) + 2147483647 + 0 * 2 + 0 = 1 ∧
    wrap32 (1073741825 * 2) + 2147483647 + 1073741822 * 2 + 0 = 2147483645 ∧
    (2147483645 : Int) < 2 * 1073741823 ∧
    ((1073741825 + 0) * 2 + (2147483647 + 0) : Int) = 4294967297 ∧
    (2 * 1073741823 : Int) ≤ 4294967297 := by
  decide!


set_option maxRecDepth 100000 in
/-- Witness for C14: the arguments `abc 0 2x 2 1 1y 2z` on a 2 by 2 image.  The rectangle
read is `0 0 2 2`, the frame is not refused, and it is stored with origin `(-1, 2)` and
interval 1. -/
theorem C14_frame_numbers_by_atoi_witness :
    frame_rect malformed_frame_state =
      .ok (⟨atoi (bytes "abc"), atoi (bytes "0"), atoi (bytes "2x"), atoi (bytes "2")⟩,
        { malformed_frame_state with
          scriptptr := bytes " 1 1y 2z\n", token := bytes "2" }) ∧
    (atoi (bytes "abc"), atoi (bytes "0"), atoi (bytes "2x"), atoi (bytes "2")) =
      (0, 0, 2, 2) ∧
    grab_frame load_env malformed_frame_state ≠ .error Err.bad_frame_coordinates ∧
    ∃ s' f, grab_frame load_env malformed_frame_state = .ok s' ∧
      s'.emitted = malformed_frame_state.emitted ++ [⟨-1, 2, 2, 2⟩] ∧
      s'.frames[malformed_frame_state.framecount.toNat]? = some f ∧
      f.interval = decimal.atof (bytes "1") := by
  have h := C14_frame_numbers_by_atoi load_env malformed_frame_state
    (true, bytes " 0 2x 2 1 1y 2z\n", bytes "abc") (true, bytes " 2x 2 1 1y 2z\n", bytes "0")
    (true, bytes " 2 1 1y 2z\n", bytes "2x") (true, bytes " 1 1y 2z\n", bytes "2")
    (eq_ok_of_result (by decide!)) (eq_ok_of_result (by decide!))
    (eq_ok_of_result (by decide!)) (eq_ok_of_result (by decide!))
  refine ⟨h.1, by decide!, ?_, ?_⟩
  · intro he
    exact absurd (h.2.1.mp he) (by decide!)
  · exact h.2.2.1 (true, bytes " 1y 2z\n", bytes "1") (true, bytes " 2z\n", bytes "1y")
      (true, [], bytes "2z") (eq_ok_of_result (by decide!)) (fun _ => by decide!)
      (eq_ok_of_result (by decide!)) (eq_ok_of_result (by decide!))
      ⟨by decide!, by decide!, by decide!, by decide!, by decide!⟩ (by decide!)
      ⟨by decide!, by decide!, by decide!, by decide!, by decide!, by decide!, by decide!,
        by decide!⟩
      ⟨by decide!, by decide!, by decide!⟩

set_option maxRecDepth 100000 in
/-- C14, the claim refuted: the script `malformed_script`, whose `$frame` has the arguments
`abc 0 2x 2 1 1y 2z`, compiles without error; the rectangle used is `0 0 2 2` and the
frame written has origin `(-1, 2)`. -/
theorem C14_malformed_numbers_accepted :
    error_of (main malformed_env none true qc) = none ∧
    (malformed_rect.1.xl, malformed_rect.1.yl, malformed_rect.1.w, malformed_rect.1.h) =
      (0, 0, 2, 2) ∧
    frames_of malformed_file.chunks = [⟨-1, 2, 2, 2⟩] ∧
    atoi (bytes "abc") = 0 ∧ atoi (bytes "2x") = 2 ∧ atoi (bytes "4x") = 4 := by
  decide!


set_option maxRecDepth 100000 in
/-- Witness for C15: the first `$spritename` of `two_sprite_script` with no override. -/
theorem C15_output_path_witness :
    (∀ name, (name_state none).cli_output_name = some name →
      (name_state none).cli_output_consumed = false ∧
      (named_state none).spriteoutname = some (cstr name) ∧
      SessionIs (some name) (name_state none).spritedir true (named_state none) ∧
      (∀ (b : Bool) (t : State decimal) (r : Bool × State decimal),
        SessionIs (some name) (name_state none).spritedir true t → next_token b t = .ok r →
        SessionIs (some name) (name_state none).spritedir true r.2) ∧
      (∀ (fuel : Nat) (t t' : State decimal),
        SessionIs (some name) (name_state none).spritedir true t →
        directive two_sprite_env fuel t = .ok t' →
        cstr t.token ≠ tok_spritename ∧
          SessionIs (some name) (name_state none).spritedir true t') ∧
      (∀ (t t1 : State decimal) (r : Bool × State decimal),
        SessionIs (some name) (name_state none).spritedir true t →
        flush_pending two_sprite_env t = .ok t1 → next_token false t1 = .ok r →
        do_spritename two_sprite_env t = .error Err.multiple_spritename)) ∧
    ((name_state none).cli_output_name = none →
      (∃ (t1 : State decimal) (r : Bool × State decimal),
        flush_pending two_sprite_env (name_state none) = .ok t1 ∧
        next_token false t1 = .ok r ∧
        (named_state none).spriteoutname =
          some (cstr (name_state none).spritedir ++ cstr r.2.token ++ str_dot_spr)) ∧
      SessionIs none (name_state none).spritedir false (named_state none) ∧
      (∀ (fuel : Nat) (t t' : State decimal),
        SessionIs none (name_state none).spritedir false t →
        directive two_sprite_env fuel t = .ok t' →
        SessionIs none (name_state none).spritedir false t') ∧
      (∀ n1 n2 : List Nat, cstr n1 ≠ cstr n2 →
        cstr (name_state none).spritedir ++ cstr n1 ++ str_dot_spr ≠
          cstr (name_state none).spritedir ++ cstr n2 ++ str_dot_spr)) :=
  C15_output_path two_sprite_env (name_state none) (named_state none)
    (eq_ok_of_error_none _ (by decide!))

set_option maxRecDepth 100000 in
/-- The two scenarios of the output path on `two_sprite_script`: with no override the two
files are `./a.spr` and `./b.spr`; with the override `o.spr` the first `$spritename` takes
it and the run stops at the second with the ambiguity error. -/
theorem two_sprite_paths :
    names_of (main_with two_sprite_env 128 none true qc) =
      some [bytes "./a.spr", bytes "./b.spr"] ∧
    (named_state none).spriteoutname = some (bytes "./a.spr") ∧
    (named_state (some (bytes "o.spr"))).spriteoutname = some (bytes "o.spr") ∧
    (named_state (some (bytes "o.spr"))).cli_output_consumed = true ∧
    error_of (main_with two_sprite_env 128 (some (bytes "o.spr")) true qc) =
      some Err.multiple_spritename := by
  decide!


theorem getElem?_eq_some_getD {α : Type} (l : List α) (i : Nat) (d : α) (h : i < l.length) :
    l[i]? = some (l.getD i d) := by
  rw [List.getD_eq_getElem?_getD, List.getElem?_eq_getElem h]
  rfl

set_option maxRecDepth 100000 in
/-- Witness for C16: the block of two frames of `block_two`, opened after an image is
loaded. -/
theorem C16_group_block_witness :
    (∀ e, do_group load_env 100 (group_state block_two) = .error e ↔
      (∃ n t, BlockRun load_env (group_state block_two).framecount
          (group_open (group_state block_two)
            ((group_state block_two).frames.getD 0 (load_env.junk_frame 0))) n t ∧
        BlockFails load_env (group_state block_two).framecount t e) ∨
      (∃ t v, BlockRun load_env (group_state block_two).framecount
          (group_open (group_state block_two)
            ((group_state block_two).frames.getD 0 (load_env.junk_frame 0))) 0 t ∧
        BlockCloses t v ∧ e = Err.empty_group)) ∧
    (∀ s', do_group load_env 100 (group_state block_two) = .ok s' →
      ∃ (n : Nat) (t v : State decimal) (d : spritepackage_t decimal), 1 ≤ n ∧
        BlockRun load_env (group_state block_two).framecount
          (group_open (group_state block_two)
            ((group_state block_two).frames.getD 0 (load_env.junk_frame 0))) n t ∧
        BlockCloses t v ∧
        frame_desc s' (group_state block_two).framecount = .ok d ∧ d.type = SPR_GROUP ∧
        d.numgroupframes = (n : Int) ∧
        s'.emitted.length = (group_state block_two).emitted.length + n) :=
  C16_group_block load_env 100 (group_state block_two)
    ((group_state block_two).frames.getD 0 (load_env.junk_frame 0))
    (by decide!) (by decide!) (by decide!)
    (getElem?_eq_some_getD _ _ _ (by decide!)) (by decide!)

set_option maxRecDepth 100000 in
/-- Group blocks evaluated: two frames give the child count 2; a block with no frame stops
with the empty-group error, also when the script ends inside it; a `$type` inside a block
stops with the error for an unexpected token; a frame outside the image stops the block
with the frame's error. -/
theorem group_block_values :
    block_count block_two = some 2 ∧
    error_of (do_group load_env 100 (group_state (bytes "\n$groupend\n"))) =
      some Err.empty_group ∧
    error_of (do_group load_env 100 (group_state (bytes "\n"))) = some Err.empty_group ∧
    block_count (bytes "\n$frame 0 0 1 1\n") = some 1 ∧
    error_of (do_group load_env 100 (group_state (bytes "\n$frame 0 0 1 1\n$type x\n"))) =
      some Err.group_expected ∧
    error_of (do_group load_env 100 (group_state (bytes "\n$frame 0 0 3 3\n$groupend\n"))) =
      some Err.bad_frame_coordinates := by
  decide!


set_option maxRecDepth 100000 in
/-- Witness for C18: the 2 by 2 bitmap `bmp8`, whose two stored rows are in the file. -/
theorem C18_rows_flipped_witness :
    (0 ≤ (bmp_info (read_header bmp8)).colors_used ∧
        (bmp_info (read_header bmp8)).colors_used ≤ 256 →
      ∃ s', load_bmp load_env load_start (bytes "x.bmp") = .ok s') ∧
    ∀ s', load_bmp load_env load_start (bytes "x.bmp") = .ok s' →
      s'.byteimagewidth = (bmp_info (read_header bmp8)).width ∧
      s'.byteimageheight = (bmp_info (read_header bmp8)).height ∧
      s'.byteimage.length = (bmp_info (read_header bmp8)).width.toNat *
        (bmp_info (read_header bmp8)).height.toNat ∧
      ∀ y x : Nat, y < (bmp_info (read_header bmp8)).height.toNat →
        x < (bmp_info (read_header bmp8)).width.toNat →
        s'.byteimage.getD (y * (bmp_info (read_header bmp8)).width.toNat + x) 0 =
          bmp8.getD ((bmp_info (read_header bmp8)).data_offset.toNat +
            ((bmp_info (read_header bmp8)).height.toNat - 1 - y) *
              (row_size_of (bmp_info (read_header bmp8)).width 8).toNat + x) 0 :=
  C18_rows_flipped load_env load_start (bytes "x.bmp") bmp8 (bmp_info (read_header bmp8))
    (by decide!) rfl (by decide!) (by decide!) (by decide!) (by decide!) (by decide!)
    (by decide!) (by decide!) (by decide!) (by decide!) (by decide!)

set_option maxRecDepth 100000 in
/-- Witness for C19: the 8-bit bitmap `bmp8_short`, whose second stored row is cut short. -/
theorem C19_truncated_rows_zero_witness :
    ∃ s', load_bmp short_env short_start (bytes "s.bmp") = .ok s' ∧
      s'.byteimagewidth = (bmp_info (read_header bmp8_short)).width ∧
      s'.byteimageheight = (bmp_info (read_header bmp8_short)).height ∧
      s'.byteimage.length = (bmp_info (read_header bmp8_short)).width.toNat *
        (bmp_info (read_header bmp8_short)).height.toNat ∧
      ∀ y x : Nat, y < (bmp_info (read_header bmp8_short)).height.toNat →
        x < (bmp_info (read_header bmp8_short)).width.toNat →
        bmp8_short.length < (bmp_info (read_header bmp8_short)).data_offset.toNat +
          ((bmp_info (read_header bmp8_short)).height.toNat - y) *
            (row_size_of (bmp_info (read_header bmp8_short)).width
              (bmp_info (read_header bmp8_short)).bpp).toNat →
        s'.byteimage.getD (y * (bmp_info (read_header bmp8_short)).width.toNat + x) 0 =
          if (bmp_info (read_header bmp8_short)).bpp = 8 then 0
          else ((nearest s'.lbmpalette 0 0 0) % 256).toNat :=
  C19_truncated_rows_zero short_env short_start (bytes "s.bmp") bmp8_short
    (bmp_info (read_header bmp8_short))
    (by decide!) rfl (by decide!) (by decide!) (by decide!) (by decide!) (by decide!)
    (by decide!) (by decide!) (by decide!) (by decide!) (by decide!)

set_option maxRecDepth 100000 in
/-- The worked bitmaps decoded.  The stored rows `0 1` and `1 1` of `bmp8` come out as
`1 1` over `0 1`.  Cut short in the second stored row, the bitmap gives a top row of
zeros over the row `0 1`. -/
theorem decoded_images :
    image_of (load_bmp load_env load_start (bytes "x.bmp")) = some [1, 1, 0, 1] ∧
    image_of (load_bmp short_env short_start (bytes "s.bmp")) = some [0, 0, 0, 1] ∧
    bmp8_short.length = 67 ∧
    (bmp_info (read_header bmp8_short)).data_offset = 62 ∧
    row_size_of (bmp_info (read_header bmp8_short)).width 8 = 4 := by
  decide!


set_option maxRecDepth 100000 in
/-- Witness for C21: the directive `$frame 0 0 2 2 0.1 1 1` on a 2 by 2 image. -/
theorem C21_origin_x_negated_witness :
    origin_frame.emitted = origin_state.emitted ++
      [⟨wrap32 (-(atoi (bytes "1"))), atoi (bytes "1"), origin_rect.1.w, origin_rect.1.h⟩] ∧
    (∃ f, frame_desc origin_frame origin_state.framecount = .ok f ∧ f.type = SPR_SINGLE ∧
      f.interval = decimal.atof (bytes "0.1") ∧
      peek_int origin_frame f.pdata = .ok (wrap32 (-(atoi (bytes "1")))) ∧
      peek_int origin_frame (f.pdata + 4) = .ok (atoi (bytes "1")) ∧
      peek_int origin_frame (f.pdata + 8) = .ok origin_rect.1.w ∧
      peek_int origin_frame (f.pdata + 12) = .ok origin_rect.1.h) ∧
    (atoi (bytes "1") = cdiv origin_rect.1.w 2 → atoi (bytes "1") = cdiv origin_rect.1.h 2 →
      origin_frame.emitted = origin_state.emitted ++
        [⟨-(cdiv origin_rect.1.w 2), cdiv origin_rect.1.h 2, origin_rect.1.w,
          origin_rect.1.h⟩]) :=
  C21_origin_x_negated load_env origin_state origin_frame origin_rect
    (bytes " 1 1\n") (bytes "0.1") (bytes " 1\n") (bytes "1") [] (bytes "1")
    (eq_ok_of_error_none _ (by decide!)) (eq_ok_of_error_none _ (by decide!))
    ((eq_ok_of_error_none (false, [], []) (by decide!)).trans
      (congrArg Except.ok (by decide!)))
    ((eq_ok_of_error_none (false, [], []) (by decide!)).trans
      (congrArg Except.ok (by decide!)))
    ((eq_ok_of_error_none (false, [], []) (by decide!)).trans
      (congrArg Except.ok (by decide!)))

set_option maxRecDepth 100000 in
/-- C21, the claim refuted: in `origin_script` the first frame supplies the origin `-1 1`,
the default values for its 2 by 2 rectangle, and the second frame omits the origin.  The
script compiles; the first frame is written with the origin `(1, 1)`, the second with
`(-1, 1)`. -/
theorem C21_supplied_origin_not_stored :
    error_of (main origin_env none true qc) = none ∧
    frames_of origin_file.chunks = [⟨1, 1, 2, 2⟩, ⟨-1, 1, 2, 2⟩] ∧
    origin_frame.emitted = [⟨-1, 1, 2, 2⟩] := by
  decide!


set_option maxRecDepth 100000 in
/-- C22 (fails in the code): the script `short_frame_script` compiles without error.  Its
directive `$frame 1`, with one number on the line, is taken as the rectangle `1 1 1 1`:
the three failed calls leave the token `1` in place and the cursor on the end of the
line.  Its directive `$frame 0 0 1 1 0.1 5`, with one origin value, is written with the
origin `(-5, 5)`. -/
theorem C22_missing_numbers_accepted :
    error_of (main short_frame_env none true qc) = none ∧
    (short_frame_rect.1.xl, short_frame_rect.1.yl, short_frame_rect.1.w,
      short_frame_rect.1.h) = (1, 1, 1, 1) ∧
    short_frame_rect.2.scriptptr = bytes "\n$type oriented\n" ∧
    frames_of short_frame_file.chunks = [⟨0, 0, 1, 1⟩, ⟨-5, 5, 1, 1⟩] ∧
    pixels_of short_frame_file.chunks = [[1], [1]] := by
  decide!


set_option maxRecDepth 100000 in
/-- C23 (fails in the code): from a state with 998 descriptors counted and the initial
capacity of 1000, two `$frame` directives bring the count to 1000 with the capacity still
1000 (the capacity is checked before a frame is added, not after).  A `$groupstart` that
follows stops on the write of its header descriptor at index 1000, outside the array of
1000 entries; a third `$frame` instead doubles the array first and is stored. -/
theorem C23_group_header_past_capacity :
    capacity_of (.ok (near_full [])) = some (998, 1000, 1000) ∧
    capacity_of (parse_script load_env 100
      (near_full (bytes "$frame 0 0 1 1\n$frame 0 0 1 1\n"))) = some (1000, 1000, 1000) ∧
    error_of (parse_script load_env 100
      (near_full (bytes "$frame 0 0 1 1\n$frame 0 0 1 1\n$groupstart\n$frame 0 0 1 1\n$groupend\n")))
      = some Err.out_of_bounds ∧
    capacity_of (parse_script load_env 100
      (near_full (bytes "$frame 0 0 1 1\n$frame 0 0 1 1\n$frame 0 0 1 1\n")))
      = some (1001, 2000, 2000) ∧
    capacity_of (parse_script load_env 100
      (near_full (bytes "$frame 0 0 1 1\n$groupstart\n$frame 0 0 1 1\n$groupend\n")))
      = some (1001, 2000, 2000) := by
  decide!


set_option maxRecDepth 100000 in
/-- Witness for C24: the 2 by 2 24-bit bitmap `bmp24`, which has three colours. -/
theorem C24_exact_colours_lossless_witness :
    ∃ s', load_bmp bmp24_env bmp24_start (bytes "c.bmp") = .ok s' ∧
      ∀ y x : Nat, y < (bmp_info (read_header bmp24)).height.toNat →
        x < (bmp_info (read_header bmp24)).width.toNat →
        (first_colors (bmp_info (read_header bmp24)).bpp (bmp_info (read_header bmp24)).width
            (bmp_info (read_header bmp24)).height (bmp_info (read_header bmp24)).data_offset
            (bmp_stream bmp24))[
            s'.byteimage.getD (y * (bmp_info (read_header bmp24)).width.toNat + x) 0]? =
          some (pixel_at (bmp_info (read_header bmp24)).bpp
            ((bmp24.drop ((bmp_info (read_header bmp24)).data_offset.toNat +
              ((bmp_info (read_header bmp24)).height.toNat - 1 - y) *
                (row_size_of (bmp_info (read_header bmp24)).width
                  (bmp_info (read_header bmp24)).bpp).toNat)).take
              (row_size_of (bmp_info (read_header bmp24)).width
                (bmp_info (read_header bmp24)).bpp).toNat) x) ∧
        (s'.lbmpalette.getD
            (3 * s'.byteimage.getD (y * (bmp_info (read_header bmp24)).width.toNat + x) 0) 0,
          s'.lbmpalette.getD
            (3 * s'.byteimage.getD (y * (bmp_info (read_header bmp24)).width.toNat + x) 0
              + 1) 0,
          s'.lbmpalette.getD
            (3 * s'.byteimage.getD (y * (bmp_info (read_header bmp24)).width.toNat + x) 0
              + 2) 0) =
          pixel_at (bmp_info (read_header bmp24)).bpp
            ((bmp24.drop ((bmp_info (read_header bmp24)).data_offset.toNat +
              ((bmp_info (read_header bmp24)).height.toNat - 1 - y) *
                (row_size_of (bmp_info (read_header bmp24)).width
                  (bmp_info (read_header bmp24)).bpp).toNat)).take
              (row_size_of (bmp_info (read_header bmp24)).width
                (bmp_info (read_header bmp24)).bpp).toNat) x :=
  C24_exact_colours_lossless bmp24_env bmp24_start (bytes "c.bmp") bmp24
    (bmp_info (read_header bmp24))
    (by decide!) rfl (by decide!) (by decide!) (by decide!) (by decide!) (by decide!)
    (by decide!) (by decide!) (by decide!) (by decide!) (by decide!) (by decide!)
    (by decide!) (by decide!)

set_option maxRecDepth 100000 in
/-- The colours of `bmp24` in scan order and the colours collected: the first stored row
holds `(3, 2, 1)` and `(6, 5, 4)`, the second `(3, 2, 1)` and `(9, 8, 7)`. -/
theorem bmp24_colours :
    scanned_colors 24 2 8 2 (fseek_set (bmp_stream bmp24) 54) =
      [(3, 2, 1), (6, 5, 4), (3, 2, 1), (9, 8, 7)] ∧
    first_colors 24 2 2 54 (bmp_stream bmp24) = [(3, 2, 1), (6, 5, 4), (9, 8, 7)] := by
  decide!


/-- Witness for C25: three pixels of 24 bits, nine bytes, in a stride of 12. -/
theorem C25_row_stride_holds_row_witness :
    row_size_of 3 24 = (3 * 24 + 31) / 32 * 4 ∧
    4 ∣ row_size_of 3 24 ∧
    (3 : Int) * 24 ≤ 8 * row_size_of 3 24 ∧
    (∀ x : Int, 0 ≤ x → x < 3 →
      ((24 : Int) = 8 → x < row_size_of 3 24) ∧
      ((24 : Int) = 24 → 3 * x + 2 < row_size_of 3 24) ∧
      ((24 : Int) = 32 → 4 * x + 2 < row_size_of 3 24)) ∧
    (∀ (row : List Nat) (x : Nat), (row.length : Int) = row_size_of 3 24 →
      (x : Int) < 3 →
      ((24 : Int) = 8 → peek row (x : Int) = .ok (row.getD x 0)) ∧
      ((24 : Int) = 24 ∨ (24 : Int) = 32 →
        pixel_rgb 24 row (x : Int) = .ok (pixel_at 24 row x))) :=
  C25_row_stride_holds_row 3 24 (by decide) (by decide) (by decide)

/-- The strides of small rows: one pixel of 8 bits takes 4 bytes, three pixels of 24 bits
take 12, five pixels of 8 bits take 8, two pixels of 32 bits take 8. -/
theorem row_stride_values :
    row_size_of 1 8 = 4 ∧ row_size_of 3 24 = 12 ∧ row_size_of 5 8 = 8 ∧
    row_size_of 2 32 = 8 := by
  decide


set_option maxRecDepth 100000 in
/-- The script `empty_block_script` evaluated: of its three `$spritename` blocks only the
second has a frame; the run completes and writes the one file `./b.spr`. -/
theorem empty_blocks_skipped :
    error_of (main empty_block_env none true qc) = none ∧
    names_of (main empty_block_env none true qc) = some [bytes "./b.spr"] := by
  decide!


set_option maxRecDepth 100000 in
/-- C6, the claim against the code: in `nan_interval_script` the children of the group
have the intervals `0.1`, `nan` and `0.3`.  All three frames are accepted, because the
test `interval <= 0.0` of `grab_frame` is false for NaN.  The group is written with child
count 3 and the three interval records 0.1, NaN, NaN, and `0.1 <= NaN` is false: the
written sequence is not non-decreasing. -/
theorem C6_nan_interval_breaks_order :
    error_of (parse_script nan_interval_env (nan_interval_script.length + 1)
      (init_state nan_interval_env INITIAL_BUFFER_SIZE none true qc nan_interval_script)) =
        none ∧
    nan_decimal.le (nan_decimal.atof (bytes "nan")) nan_decimal.zero = false ∧
    nan_interval_state.framecount = 4 ∧
    ((nan_interval_desc 0).type, (nan_interval_desc 0).numgroupframes) = (SPR_GROUP, 3) ∧
    [(nan_interval_desc 1).interval, (nan_interval_desc 2).interval,
      (nan_interval_desc 3).interval] = [some (1 / 10), none, some (3 / 10)] ∧
    (write_group nan_interval_state 0 (nan_interval_desc 0) ⟨[], [], none⟩).status = none ∧
    group_counts_of
      (write_group nan_interval_state 0 (nan_interval_desc 0) ⟨[], [], none⟩).chunks = [3] ∧
    intervals_of
      (write_group nan_interval_state 0 (nan_interval_desc 0) ⟨[], [], none⟩).chunks =
        [some (1 / 10), none, none] ∧
    nan_decimal.le (some (1 / 10)) (none : Option ℚ) = false := by
  decide!

end Sprgen
